import Mathlib

/-!
# Roe-type convective schemes

Shallow embedding of `SU2_CFD/src/numerics/flow/convection/roe.cpp`.

* `su2double` is idealised as a linearly ordered field `K` (exact arithmetic,
  no rounding, no NaN); decimal literals of the source are kept as written.
* `sqrt` and the helpers that `roe.cpp` calls but does not define
  (`GetPMatrix`, `GetPMatrix_inv`, `GetInviscidProjFlux`, `GetInviscidProjJac`,
  `GetRoe_Dissipation`) are parameters, collected in `Externals`.
* C arrays are functions on `Nat`; an assignment `a[i] = v` is `setV a i v`.
* A `for` loop is `forLoop`, which runs its body for `i = 0, 1, ..., n-1`.
-/

namespace SU2
namespace Roe

variable {K : Type} [LinearOrderedField K]

/-! ## Loops and arrays -/

/-- The loop `for (i = 0; i < n; i++) s = body i s`. -/
def forLoop {σ : Type} : Nat → (Nat → σ → σ) → σ → σ
  | 0, _, s => s
  | n + 1, body, s => body n (forLoop n body s)

/-- The accumulation `acc = 0; for (i = 0; i < n; i++) acc += f i`. -/
def sumLoop (n : Nat) (f : Nat → K) : K :=
  forLoop n (fun i acc => acc + f i) 0

/-- The array `a` after the assignment `a[i] = v`. -/
def setV (a : Nat → K) (i : Nat) (v : K) : Nat → K :=
  fun k => if k = i then v else a k

/-- The matrix `m` after the assignment `m[i][j] = v`. -/
def setM (m : Nat → Nat → K) (i j : Nat) (v : K) : Nat → Nat → K :=
  fun a b => if a = i ∧ b = j then v else m a b

/-- Conversion of a C++ `bool` used in arithmetic. -/
def boolToK (b : Bool) : K := if b then 1 else 0

/-! ## Eigenvalues and the Harten-Hyman entropy correction
(`CUpwRoeBase_Flow::ComputeResidual`, "Flow eigenvalues" to the correction loop) -/

/-- The expression `4.0*max(0.0, max(lambda - leftBound, rightBound - lambda))`. -/
def HartenHymanEpsilon (lambda leftBound rightBound : K) : K :=
  4.0 * max 0.0 (max (lambda - leftBound) (rightBound - lambda))

/-- The body of the correction loop: the new value of `Lambda[iVar]`. -/
def HartenHymanFix (lambda epsilon : K) : K :=
  if |lambda| < epsilon then 0.5 * (lambda * lambda / epsilon + epsilon) else |lambda|

/-- The arrays `Lambda` and `Epsilon`. -/
structure EigenBuffers (K : Type) where
  Lambda : Nat → K
  Epsilon : Nat → K

/-- The eigenvalues before the correction loop, and `Epsilon`, written in the
order of the source on top of the previous contents of the two buffers. -/
def rawEigenvalues (nDim nVar : Nat) (tkeNeeded : Bool)
    (ProjVelocity ProjVelocity_i ProjVelocity_j RoeSoundSpeed SoundSpeed_i SoundSpeed_j : K)
    (old : EigenBuffers K) : EigenBuffers K :=
  let L1 := forLoop nDim (fun iDim L => setV L iDim ProjVelocity) old.Lambda
  let L2 := setV L1 (nVar - 2) (ProjVelocity + RoeSoundSpeed)
  let L3 := setV L2 (nVar - 1) (ProjVelocity - RoeSoundSpeed)
  let E1 := forLoop nDim
    (fun iDim E => setV E iDim (HartenHymanEpsilon (L3 iDim) ProjVelocity_i ProjVelocity_j))
    old.Epsilon
  let E2 := setV E1 (nVar - 2)
    (HartenHymanEpsilon (L3 (nVar - 2)) (ProjVelocity_i + SoundSpeed_i) (ProjVelocity_j + SoundSpeed_j))
  let E3 := setV E2 (nVar - 1)
    (HartenHymanEpsilon (L3 (nVar - 1)) (ProjVelocity_i - SoundSpeed_i) (ProjVelocity_j - SoundSpeed_j))
  if tkeNeeded then
    let L4 := setV L3 nVar ProjVelocity
    { Lambda := L4
      Epsilon := setV E3 nVar (HartenHymanEpsilon (L4 nVar) ProjVelocity_i ProjVelocity_j) }
  else
    { Lambda := L3, Epsilon := E3 }

/-- The correction loop over `iVar < nPrimVarTot`. -/
def correctEigenvalues (nPrimVarTot : Nat) (b : EigenBuffers K) : EigenBuffers K :=
  { Lambda := forLoop nPrimVarTot
      (fun iVar L => setV L iVar (HartenHymanFix (L iVar) (b.Epsilon iVar))) b.Lambda
    Epsilon := b.Epsilon }

/-! ## Clamps
(`CUpwTurkel_Flow::ComputeResidual`, `CUpwL2Roe_Flow::FinalizeResidual`,
`CUpwLMRoe_Flow::FinalizeResidual`) -/

/-- The Turkel parameter `Beta = max(Beta_min, min(local_Mach, Beta_max))`. -/
def Beta (Beta_min Beta_max local_Mach : K) : K :=
  max Beta_min (min local_Mach Beta_max)

/-- The one-sided Mach number `sqrt(|v|^2 / fabs(Pressure*Gamma/Density))` of the
low-Mach schemes. -/
def machNumber (sqrt : K → K) (nDim : Nat) (Velocity : Nat → K) (Pressure Gamma Density : K) : K :=
  sqrt (sumLoop nDim (fun iDim => Velocity iDim * Velocity iDim) / |Pressure * Gamma / Density|)

/-- The scaling `zeta = max(0.05, min(max(M_i, M_j), 1.0))`. -/
def zeta (M_i M_j : K) : K :=
  max 0.05 (min (max M_i M_j) 1.0)

/-! ## Class data -/

/-- Helpers that `roe.cpp` calls and that are defined elsewhere in the repository.
Each one is a function of the arguments it is called with; a helper that fills an
output array returns that array. -/
structure Externals (K : Type) where
  /-- The function `sqrt` of the C library. -/
  sqrt : K → K
  /-- The call `GetPMatrix(&RoeDensity, RoeVelocity, &RoeTke, &RoeSoundSpeed, UnitNormal, P_Tensor)`. -/
  GetPMatrix : K → (Nat → K) → K → K → (Nat → K) → (Nat → Nat → K)
  /-- The call `GetPMatrix_inv(&RoeDensity, RoeVelocity, &RoeTke, &RoeSoundSpeed, UnitNormal, invP_Tensor)`. -/
  GetPMatrix_inv : K → (Nat → K) → K → K → (Nat → K) → (Nat → Nat → K)
  /-- The call `GetInviscidProjFlux(&Density, Velocity, &Pressure, &Enthalpy, Normal, ProjFlux)`. -/
  GetInviscidProjFlux : K → (Nat → K) → K → K → (Nat → K) → (Nat → K)
  /-- The call `GetInviscidProjJac(Velocity, &Energy, &turb_ke, Normal, scale, Jacobian)`. -/
  GetInviscidProjJac : (Nat → K) → K → K → (Nat → K) → K → (Nat → Nat → K)
  /-- The call `GetRoe_Dissipation(Dissipation_i, Dissipation_j, Sensor_i, Sensor_j, config)`. -/
  GetRoe_Dissipation : K → K → K → K → K

/-- Modelled from the spec: the constant `FIVE3`, declared outside `roe.cpp`; the
spec calls it the fixed empirical coefficient 5/3. -/
def FIVE3 : K := 5.0 / 3.0

/-- The fields that the constructor of `CUpwRoeBase_Flow` reads from the
configuration, and `implicit` as `ComputeResidual` resets it. -/
structure Config (K : Type) where
  nDim : Nat
  nVar : Nat
  /-- Whether `config->GetKind_TimeIntScheme() == EULER_IMPLICIT`. -/
  implicit : Bool
  dynamic_grid : Bool
  /-- The value `config->GetRoe_Kappa()`. -/
  kappa : K
  /-- The value `config->GetMUSCL_Kappa()`. -/
  MUSCL_Kappa : K
  muscl : Bool
  tkeNeeded : Bool
  Gamma : K
  roe_low_dissipation : Bool

/-- The member `muscl_kappa = 0.5*config->GetMUSCL_Kappa()`. -/
def Config.muscl_kappa (c : Config K) : K := 0.5 * c.MUSCL_Kappa

/-- The member `Gamma_Minus_One = Gamma - 1.0`. -/
def Config.Gamma_Minus_One (c : Config K) : K := c.Gamma - 1.0

/-- The member `nPrimVarTot = nVar + tkeNeeded`. -/
def Config.nPrimVarTot (c : Config K) : Nat := c.nVar + (if c.tkeNeeded then 1 else 0)

/-- What the caller sets on the numerics object before `ComputeResidual`. -/
structure FaceInputs (K : Type) where
  U_i : Nat → K
  U_j : Nat → K
  Normal : Nat → K
  GridVel_i : Nat → K
  GridVel_j : Nat → K
  turb_ke_i : K
  turb_ke_j : K
  Limiter_i : Nat → K
  Limiter_j : Nat → K
  Dissipation_i : K
  Dissipation_j : K
  Sensor_i : K
  Sensor_j : K

/-- The buffers `Flux`, `Jacobian_i`, `Jacobian_j` that `ComputeResidual` returns. -/
structure ResidualType (K : Type) where
  Flux : Nat → K
  Jacobian_i : Nat → Nat → K
  Jacobian_j : Nat → Nat → K

/-- Contents, on entry to `ComputeResidual`, of the member buffers that the call
updates entry by entry. -/
structure Scratch (K : Type) where
  res : ResidualType K
  eig : EigenBuffers K
  Conservatives_i : Nat → K
  Conservatives_j : Nat → K

/-! ## `CUpwRoeBase_Flow::ComputeResidual`: common quantities -/

/-- Face area: `Area = sqrt(sum Normal[iDim]*Normal[iDim])`. -/
def Area (ext : Externals K) (nDim : Nat) (Normal : Nat → K) : K :=
  ext.sqrt (sumLoop nDim (fun iDim => Normal iDim * Normal iDim))

/-- Unit normal: `UnitNormal[iDim] = Normal[iDim]/Area`. -/
def UnitNormal (ext : Externals K) (nDim : Nat) (Normal : Nat → K) : Nat → K :=
  fun iDim => Normal iDim / Area ext nDim Normal

/-- Primitive variables at one point. -/
structure Primitive (K : Type) where
  Density : K
  Velocity : Nat → K
  SqVel : K
  /-- The member `turb_ke` after `turb_ke /= Density`. -/
  turb_ke : K
  Energy : K
  Pressure : K
  Enthalpy : K
  SoundSpeed : K

/-- The block "Primitive variables at point i" (the same code serves point j).
`Velocity[iDim]` is written for `iDim < nDim` and is modelled by its formula. -/
def extractPrimitive (ext : Externals K) (c : Config K) (U : Nat → K) (turb_ke : K) :
    Primitive K :=
  let Density := U 0
  let Velocity := fun iDim => U (iDim + 1) / U 0
  let SqVel := sumLoop c.nDim (fun iDim => Velocity iDim * Velocity iDim)
  let turb_ke := turb_ke / Density
  let Energy := U (c.nDim + 1) / U 0
  let Pressure := c.Gamma_Minus_One * (U (c.nDim + 1) - 0.5 * Density * SqVel - Density * turb_ke)
  let Enthalpy := Energy + Pressure / Density
  let SoundSpeed := ext.sqrt |Pressure * c.Gamma / Density|
  { Density := Density, Velocity := Velocity, SqVel := SqVel, turb_ke := turb_ke,
    Energy := Energy, Pressure := Pressure, Enthalpy := Enthalpy, SoundSpeed := SoundSpeed }

/-- Roe-averaged variables at the interface. -/
structure RoeAverage (K : Type) where
  R : K
  RoeDensity : K
  RoeVelocity : Nat → K
  RoeSqVel : K
  RoeEnthalpy : K
  RoeTke : K
  RoeSoundSpeed2 : K

/-- The block "Roe-averaged variables at interface between i & j". -/
def roeAverage (ext : Externals K) (c : Config K) (pi pj : Primitive K) : RoeAverage K :=
  let R := ext.sqrt |pj.Density / pi.Density|
  let RoeDensity := R * pi.Density
  let RoeVelocity := fun iDim => (R * pj.Velocity iDim + pi.Velocity iDim) / (R + 1.0)
  let RoeSqVel := sumLoop c.nDim (fun iDim => RoeVelocity iDim * RoeVelocity iDim)
  let RoeEnthalpy := (R * pj.Enthalpy + pi.Enthalpy) / (R + 1.0)
  let RoeTke := (R * pj.turb_ke + pi.turb_ke) / (R + 1.0)
  let RoeSoundSpeed2 := c.Gamma_Minus_One * (RoeEnthalpy - 0.5 * RoeSqVel - RoeTke)
  { R := R, RoeDensity := RoeDensity, RoeVelocity := RoeVelocity, RoeSqVel := RoeSqVel,
    RoeEnthalpy := RoeEnthalpy, RoeTke := RoeTke, RoeSoundSpeed2 := RoeSoundSpeed2 }

/-- The block "Reconstruct conservative variables", on top of the previous
contents of the buffer. -/
def Conservatives (nDim : Nat) (p : Primitive K) (old : Nat → K) : Nat → K :=
  let C1 := setV old 0 p.Density
  let C2 := forLoop nDim (fun iDim C => setV C (iDim + 1) (p.Density * p.Velocity iDim)) C1
  setV C2 (nDim + 1) (p.Density * p.Energy)

/-- The projection `sum v[iDim]*UnitNormal[iDim]`. -/
def projVel (nDim : Nat) (v n : Nat → K) : K :=
  sumLoop nDim (fun iDim => v iDim * n iDim)

/-- The variable `ProjGridVel` declared inside `if (dynamic_grid) { ... }`:
`sum 0.5*(GridVel_i[iDim]+GridVel_j[iDim])*UnitNormal[iDim]`. -/
def innerProjGridVel (nDim : Nat) (GridVel_i GridVel_j n : Nat → K) : K :=
  sumLoop nDim (fun iDim => 0.5 * (GridVel_i iDim + GridVel_j iDim) * n iDim)

/-- The members of `CUpwRoeBase_Flow` that `FinalizeResidual` reads. -/
structure RoeState (K : Type) where
  Area : K
  UnitNormal : Nat → K
  pi : Primitive K
  pj : Primitive K
  roe : RoeAverage K
  RoeSoundSpeed : K
  P_Tensor : Nat → Nat → K
  Lambda : Nat → K
  Conservatives_i : Nat → K
  Conservatives_j : Nat → K
  Dissipation_i : K
  Dissipation_j : K
  Sensor_i : K
  Sensor_j : K

/-! ## Updates of the returned buffers -/

/-- The assignment `Flux[iVar] = v`. -/
def ResidualType.setFlux (r : ResidualType K) (iVar : Nat) (v : K) : ResidualType K :=
  { r with Flux := setV r.Flux iVar v }

/-- The assignment `Jacobian_i[iVar][jVar] = v`. -/
def ResidualType.setJac_i (r : ResidualType K) (iVar jVar : Nat) (v : K) : ResidualType K :=
  { r with Jacobian_i := setM r.Jacobian_i iVar jVar v }

/-- The assignment `Jacobian_j[iVar][jVar] = v`. -/
def ResidualType.setJac_j (r : ResidualType K) (iVar jVar : Nat) (v : K) : ResidualType K :=
  { r with Jacobian_j := setM r.Jacobian_j iVar jVar v }

/-- The entry `|Proj_ModJac_Tensor|_ij = sum_k P[i][k]*Lambda[k]*invP[k][j]`, `k < n`. -/
def Proj_ModJac_Tensor_ij (n : Nat) (P : Nat → Nat → K) (Lambda : Nat → K)
    (invP : Nat → Nat → K) (iVar jVar : Nat) : K :=
  forLoop n (fun kVar acc => acc + P iVar kVar * Lambda kVar * invP kVar jVar) 0.0

/-! ## `CUpwRoe_Flow::FinalizeResidual` -/

/-- The matrix `P_Tensor` after the `if (tkeNeeded)` block. -/
def roeP_Tensor (c : Config K) (s : RoeState K) : Nat → Nat → K :=
  if c.tkeNeeded then
    setM (forLoop (c.nVar - 1) (fun iVar P => setM P iVar c.nVar 0.0) s.P_Tensor)
      (c.nVar - 1) c.nVar ((c.Gamma - FIVE3) * s.roe.RoeSqVel / (2.0 * s.roe.RoeSoundSpeed2))
  else s.P_Tensor

/-- The matrix `invP_Tensor` after `GetPMatrix_inv` and the `if (tkeNeeded)` block. -/
def roeInvP_Tensor (ext : Externals K) (c : Config K) (s : RoeState K) : Nat → Nat → K :=
  let invP := ext.GetPMatrix_inv s.roe.RoeDensity s.roe.RoeVelocity s.roe.RoeTke
    s.RoeSoundSpeed s.UnitNormal
  if c.tkeNeeded then
    let M1 := setM invP c.nVar 0 (-s.roe.RoeTke)
    let M2 := forLoop c.nDim (fun iDim M => setM M c.nVar (iDim + 1)
      ((c.Gamma - FIVE3) * s.roe.RoeVelocity iDim / (2.0 * s.roe.RoeSoundSpeed2))) M1
    setM M2 c.nVar (c.nVar - 1) 0.0
  else invP

/-- The array `Diff_U[iVar] = Conservatives_j[iVar]-Conservatives_i[iVar]`. -/
def Diff_U (s : RoeState K) : Nat → K :=
  fun iVar => s.Conservatives_j iVar - s.Conservatives_i iVar

/-- The factor `Dissipation_ij` of the low dissipation formulation. -/
def Dissipation_ij (ext : Externals K) (c : Config K) (s : RoeState K) : K :=
  if c.roe_low_dissipation then
    ext.GetRoe_Dissipation s.Dissipation_i s.Dissipation_j s.Sensor_i s.Sensor_j
  else 1.0

/-- The method `CUpwRoe_Flow::FinalizeResidual`. -/
def CUpwRoe_Flow.FinalizeResidual (ext : Externals K) (c : Config K) (s : RoeState K)
    (res : ResidualType K) : ResidualType K :=
  let invP := roeInvP_Tensor ext c s
  let P := roeP_Tensor c s
  let D := Dissipation_ij ext c s
  forLoop c.nVar (fun iVar r =>
    forLoop c.nVar (fun jVar r =>
      let T := Proj_ModJac_Tensor_ij c.nPrimVarTot P s.Lambda invP iVar jVar
      let r1 := r.setFlux iVar (r.Flux iVar - (1.0 - c.kappa) * T * Diff_U s jVar * s.Area * D)
      if c.implicit then
        let r2 := r1.setJac_i iVar jVar (r1.Jacobian_i iVar jVar + (1.0 - c.kappa) * T * s.Area * D)
        r2.setJac_j iVar jVar (r2.Jacobian_j iVar jVar - (1.0 - c.kappa) * T * s.Area * D)
      else r1) r) res

/-! ## `CUpwL2Roe_Flow::FinalizeResidual` and `CUpwLMRoe_Flow::FinalizeResidual` -/

/-- The clamped Mach number `zeta` as both low-Mach schemes compute it. -/
def stateZeta (ext : Externals K) (c : Config K) (s : RoeState K) : K :=
  zeta (machNumber ext.sqrt c.nDim s.pi.Velocity s.pi.Pressure c.Gamma s.pi.Density)
    (machNumber ext.sqrt c.nDim s.pj.Velocity s.pj.Pressure c.Gamma s.pj.Density)

/-- The array `delta_vel[iDim] = Velocity_j[iDim] - Velocity_i[iDim]`. -/
def delta_vel (s : RoeState K) : Nat → K :=
  fun iDim => s.pj.Velocity iDim - s.pi.Velocity iDim

/-- The variable `proj_delta_vel` after `proj_delta_vel *= zeta`. -/
def proj_delta_vel (c : Config K) (s : RoeState K) (z : K) : K :=
  sumLoop c.nDim (fun iDim => delta_vel s iDim * s.UnitNormal iDim) * z

/-- The wave amplitudes `delta_wave` of both low-Mach schemes; `shear` is the factor
applied to the shear entries (`zeta` in L2Roe, none, that is 1, in LMRoe). The
array starts as `{0.0, 0.0, 0.0, 0.0, 0.0}`. -/
def lowMachDeltaWave (c : Config K) (s : RoeState K) (z : K) (shear : K → K) : Nat → K :=
  let delta_p := s.pj.Pressure - s.pi.Pressure
  let delta_rho := s.pj.Density - s.pi.Density
  let dv := delta_vel s
  let n := s.UnitNormal
  let pdv := proj_delta_vel c s z
  let w0 : Nat → K := fun _ => 0.0
  if c.nDim = 2 then
    let w1 := setV w0 0 (delta_rho - delta_p / s.roe.RoeSoundSpeed2)
    let w2 := setV w1 1 (shear (n 1 * dv 0 - n 0 * dv 1))
    let w3 := setV w2 2 (pdv + delta_p / (s.roe.RoeDensity * s.RoeSoundSpeed))
    setV w3 3 (-pdv + delta_p / (s.roe.RoeDensity * s.RoeSoundSpeed))
  else
    let w1 := setV w0 0 (delta_rho - delta_p / s.roe.RoeSoundSpeed2)
    let w2 := setV w1 1 (shear (n 0 * dv 2 - n 2 * dv 0))
    let w3 := setV w2 2 (shear (n 1 * dv 0 - n 0 * dv 1))
    let w4 := setV w3 3 (pdv + delta_p / (s.roe.RoeDensity * s.RoeSoundSpeed))
    setV w4 4 (-pdv + delta_p / (s.roe.RoeDensity * s.RoeSoundSpeed))

/-- The part of both low-Mach `FinalizeResidual` methods after `delta_wave`:
"Update residual", `if (!implicit) return;`, and the standard Roe Jacobians. -/
def lowMachFinalize (ext : Externals K) (c : Config K) (s : RoeState K)
    (delta_wave : Nat → K) (res : ResidualType K) : ResidualType K :=
  let r1 := forLoop c.nVar (fun iVar r =>
    forLoop c.nVar (fun kVar r =>
      r.setFlux iVar (r.Flux iVar -
        (1.0 - c.kappa) * s.Lambda kVar * delta_wave kVar * s.P_Tensor iVar kVar * s.Area)) r) res
  if !c.implicit then r1
  else
    let invP := ext.GetPMatrix_inv s.roe.RoeDensity s.roe.RoeVelocity s.roe.RoeTke
      s.RoeSoundSpeed s.UnitNormal
    forLoop c.nVar (fun iVar r =>
      forLoop c.nVar (fun jVar r =>
        let T := Proj_ModJac_Tensor_ij c.nVar s.P_Tensor s.Lambda invP iVar jVar
        let r2 := r.setJac_i iVar jVar (r.Jacobian_i iVar jVar + (1.0 - c.kappa) * T * s.Area)
        r2.setJac_j iVar jVar (r2.Jacobian_j iVar jVar - (1.0 - c.kappa) * T * s.Area)) r) r1

/-- The method `CUpwL2Roe_Flow::FinalizeResidual`: the shear amplitudes carry `*zeta`. -/
def CUpwL2Roe_Flow.FinalizeResidual (ext : Externals K) (c : Config K) (s : RoeState K)
    (res : ResidualType K) : ResidualType K :=
  let z := stateZeta ext c s
  lowMachFinalize ext c s (lowMachDeltaWave c s z (fun a => a * z)) res

/-- The method `CUpwLMRoe_Flow::FinalizeResidual`: the shear amplitudes are not scaled. -/
def CUpwLMRoe_Flow.FinalizeResidual (ext : Externals K) (c : Config K) (s : RoeState K)
    (res : ResidualType K) : ResidualType K :=
  let z := stateZeta ext c s
  lowMachFinalize ext c s (lowMachDeltaWave c s z (fun a => a)) res

/-! ## `CUpwRoeBase_Flow::GetMUSCLJac` -/

/-- The two matrices `jac_i`, `jac_j` that `GetMUSCLJac` updates in place. -/
structure JacPair (K : Type) where
  jac_i : Nat → Nat → K
  jac_j : Nat → Nat → K

/-- The method `CUpwRoeBase_Flow::GetMUSCLJac` (the arguments it does not read are
omitted; `AD::BeginPassive`/`AD::EndPassive` have no effect on the values). -/
def GetMUSCLJac (c : Config K) (jac : JacPair K) (lim_i lim_j : Nat → K) : JacPair K :=
  forLoop c.nVar (fun iVar p =>
    forLoop c.nVar (fun jVar p =>
      let dFidUi := p.jac_i iVar jVar * (1.0 - c.muscl_kappa * lim_i jVar)
      let dFjdUj := p.jac_j iVar jVar * (1.0 - c.muscl_kappa * lim_j jVar)
      let dFjdUi := p.jac_i iVar jVar * boolToK c.muscl * lim_j jVar
      let dFidUj := p.jac_j iVar jVar * boolToK c.muscl * lim_i jVar
      { jac_i := setM p.jac_i iVar jVar (dFidUi + dFjdUi)
        jac_j := setM p.jac_j iVar jVar (dFidUj + dFjdUj) }) p) jac

/-! ## `CUpwRoeBase_Flow::ComputeResidual` -/

/-- The branch `if (RoeSoundSpeed2 <= 0.0)`: clear fluxes and exit. -/
def clearResidual (c : Config K) (res : ResidualType K) : ResidualType K :=
  forLoop c.nVar (fun iVar r =>
    let r1 := r.setFlux iVar 0.0
    if c.implicit then
      forLoop c.nVar (fun jVar r => (r.setJac_i iVar jVar 0.0).setJac_j iVar jVar 0.0) r1
    else r1) res

/-- The variable `ProjGridVel` declared at the top of `ComputeResidual`
(`su2double ProjGridVel = 0.0, Energy_i, Energy_j;`). The block
`if (dynamic_grid) { su2double ProjGridVel = 0.0; ... }` declares a second variable
of the same name (`innerProjGridVel`), so this one is never assigned again. -/
def outerProjGridVel : K := 0.0

/-- The projected velocities `ProjVelocity`, `ProjVelocity_i`, `ProjVelocity_j`
after the adjustment for mesh motion. -/
def adjustedProjVel (c : Config K) (inp : FaceInputs K) (n v : Nat → K) : K :=
  if c.dynamic_grid then
    projVel c.nDim v n - innerProjGridVel c.nDim inp.GridVel_i inp.GridVel_j n
  else projVel c.nDim v n

/-- The members seen by `FinalizeResidual`, for a positive `RoeSoundSpeed2`. -/
def roeState (ext : Externals K) (c : Config K) (inp : FaceInputs K) (old : Scratch K) :
    RoeState K :=
  let n := UnitNormal ext c.nDim inp.Normal
  let pi := extractPrimitive ext c inp.U_i inp.turb_ke_i
  let pj := extractPrimitive ext c inp.U_j inp.turb_ke_j
  let roe := roeAverage ext c pi pj
  let RoeSoundSpeed := ext.sqrt roe.RoeSoundSpeed2
  let P_Tensor := ext.GetPMatrix roe.RoeDensity roe.RoeVelocity roe.RoeTke RoeSoundSpeed n
  let ProjVelocity := adjustedProjVel c inp n roe.RoeVelocity
  let ProjVelocity_i := adjustedProjVel c inp n pi.Velocity
  let ProjVelocity_j := adjustedProjVel c inp n pj.Velocity
  let eig := correctEigenvalues c.nPrimVarTot
    (rawEigenvalues c.nDim c.nVar c.tkeNeeded ProjVelocity ProjVelocity_i ProjVelocity_j
      RoeSoundSpeed pi.SoundSpeed pj.SoundSpeed old.eig)
  { Area := Area ext c.nDim inp.Normal, UnitNormal := n, pi := pi, pj := pj, roe := roe,
    RoeSoundSpeed := RoeSoundSpeed, P_Tensor := P_Tensor, Lambda := eig.Lambda,
    Conservatives_i := Conservatives c.nDim pi old.Conservatives_i,
    Conservatives_j := Conservatives c.nDim pj old.Conservatives_j,
    Dissipation_i := inp.Dissipation_i, Dissipation_j := inp.Dissipation_j,
    Sensor_i := inp.Sensor_i, Sensor_j := inp.Sensor_j }

/-- The array `ProjFlux_i` (for point i) or `ProjFlux_j` (for point j). -/
def ProjFlux (ext : Externals K) (inp : FaceInputs K) (p : Primitive K) : Nat → K :=
  ext.GetInviscidProjFlux p.Density p.Velocity p.Pressure p.Enthalpy inp.Normal

/-- The block "Initialize residual (flux) and Jacobians". -/
def initResidual (ext : Externals K) (c : Config K) (inp : FaceInputs K) (s : RoeState K)
    (res : ResidualType K) : ResidualType K :=
  let r1 := forLoop c.nVar (fun iVar r =>
    r.setFlux iVar (c.kappa * (ProjFlux ext inp s.pi iVar + ProjFlux ext inp s.pj iVar))) res
  if c.implicit then
    { r1 with
      Jacobian_i := ext.GetInviscidProjJac s.pi.Velocity s.pi.Energy s.pi.turb_ke inp.Normal c.kappa
      Jacobian_j := ext.GetInviscidProjJac s.pj.Velocity s.pj.Energy s.pj.turb_ke inp.Normal c.kappa }
  else r1

/-- The block "Correct for grid motion"; `ProjGridVel` is the variable of the
function scope. -/
def gridMotionCorrection (c : Config K) (s : RoeState K) (res : ResidualType K) :
    ResidualType K :=
  if c.dynamic_grid then
    forLoop c.nVar (fun iVar r =>
      let r1 := r.setFlux iVar (r.Flux iVar -
        outerProjGridVel * s.Area * 0.5 * (s.Conservatives_i iVar + s.Conservatives_j iVar))
      if c.implicit then
        let r2 := r1.setJac_i iVar iVar (r1.Jacobian_i iVar iVar - 0.5 * outerProjGridVel * s.Area)
        r2.setJac_j iVar iVar (r2.Jacobian_j iVar iVar - 0.5 * outerProjGridVel * s.Area)
      else r1) res
  else res

/-- The block `if (implicit && muscl)`. -/
def musclStep (c : Config K) (inp : FaceInputs K) (res : ResidualType K) : ResidualType K :=
  if c.implicit && c.muscl then
    let p := GetMUSCLJac c { jac_i := res.Jacobian_i, jac_j := res.Jacobian_j }
      inp.Limiter_i inp.Limiter_j
    { res with Jacobian_i := p.jac_i, Jacobian_j := p.jac_j }
  else res

/-- The flux and Jacobians right after the call of `FinalizeResidual`. -/
def afterFinalize (ext : Externals K) (c : Config K)
    (FinalizeResidual : RoeState K → ResidualType K → ResidualType K)
    (inp : FaceInputs K) (old : Scratch K) : ResidualType K :=
  let s := roeState ext c inp old
  FinalizeResidual s (initResidual ext c inp s old.res)

/-- The method `CUpwRoeBase_Flow::ComputeResidual`; the virtual `FinalizeResidual`
is the parameter of that name, `old` holds the buffers on entry. -/
def ComputeResidual (ext : Externals K) (c : Config K)
    (FinalizeResidual : RoeState K → ResidualType K → ResidualType K)
    (inp : FaceInputs K) (old : Scratch K) : ResidualType K :=
  let pi := extractPrimitive ext c inp.U_i inp.turb_ke_i
  let pj := extractPrimitive ext c inp.U_j inp.turb_ke_j
  let roe := roeAverage ext c pi pj
  if roe.RoeSoundSpeed2 ≤ 0.0 then clearResidual c old.res
  else
    let s := roeState ext c inp old
    musclStep c inp (gridMotionCorrection c s (afterFinalize ext c FinalizeResidual inp old))

/-! ## `CUpwGeneralRoe_Flow` -/

/-- Helpers called by `CUpwGeneralRoe_Flow` and defined elsewhere in the repository. -/
structure GeneralExternals (K : Type) where
  /-- The function `sqrt` of the C library. -/
  sqrt : K → K
  /-- The call `GetPMatrix(&RoeDensity, RoeVelocity, &RoeSoundSpeed, &RoeEnthalpy, &RoeChi,
  &RoeKappa, UnitNormal, P_Tensor)`. -/
  GetPMatrix : K → (Nat → K) → K → K → K → K → (Nat → K) → (Nat → Nat → K)
  /-- The call `GetPMatrix_inv(invP_Tensor, &RoeDensity, RoeVelocity, &RoeSoundSpeed, &RoeChi,
  &RoeKappa, UnitNormal)`. -/
  GetPMatrix_inv : K → (Nat → K) → K → K → K → (Nat → K) → (Nat → Nat → K)
  /-- The call `GetInviscidProjFlux(&Density, Velocity, &Pressure, &Enthalpy, Normal, ProjFlux)`. -/
  GetInviscidProjFlux : K → (Nat → K) → K → K → (Nat → K) → (Nat → K)
  /-- The call `GetInviscidProjJac(Velocity, &Enthalpy, &Chi, &Kappa, Normal, kappa, Jacobian)`. -/
  GetInviscidProjJac : (Nat → K) → K → K → K → (Nat → K) → K → (Nat → Nat → K)

/-- The fields that `CUpwGeneralRoe_Flow` reads from the configuration. -/
structure GeneralConfig (K : Type) where
  nDim : Nat
  nVar : Nat
  /-- Whether `config->GetKind_TimeIntScheme_Flow() == EULER_IMPLICIT` (set in the constructor). -/
  implicit : Bool
  dynamic_grid : Bool
  /-- The value `config->GetRoe_Kappa()`. -/
  kappa : K
  /-- The value `config->GetEntropyFix_Coeff()`. -/
  Delta : K

/-- What the caller sets on a `CUpwGeneralRoe_Flow` object before `ComputeResidual`. -/
structure GeneralInputs (K : Type) where
  V_i : Nat → K
  V_j : Nat → K
  S_i : Nat → K
  S_j : Nat → K
  Normal : Nat → K
  GridVel_i : Nat → K
  GridVel_j : Nat → K

/-- Contents, on entry, of the member buffers of `CUpwGeneralRoe_Flow` that the
call updates entry by entry. -/
structure GeneralScratch (K : Type) where
  res : ResidualType K
  Lambda : Nat → K
  delta_wave : Nat → K

/-- Primitive variables at one point, as `CUpwGeneralRoe_Flow` reads them from `V` and `S`. -/
structure GeneralPrimitive (K : Type) where
  Velocity : Nat → K
  Velocity2 : K
  Pressure : K
  Density : K
  Enthalpy : K
  Energy : K
  StaticEnthalpy : K
  StaticEnergy : K
  Kappa : K
  Chi : K
  SoundSpeed : K

/-- The block "Primitive variables at point i" of `CUpwGeneralRoe_Flow::ComputeResidual`. -/
def generalPrimitive (ext : GeneralExternals K) (c : GeneralConfig K) (V S : Nat → K) :
    GeneralPrimitive K :=
  let Velocity := fun iDim => V (iDim + 1)
  let Velocity2 := sumLoop c.nDim (fun iDim => Velocity iDim * Velocity iDim)
  let Pressure := V (c.nDim + 1)
  let Density := V (c.nDim + 2)
  let Enthalpy := V (c.nDim + 3)
  let Energy := Enthalpy - Pressure / Density
  let StaticEnthalpy := Enthalpy - 0.5 * Velocity2
  let StaticEnergy := StaticEnthalpy - Pressure / Density
  let Kappa := S 1 / Density
  let Chi := S 0 - Kappa * StaticEnergy
  { Velocity := Velocity, Velocity2 := Velocity2, Pressure := Pressure, Density := Density,
    Enthalpy := Enthalpy, Energy := Energy, StaticEnthalpy := StaticEnthalpy,
    StaticEnergy := StaticEnergy, Kappa := Kappa, Chi := Chi,
    SoundSpeed := ext.sqrt (Chi + StaticEnthalpy * Kappa) }

/-- The local array `U_i` (or `U_j`): `{0.0, ...}` and then "Recompute conservative variables". -/
def generalConservatives (nDim : Nat) (p : GeneralPrimitive K) : Nat → K :=
  let U1 := setV (fun _ => 0.0) 0 p.Density
  let U2 := forLoop nDim (fun iDim U => setV U (iDim + 1) (p.Density * p.Velocity iDim)) U1
  setV U2 (nDim + 1) (p.Density * p.Energy)

/-- The members written by `ComputeRoeAverage`. -/
structure GeneralRoeAverage (K : Type) where
  R : K
  RoeDensity : K
  RoeVelocity : Nat → K
  sq_vel : K
  RoeEnthalpy : K
  delta_rho : K
  delta_p : K
  RoeKappa : K
  RoeChi : K
  RoeSoundSpeed2 : K

/-- The method `CUpwGeneralRoe_Flow::ComputeRoeAverage`. -/
def CUpwGeneralRoe_Flow.ComputeRoeAverage (ext : GeneralExternals K) (c : GeneralConfig K)
    (pi pj : GeneralPrimitive K) : GeneralRoeAverage K :=
  let R := ext.sqrt |pj.Density / pi.Density|
  let RoeDensity := R * pi.Density
  let RoeVelocity := fun iDim => (R * pj.Velocity iDim + pi.Velocity iDim) / (R + 1.0)
  let sq_vel := sumLoop c.nDim (fun iDim => RoeVelocity iDim * RoeVelocity iDim)
  let RoeEnthalpy := (R * pj.Enthalpy + pi.Enthalpy) / (R + 1.0)
  let RoeKappa0 := 0.5 * (pi.Kappa + pj.Kappa)
  let RoeKappa := (pi.Kappa + pj.Kappa + 4 * RoeKappa0) / 6
  let RoeChi0 := 0.5 * (pi.Chi + pj.Chi)
  let RoeChi := (pi.Chi + pj.Chi + 4 * RoeChi0) / 6
  { R := R, RoeDensity := RoeDensity, RoeVelocity := RoeVelocity, sq_vel := sq_vel,
    RoeEnthalpy := RoeEnthalpy, delta_rho := pj.Density - pi.Density,
    delta_p := pj.Pressure - pi.Pressure, RoeKappa := RoeKappa, RoeChi := RoeChi,
    RoeSoundSpeed2 := RoeChi + RoeKappa * (RoeEnthalpy - 0.5 * sq_vel) }

/-- The branch `if (RoeSoundSpeed2 <= 0.0)` of `CUpwGeneralRoe_Flow::ComputeResidual`:
the inner loop over `jVar` assigns `Jacobian_i[iVar][iVar]` and `Jacobian_j[iVar][iVar]`. -/
def generalClearResidual (c : GeneralConfig K) (res : ResidualType K) : ResidualType K :=
  forLoop c.nVar (fun iVar r =>
    forLoop c.nVar (fun _jVar r => (r.setJac_i iVar iVar 0.0).setJac_j iVar iVar 0.0)
      (r.setFlux iVar 0.0)) res

/-- The array `Lambda` of `CUpwGeneralRoe_Flow` before Mavriplis' correction. -/
def generalRawLambda (c : GeneralConfig K) (ProjVelocity RoeSoundSpeed : K)
    (old : Nat → K) : Nat → K :=
  let L1 := forLoop c.nDim (fun iDim L => setV L iDim ProjVelocity) old
  let L2 := setV L1 (c.nVar - 2) (ProjVelocity + RoeSoundSpeed)
  setV L2 (c.nVar - 1) (ProjVelocity - RoeSoundSpeed)

/-- The loop `Lambda[iVar] = max(fabs(Lambda[iVar]), Delta*MaxLambda)`. -/
def MavriplisFix (c : GeneralConfig K) (MaxLambda : K) (Lambda : Nat → K) : Nat → K :=
  forLoop c.nVar (fun iVar L => setV L iVar (max |L iVar| (c.Delta * MaxLambda))) Lambda

/-- The quantities of `CUpwGeneralRoe_Flow::ComputeResidual` that both branches of
`if (!implicit)` read. -/
structure GeneralState (K : Type) where
  Area : K
  UnitNormal : Nat → K
  pi : GeneralPrimitive K
  pj : GeneralPrimitive K
  U_i : Nat → K
  U_j : Nat → K
  roe : GeneralRoeAverage K
  RoeSoundSpeed : K
  ProjFlux_i : Nat → K
  ProjFlux_j : Nat → K
  P_Tensor : Nat → Nat → K
  Lambda : Nat → K

/-- The members computed before `if (!implicit)`, for a positive `RoeSoundSpeed2`. -/
def generalState (ext : GeneralExternals K) (c : GeneralConfig K) (inp : GeneralInputs K)
    (old : GeneralScratch K) : GeneralState K :=
  let A := ext.sqrt (sumLoop c.nDim (fun iDim => inp.Normal iDim * inp.Normal iDim))
  let n := fun iDim => inp.Normal iDim / A
  let pi := generalPrimitive ext c inp.V_i inp.S_i
  let pj := generalPrimitive ext c inp.V_j inp.S_j
  let roe := CUpwGeneralRoe_Flow.ComputeRoeAverage ext c pi pj
  let RoeSoundSpeed := ext.sqrt roe.RoeSoundSpeed2
  let ProjVelocity0 := projVel c.nDim roe.RoeVelocity n
  let ProjVelocity :=
    if c.dynamic_grid then ProjVelocity0 - innerProjGridVel c.nDim inp.GridVel_i inp.GridVel_j n
    else ProjVelocity0
  let MaxLambda := |ProjVelocity| + RoeSoundSpeed
  { Area := A, UnitNormal := n, pi := pi, pj := pj,
    U_i := generalConservatives c.nDim pi, U_j := generalConservatives c.nDim pj,
    roe := roe, RoeSoundSpeed := RoeSoundSpeed,
    ProjFlux_i := ext.GetInviscidProjFlux pi.Density pi.Velocity pi.Pressure pi.Enthalpy inp.Normal,
    ProjFlux_j := ext.GetInviscidProjFlux pj.Density pj.Velocity pj.Pressure pj.Enthalpy inp.Normal,
    P_Tensor := ext.GetPMatrix roe.RoeDensity roe.RoeVelocity RoeSoundSpeed roe.RoeEnthalpy
      roe.RoeChi roe.RoeKappa n,
    Lambda := MavriplisFix c MaxLambda (generalRawLambda c ProjVelocity RoeSoundSpeed old.Lambda) }

/-- The variable `ProjVelocity` of `CUpwGeneralRoe_Flow::ComputeResidual` when the eigenvalues
are formed: the projected Roe velocity, less the projected grid velocity on a dynamic grid. -/
def generalProjVelocity (ext : GeneralExternals K) (c : GeneralConfig K) (inp : GeneralInputs K) :
    K :=
  let A := ext.sqrt (sumLoop c.nDim (fun iDim => inp.Normal iDim * inp.Normal iDim))
  let n := fun iDim => inp.Normal iDim / A
  let pi := generalPrimitive ext c inp.V_i inp.S_i
  let pj := generalPrimitive ext c inp.V_j inp.S_j
  let roe := CUpwGeneralRoe_Flow.ComputeRoeAverage ext c pi pj
  let ProjVelocity0 := projVel c.nDim roe.RoeVelocity n
  if c.dynamic_grid then ProjVelocity0 - innerProjGridVel c.nDim inp.GridVel_i inp.GridVel_j n
  else ProjVelocity0

/-- The variable `ProjVelocity` recomputed in the grid-motion blocks of
`CUpwGeneralRoe_Flow`: `sum 0.5*(GridVel_i[iDim]+GridVel_j[iDim])*Normal[iDim]`. -/
def generalGridProjVelocity (c : GeneralConfig K) (inp : GeneralInputs K) : K :=
  sumLoop c.nDim (fun iDim => 0.5 * (inp.GridVel_i iDim + inp.GridVel_j iDim) * inp.Normal iDim)

/-- The array `delta_wave` of the branch `if (!implicit)`, on top of its previous contents. -/
def generalDeltaWave (c : GeneralConfig K) (inp : GeneralInputs K) (s : GeneralState K)
    (old : Nat → K) : Nat → K :=
  let dv := fun iDim => s.pj.Velocity iDim - s.pi.Velocity iDim
  let pdv := sumLoop c.nDim (fun iDim => dv iDim * inp.Normal iDim) / s.Area
  let delta_p := s.pj.Pressure - s.pi.Pressure
  let delta_rho := s.pj.Density - s.pi.Density
  let n := s.UnitNormal
  if c.nDim = 2 then
    let w1 := setV old 0 (delta_rho - delta_p / (s.RoeSoundSpeed * s.RoeSoundSpeed))
    let w2 := setV w1 1 (n 1 * dv 0 - n 0 * dv 1)
    let w3 := setV w2 2 (pdv + delta_p / (s.roe.RoeDensity * s.RoeSoundSpeed))
    setV w3 3 (-pdv + delta_p / (s.roe.RoeDensity * s.RoeSoundSpeed))
  else
    let w1 := setV old 0 (delta_rho - delta_p / (s.RoeSoundSpeed * s.RoeSoundSpeed))
    let w2 := setV w1 1 (n 0 * dv 2 - n 2 * dv 0)
    let w3 := setV w2 2 (n 1 * dv 0 - n 0 * dv 1)
    let w4 := setV w3 3 (pdv + delta_p / (s.roe.RoeDensity * s.RoeSoundSpeed))
    setV w4 4 (-pdv + delta_p / (s.roe.RoeDensity * s.RoeSoundSpeed))

/-- The branch `if (!implicit)` of `CUpwGeneralRoe_Flow::ComputeResidual`. -/
def generalExplicitBranch (c : GeneralConfig K) (inp : GeneralInputs K) (s : GeneralState K)
    (old : GeneralScratch K) : ResidualType K :=
  let w := generalDeltaWave c inp s old.delta_wave
  let r1 := forLoop c.nVar (fun iVar r =>
    forLoop c.nVar (fun jVar r =>
      r.setFlux iVar (r.Flux iVar - 0.5 * s.Lambda jVar * w jVar * s.P_Tensor iVar jVar * s.Area))
      (r.setFlux iVar (0.5 * (s.ProjFlux_i iVar + s.ProjFlux_j iVar)))) old.res
  if c.dynamic_grid then
    forLoop c.nVar (fun iVar r =>
      r.setFlux iVar (r.Flux iVar -
        generalGridProjVelocity c inp * 0.5 * (s.U_i iVar + s.U_j iVar))) r1
  else r1

/-- The branch `else` (implicit) of `CUpwGeneralRoe_Flow::ComputeResidual`. -/
def generalImplicitBranch (ext : GeneralExternals K) (c : GeneralConfig K)
    (inp : GeneralInputs K) (s : GeneralState K) (old : GeneralScratch K) : ResidualType K :=
  let invP := ext.GetPMatrix_inv s.roe.RoeDensity s.roe.RoeVelocity s.RoeSoundSpeed
    s.roe.RoeChi s.roe.RoeKappa s.UnitNormal
  let r0 : ResidualType K :=
    { old.res with
      Jacobian_i := ext.GetInviscidProjJac s.pi.Velocity s.pi.Enthalpy s.pi.Chi s.pi.Kappa
        inp.Normal c.kappa
      Jacobian_j := ext.GetInviscidProjJac s.pj.Velocity s.pj.Enthalpy s.pj.Chi s.pj.Kappa
        inp.Normal c.kappa }
  let r1 := forLoop c.nVar (fun iVar r =>
    forLoop c.nVar (fun jVar r =>
      let T := Proj_ModJac_Tensor_ij c.nVar s.P_Tensor s.Lambda invP iVar jVar
      let r2 := r.setFlux iVar
        (r.Flux iVar - (1.0 - c.kappa) * T * (s.U_j jVar - s.U_i jVar) * s.Area)
      let r3 := r2.setJac_i iVar jVar (r2.Jacobian_i iVar jVar + (1.0 - c.kappa) * T * s.Area)
      r3.setJac_j iVar jVar (r3.Jacobian_j iVar jVar - (1.0 - c.kappa) * T * s.Area))
      (r.setFlux iVar (c.kappa * (s.ProjFlux_i iVar + s.ProjFlux_j iVar)))) r0
  if c.dynamic_grid then
    forLoop c.nVar (fun iVar r =>
      let r2 := r.setFlux iVar (r.Flux iVar -
        generalGridProjVelocity c inp * 0.5 * (s.U_i iVar + s.U_j iVar))
      let r3 := r2.setJac_i iVar iVar (r2.Jacobian_i iVar iVar - 0.5 * generalGridProjVelocity c inp)
      r3.setJac_j iVar iVar (r3.Jacobian_j iVar iVar - 0.5 * generalGridProjVelocity c inp)) r1
  else r1

/-- The method `CUpwGeneralRoe_Flow::ComputeResidual`; `old` holds the buffers on entry. -/
def CUpwGeneralRoe_Flow.ComputeResidual (ext : GeneralExternals K) (c : GeneralConfig K)
    (inp : GeneralInputs K) (old : GeneralScratch K) : ResidualType K :=
  let pi := generalPrimitive ext c inp.V_i inp.S_i
  let pj := generalPrimitive ext c inp.V_j inp.S_j
  let roe := CUpwGeneralRoe_Flow.ComputeRoeAverage ext c pi pj
  if roe.RoeSoundSpeed2 ≤ 0.0 then generalClearResidual c old.res
  else
    let s := generalState ext c inp old
    if !c.implicit then generalExplicitBranch c inp s old
    else generalImplicitBranch ext c inp s old

/-! ## `CUpwTurkel_Flow` -/

/-- Helpers called by `CUpwTurkel_Flow` and defined elsewhere in the repository. -/
structure TurkelExternals (K : Type) where
  /-- The function `sqrt` of the C library. -/
  sqrt : K → K
  /-- The call `GetPrecondJacobian(Beta2, r_hat, s_hat, t_hat, rhoB2a2, Lambda, UnitNormal, absPeJac)`. -/
  GetPrecondJacobian : K → K → K → K → K → (Nat → K) → (Nat → K) → (Nat → Nat → K)
  /-- The call `GetinvRinvPe(Beta2, RoeEnthalpy, RoeSoundSpeed, RoeDensity, RoeVelocity, invRinvPe)`. -/
  GetinvRinvPe : K → K → K → K → (Nat → K) → (Nat → Nat → K)
  /-- The call `GetRMatrix(RoePressure, RoeSoundSpeed, RoeDensity, RoeVelocity, R_Tensor)`. -/
  GetRMatrix : K → K → K → (Nat → K) → (Nat → Nat → K)
  /-- The call `GetInviscidProjFlux(&Density, Velocity, &Pressure, &Enthalpy, Normal, ProjFlux)`. -/
  GetInviscidProjFlux : K → (Nat → K) → K → K → (Nat → K) → (Nat → K)
  /-- The call `GetInviscidProjJac(Velocity, &Energy, &turb_ke, Normal, 0.5, Jacobian)`. -/
  GetInviscidProjJac : (Nat → K) → K → K → (Nat → K) → K → (Nat → Nat → K)

/-- The fields that `CUpwTurkel_Flow` reads from the configuration. -/
structure TurkelConfig (K : Type) where
  nDim : Nat
  nVar : Nat
  /-- Whether `config->GetKind_TimeIntScheme() == EULER_IMPLICIT`. -/
  implicit : Bool
  dynamic_grid : Bool
  Gamma : K
  /-- The value `config->GetminTurkelBeta()`. -/
  Beta_min : K
  /-- The value `config->GetmaxTurkelBeta()`. -/
  Beta_max : K

/-- What the caller sets on a `CUpwTurkel_Flow` object before `ComputeResidual`. -/
structure TurkelInputs (K : Type) where
  V_i : Nat → K
  V_j : Nat → K
  Normal : Nat → K
  GridVel_i : Nat → K
  GridVel_j : Nat → K
  turb_ke_i : K
  turb_ke_j : K

/-- Primitive variables at one point, as `CUpwTurkel_Flow` reads them from `V`. -/
structure TurkelPrimitive (K : Type) where
  Velocity : Nat → K
  Pressure : K
  Density : K
  Enthalpy : K
  Energy : K
  SoundSpeed : K

/-- The block "Primitive variables at point i" of `CUpwTurkel_Flow::ComputeResidual`. -/
def turkelPrimitive (ext : TurkelExternals K) (c : TurkelConfig K) (V : Nat → K) :
    TurkelPrimitive K :=
  let Pressure := V (c.nDim + 1)
  let Density := V (c.nDim + 2)
  let Enthalpy := V (c.nDim + 3)
  { Velocity := fun iDim => V (iDim + 1), Pressure := Pressure, Density := Density,
    Enthalpy := Enthalpy, Energy := Enthalpy - Pressure / Density,
    SoundSpeed := ext.sqrt |Pressure * c.Gamma / Density| }

/-- The local array `U_i` (or `U_j`) of `CUpwTurkel_Flow::ComputeResidual`. -/
def turkelConservatives (nDim : Nat) (p : TurkelPrimitive K) : Nat → K :=
  let U1 := setV (fun _ => 0.0) 0 p.Density
  let U2 := forLoop nDim (fun iDim U => setV U (iDim + 1) (p.Density * p.Velocity iDim)) U1
  setV U2 (nDim + 1) (p.Density * p.Energy)

/-- The quantities of `CUpwTurkel_Flow::ComputeResidual` up to the matrix `Art_Visc`. -/
structure TurkelState (K : Type) where
  Area : K
  UnitNormal : Nat → K
  pi : TurkelPrimitive K
  pj : TurkelPrimitive K
  U_i : Nat → K
  U_j : Nat → K
  local_Mach : K
  Beta : K
  Lambda : Nat → K
  ProjFlux_i : Nat → K
  ProjFlux_j : Nat → K
  Art_Visc : Nat → Nat → K

/-- The product `sum_k A[i][k]*B[k][j]`, `k < n`, accumulated from `0.0`. -/
def matMulEntry (n : Nat) (A B : Nat → Nat → K) (iVar jVar : Nat) : K :=
  forLoop n (fun kVar acc => acc + A iVar kVar * B kVar jVar) 0.0

/-- The body of `CUpwTurkel_Flow::ComputeResidual` up to the matrix `Art_Visc`;
`oldLambda` holds the buffer `Lambda` on entry. -/
def turkelState (ext : TurkelExternals K) (c : TurkelConfig K) (inp : TurkelInputs K)
    (oldLambda : Nat → K) : TurkelState K :=
  let A := ext.sqrt (sumLoop c.nDim (fun iDim => inp.Normal iDim * inp.Normal iDim))
  let n := fun iDim => inp.Normal iDim / A
  let pi := turkelPrimitive ext c inp.V_i
  let pj := turkelPrimitive ext c inp.V_j
  let R := ext.sqrt |pj.Density / pi.Density|
  let RoeDensity := R * pi.Density
  let RoeVelocity := fun iDim => (R * pj.Velocity iDim + pi.Velocity iDim) / (R + 1.0)
  let sq_vel := sumLoop c.nDim (fun iDim => RoeVelocity iDim * RoeVelocity iDim)
  let RoeEnthalpy := (R * pj.Enthalpy + pi.Enthalpy) / (R + 1.0)
  let RoeSoundSpeed := ext.sqrt |(c.Gamma - 1.0) * (RoeEnthalpy - 0.5 * sq_vel)|
  let RoePressure := RoeDensity / c.Gamma * RoeSoundSpeed * RoeSoundSpeed
  let ProjVelocity0 := projVel c.nDim RoeVelocity n
  let ProjVelocity :=
    if c.dynamic_grid then ProjVelocity0 - innerProjGridVel c.nDim inp.GridVel_i inp.GridVel_j n
    else ProjVelocity0
  let L1 := forLoop c.nDim (fun iDim L => setV L iDim ProjVelocity) oldLambda
  let local_Mach := ext.sqrt sq_vel / RoeSoundSpeed
  let B := Beta c.Beta_min c.Beta_max local_Mach
  let Beta2 := B * B
  let one_m_Betasqr := 1.0 - Beta2
  let one_p_Betasqr := 1.0 + Beta2
  let sqr_one_m_Betasqr_Lam1 := (one_m_Betasqr * L1 0) ^ 2
  let sqr_two_Beta_c_Area := (2.0 * B * RoeSoundSpeed * A) ^ 2
  let L2 := setV L1 (c.nVar - 2)
    (0.5 * (one_p_Betasqr * L1 0 + ext.sqrt (sqr_one_m_Betasqr_Lam1 + sqr_two_Beta_c_Area)))
  let L3 := setV L2 (c.nVar - 1)
    (0.5 * (one_p_Betasqr * L2 0 - ext.sqrt (sqr_one_m_Betasqr_Lam1 + sqr_two_Beta_c_Area)))
  let s_hat := 1.0 / A * (L3 (c.nVar - 1) - L3 0 * Beta2)
  let r_hat := 1.0 / A * (L3 (c.nVar - 2) - L3 0 * Beta2)
  let t_hat := 0.5 / A * (L3 (c.nVar - 1) - L3 (c.nVar - 2))
  let rhoB2a2 := RoeDensity * Beta2 * RoeSoundSpeed * RoeSoundSpeed
  let L4 := forLoop c.nVar (fun iVar L => setV L iVar |L iVar|) L3
  let absPeJac := ext.GetPrecondJacobian Beta2 r_hat s_hat t_hat rhoB2a2 L4 n
  let invRinvPe := ext.GetinvRinvPe Beta2 RoeEnthalpy RoeSoundSpeed RoeDensity RoeVelocity
  let R_Tensor := ext.GetRMatrix RoePressure RoeSoundSpeed RoeDensity RoeVelocity
  let Matrix := fun iVar jVar => matMulEntry c.nVar absPeJac R_Tensor iVar jVar
  { Area := A, UnitNormal := n, pi := pi, pj := pj,
    U_i := turkelConservatives c.nDim pi, U_j := turkelConservatives c.nDim pj,
    local_Mach := local_Mach, Beta := B, Lambda := L4,
    ProjFlux_i := ext.GetInviscidProjFlux pi.Density pi.Velocity pi.Pressure pi.Enthalpy inp.Normal,
    ProjFlux_j := ext.GetInviscidProjFlux pj.Density pj.Velocity pj.Pressure pj.Enthalpy inp.Normal,
    Art_Visc := fun iVar jVar => matMulEntry c.nVar invRinvPe Matrix iVar jVar }

/-- The central flux and the preconditioned dissipation of
`CUpwTurkel_Flow::ComputeResidual` (roe.cpp:885-905): the residual before the mesh-motion
block; `old` and `oldLambda` hold the buffers on entry. -/
def turkelFluxStep (ext : TurkelExternals K) (c : TurkelConfig K)
    (inp : TurkelInputs K) (old : ResidualType K) (oldLambda : Nat → K) : ResidualType K :=
  let s := turkelState ext c inp oldLambda
  let r0 : ResidualType K :=
    if c.implicit then
      { old with
        Jacobian_i := ext.GetInviscidProjJac s.pi.Velocity s.pi.Energy inp.turb_ke_i inp.Normal 0.5
        Jacobian_j := ext.GetInviscidProjJac s.pj.Velocity s.pj.Energy inp.turb_ke_j inp.Normal 0.5 }
    else old
  forLoop c.nVar (fun iVar r =>
    forLoop c.nVar (fun jVar r =>
      let r2 := r.setFlux iVar
        (r.Flux iVar - 0.5 * s.Art_Visc iVar jVar * (s.U_j jVar - s.U_i jVar))
      if c.implicit then
        let r3 := r2.setJac_i iVar jVar (r2.Jacobian_i iVar jVar + 0.5 * s.Art_Visc iVar jVar)
        r3.setJac_j iVar jVar (r3.Jacobian_j iVar jVar - 0.5 * s.Art_Visc iVar jVar)
      else r2)
      (r.setFlux iVar (0.5 * (s.ProjFlux_i iVar + s.ProjFlux_j iVar)))) r0

/-- The local `ProjVelocity` of the mesh-motion block of `CUpwTurkel_Flow::ComputeResidual`
(roe.cpp:909-911). -/
def turkelGridProjVelocity (c : TurkelConfig K) (inp : TurkelInputs K) (s : TurkelState K) : K :=
  innerProjGridVel c.nDim inp.GridVel_i inp.GridVel_j s.UnitNormal

/-- The mesh-motion block of `CUpwTurkel_Flow::ComputeResidual` (roe.cpp:908-921) applied to
the residual `r1` computed so far. -/
def turkelGridMotion (c : TurkelConfig K) (inp : TurkelInputs K) (s : TurkelState K)
    (r1 : ResidualType K) : ResidualType K :=
  if c.dynamic_grid then
    let ProjVelocity := turkelGridProjVelocity c inp s
    forLoop c.nVar (fun iVar r =>
      let r2 := r.setFlux iVar (r.Flux iVar - ProjVelocity * 0.5 * (s.U_i iVar + s.U_j iVar))
      if c.implicit then
        let r3 := r2.setJac_i iVar iVar (r2.Jacobian_i iVar iVar - 0.5 * ProjVelocity)
        r3.setJac_j iVar iVar (r3.Jacobian_j iVar iVar - 0.5 * ProjVelocity)
      else r2) r1
  else r1

/-- The method `CUpwTurkel_Flow::ComputeResidual`; `old` and `oldLambda` hold the
buffers on entry. -/
def CUpwTurkel_Flow.ComputeResidual (ext : TurkelExternals K) (c : TurkelConfig K)
    (inp : TurkelInputs K) (old : ResidualType K) (oldLambda : Nat → K) : ResidualType K :=
  turkelGridMotion c inp (turkelState ext c inp oldLambda) (turkelFluxStep ext c inp old oldLambda)

/-! ## Exchange of the two sides of a face -/

/-- The inputs of the same face seen from the other side: left and right data exchanged and
the normal negated. -/
def swapInputs (inp : FaceInputs K) : FaceInputs K :=
  { U_i := inp.U_j, U_j := inp.U_i, Normal := fun iDim => -inp.Normal iDim,
    GridVel_i := inp.GridVel_j, GridVel_j := inp.GridVel_i,
    turb_ke_i := inp.turb_ke_j, turb_ke_j := inp.turb_ke_i,
    Limiter_i := inp.Limiter_j, Limiter_j := inp.Limiter_i,
    Dissipation_i := inp.Dissipation_j, Dissipation_j := inp.Dissipation_i,
    Sensor_i := inp.Sensor_j, Sensor_j := inp.Sensor_i }

/-- The parameter `sqrt` is a square root on the non-negative numbers. -/
def IsSqrt (sqrt : K → K) : Prop :=
  ∀ x, 0 ≤ x → 0 ≤ sqrt x ∧ sqrt x * sqrt x = x

/-- The product `P * diag(lam) * Q` of `n` by `n` matrices. -/
def modJac (n : Nat) (P : Nat → Nat → K) (lam : Nat → K) (Q : Nat → Nat → K) : Nat → Nat → K :=
  fun i j => sumLoop n (fun k => P i k * lam k * Q k j)

/-- The `n` by `n` matrix `Q` is a right inverse of `P`. -/
def IsInversePair (n : Nat) (P Q : Nat → Nat → K) : Prop :=
  ∀ i j, i < n → j < n → sumLoop n (fun k => P i k * Q k j) = if i = j then 1 else 0

/-- The eigenvalues before any correction, in the order of `Lambda`: `nDim` copies of the
projected velocity `vn`, then `vn + c` and `vn - c`. -/
def flowEigenvalues (nDim : Nat) (vn c : K) : Nat → K :=
  fun k => if k < nDim then vn else if k = nDim then vn + c else vn - c

/-- Modelled from the spec: `GetPMatrix` and `GetPMatrix_inv` are defined outside `roe.cpp`.
The spec describes P as the right-eigenvector matrix of the flux Jacobian projected on the
face normal and invP as its inverse. This predicate says so at one Roe state, for a unit
normal `n` and for its opposite: invP is the inverse of P, and `P * diag(eigenvalues) * invP`,
which is the projected flux Jacobian, changes sign with the normal. -/
def EigensystemContract (ext : Externals K) (c : Config K) (roe : RoeAverage K)
    (RoeSoundSpeed : K) (n : Nat → K) : Prop :=
  let m : Nat → K := fun iDim => -n iDim
  let P := ext.GetPMatrix roe.RoeDensity roe.RoeVelocity roe.RoeTke RoeSoundSpeed
  let Q := ext.GetPMatrix_inv roe.RoeDensity roe.RoeVelocity roe.RoeTke RoeSoundSpeed
  IsInversePair c.nVar (P n) (Q n) ∧ IsInversePair c.nVar (P m) (Q m) ∧
  ∀ i j, i < c.nVar → j < c.nVar →
    modJac c.nVar (P m) (flowEigenvalues c.nDim (projVel c.nDim roe.RoeVelocity m) RoeSoundSpeed)
        (Q m) i j
      = -modJac c.nVar (P n)
          (flowEigenvalues c.nDim (projVel c.nDim roe.RoeVelocity n) RoeSoundSpeed) (Q n) i j

/-- Modelled from the spec: `GetInviscidProjFlux` is defined outside `roe.cpp`. The spec
describes its result as the analytic inviscid flux projected on the face normal; a projection
on the normal changes sign with the normal. -/
def FluxContract (ext : Externals K) : Prop :=
  ∀ (Density : K) (Velocity : Nat → K) (Pressure Enthalpy : K) (Normal : Nat → K) (k : Nat),
    ext.GetInviscidProjFlux Density Velocity Pressure Enthalpy (fun iDim => -Normal iDim) k
      = -ext.GetInviscidProjFlux Density Velocity Pressure Enthalpy Normal k

/-- The corrected shear (and turbulence) eigenvalue. -/
def shearLambda (PV PVi PVj : K) : K :=
  HartenHymanFix PV (HartenHymanEpsilon PV PVi PVj)

/-- The corrected acoustic eigenvalue `Lambda[nVar-2]`. -/
def plusLambda (PV PVi PVj c ci cj : K) : K :=
  HartenHymanFix (PV + c) (HartenHymanEpsilon (PV + c) (PVi + ci) (PVj + cj))

/-- The corrected acoustic eigenvalue `Lambda[nVar-1]`. -/
def minusLambda (PV PVi PVj c ci cj : K) : K :=
  HartenHymanFix (PV - c) (HartenHymanEpsilon (PV - c) (PVi - ci) (PVj - cj))

/-- The `n` by `n` block of a matrix buffer. -/
def toMatrix (n : Nat) (M : Nat → Nat → K) : Matrix (Fin n) (Fin n) K :=
  fun i j => M i j

/-- The entry `P_Tensor[i][nVar]` that `CUpwRoe_Flow::FinalizeResidual` assigns when the
turbulent kinetic energy is coupled, for `i < nVar`. -/
def tkeColumn (c : Config K) (roe : RoeAverage K) (i : Nat) : K :=
  if i = c.nVar - 1 then (c.Gamma - FIVE3) * roe.RoeSqVel / (2.0 * roe.RoeSoundSpeed2) else 0.0

/-- The entry `invP_Tensor[nVar][j]` that `CUpwRoe_Flow::FinalizeResidual` assigns when the
turbulent kinetic energy is coupled, for `j < nVar = nDim + 2`. -/
def tkeRow (c : Config K) (roe : RoeAverage K) (j : Nat) : K :=
  if j = c.nVar - 1 then 0.0
  else if 1 ≤ j ∧ j ≤ c.nDim then
    (c.Gamma - FIVE3) * roe.RoeVelocity (j - 1) / (2.0 * roe.RoeSoundSpeed2)
  else -roe.RoeTke

/-! ## The wave amplitudes of the low-Mach schemes and the eigenvector matrices -/

/-- Modelled from the spec: `GetPMatrix` and `GetPMatrix_inv` are defined outside roe.cpp; the
spec describes their results as the "right-eigenvector matrix of the flux Jacobian and its
inverse, used to decompose and reconstruct dissipation in characteristic space". The contract
says that, at the state `s`, the matrix returned by `GetPMatrix_inv` is the inverse of
`P_Tensor` on the `nVar` flow variables: decomposing a reconstructed vector gives it back
(`invP * P = 1`). -/
def InverseContract (ext : Externals K) (c : Config K) (s : RoeState K) : Prop :=
  IsInversePair c.nVar
    (ext.GetPMatrix_inv s.roe.RoeDensity s.roe.RoeVelocity s.roe.RoeTke s.RoeSoundSpeed
      s.UnitNormal)
    s.P_Tensor

/-! ## Concrete data for the examples -/

/-- Helpers that return zero arrays, around a given `sqrt`. -/
def constExternals (sqrt : K → K) : Externals K :=
  { sqrt := sqrt
    GetPMatrix := fun _ _ _ _ _ _ _ => 0
    GetPMatrix_inv := fun _ _ _ _ _ _ _ => 0
    GetInviscidProjFlux := fun _ _ _ _ _ _ => 0
    GetInviscidProjJac := fun _ _ _ _ _ _ _ => 0
    GetRoe_Dissipation := fun _ _ _ _ => 1 }

/-- A two-dimensional configuration (`nDim = 2`, `nVar = 4`, `Gamma = 1.4`, `kappa = 0.5`). -/
def exampleConfig (implicit dynamic_grid muscl : Bool) : Config K :=
  { nDim := 2, nVar := 4, implicit := implicit, dynamic_grid := dynamic_grid, kappa := 0.5,
    MUSCL_Kappa := 1.0, muscl := muscl, tkeNeeded := false, Gamma := 1.4,
    roe_low_dissipation := false }

/-- Buffers that hold the value 7 everywhere. -/
def exampleScratch : Scratch K :=
  { res := { Flux := fun _ => 7, Jacobian_i := fun _ _ => 7, Jacobian_j := fun _ _ => 7 }
    eig := { Lambda := fun _ => 7, Epsilon := fun _ => 7 }
    Conservatives_i := fun _ => 7
    Conservatives_j := fun _ => 7 }

/-- The conservative vector `(rho, rho*u, 0, rho*E)` in two dimensions. -/
def state2D (rho rhoU rhoE : K) : Nat → K :=
  fun k => if k = 0 then rho else if k = 1 then rhoU else if k = 3 then rhoE else 0

/-- A face with normal `(1, 0)`, states `U_i`, `U_j`, grid velocity `(g, 0)` on both
sides, no turbulent kinetic energy and limiters equal to 1. -/
def exampleInputs (U_i U_j : Nat → K) (g : K) : FaceInputs K :=
  { U_i := U_i, U_j := U_j, Normal := fun k => if k = 0 then 1 else 0,
    GridVel_i := fun k => if k = 0 then g else 0, GridVel_j := fun k => if k = 0 then g else 0,
    turb_ke_i := 0, turb_ke_j := 0, Limiter_i := fun _ => 1, Limiter_j := fun _ => 1,
    Dissipation_i := 0, Dissipation_j := 0, Sensor_i := 0, Sensor_j := 0 }

/-- Helpers of `CUpwGeneralRoe_Flow` that return zero arrays, around a given `sqrt`. -/
def constGeneralExternals (sqrt : K → K) : GeneralExternals K :=
  { sqrt := sqrt
    GetPMatrix := fun _ _ _ _ _ _ _ _ _ => 0
    GetPMatrix_inv := fun _ _ _ _ _ _ _ _ => 0
    GetInviscidProjFlux := fun _ _ _ _ _ _ => 0
    GetInviscidProjJac := fun _ _ _ _ _ _ _ _ => 0 }

/-- A two-dimensional configuration of `CUpwGeneralRoe_Flow` on a static grid. -/
def exampleGeneralConfig (implicit : Bool) : GeneralConfig K :=
  { nDim := 2, nVar := 4, implicit := implicit, dynamic_grid := false, kappa := 0.5,
    Delta := 0.1 }

/-- The same state on both sides: fluid at rest, `Pressure = Density = Enthalpy = 1`, with
the secondary variables `S = (dPdrho_e, dPde_rho) = (-1, 0)`. -/
def exampleGeneralInputs : GeneralInputs K :=
  { V_i := fun k => if k = 3 ∨ k = 4 ∨ k = 5 then 1 else 0
    V_j := fun k => if k = 3 ∨ k = 4 ∨ k = 5 then 1 else 0
    S_i := fun k => if k = 0 then -1 else 0
    S_j := fun k => if k = 0 then -1 else 0
    Normal := fun k => if k = 0 then 1 else 0
    GridVel_i := fun _ => 0
    GridVel_j := fun _ => 0 }

/-- Buffers of `CUpwGeneralRoe_Flow` that hold the value 7 everywhere. -/
def exampleGeneralScratch : GeneralScratch K :=
  { res := { Flux := fun _ => 7, Jacobian_i := fun _ _ => 7, Jacobian_j := fun _ _ => 7 }
    Lambda := fun _ => 7
    delta_wave := fun _ => 7 }

/-- The array `{a, b, c, d}` of length four. -/
def sel4 (a b c d : K) (j : Nat) : K :=
  if j = 0 then a else if j = 1 then b else if j = 2 then c else if j = 3 then d else 0

/-- The four by four matrix with rows `r0`, `r1`, `r2`, `r3`. -/
def mat4 (r0 r1 r2 r3 : Nat → K) (i j : Nat) : K :=
  if i = 0 then r0 j else if i = 1 then r1 j else if i = 2 then r2 j else if i = 3 then r3 j
  else 0

/-- A right-eigenvector matrix of the two-dimensional Euler flux Jacobian projected on the
unit normal `n`, with columns for the eigenvalues `vn`, `vn`, `vn + c`, `vn - c`
(`gm1` stands for `Gamma - 1`). -/
def eulerPMatrix2D (gm1 rho : K) (v : Nat → K) (c : K) (n : Nat → K) : Nat → Nat → K :=
  let q := v 0 * v 0 + v 1 * v 1
  let vn := v 0 * n 0 + v 1 * n 1
  mat4
    (sel4 1 0 (0.5 * (rho / c)) (0.5 * (rho / c)))
    (sel4 (v 0) (rho * n 1) (0.5 * (v 0 * (rho / c) + n 0 * rho))
      (0.5 * (v 0 * (rho / c) - n 0 * rho)))
    (sel4 (v 1) (-rho * n 0) (0.5 * (v 1 * (rho / c) + n 1 * rho))
      (0.5 * (v 1 * (rho / c) - n 1 * rho)))
    (sel4 (0.5 * q) (rho * (v 0 * n 1 - v 1 * n 0))
      (0.5 * (0.5 * q * (rho / c) + rho * vn + rho * c / gm1))
      (0.5 * (0.5 * q * (rho / c) - rho * vn + rho * c / gm1)))

/-- The inverse of `eulerPMatrix2D` for a unit normal. -/
def eulerPMatrixInv2D (gm1 rho : K) (v : Nat → K) (c : K) (n : Nat → K) : Nat → Nat → K :=
  let q := v 0 * v 0 + v 1 * v 1
  let vn := v 0 * n 0 + v 1 * n 1
  mat4
    (sel4 (1 - 0.5 * gm1 * q / (c * c)) (gm1 * v 0 / (c * c)) (gm1 * v 1 / (c * c))
      (-gm1 / (c * c)))
    (sel4 ((v 1 * n 0 - v 0 * n 1) / rho) (n 1 / rho) (-n 0 / rho) 0)
    (sel4 ((0.5 * gm1 * q - c * vn) / (rho * c)) ((c * n 0 - gm1 * v 0) / (rho * c))
      ((c * n 1 - gm1 * v 1) / (rho * c)) (gm1 / (rho * c)))
    (sel4 ((0.5 * gm1 * q + c * vn) / (rho * c)) ((-c * n 0 - gm1 * v 0) / (rho * c))
      ((-c * n 1 - gm1 * v 1) / (rho * c)) (gm1 / (rho * c)))

/-- The two-dimensional Euler flux projected on the normal `n`. -/
def eulerProjFlux2D (rho : K) (v : Nat → K) (p H : K) (n : Nat → K) : Nat → K :=
  let vn := v 0 * n 0 + v 1 * n 1
  sel4 (rho * vn) (rho * v 0 * vn + p * n 0) (rho * v 1 * vn + p * n 1) (rho * H * vn)

/-- Helpers built from the two-dimensional Euler eigensystem and flux, around a given `sqrt`
(`gm1` stands for `Gamma - 1`). -/
def eulerExternals2D (sqrt : K → K) (gm1 : K) : Externals K :=
  { sqrt := sqrt
    GetPMatrix := fun rho v _ c n => eulerPMatrix2D gm1 rho v c n
    GetPMatrix_inv := fun rho v _ c n => eulerPMatrixInv2D gm1 rho v c n
    GetInviscidProjFlux := fun rho v p H n => eulerProjFlux2D rho v p H n
    GetInviscidProjJac := fun _ _ _ _ _ _ _ => 0
    GetRoe_Dissipation := fun _ _ _ _ => 1 }

/-- An ideal gas with `Gamma = 1.4` moving at velocity `(1/2, 0)` with `Pressure = 5/7`,
`Density = 1` and total enthalpy `21/8` (sound speed 1), the same on both sides, with the
secondary variables `S = (dPdrho_e, dPde_rho) = (5/7, 2/5)`; normal `(1, 0)`, grid at rest. -/
def flowGeneralInputs : GeneralInputs K :=
  { V_i := fun k => if k = 1 then 1 / 2 else if k = 3 then 5 / 7 else if k = 4 then 1
      else if k = 5 then 21 / 8 else 0
    V_j := fun k => if k = 1 then 1 / 2 else if k = 3 then 5 / 7 else if k = 4 then 1
      else if k = 5 then 21 / 8 else 0
    S_i := fun k => if k = 0 then 5 / 7 else if k = 1 then 2 / 5 else 0
    S_j := fun k => if k = 0 then 5 / 7 else if k = 1 then 2 / 5 else 0
    Normal := fun k => if k = 0 then 1 else 0
    GridVel_i := fun _ => 0
    GridVel_j := fun _ => 0 }

/-- Helpers of `CUpwTurkel_Flow` for the examples: matrices filled with ones, the
two-dimensional Euler flux, zero flux Jacobians, around a given `sqrt`. -/
def exampleTurkelExternals (sqrt : K → K) : TurkelExternals K :=
  { sqrt := sqrt
    GetPrecondJacobian := fun _ _ _ _ _ _ _ _ _ => 1
    GetinvRinvPe := fun _ _ _ _ _ _ _ => 1
    GetRMatrix := fun _ _ _ _ _ _ => 1
    GetInviscidProjFlux := fun rho v p H n => eulerProjFlux2D rho v p H n
    GetInviscidProjJac := fun _ _ _ _ _ _ _ => 0 }

/-- A two-dimensional configuration of `CUpwTurkel_Flow`. -/
def exampleTurkelConfig (implicit dynamic_grid : Bool) : TurkelConfig K :=
  { nDim := 2, nVar := 4, implicit := implicit, dynamic_grid := dynamic_grid, Gamma := 1.4,
    Beta_min := 0.01, Beta_max := 1 }

/-- The same primitive state on both sides of a face of normal `(a, 0)`: velocity `(1/2, 0)`,
`Pressure = 5/7`, `Density = 1`, total enthalpy `21/8`; grid velocity `(g, 0)` on both sides. -/
def exampleTurkelInputs (a g : K) : TurkelInputs K :=
  { V_i := fun k => if k = 1 then 1 / 2 else if k = 3 then 5 / 7 else if k = 4 then 1
      else if k = 5 then 21 / 8 else 0
    V_j := fun k => if k = 1 then 1 / 2 else if k = 3 then 5 / 7 else if k = 4 then 1
      else if k = 5 then 21 / 8 else 0
    Normal := fun k => if k = 0 then a else 0
    GridVel_i := fun k => if k = 0 then g else 0
    GridVel_j := fun k => if k = 0 then g else 0
    turb_ke_i := 0
    turb_ke_j := 0 }

/-- Buffers of `CUpwTurkel_Flow` that hold the value 7 everywhere. -/
def exampleResidual : ResidualType K :=
  { Flux := fun _ => 7, Jacobian_i := fun _ _ => 7, Jacobian_j := fun _ _ => 7 }

/-- Helpers of `CUpwGeneralRoe_Flow` for the examples: eigenvector matrices filled with ones,
the two-dimensional Euler flux, zero flux Jacobians, around a given `sqrt`. -/
def fluxGeneralExternals (sqrt : K → K) : GeneralExternals K :=
  { sqrt := sqrt
    GetPMatrix := fun _ _ _ _ _ _ _ _ _ => 1
    GetPMatrix_inv := fun _ _ _ _ _ _ _ _ => 1
    GetInviscidProjFlux := fun rho v p H n => eulerProjFlux2D rho v p H n
    GetInviscidProjJac := fun _ _ _ _ _ _ _ _ => 0 }

/-- A two-dimensional configuration of `CUpwGeneralRoe_Flow` on a static grid with
`Roe_Kappa = 0.75`. -/
def kappaGeneralConfig (implicit : Bool) : GeneralConfig K :=
  { nDim := 2, nVar := 4, implicit := implicit, dynamic_grid := false, kappa := 0.75,
    Delta := 0.1 }

/-- The two-dimensional example configuration with the turbulent kinetic energy coupled
(`tkeNeeded = true`), explicit, on a static grid. -/
def exampleTkeConfig : Config K :=
  { nDim := 2, nVar := 4, implicit := false, dynamic_grid := false, kappa := 0.5,
    MUSCL_Kappa := 1.0, muscl := false, tkeNeeded := true, Gamma := 1.4,
    roe_low_dissipation := false }

/-- Two states that differ only in their turbulent kinetic energy: density 1, velocity
`(2, 0)` and pressure `5/7` on both sides, `turb_ke_i = 0` and `turb_ke_j = 1`, hence total
energies `53/14` and `67/14`; normal `(1, 0)`, grid at rest. -/
def tkeJumpInputs : FaceInputs K :=
  { U_i := state2D 1 2 (53 / 14), U_j := state2D 1 2 (67 / 14),
    Normal := fun k => if k = 0 then 1 else 0,
    GridVel_i := fun _ => 0, GridVel_j := fun _ => 0,
    turb_ke_i := 0, turb_ke_j := 1, Limiter_i := fun _ => 1, Limiter_j := fun _ => 1,
    Dissipation_i := 0, Dissipation_j := 0, Sensor_i := 0, Sensor_j := 0 }

/-- The members seen by `FinalizeResidual` for `tkeJumpInputs`, with the two-dimensional Euler
eigensystem as helpers. -/
def tkeJumpState (sqrt : K → K) : RoeState K :=
  roeState (eulerExternals2D sqrt 0.4) exampleTkeConfig tkeJumpInputs exampleScratch

/-- Two supersonic states without turbulent kinetic energy: densities 1 and 1/4, velocity
`(2, 0)` and unit sound speed on both sides (pressures `5/7` and `5/28`); normal `(1, 0)`,
grid at rest. -/
def supersonicInputs : FaceInputs K :=
  exampleInputs (state2D 1 2 (53 / 14)) (state2D (1 / 4) (1 / 2) (53 / 56)) 0

/-- The members seen by `FinalizeResidual` for `supersonicInputs`, with the two-dimensional
Euler eigensystem as helpers. -/
def supersonicState (sqrt : K → K) : RoeState K :=
  roeState (eulerExternals2D sqrt 0.4) (exampleConfig false false false) supersonicInputs
    exampleScratch

/-! ## The eigenvalue buffers of the base class -/

/-- The arrays `Lambda` and `Epsilon` of `CUpwRoeBase_Flow::ComputeResidual` after the
correction loop, for a positive `RoeSoundSpeed2`; `roeState` keeps the first of them. -/
def roeEigen (ext : Externals K) (c : Config K) (inp : FaceInputs K) (old : Scratch K) :
    EigenBuffers K :=
  let n := UnitNormal ext c.nDim inp.Normal
  let pi := extractPrimitive ext c inp.U_i inp.turb_ke_i
  let pj := extractPrimitive ext c inp.U_j inp.turb_ke_j
  let roe := roeAverage ext c pi pj
  let RoeSoundSpeed := ext.sqrt roe.RoeSoundSpeed2
  let ProjVelocity := adjustedProjVel c inp n roe.RoeVelocity
  let ProjVelocity_i := adjustedProjVel c inp n pi.Velocity
  let ProjVelocity_j := adjustedProjVel c inp n pj.Velocity
  correctEigenvalues c.nPrimVarTot
    (rawEigenvalues c.nDim c.nVar c.tkeNeeded ProjVelocity ProjVelocity_i ProjVelocity_j
      RoeSoundSpeed pi.SoundSpeed pj.SoundSpeed old.eig)

/-! ## The wave amplitudes of the two low-Mach schemes -/

/-- The array `delta_wave` of `CUpwL2Roe_Flow::FinalizeResidual`. -/
def CUpwL2Roe_Flow.delta_wave (ext : Externals K) (c : Config K) (s : RoeState K) : Nat → K :=
  lowMachDeltaWave c s (stateZeta ext c s) (fun a => a * stateZeta ext c s)

/-- The array `delta_wave` of `CUpwLMRoe_Flow::FinalizeResidual`. -/
def CUpwLMRoe_Flow.delta_wave (ext : Externals K) (c : Config K) (s : RoeState K) : Nat → K :=
  lowMachDeltaWave c s (stateZeta ext c s) (fun a => a)

/-- A face with the oblique unit normal `(3/5, 4/5)` between a gas at rest (density 1) and
a gas of density 1/4 moving with velocity `(1/2, 0)`, both at pressure `5/7`; the Mach
numbers are 0 and 1/4. -/
def obliqueInputs : FaceInputs K :=
  { exampleInputs (state2D 1 0 (25 / 14)) (state2D (1 / 4) (1 / 8) (407 / 224)) 0 with
    Normal := fun k => if k = 0 then 3 / 5 else if k = 1 then 4 / 5 else 0 }

/-- The members seen by `FinalizeResidual` for `obliqueInputs`. -/
def obliqueState (sqrt : K → K) : RoeState K :=
  roeState (constExternals sqrt) (exampleConfig false false false) obliqueInputs exampleScratch

/-- The configuration `exampleTkeConfig` with the implicit time integration. -/
def implicitTkeConfig : Config K :=
  { exampleTkeConfig with implicit := true }

/-- The central flux, its Jacobians and the dissipation loop of the branch `else` (implicit)
of `CUpwGeneralRoe_Flow::ComputeResidual` (roe.cpp:1180-1208): the residual before the block
"Jacobian contributions due to grid motion". -/
def generalImplicitFluxStep (ext : GeneralExternals K) (c : GeneralConfig K)
    (inp : GeneralInputs K) (s : GeneralState K) (old : GeneralScratch K) : ResidualType K :=
  let invP := ext.GetPMatrix_inv s.roe.RoeDensity s.roe.RoeVelocity s.RoeSoundSpeed
    s.roe.RoeChi s.roe.RoeKappa s.UnitNormal
  let r0 : ResidualType K :=
    { old.res with
      Jacobian_i := ext.GetInviscidProjJac s.pi.Velocity s.pi.Enthalpy s.pi.Chi s.pi.Kappa
        inp.Normal c.kappa
      Jacobian_j := ext.GetInviscidProjJac s.pj.Velocity s.pj.Enthalpy s.pj.Chi s.pj.Kappa
        inp.Normal c.kappa }
  forLoop c.nVar (fun iVar r =>
    forLoop c.nVar (fun jVar r =>
      let T := Proj_ModJac_Tensor_ij c.nVar s.P_Tensor s.Lambda invP iVar jVar
      let r2 := r.setFlux iVar
        (r.Flux iVar - (1.0 - c.kappa) * T * (s.U_j jVar - s.U_i jVar) * s.Area)
      let r3 := r2.setJac_i iVar jVar (r2.Jacobian_i iVar jVar + (1.0 - c.kappa) * T * s.Area)
      r3.setJac_j iVar jVar (r3.Jacobian_j iVar jVar - (1.0 - c.kappa) * T * s.Area))
      (r.setFlux iVar (c.kappa * (s.ProjFlux_i iVar + s.ProjFlux_j iVar)))) r0

/-- The arrays `Lambda` and `Epsilon` of `CUpwRoeBase_Flow::ComputeResidual` before the
correction loop ("Flow eigenvalues" and "Harten and Hyman (1983) entropy correction"). -/
def roeRawEigen (ext : Externals K) (c : Config K) (inp : FaceInputs K) (old : Scratch K) :
    EigenBuffers K :=
  let n := UnitNormal ext c.nDim inp.Normal
  let pi := extractPrimitive ext c inp.U_i inp.turb_ke_i
  let pj := extractPrimitive ext c inp.U_j inp.turb_ke_j
  let roe := roeAverage ext c pi pj
  let RoeSoundSpeed := ext.sqrt roe.RoeSoundSpeed2
  let ProjVelocity := adjustedProjVel c inp n roe.RoeVelocity
  let ProjVelocity_i := adjustedProjVel c inp n pi.Velocity
  let ProjVelocity_j := adjustedProjVel c inp n pj.Velocity
  rawEigenvalues c.nDim c.nVar c.tkeNeeded ProjVelocity ProjVelocity_i ProjVelocity_j
    RoeSoundSpeed pi.SoundSpeed pj.SoundSpeed old.eig

/-! ## Three-dimensional data for the examples -/

/-- The array `{a, b, c, d, e}` of length five. -/
def sel5 (a b c d e : K) (j : Nat) : K :=
  if j = 0 then a else if j = 1 then b else if j = 2 then c else if j = 3 then d
  else if j = 4 then e else 0

/-- The five by five matrix with rows `r0`, ..., `r4`. -/
def mat5 (r0 r1 r2 r3 r4 : Nat → K) (i j : Nat) : K :=
  if i = 0 then r0 j else if i = 1 then r1 j else if i = 2 then r2 j else if i = 3 then r3 j
  else if i = 4 then r4 j else 0

/-- The conservative vector `(rho, rho*u, rho*v, rho*w, rho*E)` in three dimensions. -/
def state3D (rho rhoU rhoV rhoW rhoE : K) : Nat → K :=
  sel5 rho rhoU rhoV rhoW rhoE

/-- A right-eigenvector matrix of the three-dimensional Euler flux Jacobian projected on the
unit normal `n`, with columns for the eigenvalues `vn`, `vn`, `vn`, `vn + c`, `vn - c`
(`gm1` stands for `Gamma - 1`). -/
def eulerPMatrix3D (gm1 rho : K) (v : Nat → K) (c : K) (n : Nat → K) : Nat → Nat → K :=
  let q := v 0 * v 0 + v 1 * v 1 + v 2 * v 2
  let vn := v 0 * n 0 + v 1 * n 1 + v 2 * n 2
  mat5
    (sel5 (n 0) (n 1) (n 2) (0.5 * (rho / c)) (0.5 * (rho / c)))
    (sel5 (v 0 * n 0) (v 0 * n 1 - rho * n 2) (v 0 * n 2 + rho * n 1)
      (0.5 * (v 0 * (rho / c) + rho * n 0)) (0.5 * (v 0 * (rho / c) - rho * n 0)))
    (sel5 (v 1 * n 0 + rho * n 2) (v 1 * n 1) (v 1 * n 2 - rho * n 0)
      (0.5 * (v 1 * (rho / c) + rho * n 1)) (0.5 * (v 1 * (rho / c) - rho * n 1)))
    (sel5 (v 2 * n 0 - rho * n 1) (v 2 * n 1 + rho * n 0) (v 2 * n 2)
      (0.5 * (v 2 * (rho / c) + rho * n 2)) (0.5 * (v 2 * (rho / c) - rho * n 2)))
    (sel5 (0.5 * q * n 0 + rho * (v 1 * n 2 - v 2 * n 1))
      (0.5 * q * n 1 + rho * (v 2 * n 0 - v 0 * n 2))
      (0.5 * q * n 2 + rho * (v 0 * n 1 - v 1 * n 0))
      (0.5 * (0.5 * q * (rho / c) + rho * vn + rho * c / gm1))
      (0.5 * (0.5 * q * (rho / c) - rho * vn + rho * c / gm1)))

/-- The inverse of `eulerPMatrix3D` for a unit normal. -/
def eulerPMatrixInv3D (gm1 rho : K) (v : Nat → K) (c : K) (n : Nat → K) : Nat → Nat → K :=
  let q := v 0 * v 0 + v 1 * v 1 + v 2 * v 2
  let vn := v 0 * n 0 + v 1 * n 1 + v 2 * n 2
  mat5
    (sel5 (n 0 * (1 - 0.5 * gm1 * q / (c * c)) + (n 1 * v 2 - n 2 * v 1) / rho)
      (n 0 * gm1 * v 0 / (c * c))
      (n 0 * gm1 * v 1 / (c * c) + n 2 / rho)
      (n 0 * gm1 * v 2 / (c * c) - n 1 / rho)
      (-n 0 * gm1 / (c * c)))
    (sel5 (n 1 * (1 - 0.5 * gm1 * q / (c * c)) + (n 2 * v 0 - n 0 * v 2) / rho)
      (n 1 * gm1 * v 0 / (c * c) - n 2 / rho)
      (n 1 * gm1 * v 1 / (c * c))
      (n 1 * gm1 * v 2 / (c * c) + n 0 / rho)
      (-n 1 * gm1 / (c * c)))
    (sel5 (n 2 * (1 - 0.5 * gm1 * q / (c * c)) + (n 0 * v 1 - n 1 * v 0) / rho)
      (n 2 * gm1 * v 0 / (c * c) + n 1 / rho)
      (n 2 * gm1 * v 1 / (c * c) - n 0 / rho)
      (n 2 * gm1 * v 2 / (c * c))
      (-n 2 * gm1 / (c * c)))
    (sel5 ((0.5 * gm1 * q - c * vn) / (rho * c)) ((c * n 0 - gm1 * v 0) / (rho * c))
      ((c * n 1 - gm1 * v 1) / (rho * c)) ((c * n 2 - gm1 * v 2) / (rho * c))
      (gm1 / (rho * c)))
    (sel5 ((0.5 * gm1 * q + c * vn) / (rho * c)) ((-c * n 0 - gm1 * v 0) / (rho * c))
      ((-c * n 1 - gm1 * v 1) / (rho * c)) ((-c * n 2 - gm1 * v 2) / (rho * c))
      (gm1 / (rho * c)))

/-- Helpers built from the three-dimensional Euler eigensystem, around a given `sqrt`
(`gm1` stands for `Gamma - 1`); the flux helpers return zero arrays. -/
def eulerExternals3D (sqrt : K → K) (gm1 : K) : Externals K :=
  { sqrt := sqrt
    GetPMatrix := fun rho v _ c n => eulerPMatrix3D gm1 rho v c n
    GetPMatrix_inv := fun rho v _ c n => eulerPMatrixInv3D gm1 rho v c n
    GetInviscidProjFlux := fun _ _ _ _ _ _ => 0
    GetInviscidProjJac := fun _ _ _ _ _ _ _ => 0
    GetRoe_Dissipation := fun _ _ _ _ => 1 }

/-- A three-dimensional configuration (`nDim = 3`, `nVar = 5`, `Gamma = 1.4`, `kappa = 0.5`),
explicit, static grid, no turbulence coupling, low-dissipation mode off. -/
def exampleConfig3D : Config K :=
  { nDim := 3, nVar := 5, implicit := false, dynamic_grid := false, kappa := 0.5,
    MUSCL_Kappa := 1.0, muscl := false, tkeNeeded := false, Gamma := 1.4,
    roe_low_dissipation := false }

/-- A face with normal `(0, 1, 0)` between two supersonic states that differ only in the
velocity component `w`: density 1 and pressure `5/7` (sound speed 1) on both sides,
velocities `(0, 2, 5/2)` and `(0, 2, -5/2)`, total energy `387/56` on both sides; no
turbulent kinetic energy, grid at rest. -/
def tangentialJumpInputs : FaceInputs K :=
  { U_i := state3D 1 0 2 (5 / 2) (387 / 56), U_j := state3D 1 0 2 (-(5 / 2)) (387 / 56),
    Normal := fun k => if k = 1 then 1 else 0,
    GridVel_i := fun _ => 0, GridVel_j := fun _ => 0,
    turb_ke_i := 0, turb_ke_j := 0, Limiter_i := fun _ => 1, Limiter_j := fun _ => 1,
    Dissipation_i := 0, Dissipation_j := 0, Sensor_i := 0, Sensor_j := 0 }

/-- The members seen by `FinalizeResidual` for `tangentialJumpInputs`, with the
three-dimensional Euler eigensystem as helpers. -/
def tangentialJumpState (sqrt : K → K) : RoeState K :=
  roeState (eulerExternals3D sqrt 0.4) exampleConfig3D tangentialJumpInputs exampleScratch

/-! ## The right eigenvectors behind the wave amplitudes of the low-Mach schemes -/

/-- Modelled from the spec: `GetPMatrix` is defined outside roe.cpp. The spec describes its
result as the right-eigenvector matrix of the flux Jacobian, "built from closed-form
expressions parameterized by interface density, velocity, sound speed, enthalpy, turbulent
kinetic energy". The contract fixes that closed form for the two-dimensional equations
without turbulent kinetic energy: at the state `s` the four by four block of `P_Tensor` is
`eulerPMatrix2D`, whose columns are the right eigenvectors for the entropy wave, the shear wave
and the two acoustic waves at the Roe state. It says nothing about `delta_wave`. -/
def EulerPMatrixContract (c : Config K) (s : RoeState K) : Prop :=
  ∀ i k, i < 4 → k < 4 →
    s.P_Tensor i k
      = eulerPMatrix2D c.Gamma_Minus_One s.roe.RoeDensity s.roe.RoeVelocity s.RoeSoundSpeed
          s.UnitNormal i k

/-- The flux Jacobian of the two-dimensional Euler equations for an ideal gas, projected on the
normal `n`: the derivative of `eulerProjFlux2D` with respect to the conservative variables
`(rho, rho*u, rho*v, rho*E)`, written with the velocity `v`, the total enthalpy `H` and
`gm1 = Gamma - 1`. It serves to state that the columns of `eulerPMatrix2D` are right
eigenvectors. -/
def eulerProjJac2D (gm1 : K) (v : Nat → K) (H : K) (n : Nat → K) : Nat → Nat → K :=
  let q := v 0 * v 0 + v 1 * v 1
  let vn := v 0 * n 0 + v 1 * n 1
  mat4
    (sel4 0 (n 0) (n 1) 0)
    (sel4 (0.5 * gm1 * q * n 0 - v 0 * vn) (vn + v 0 * n 0 - gm1 * v 0 * n 0)
      (v 0 * n 1 - gm1 * v 1 * n 0) (gm1 * n 0))
    (sel4 (0.5 * gm1 * q * n 1 - v 1 * vn) (v 1 * n 0 - gm1 * v 0 * n 1)
      (vn + v 1 * n 1 - gm1 * v 1 * n 1) (gm1 * n 1))
    (sel4 ((0.5 * gm1 * q - H) * vn) (H * n 0 - gm1 * v 0 * vn) (H * n 1 - gm1 * v 1 * vn)
      ((1 + gm1) * vn))

/-! ## Lemmas on loops and array updates -/

section LoopLemmas

theorem forLoop_zero {σ : Type} (body : Nat → σ → σ) (s : σ) : forLoop 0 body s = s := rfl

theorem forLoop_succ {σ : Type} (n : Nat) (body : Nat → σ → σ) (s : σ) :
    forLoop (n + 1) body s = body n (forLoop n body s) := rfl

/-- A loop whose body commutes with a projection can be followed on the projection. -/
theorem forLoop_proj {σ τ : Type} (proj : σ → τ) (body : Nat → σ → σ) (body2 : Nat → τ → τ)
    (h : ∀ i s, proj (body i s) = body2 i (proj s)) (n : Nat) (s : σ) :
    proj (forLoop n body s) = forLoop n body2 (proj s) := by
  induction n with
  | zero => rfl
  | succ n ih => rw [forLoop_succ, forLoop_succ, h, ih]

/-- A loop whose body leaves a projection alone leaves it alone. -/
theorem forLoop_proj_const {σ τ : Type} (proj : σ → τ) (body : Nat → σ → σ)
    (h : ∀ i s, proj (body i s) = proj s) (n : Nat) (s : σ) :
    proj (forLoop n body s) = proj s := by
  induction n with
  | zero => rfl
  | succ n ih => rw [forLoop_succ, h, ih]

theorem sumLoop_eq_sum (n : Nat) (f : Nat → K) :
    sumLoop n f = ∑ i in Finset.range n, f i := by
  unfold sumLoop
  induction n with
  | zero => simp [forLoop]
  | succ n ih => rw [forLoop_succ, ih, Finset.sum_range_succ]

/-- The loop `for j < n: acc -= t j`. -/
theorem forLoop_sub (n : Nat) (t : Nat → K) (x : K) :
    forLoop n (fun j acc => acc - t j) x = x - ∑ j in Finset.range n, t j := by
  induction n with
  | zero => simp [forLoop]
  | succ n ih => rw [forLoop_succ, ih, Finset.sum_range_succ]; ring

/-- The loop `for j < n: acc += t j`. -/
theorem forLoop_add (n : Nat) (t : Nat → K) (x : K) :
    forLoop n (fun j acc => acc + t j) x = x + ∑ j in Finset.range n, t j := by
  induction n with
  | zero => simp [forLoop]
  | succ n ih => rw [forLoop_succ, ih, Finset.sum_range_succ]; ring

theorem setV_same (a : Nat → K) (i : Nat) (v : K) : setV a i v i = v := by
  simp [setV]

theorem setV_ne (a : Nat → K) (i k : Nat) (v : K) (h : k ≠ i) : setV a i v k = a k := by
  simp [setV, h]

/-- A loop that rewrites entry `i` at step `i` from its own previous value. -/
theorem forLoop_setV_apply (n : Nat) (g : Nat → K → K) (a : Nat → K) (k : Nat) :
    forLoop n (fun i a => setV a i (g i (a i))) a k = if k < n then g k (a k) else a k := by
  induction n with
  | zero => simp [forLoop]
  | succ n ih =>
    rw [forLoop_succ]
    by_cases hk : k = n
    · subst hk
      have h0 : forLoop k (fun i a => setV a i (g i (a i))) a k = a k := by
        rw [ih]; simp
      simp [setV, h0]
    · rw [setV_ne _ _ _ _ hk, ih]
      have : (k < n + 1) ↔ (k < n) := by omega
      simp [this]

/-- An inner loop that keeps rewriting the single entry `i`. -/
theorem forLoop_setV_acc (n i : Nat) (h : Nat → K → K) (a : Nat → K) :
    forLoop n (fun j a => setV a i (h j (a i))) a = setV a i (forLoop n h (a i)) := by
  induction n with
  | zero => funext k; by_cases hk : k = i <;> simp [forLoop, setV, hk]
  | succ n ih =>
    rw [forLoop_succ, forLoop_succ, ih]
    funext k
    by_cases hk : k = i <;> simp [setV, hk]

/-- An inner loop over `j < n` that rewrites entry `(i, j)` from its own previous value. -/
theorem forLoop_setM_row (n i : Nat) (g : Nat → K → K) (M : Nat → Nat → K) (a b : Nat) :
    forLoop n (fun j M => setM M i j (g j (M i j))) M a b
      = if a = i ∧ b < n then g b (M i b) else M a b := by
  induction n with
  | zero => simp [forLoop]
  | succ n ih =>
    rw [forLoop_succ]
    by_cases hab : a = i ∧ b = n
    · obtain ⟨ha, hb⟩ := hab
      subst ha; subst hb
      have h0 : forLoop b (fun j M => setM M a j (g j (M a j))) M a b = M a b := by
        rw [ih]; simp
      simp [setM, h0]
    · have hs : setM (forLoop n (fun j M => setM M i j (g j (M i j))) M) i n
          (g n (forLoop n (fun j M => setM M i j (g j (M i j))) M i n)) a b
          = forLoop n (fun j M => setM M i j (g j (M i j))) M a b := by
        simp [setM, hab]
      rw [hs, ih]
      have : (a = i ∧ b < n + 1) ↔ (a = i ∧ b < n) := by
        constructor
        · rintro ⟨h1, h2⟩
          exact ⟨h1, by
            rcases Nat.lt_succ_iff_lt_or_eq.mp h2 with h | h
            · exact h
            · exact absurd ⟨h1, h⟩ hab⟩
        · rintro ⟨h1, h2⟩
          exact ⟨h1, by omega⟩
      simp [this]

/-- A double loop that rewrites entry `(i, j)` at step `(i, j)` from its own previous value. -/
theorem forLoop_setM_apply (m n : Nat) (g : Nat → Nat → K → K) (M : Nat → Nat → K) (a b : Nat) :
    forLoop m (fun i M => forLoop n (fun j M => setM M i j (g i j (M i j))) M) M a b
      = if a < m ∧ b < n then g a b (M a b) else M a b := by
  induction m with
  | zero => simp [forLoop]
  | succ m ih =>
    rw [forLoop_succ, forLoop_setM_row n m (g m)]
    by_cases ha : a = m
    · subst ha
      by_cases hb : b < n
      · have h0 : forLoop a (fun i M => forLoop n (fun j M => setM M i j (g i j (M i j))) M) M a b
            = M a b := by rw [ih]; simp
        simp [hb, h0]
      · simp [hb, ih]
    · have : (a < m + 1) ↔ (a < m) := by omega
      simp [ha, ih, this]

end LoopLemmas

/-! ## The degenerate exit of `CUpwRoeBase_Flow::ComputeResidual` -/

section Degenerate

theorem clearResidual_Flux (c : Config K) (res : ResidualType K) (k : Nat) :
    (clearResidual c res).Flux k = if k < c.nVar then 0 else res.Flux k := by
  unfold clearResidual
  rw [forLoop_proj ResidualType.Flux _ (fun iVar F => setV F iVar ((fun _ _ => (0.0 : K)) iVar (F iVar)))]
  · exact (forLoop_setV_apply c.nVar (fun _ _ => (0.0 : K)) res.Flux k).trans (by norm_num)
  · intro i r
    by_cases hc : c.implicit = true
    · simp only [hc, if_true]
      rw [forLoop_proj_const ResidualType.Flux]
      · rfl
      · intro j r2; rfl
    · simp only [hc]; rfl

theorem clearResidual_Jacobian_i (c : Config K) (res : ResidualType K) (hc : c.implicit = true)
    (a b : Nat) :
    (clearResidual c res).Jacobian_i a b
      = if a < c.nVar ∧ b < c.nVar then 0 else res.Jacobian_i a b := by
  unfold clearResidual
  rw [forLoop_proj ResidualType.Jacobian_i _
    (fun iVar M => forLoop c.nVar (fun jVar M => setM M iVar jVar ((fun _ _ _ => (0.0 : K)) iVar jVar (M iVar jVar))) M)]
  · exact (forLoop_setM_apply c.nVar c.nVar (fun _ _ _ => (0.0 : K)) res.Jacobian_i a b).trans
      (by norm_num)
  · intro i r
    simp only [hc, if_true]
    rw [forLoop_proj ResidualType.Jacobian_i _
      (fun jVar M => setM M i jVar ((fun _ _ _ => (0.0 : K)) i jVar (M i jVar)))]
    · rfl
    · intro j r2; rfl

theorem clearResidual_Jacobian_j (c : Config K) (res : ResidualType K) (hc : c.implicit = true)
    (a b : Nat) :
    (clearResidual c res).Jacobian_j a b
      = if a < c.nVar ∧ b < c.nVar then 0 else res.Jacobian_j a b := by
  unfold clearResidual
  rw [forLoop_proj ResidualType.Jacobian_j _
    (fun iVar M => forLoop c.nVar (fun jVar M => setM M iVar jVar ((fun _ _ _ => (0.0 : K)) iVar jVar (M iVar jVar))) M)]
  · exact (forLoop_setM_apply c.nVar c.nVar (fun _ _ _ => (0.0 : K)) res.Jacobian_j a b).trans
      (by norm_num)
  · intro i r
    simp only [hc, if_true]
    rw [forLoop_proj ResidualType.Jacobian_j _
      (fun jVar M => setM M i jVar ((fun _ _ _ => (0.0 : K)) i jVar (M i jVar)))]
    · rfl
    · intro j r2; rfl

end Degenerate

/-! ## Claims on the degenerate exit, the entropy correction and the clamps -/

/-- C1. In `CUpwRoeBase_Flow::ComputeResidual`, when `RoeSoundSpeed2 <= 0` every entry
`Flux[iVar]`, `iVar < nVar`, of the result is 0 and, when `implicit` holds, every entry
`Jacobian_i[iVar][jVar]`, `Jacobian_j[iVar][jVar]`, `iVar, jVar < nVar`, is 0, whatever the
buffers held on entry; the result is that of the clearing loop alone, so it does not depend
on `FinalizeResidual`, on the grid velocities or on the limiters. -/
theorem degenerate_exit_clears_flux_and_jacobians (ext : Externals K) (c : Config K)
    (FinalizeResidual : RoeState K → ResidualType K → ResidualType K)
    (inp : FaceInputs K) (old : Scratch K) (iVar jVar : Nat)
    (hi : iVar < c.nVar) (hj : jVar < c.nVar)
    (h : (roeAverage ext c (extractPrimitive ext c inp.U_i inp.turb_ke_i)
      (extractPrimitive ext c inp.U_j inp.turb_ke_j)).RoeSoundSpeed2 ≤ 0) :
    (ComputeResidual ext c FinalizeResidual inp old).Flux iVar = 0 ∧
    (c.implicit = true →
      (ComputeResidual ext c FinalizeResidual inp old).Jacobian_i iVar jVar = 0 ∧
      (ComputeResidual ext c FinalizeResidual inp old).Jacobian_j iVar jVar = 0) ∧
    ComputeResidual ext c FinalizeResidual inp old = clearResidual c old.res := by
  have h0 : (roeAverage ext c (extractPrimitive ext c inp.U_i inp.turb_ke_i)
      (extractPrimitive ext c inp.U_j inp.turb_ke_j)).RoeSoundSpeed2 ≤ 0.0 := by
    norm_num; exact h
  have hE : ComputeResidual ext c FinalizeResidual inp old = clearResidual c old.res := by
    unfold ComputeResidual
    simp only [h0, if_true]
  refine ⟨?_, ?_, hE⟩
  · rw [hE, clearResidual_Flux]; simp [hi]
  · intro hc
    rw [hE, clearResidual_Jacobian_i c _ hc, clearResidual_Jacobian_j c _ hc]
    simp [hi, hj]

/-- C1, at a concrete input: `U_i = U_j = (1, 0, 0, -1)` (negative pressure), implicit scheme,
dynamic grid and MUSCL on, buffers holding 7, over the reals with the real square root. -/
theorem degenerate_exit_clears_flux_and_jacobians_witness :
    (roeAverage (constExternals Real.sqrt) (exampleConfig true true true)
      (extractPrimitive (constExternals Real.sqrt) (exampleConfig true true true)
        (exampleInputs (state2D 1 0 (-1)) (state2D 1 0 (-1)) (3 : ℝ)).U_i 0)
      (extractPrimitive (constExternals Real.sqrt) (exampleConfig true true true)
        (exampleInputs (state2D 1 0 (-1)) (state2D 1 0 (-1)) (3 : ℝ)).U_j 0)).RoeSoundSpeed2 ≤ 0 ∧
    (ComputeResidual (constExternals Real.sqrt) (exampleConfig true true true)
      (CUpwRoe_Flow.FinalizeResidual (constExternals Real.sqrt) (exampleConfig true true true))
      (exampleInputs (state2D 1 0 (-1)) (state2D 1 0 (-1)) (3 : ℝ)) exampleScratch).Flux 1 = 0 ∧
    (ComputeResidual (constExternals Real.sqrt) (exampleConfig true true true)
      (CUpwRoe_Flow.FinalizeResidual (constExternals Real.sqrt) (exampleConfig true true true))
      (exampleInputs (state2D 1 0 (-1)) (state2D 1 0 (-1)) (3 : ℝ)) exampleScratch).Jacobian_i 1 2 = 0 := by
  have h : (roeAverage (constExternals Real.sqrt) (exampleConfig true true true)
      (extractPrimitive (constExternals Real.sqrt) (exampleConfig true true true)
        (exampleInputs (state2D 1 0 (-1)) (state2D 1 0 (-1)) (3 : ℝ)).U_i
        (exampleInputs (state2D 1 0 (-1)) (state2D 1 0 (-1)) (3 : ℝ)).turb_ke_i)
      (extractPrimitive (constExternals Real.sqrt) (exampleConfig true true true)
        (exampleInputs (state2D 1 0 (-1)) (state2D 1 0 (-1)) (3 : ℝ)).U_j
        (exampleInputs (state2D 1 0 (-1)) (state2D 1 0 (-1)) (3 : ℝ)).turb_ke_j)).RoeSoundSpeed2 ≤ 0 := by
    simp [roeAverage, extractPrimitive, exampleInputs, exampleConfig, constExternals, state2D,
      Config.Gamma_Minus_One, sumLoop, forLoop]
    norm_num
  have t := degenerate_exit_clears_flux_and_jacobians (constExternals Real.sqrt)
    (exampleConfig true true true)
    (CUpwRoe_Flow.FinalizeResidual (constExternals Real.sqrt) (exampleConfig true true true))
    (exampleInputs (state2D 1 0 (-1)) (state2D 1 0 (-1)) (3 : ℝ)) exampleScratch 1 2
    (by simp [exampleConfig]) (by simp [exampleConfig]) h
  exact ⟨h, t.1, (t.2.1 rfl).1⟩

section EntropyFix

theorem HartenHymanEpsilon_nonneg (lambda l r : K) : 0 ≤ HartenHymanEpsilon lambda l r := by
  unfold HartenHymanEpsilon
  have h : (0 : K) ≤ max 0.0 (max (lambda - l) (r - lambda)) :=
    le_trans (by norm_num) (le_max_left _ _)
  have h4 : (0 : K) ≤ 4.0 := by norm_num
  exact mul_nonneg h4 h

theorem abs_le_HartenHymanFix (lambda epsilon : K) : |lambda| ≤ HartenHymanFix lambda epsilon := by
  unfold HartenHymanFix
  split_ifs with h
  · have he : 0 < epsilon := lt_of_le_of_lt (abs_nonneg lambda) h
    have hsq : lambda * lambda = |lambda| * |lambda| := (abs_mul_abs_self lambda).symm
    have gen : ∀ a : K, lambda * lambda = a * a →
        0.5 * (lambda * lambda / epsilon + epsilon) - a = (a - epsilon) ^ 2 / (2 * epsilon) := by
      intro a ha
      rw [ha]
      field_simp
      ring
    have key := gen |lambda| hsq
    have hpos : 0 ≤ (|lambda| - epsilon) ^ 2 / (2 * epsilon) :=
      div_nonneg (sq_nonneg _) (by linarith)
    linarith
  · exact le_refl _

theorem correctEigenvalues_Lambda (n : Nat) (b : EigenBuffers K) (k : Nat) :
    (correctEigenvalues n b).Lambda k
      = if k < n then HartenHymanFix (b.Lambda k) (b.Epsilon k) else b.Lambda k :=
  forLoop_setV_apply n (fun i x => HartenHymanFix x (b.Epsilon i)) b.Lambda k

theorem shearLambda_apply (n : Nat) (v : K) (old : Nat → K) (k : Nat) :
    forLoop n (fun iDim L => setV L iDim v) old k = if k < n then v else old k :=
  forLoop_setV_apply n (fun _ _ => v) old k

theorem shearEpsilon_apply (n : Nat) (L : Nat → K) (a b : K) (old : Nat → K) (k : Nat) :
    forLoop n (fun iDim E => setV E iDim (HartenHymanEpsilon (L iDim) a b)) old k
      = if k < n then HartenHymanEpsilon (L k) a b else old k :=
  forLoop_setV_apply n (fun i _ => HartenHymanEpsilon (L i) a b) old k

/-- With `nVar = nDim + 2`, every entry of `Epsilon` below `nPrimVarTot` is the Harten-Hyman
expression at the eigenvalue of the same index, for some pair of bounds. -/
theorem rawEigenvalues_Epsilon (nDim nVar : Nat) (tkeNeeded : Bool)
    (PV PVi PVj c ci cj : K) (old : EigenBuffers K) (iVar : Nat)
    (hn : nVar = nDim + 2) (hi : iVar < nVar + (if tkeNeeded then 1 else 0)) :
    ∃ l r, (rawEigenvalues nDim nVar tkeNeeded PV PVi PVj c ci cj old).Epsilon iVar
      = HartenHymanEpsilon
          ((rawEigenvalues nDim nVar tkeNeeded PV PVi PVj c ci cj old).Lambda iVar) l r := by
  subst hn
  have h2 : nDim + 2 - 2 = nDim := by omega
  have h1 : nDim + 2 - 1 = nDim + 1 := by omega
  unfold rawEigenvalues
  simp only [h2, h1]
  cases tkeNeeded with
  | true =>
    simp only [if_true] at hi ⊢
    by_cases k3 : iVar = nDim + 2
    · exact ⟨PVi, PVj, by simp [setV, k3]⟩
    · by_cases k2 : iVar = nDim + 1
      · exact ⟨PVi - ci, PVj - cj, by simp [setV, k2]⟩
      · by_cases k1 : iVar = nDim
        · exact ⟨PVi + ci, PVj + cj, by simp [setV, k1]⟩
        · have k0 : iVar < nDim := by omega
          refine ⟨PVi, PVj, ?_⟩
          simp [setV, k1, k2, k3, shearEpsilon_apply, k0]
  | false =>
    simp only [Bool.false_eq_true, if_false, Nat.add_zero] at hi ⊢
    by_cases k2 : iVar = nDim + 1
    · exact ⟨PVi - ci, PVj - cj, by simp [setV, k2]⟩
    · by_cases k1 : iVar = nDim
      · exact ⟨PVi + ci, PVj + cj, by simp [setV, k1]⟩
      · have k0 : iVar < nDim := by omega
        refine ⟨PVi, PVj, ?_⟩
        simp [setV, k1, k2, shearEpsilon_apply, k0]

end EntropyFix

/-- C3. Harten-Hyman correction in `CUpwRoeBase_Flow::ComputeResidual`: for every eigenvalue
and bounds, `epsilon = 4*max(0, max(lambda - leftBound, rightBound - lambda))` is `>= 0` and
the corrected eigenvalue is `>= |lambda|`; and with `nVar = nDim + 2`, for every index
`iVar < nPrimVarTot` (shear, acoustic, turbulence) of the arrays that `ComputeResidual`
builds, `Epsilon[iVar]` is that expression at `Lambda[iVar]` for some bounds, is `>= 0`, and
the corrected `Lambda[iVar]` is the correction of the old one and is `>=` its absolute value. -/
theorem harten_hyman_fix_never_decreases (nDim nVar : Nat) (tkeNeeded : Bool)
    (PV PVi PVj c ci cj : K) (old : EigenBuffers K) (iVar : Nat) (lambda leftBound rightBound : K)
    (hn : nVar = nDim + 2) (hi : iVar < nVar + (if tkeNeeded then 1 else 0)) :
    (0 ≤ HartenHymanEpsilon lambda leftBound rightBound ∧
      |lambda| ≤ HartenHymanFix lambda (HartenHymanEpsilon lambda leftBound rightBound)) ∧
    0 ≤ (rawEigenvalues nDim nVar tkeNeeded PV PVi PVj c ci cj old).Epsilon iVar ∧
    (∃ l r, (rawEigenvalues nDim nVar tkeNeeded PV PVi PVj c ci cj old).Epsilon iVar
      = HartenHymanEpsilon
          ((rawEigenvalues nDim nVar tkeNeeded PV PVi PVj c ci cj old).Lambda iVar) l r) ∧
    (correctEigenvalues (nVar + (if tkeNeeded then 1 else 0))
        (rawEigenvalues nDim nVar tkeNeeded PV PVi PVj c ci cj old)).Lambda iVar
      = HartenHymanFix ((rawEigenvalues nDim nVar tkeNeeded PV PVi PVj c ci cj old).Lambda iVar)
          ((rawEigenvalues nDim nVar tkeNeeded PV PVi PVj c ci cj old).Epsilon iVar) ∧
    |(rawEigenvalues nDim nVar tkeNeeded PV PVi PVj c ci cj old).Lambda iVar|
      ≤ (correctEigenvalues (nVar + (if tkeNeeded then 1 else 0))
        (rawEigenvalues nDim nVar tkeNeeded PV PVi PVj c ci cj old)).Lambda iVar := by
  have hE := rawEigenvalues_Epsilon nDim nVar tkeNeeded PV PVi PVj c ci cj old iVar hn hi
  have hL : (correctEigenvalues (nVar + (if tkeNeeded then 1 else 0))
        (rawEigenvalues nDim nVar tkeNeeded PV PVi PVj c ci cj old)).Lambda iVar
      = HartenHymanFix ((rawEigenvalues nDim nVar tkeNeeded PV PVi PVj c ci cj old).Lambda iVar)
          ((rawEigenvalues nDim nVar tkeNeeded PV PVi PVj c ci cj old).Epsilon iVar) := by
    rw [correctEigenvalues_Lambda, if_pos hi]
  refine ⟨⟨HartenHymanEpsilon_nonneg _ _ _, abs_le_HartenHymanFix _ _⟩, ?_, hE, hL, ?_⟩
  · obtain ⟨l, r, h⟩ := hE
    rw [h]
    exact HartenHymanEpsilon_nonneg _ _ _
  · rw [hL]
    exact abs_le_HartenHymanFix _ _

/-- C3, at a concrete input: the acoustic eigenvalue of index 2 in two dimensions, with
`ProjVelocity = 1/10`, one-sided projected velocities 0 and 1 and unit sound speeds. -/
theorem harten_hyman_fix_never_decreases_witness :
    (4 : Nat) = 2 + 2 ∧ (2 : Nat) < 4 + (if false then 1 else 0) ∧
    0 ≤ (rawEigenvalues 2 4 false (1 / 10 : ℚ) 0 1 1 1 1
      { Lambda := fun _ => 7, Epsilon := fun _ => -7 }).Epsilon 2 ∧
    |(rawEigenvalues 2 4 false (1 / 10 : ℚ) 0 1 1 1 1
      { Lambda := fun _ => 7, Epsilon := fun _ => -7 }).Lambda 2|
      ≤ (correctEigenvalues (4 + (if false then 1 else 0))
        (rawEigenvalues 2 4 false (1 / 10 : ℚ) 0 1 1 1 1
          { Lambda := fun _ => 7, Epsilon := fun _ => -7 })).Lambda 2 := by
  have t := harten_hyman_fix_never_decreases 2 4 false (1 / 10 : ℚ) 0 1 1 1 1
    { Lambda := fun _ => 7, Epsilon := fun _ => -7 } 2 0 0 0 rfl (by decide)
  exact ⟨rfl, by decide, t.2.1, t.2.2.2.2⟩

/-- C7. Turkel parameter in `CUpwTurkel_Flow::ComputeResidual`: with `Beta_min <= Beta_max`,
`Beta = max(Beta_min, min(local_Mach, Beta_max))` lies in `[Beta_min, Beta_max]` for every
`local_Mach`, equals `Beta_min` when `local_Mach <= Beta_min`, `local_Mach` in between and
`Beta_max` when `local_Mach >= Beta_max`; and the `Beta` that `ComputeResidual` computes is
this expression at its `local_Mach`. -/
theorem turkel_beta_within_bounds (ext : TurkelExternals K) (c : TurkelConfig K)
    (inp : TurkelInputs K) (oldLambda : Nat → K) (local_Mach : K)
    (h : c.Beta_min ≤ c.Beta_max) :
    (c.Beta_min ≤ Beta c.Beta_min c.Beta_max local_Mach ∧
      Beta c.Beta_min c.Beta_max local_Mach ≤ c.Beta_max) ∧
    (local_Mach ≤ c.Beta_min → Beta c.Beta_min c.Beta_max local_Mach = c.Beta_min) ∧
    (c.Beta_min ≤ local_Mach → local_Mach ≤ c.Beta_max →
      Beta c.Beta_min c.Beta_max local_Mach = local_Mach) ∧
    (c.Beta_max ≤ local_Mach → Beta c.Beta_min c.Beta_max local_Mach = c.Beta_max) ∧
    (turkelState ext c inp oldLambda).Beta
      = Beta c.Beta_min c.Beta_max (turkelState ext c inp oldLambda).local_Mach ∧
    c.Beta_min ≤ (turkelState ext c inp oldLambda).Beta ∧
    (turkelState ext c inp oldLambda).Beta ≤ c.Beta_max := by
  have hb : ∀ M : K, c.Beta_min ≤ Beta c.Beta_min c.Beta_max M ∧
      Beta c.Beta_min c.Beta_max M ≤ c.Beta_max := by
    intro M
    unfold Beta
    exact ⟨le_max_left _ _, max_le h (min_le_right _ _)⟩
  refine ⟨hb local_Mach, ?_, ?_, ?_, rfl, ?_, ?_⟩
  · intro hM
    unfold Beta
    exact max_eq_left (le_trans (min_le_left _ _) hM)
  · intro h1 h2
    unfold Beta
    rw [min_eq_left h2, max_eq_right h1]
  · intro hM
    unfold Beta
    rw [min_eq_right hM, max_eq_right h]
  · exact (hb _).1
  · exact (hb _).2

/-- C7, at a concrete input: `Beta_min = 1/100`, `Beta_max = 1`, `local_Mach = 0`. -/
theorem turkel_beta_within_bounds_witness :
    ((1 / 100 : ℚ) ≤ 1) ∧
    Beta (1 / 100 : ℚ) 1 0 = 1 / 100 ∧ Beta (1 / 100 : ℚ) 1 (1 / 2) = 1 / 2 ∧
    Beta (1 / 100 : ℚ) 1 1000 = 1 := by
  have e : TurkelExternals ℚ :=
    { sqrt := fun x => x, GetPrecondJacobian := fun _ _ _ _ _ _ _ => 0,
      GetinvRinvPe := fun _ _ _ _ _ => 0, GetRMatrix := fun _ _ _ _ => 0,
      GetInviscidProjFlux := fun _ _ _ _ _ => 0, GetInviscidProjJac := fun _ _ _ _ _ => 0 }
  have i : TurkelInputs ℚ :=
    { V_i := fun _ => 1, V_j := fun _ => 1, Normal := fun _ => 1, GridVel_i := fun _ => 0,
      GridVel_j := fun _ => 0, turb_ke_i := 0, turb_ke_j := 0 }
  have t0 := turkel_beta_within_bounds e
    { nDim := 2, nVar := 4, implicit := false, dynamic_grid := false, Gamma := 7 / 5,
      Beta_min := 1 / 100, Beta_max := 1 } i (fun _ => 0) 0 (by norm_num)
  have t1 := turkel_beta_within_bounds e
    { nDim := 2, nVar := 4, implicit := false, dynamic_grid := false, Gamma := 7 / 5,
      Beta_min := 1 / 100, Beta_max := 1 } i (fun _ => 0) (1 / 2) (by norm_num)
  have t2 := turkel_beta_within_bounds e
    { nDim := 2, nVar := 4, implicit := false, dynamic_grid := false, Gamma := 7 / 5,
      Beta_min := 1 / 100, Beta_max := 1 } i (fun _ => 0) 1000 (by norm_num)
  exact ⟨by norm_num, t0.2.1 (by norm_num), t1.2.2.1 (by norm_num) (by norm_num),
    t2.2.2.2.1 (by norm_num)⟩

/-- C8. Low-Mach scaling factor of `CUpwL2Roe_Flow::FinalizeResidual` and
`CUpwLMRoe_Flow::FinalizeResidual`: `zeta = max(0.05, min(max(M_i, M_j), 1.0))` satisfies
`0.05 <= zeta <= 1` for all `M_i`, `M_j`, is 1 when `max(M_i, M_j) >= 1` (in particular when
`M_i >= 1` and `M_j >= 1`) and is 0.05 when `max(M_i, M_j) <= 0.05`; and the `zeta` of both
methods is this expression at `M = sqrt(|v|^2 / |Pressure*Gamma/Density|)` of each side. -/
theorem zeta_clamped (ext : Externals K) (c : Config K) (s : RoeState K) (M_i M_j : K) :
    (0.05 ≤ zeta M_i M_j ∧ zeta M_i M_j ≤ 1) ∧
    (1 ≤ max M_i M_j → zeta M_i M_j = 1) ∧
    (1 ≤ M_i → 1 ≤ M_j → zeta M_i M_j = 1) ∧
    (max M_i M_j ≤ 0.05 → zeta M_i M_j = 0.05) ∧
    stateZeta ext c s
      = zeta (ext.sqrt (sumLoop c.nDim (fun iDim => s.pi.Velocity iDim * s.pi.Velocity iDim)
            / |s.pi.Pressure * c.Gamma / s.pi.Density|))
          (ext.sqrt (sumLoop c.nDim (fun iDim => s.pj.Velocity iDim * s.pj.Velocity iDim)
            / |s.pj.Pressure * c.Gamma / s.pj.Density|)) ∧
    (0.05 ≤ stateZeta ext c s ∧ stateZeta ext c s ≤ 1) := by
  have hb : ∀ a b : K, 0.05 ≤ zeta a b ∧ zeta a b ≤ 1 := by
    intro a b
    unfold zeta
    refine ⟨le_max_left _ _, max_le (by norm_num) ?_⟩
    exact le_trans (min_le_right _ _) (by norm_num)
  have h1 : 1 ≤ max M_i M_j → zeta M_i M_j = 1 := by
    intro h
    unfold zeta
    have e1 : (1.0 : K) = 1 := by norm_num
    rw [e1, min_eq_right h, max_eq_right (by norm_num)]
  refine ⟨hb M_i M_j, h1, ?_, ?_, rfl, hb _ _⟩
  · intro hi _
    exact h1 (le_trans hi (le_max_left _ _))
  · intro h
    unfold zeta
    have h2 : max M_i M_j ≤ 1.0 := le_trans h (by norm_num)
    rw [min_eq_left h2, max_eq_left h]

/-- C8, at concrete inputs: a supersonic pair, a mixed pair and a pair at rest. -/
theorem zeta_clamped_witness :
    zeta (2 : ℚ) 3 = 1 ∧ zeta (0 : ℚ) (3 / 2) = 1 ∧ zeta (0 : ℚ) (1 / 100) = 0.05 := by
  have e : Externals ℚ := constExternals (fun x => x)
  have s : RoeState ℚ :=
    { Area := 1, UnitNormal := fun _ => 0,
      pi := { Density := 1, Velocity := fun _ => 0, SqVel := 0, turb_ke := 0, Energy := 1,
              Pressure := 1, Enthalpy := 1, SoundSpeed := 1 },
      pj := { Density := 1, Velocity := fun _ => 0, SqVel := 0, turb_ke := 0, Energy := 1,
              Pressure := 1, Enthalpy := 1, SoundSpeed := 1 },
      roe := { R := 1, RoeDensity := 1, RoeVelocity := fun _ => 0, RoeSqVel := 0,
               RoeEnthalpy := 1, RoeTke := 0, RoeSoundSpeed2 := 1 },
      RoeSoundSpeed := 1, P_Tensor := fun _ _ => 0, Lambda := fun _ => 0,
      Conservatives_i := fun _ => 0, Conservatives_j := fun _ => 0, Dissipation_i := 0,
      Dissipation_j := 0, Sensor_i := 0, Sensor_j := 0 }
  have t0 := zeta_clamped e (exampleConfig false false false) s 2 3
  have t1 := zeta_clamped e (exampleConfig false false false) s 0 (3 / 2)
  have t2 := zeta_clamped e (exampleConfig false false false) s 0 (1 / 100)
  exact ⟨t0.2.2.1 (by norm_num) (by norm_num), t1.2.1 (by norm_num), t2.2.2.2.1 (by norm_num)⟩

/-! ## The degenerate exit of `CUpwGeneralRoe_Flow::ComputeResidual` -/

section GeneralDegenerate

/-- A loop that assigns the same entry `(i, i)` at every step. -/
theorem forLoop_setM_diag_inner (n i : Nat) (v : K) (M : Nat → Nat → K) (a b : Nat) :
    forLoop n (fun _ M => setM M i i v) M a b
      = if a = i ∧ b = i ∧ 0 < n then v else M a b := by
  induction n with
  | zero => simp [forLoop]
  | succ n ih =>
    rw [forLoop_succ]
    by_cases h : a = i ∧ b = i
    · simp [setM, h.1, h.2]
    · have h2 : ¬ (a = i ∧ b = i ∧ 0 < n) := fun k => h ⟨k.1, k.2.1⟩
      have h3 : ¬ (a = i ∧ b = i ∧ 0 < n + 1) := fun k => h ⟨k.1, k.2.1⟩
      simp only [setM, h, if_false, ih, h2, h3]

/-- The double loop of the clearing branch of `CUpwGeneralRoe_Flow::ComputeResidual`, seen on
one Jacobian: only diagonal entries are assigned. -/
theorem forLoop_setM_diag (m n : Nat) (v : K) (M : Nat → Nat → K) (a b : Nat) :
    forLoop m (fun i M => forLoop n (fun _ M => setM M i i v) M) M a b
      = if a = b ∧ a < m ∧ 0 < n then v else M a b := by
  induction m with
  | zero => simp [forLoop]
  | succ m ih =>
    rw [forLoop_succ, forLoop_setM_diag_inner, ih]
    by_cases h1 : a = m ∧ b = m ∧ 0 < n
    · obtain ⟨ha, hb, hn⟩ := h1
      subst ha; subst hb
      simp [hn]
    · rw [if_neg h1]
      by_cases h2 : a = b ∧ a < m ∧ 0 < n
      · have h3 : a = b ∧ a < m + 1 ∧ 0 < n := ⟨h2.1, by omega, h2.2.2⟩
        rw [if_pos h2, if_pos h3]
      · have h3 : ¬ (a = b ∧ a < m + 1 ∧ 0 < n) := by
          rintro ⟨e, l, hn⟩
          by_cases ham : a = m
          · exact h1 ⟨ham, e ▸ ham, hn⟩
          · exact h2 ⟨e, by omega, hn⟩
        rw [if_neg h2, if_neg h3]

theorem generalClearResidual_Jacobian_i (c : GeneralConfig K) (res : ResidualType K)
    (a b : Nat) :
    (generalClearResidual c res).Jacobian_i a b
      = if a = b ∧ a < c.nVar ∧ 0 < c.nVar then 0.0 else res.Jacobian_i a b := by
  unfold generalClearResidual
  rw [forLoop_proj ResidualType.Jacobian_i _
    (fun iVar M => forLoop c.nVar (fun _ M => setM M iVar iVar 0.0) M)]
  · exact forLoop_setM_diag c.nVar c.nVar 0.0 res.Jacobian_i a b
  · intro i r
    rw [forLoop_proj ResidualType.Jacobian_i _ (fun _ M => setM M i i 0.0)]
    · rfl
    · intro j r2; rfl

theorem generalClearResidual_Jacobian_j (c : GeneralConfig K) (res : ResidualType K)
    (a b : Nat) :
    (generalClearResidual c res).Jacobian_j a b
      = if a = b ∧ a < c.nVar ∧ 0 < c.nVar then 0.0 else res.Jacobian_j a b := by
  unfold generalClearResidual
  rw [forLoop_proj ResidualType.Jacobian_j _
    (fun iVar M => forLoop c.nVar (fun _ M => setM M iVar iVar 0.0) M)]
  · exact forLoop_setM_diag c.nVar c.nVar 0.0 res.Jacobian_j a b
  · intro i r
    rw [forLoop_proj ResidualType.Jacobian_j _ (fun _ M => setM M i i 0.0)]
    · rfl
    · intro j r2; rfl

theorem generalClearResidual_Flux (c : GeneralConfig K) (res : ResidualType K) (k : Nat) :
    (generalClearResidual c res).Flux k = if k < c.nVar then 0.0 else res.Flux k := by
  unfold generalClearResidual
  rw [forLoop_proj ResidualType.Flux _ (fun iVar F => setV F iVar ((fun _ _ => (0.0 : K)) iVar (F iVar)))]
  · exact forLoop_setV_apply c.nVar (fun _ _ => (0.0 : K)) res.Flux k
  · intro i r
    rw [forLoop_proj_const ResidualType.Flux]
    · rfl
    · intro j r2; rfl

end GeneralDegenerate

/-- C2 (the code departs from the claim). `CUpwGeneralRoe_Flow::ComputeResidual` at a state
with `RoeSoundSpeed2 = -1 <= 0` and buffers holding 7: the flux and the diagonal of both
Jacobians are cleared, and the off-diagonal entries `Jacobian_i[0][1]`, `Jacobian_j[2][1]`
still hold 7, because the inner loop over `jVar` assigns the entry `[iVar][iVar]`. -/
theorem general_degenerate_exit_keeps_offdiagonal :
    (CUpwGeneralRoe_Flow.ComputeRoeAverage (constGeneralExternals Real.sqrt)
      (exampleGeneralConfig true)
      (generalPrimitive (constGeneralExternals Real.sqrt) (exampleGeneralConfig true)
        (exampleGeneralInputs (K := ℝ)).V_i exampleGeneralInputs.S_i)
      (generalPrimitive (constGeneralExternals Real.sqrt) (exampleGeneralConfig true)
        (exampleGeneralInputs (K := ℝ)).V_j exampleGeneralInputs.S_j)).RoeSoundSpeed2 = -1 ∧
    (CUpwGeneralRoe_Flow.ComputeResidual (constGeneralExternals Real.sqrt)
      (exampleGeneralConfig true) exampleGeneralInputs exampleGeneralScratch).Flux 0 = 0 ∧
    (CUpwGeneralRoe_Flow.ComputeResidual (constGeneralExternals Real.sqrt)
      (exampleGeneralConfig true) exampleGeneralInputs exampleGeneralScratch).Jacobian_i 1 1 = 0 ∧
    (CUpwGeneralRoe_Flow.ComputeResidual (constGeneralExternals Real.sqrt)
      (exampleGeneralConfig true) exampleGeneralInputs exampleGeneralScratch).Jacobian_i 0 1 = 7 ∧
    (CUpwGeneralRoe_Flow.ComputeResidual (constGeneralExternals Real.sqrt)
      (exampleGeneralConfig true) exampleGeneralInputs exampleGeneralScratch).Jacobian_j 2 1 = 7 := by
  have h : (CUpwGeneralRoe_Flow.ComputeRoeAverage (constGeneralExternals Real.sqrt)
      (exampleGeneralConfig true)
      (generalPrimitive (constGeneralExternals Real.sqrt) (exampleGeneralConfig true)
        (exampleGeneralInputs (K := ℝ)).V_i exampleGeneralInputs.S_i)
      (generalPrimitive (constGeneralExternals Real.sqrt) (exampleGeneralConfig true)
        (exampleGeneralInputs (K := ℝ)).V_j exampleGeneralInputs.S_j)).RoeSoundSpeed2 = -1 := by
    simp [CUpwGeneralRoe_Flow.ComputeRoeAverage, generalPrimitive, exampleGeneralInputs,
      exampleGeneralConfig, constGeneralExternals, sumLoop, forLoop]
    norm_num
  have hE : CUpwGeneralRoe_Flow.ComputeResidual (constGeneralExternals Real.sqrt)
      (exampleGeneralConfig true) exampleGeneralInputs exampleGeneralScratch
      = generalClearResidual (exampleGeneralConfig true) (exampleGeneralScratch (K := ℝ)).res := by
    unfold CUpwGeneralRoe_Flow.ComputeResidual
    simp only [h]
    norm_num
  refine ⟨h, ?_, ?_, ?_, ?_⟩
  · rw [hE, generalClearResidual_Flux]; norm_num [exampleGeneralConfig]
  · rw [hE, generalClearResidual_Jacobian_i]; norm_num [exampleGeneralConfig]
  · rw [hE, generalClearResidual_Jacobian_i]; norm_num [exampleGeneralConfig, exampleGeneralScratch]
  · rw [hE, generalClearResidual_Jacobian_j]; norm_num [exampleGeneralConfig, exampleGeneralScratch]

/-! ## `GetMUSCLJac`, entry by entry -/

section MUSCL

theorem GetMUSCLJac_jac_i (c : Config K) (jac : JacPair K) (lim_i lim_j : Nat → K)
    (a b : Nat) :
    (GetMUSCLJac c jac lim_i lim_j).jac_i a b
      = if a < c.nVar ∧ b < c.nVar then
          jac.jac_i a b * (1.0 - c.muscl_kappa * lim_i b)
            + jac.jac_i a b * boolToK c.muscl * lim_j b
        else jac.jac_i a b := by
  unfold GetMUSCLJac
  rw [forLoop_proj JacPair.jac_i _
    (fun iVar M => forLoop c.nVar (fun jVar M => setM M iVar jVar
      ((fun _ j x => x * (1.0 - c.muscl_kappa * lim_i j) + x * boolToK c.muscl * lim_j j)
        iVar jVar (M iVar jVar))) M)]
  · exact forLoop_setM_apply c.nVar c.nVar
      (fun _ j x => x * (1.0 - c.muscl_kappa * lim_i j) + x * boolToK c.muscl * lim_j j)
      jac.jac_i a b
  · intro i p
    exact forLoop_proj JacPair.jac_i _
      (fun jVar M => setM M i jVar
        ((fun _ j x => x * (1.0 - c.muscl_kappa * lim_i j) + x * boolToK c.muscl * lim_j j)
          i jVar (M i jVar))) (fun _ _ => rfl) c.nVar p

theorem GetMUSCLJac_jac_j (c : Config K) (jac : JacPair K) (lim_i lim_j : Nat → K)
    (a b : Nat) :
    (GetMUSCLJac c jac lim_i lim_j).jac_j a b
      = if a < c.nVar ∧ b < c.nVar then
          jac.jac_j a b * boolToK c.muscl * lim_i b
            + jac.jac_j a b * (1.0 - c.muscl_kappa * lim_j b)
        else jac.jac_j a b := by
  unfold GetMUSCLJac
  rw [forLoop_proj JacPair.jac_j _
    (fun iVar M => forLoop c.nVar (fun jVar M => setM M iVar jVar
      ((fun _ j x => x * boolToK c.muscl * lim_i j + x * (1.0 - c.muscl_kappa * lim_j j))
        iVar jVar (M iVar jVar))) M)]
  · exact forLoop_setM_apply c.nVar c.nVar
      (fun _ j x => x * boolToK c.muscl * lim_i j + x * (1.0 - c.muscl_kappa * lim_j j))
      jac.jac_j a b
  · intro i p
    exact forLoop_proj JacPair.jac_j _
      (fun jVar M => setM M i jVar
        ((fun _ j x => x * boolToK c.muscl * lim_i j + x * (1.0 - c.muscl_kappa * lim_j j))
          i jVar (M i jVar))) (fun _ _ => rfl) c.nVar p

end MUSCL

/-- C5 (the code departs from the claim). `GetMUSCLJac` with `nVar = 4`, `muscl` on,
`muscl_kappa = 0.5`, all limiters 1, every entry of `jac_i` equal to 1 and every entry of
`jac_j` equal to 3: the code returns `jac_i[0][0] = 1*(1 - 0.5) + 1*1*1 = 3/2` and
`jac_j[0][0] = 3*1*1 + 3*(1 - 0.5) = 9/2`, where the chain rule
`jac_i*(1 - kappa_muscl*lim_i) + jac_j*extrapFlag*lim_j` gives `7/2` and its mirror `5/2`:
the cross terms `dFjdUi`, `dFidUj` are built from the matrix of the same side. -/
theorem GetMUSCLJac_cross_term_uses_same_side :
    (GetMUSCLJac (exampleConfig true false true)
      { jac_i := fun _ _ => (1 : ℚ), jac_j := fun _ _ => 3 } (fun _ => 1) (fun _ => 1)).jac_i 0 0
      = 3 / 2 ∧
    (GetMUSCLJac (exampleConfig true false true)
      { jac_i := fun _ _ => (1 : ℚ), jac_j := fun _ _ => 3 } (fun _ => 1) (fun _ => 1)).jac_j 0 0
      = 9 / 2 ∧
    (1 : ℚ) * (1 - (exampleConfig true false true).muscl_kappa * 1)
      + 3 * boolToK (exampleConfig (K := ℚ) true false true).muscl * 1 = 7 / 2 ∧
    (3 : ℚ) * (1 - (exampleConfig true false true).muscl_kappa * 1)
      + 1 * boolToK (exampleConfig (K := ℚ) true false true).muscl * 1 = 5 / 2 := by
  refine ⟨?_, ?_, ?_, ?_⟩
  · rw [GetMUSCLJac_jac_i]
    norm_num [exampleConfig, Config.muscl_kappa, boolToK]
  · rw [GetMUSCLJac_jac_j]
    norm_num [exampleConfig, Config.muscl_kappa, boolToK]
  · norm_num [exampleConfig, Config.muscl_kappa, boolToK]
  · norm_num [exampleConfig, Config.muscl_kappa, boolToK]

/-! ## The flux through `FinalizeResidual` and the steps after it -/

section FluxLemmas

/-- The double loop `for i < m: for j < n: F[i] -= t i j`. -/
theorem forLoop_accum_apply (m n : Nat) (t : Nat → Nat → K) (F : Nat → K) (k : Nat) :
    forLoop m (fun i F => forLoop n (fun j F => setV F i (F i - t i j)) F) F k
      = if k < m then F k - ∑ j in Finset.range n, t k j else F k := by
  have hb : (fun i (F : Nat → K) => forLoop n (fun j F => setV F i (F i - t i j)) F)
      = (fun i F => setV F i ((fun i x => forLoop n (fun j acc => acc - t i j) x) i (F i))) := by
    funext i F
    exact forLoop_setV_acc n i (fun j x => x - t i j) F
  rw [hb, forLoop_setV_apply]
  simp only [forLoop_sub]

theorem sumLoop_zero (n : Nat) : sumLoop n (fun _ => (0 : K)) = 0 := by
  rw [sumLoop_eq_sum]; simp

/-- The shifted loop `for iDim < n: C[iDim+1] = f iDim`. -/
theorem forLoop_setV_shift (n : Nat) (f : Nat → K) (C : Nat → K) (k : Nat) :
    forLoop n (fun iDim C => setV C (iDim + 1) (f iDim)) C k
      = if 1 ≤ k ∧ k ≤ n then f (k - 1) else C k := by
  induction n with
  | zero =>
    have h0 : ¬ (1 ≤ k ∧ k ≤ 0) := by omega
    rw [if_neg h0]
    rfl
  | succ n ih =>
    rw [forLoop_succ]
    by_cases hk : k = n + 1
    · subst hk
      simp [setV]
    · rw [setV_ne _ _ _ _ hk, ih]
      by_cases h1 : 1 ≤ k ∧ k ≤ n
      · have h2 : 1 ≤ k ∧ k ≤ n + 1 := ⟨h1.1, by omega⟩
        rw [if_pos h1, if_pos h2]
      · have h2 : ¬ (1 ≤ k ∧ k ≤ n + 1) := by omega
        rw [if_neg h1, if_neg h2]

/-- The reconstructed conservative variables, entry by entry; entries `k <= nDim + 1` do not
depend on the previous contents of the buffer. -/
theorem Conservatives_apply (nDim : Nat) (p : Primitive K) (old : Nat → K) (k : Nat) :
    Conservatives nDim p old k
      = if k = nDim + 1 then p.Density * p.Energy
        else if 1 ≤ k ∧ k ≤ nDim then p.Density * p.Velocity (k - 1)
        else if k = 0 then p.Density else old k := by
  unfold Conservatives
  simp only [setV]
  by_cases h1 : k = nDim + 1
  · simp [h1]
  · rw [if_neg h1, if_neg h1]
    rw [forLoop_setV_shift nDim (fun iDim => p.Density * p.Velocity iDim)]
    rfl

theorem Conservatives_old_irrelevant (nDim : Nat) (p : Primitive K) (old1 old2 : Nat → K)
    (k : Nat) (hk : k < nDim + 2) :
    Conservatives nDim p old1 k = Conservatives nDim p old2 k := by
  rw [Conservatives_apply, Conservatives_apply]
  by_cases h1 : k = nDim + 1
  · simp [h1]
  · by_cases h2 : 1 ≤ k ∧ k ≤ nDim
    · simp [h1, h2]
    · have h3 : k = 0 := by omega
      simp [h3]

theorem initResidual_Flux (ext : Externals K) (c : Config K) (inp : FaceInputs K)
    (s : RoeState K) (res : ResidualType K) (k : Nat) :
    (initResidual ext c inp s res).Flux k
      = if k < c.nVar then c.kappa * (ProjFlux ext inp s.pi k + ProjFlux ext inp s.pj k)
        else res.Flux k := by
  have h1 : (forLoop c.nVar (fun iVar r => ResidualType.setFlux r iVar
        (c.kappa * (ProjFlux ext inp s.pi iVar + ProjFlux ext inp s.pj iVar))) res).Flux k
      = if k < c.nVar then c.kappa * (ProjFlux ext inp s.pi k + ProjFlux ext inp s.pj k)
        else res.Flux k := by
    rw [forLoop_proj ResidualType.Flux _ (fun iVar F => setV F iVar
      ((fun i _ => c.kappa * (ProjFlux ext inp s.pi i + ProjFlux ext inp s.pj i)) iVar (F iVar)))
      (fun _ _ => rfl)]
    exact forLoop_setV_apply c.nVar
      (fun i _ => c.kappa * (ProjFlux ext inp s.pi i + ProjFlux ext inp s.pj i)) res.Flux k
  unfold initResidual
  by_cases hc : c.implicit = true
  · simp only [hc, if_true]; exact h1
  · simp only [hc]; exact h1

theorem gridMotionCorrection_Flux (c : Config K) (s : RoeState K) (res : ResidualType K)
    (k : Nat) : (gridMotionCorrection c s res).Flux k = res.Flux k := by
  unfold gridMotionCorrection
  by_cases hd : c.dynamic_grid = true
  · simp only [hd, if_true]
    rw [forLoop_proj ResidualType.Flux _ (fun iVar F => setV F iVar
      ((fun i x => x - outerProjGridVel * s.Area * 0.5
        * (s.Conservatives_i i + s.Conservatives_j i)) iVar (F iVar)))]
    · rw [forLoop_setV_apply c.nVar (fun i x => x - outerProjGridVel * s.Area * 0.5
        * (s.Conservatives_i i + s.Conservatives_j i)) res.Flux k]
      norm_num [outerProjGridVel]
    · intro i r
      by_cases hc : c.implicit = true
      · simp only [hc, if_true]; rfl
      · simp only [hc]; rfl
  · simp only [hd]; rfl

theorem musclStep_Flux (c : Config K) (inp : FaceInputs K) (res : ResidualType K) :
    (musclStep c inp res).Flux = res.Flux := by
  unfold musclStep
  by_cases h : (c.implicit && c.muscl) = true
  · simp only [h, if_true]
  · simp only [h]; rfl

/-- For a positive `RoeSoundSpeed2` the returned flux is the flux left by `FinalizeResidual`:
the steps that follow do not change it, on a static grid and on a dynamic one. -/
theorem ComputeResidual_Flux (ext : Externals K) (c : Config K)
    (FinalizeResidual : RoeState K → ResidualType K → ResidualType K)
    (inp : FaceInputs K) (old : Scratch K) (k : Nat)
    (h : 0 < (roeAverage ext c (extractPrimitive ext c inp.U_i inp.turb_ke_i)
      (extractPrimitive ext c inp.U_j inp.turb_ke_j)).RoeSoundSpeed2) :
    (ComputeResidual ext c FinalizeResidual inp old).Flux k
      = (afterFinalize ext c FinalizeResidual inp old).Flux k := by
  have h0 : ¬ (roeAverage ext c (extractPrimitive ext c inp.U_i inp.turb_ke_i)
      (extractPrimitive ext c inp.U_j inp.turb_ke_j)).RoeSoundSpeed2 ≤ 0.0 := by
    norm_num; exact h
  unfold ComputeResidual
  simp only [h0, if_false]
  rw [musclStep_Flux, gridMotionCorrection_Flux]

end FluxLemmas

section FinalizeFlux

/-- The flux after `CUpwRoe_Flow::FinalizeResidual`: the standard Roe dissipation is
subtracted from the entries below `nVar`. -/
theorem CUpwRoe_Flow.FinalizeResidual_Flux (ext : Externals K) (c : Config K)
    (s : RoeState K) (res : ResidualType K) (k : Nat) :
    (CUpwRoe_Flow.FinalizeResidual ext c s res).Flux k
      = if k < c.nVar then
          res.Flux k - ∑ j in Finset.range c.nVar,
            (1.0 - c.kappa)
              * Proj_ModJac_Tensor_ij c.nPrimVarTot (roeP_Tensor c s) s.Lambda
                  (roeInvP_Tensor ext c s) k j
              * Diff_U s j * s.Area * Dissipation_ij ext c s
        else res.Flux k := by
  unfold CUpwRoe_Flow.FinalizeResidual
  rw [forLoop_proj ResidualType.Flux _ (fun iVar F => forLoop c.nVar (fun jVar F =>
    setV F iVar (F iVar - (fun i j => (1.0 - c.kappa)
      * Proj_ModJac_Tensor_ij c.nPrimVarTot (roeP_Tensor c s) s.Lambda
          (roeInvP_Tensor ext c s) i j
      * Diff_U s j * s.Area * Dissipation_ij ext c s) iVar jVar)) F)]
  · exact forLoop_accum_apply c.nVar c.nVar _ res.Flux k
  · intro i r
    refine forLoop_proj ResidualType.Flux _ _ ?_ c.nVar r
    intro j r2
    by_cases hc : c.implicit = true
    · simp only [hc, if_true]; rfl
    · simp only [hc]; rfl

/-- The flux after the common part of the low-Mach `FinalizeResidual` methods. -/
theorem lowMachFinalize_Flux (ext : Externals K) (c : Config K) (s : RoeState K)
    (w : Nat → K) (res : ResidualType K) (k : Nat) :
    (lowMachFinalize ext c s w res).Flux k
      = if k < c.nVar then
          res.Flux k - ∑ j in Finset.range c.nVar,
            (1.0 - c.kappa) * s.Lambda j * w j * s.P_Tensor k j * s.Area
        else res.Flux k := by
  have h1 : (forLoop c.nVar (fun iVar r => forLoop c.nVar (fun kVar r =>
        ResidualType.setFlux r iVar (r.Flux iVar -
          (1.0 - c.kappa) * s.Lambda kVar * w kVar * s.P_Tensor iVar kVar * s.Area)) r) res).Flux k
      = if k < c.nVar then
          res.Flux k - ∑ j in Finset.range c.nVar,
            (1.0 - c.kappa) * s.Lambda j * w j * s.P_Tensor k j * s.Area
        else res.Flux k := by
    rw [forLoop_proj ResidualType.Flux _ (fun iVar F => forLoop c.nVar (fun jVar F =>
      setV F iVar (F iVar - (fun i j =>
        (1.0 - c.kappa) * s.Lambda j * w j * s.P_Tensor i j * s.Area) iVar jVar)) F)]
    · exact forLoop_accum_apply c.nVar c.nVar _ res.Flux k
    · intro i r
      exact forLoop_proj ResidualType.Flux _ _ (fun _ _ => rfl) c.nVar r
  unfold lowMachFinalize
  by_cases hc : c.implicit = true
  · simp only [hc, Bool.not_true, Bool.false_eq_true, if_false]
    rw [forLoop_proj_const ResidualType.Flux]
    · exact h1
    · intro i r
      refine forLoop_proj_const ResidualType.Flux _ ?_ c.nVar r
      intro j r2
      rfl
  · have hf : c.implicit = false := by simpa using hc
    simp only [hf, Bool.not_false, if_true]
    exact h1

/-- With equal primitive states on both sides every wave amplitude of the low-Mach schemes
is zero. -/
theorem lowMachDeltaWave_eq_zero (c : Config K) (s : RoeState K) (z : K) (shear : K → K)
    (hs : s.pi = s.pj) (h0 : shear 0 = 0) (k : Nat) :
    lowMachDeltaWave c s z shear k = 0 := by
  have hv : delta_vel s = fun _ => 0 := by
    funext i; simp [delta_vel, hs]
  have hp : proj_delta_vel c s z = 0 := by
    unfold proj_delta_vel
    rw [hv]
    simp [sumLoop_zero]
  unfold lowMachDeltaWave
  simp only [hv, hp, hs, sub_self, zero_div, mul_zero, h0, neg_zero, add_zero]
  split_ifs <;> simp only [setV] <;> split_ifs <;> norm_num

/-- With `nVar = nDim + 2` and the same conservative state and turbulent kinetic energy on
both sides, the jump `Diff_U` seen by `FinalizeResidual` vanishes below `nVar`. -/
theorem Diff_U_eq_zero (ext : Externals K) (c : Config K) (inp : FaceInputs K)
    (old : Scratch K) (hU : inp.U_i = inp.U_j) (hk : inp.turb_ke_i = inp.turb_ke_j)
    (hn : c.nVar = c.nDim + 2) (j : Nat) (hj : j < c.nVar) :
    Diff_U (roeState ext c inp old) j = 0 := by
  unfold Diff_U roeState
  simp only
  rw [hU, hk, sub_eq_zero]
  exact Conservatives_old_irrelevant c.nDim _ _ _ j (by omega)

theorem roeState_pi_eq_pj (ext : Externals K) (c : Config K) (inp : FaceInputs K)
    (old : Scratch K) (hU : inp.U_i = inp.U_j) (hk : inp.turb_ke_i = inp.turb_ke_j) :
    (roeState ext c inp old).pi = (roeState ext c inp old).pj := by
  unfold roeState
  simp only
  rw [hU, hk]

end FinalizeFlux

/-- C4. Standard Roe, L2Roe and Low-Mach Roe on a static grid, with `nVar = nDim + 2`: when
`U_i = U_j` and the turbulent kinetic energies agree, and `RoeSoundSpeed2 > 0`, each
`FinalizeResidual` leaves every flux entry below `nVar` as it found it (zero dissipation),
and the flux returned by `ComputeResidual` is `kappa*(ProjFlux_i + ProjFlux_j)`, for any
helpers (`P_Tensor`, `invP_Tensor`, the low-dissipation factor) and any eigenvalues. -/
theorem no_jump_no_dissipation (ext : Externals K) (c : Config K) (inp : FaceInputs K)
    (old : Scratch K) (res : ResidualType K) (iVar : Nat)
    (hU : inp.U_i = inp.U_j) (hk : inp.turb_ke_i = inp.turb_ke_j)
    (_hd : c.dynamic_grid = false) (hn : c.nVar = c.nDim + 2) (hi : iVar < c.nVar)
    (h : 0 < (roeAverage ext c (extractPrimitive ext c inp.U_i inp.turb_ke_i)
      (extractPrimitive ext c inp.U_j inp.turb_ke_j)).RoeSoundSpeed2) :
    ((CUpwRoe_Flow.FinalizeResidual ext c (roeState ext c inp old) res).Flux iVar
        = res.Flux iVar ∧
      (CUpwL2Roe_Flow.FinalizeResidual ext c (roeState ext c inp old) res).Flux iVar
        = res.Flux iVar ∧
      (CUpwLMRoe_Flow.FinalizeResidual ext c (roeState ext c inp old) res).Flux iVar
        = res.Flux iVar) ∧
    ((ComputeResidual ext c (CUpwRoe_Flow.FinalizeResidual ext c) inp old).Flux iVar
        = c.kappa * (ProjFlux ext inp (extractPrimitive ext c inp.U_i inp.turb_ke_i) iVar
            + ProjFlux ext inp (extractPrimitive ext c inp.U_j inp.turb_ke_j) iVar) ∧
      (ComputeResidual ext c (CUpwL2Roe_Flow.FinalizeResidual ext c) inp old).Flux iVar
        = c.kappa * (ProjFlux ext inp (extractPrimitive ext c inp.U_i inp.turb_ke_i) iVar
            + ProjFlux ext inp (extractPrimitive ext c inp.U_j inp.turb_ke_j) iVar) ∧
      (ComputeResidual ext c (CUpwLMRoe_Flow.FinalizeResidual ext c) inp old).Flux iVar
        = c.kappa * (ProjFlux ext inp (extractPrimitive ext c inp.U_i inp.turb_ke_i) iVar
            + ProjFlux ext inp (extractPrimitive ext c inp.U_j inp.turb_ke_j) iVar)) := by
  have hs := roeState_pi_eq_pj ext c inp old hU hk
  have hRoe : ∀ r : ResidualType K,
      (CUpwRoe_Flow.FinalizeResidual ext c (roeState ext c inp old) r).Flux iVar
        = r.Flux iVar := by
    intro r
    rw [CUpwRoe_Flow.FinalizeResidual_Flux, if_pos hi, Finset.sum_eq_zero, sub_zero]
    intro j hj
    rw [Diff_U_eq_zero ext c inp old hU hk hn j (Finset.mem_range.mp hj)]
    ring
  have hL2 : ∀ r : ResidualType K,
      (CUpwL2Roe_Flow.FinalizeResidual ext c (roeState ext c inp old) r).Flux iVar
        = r.Flux iVar := by
    intro r
    unfold CUpwL2Roe_Flow.FinalizeResidual
    simp only
    rw [lowMachFinalize_Flux, if_pos hi, Finset.sum_eq_zero, sub_zero]
    intro j _
    rw [lowMachDeltaWave_eq_zero c _ _ _ hs (by ring)]
    ring
  have hLM : ∀ r : ResidualType K,
      (CUpwLMRoe_Flow.FinalizeResidual ext c (roeState ext c inp old) r).Flux iVar
        = r.Flux iVar := by
    intro r
    unfold CUpwLMRoe_Flow.FinalizeResidual
    simp only
    rw [lowMachFinalize_Flux, if_pos hi, Finset.sum_eq_zero, sub_zero]
    intro j _
    rw [lowMachDeltaWave_eq_zero c _ _ _ hs rfl]
    ring
  have hinit : (initResidual ext c inp (roeState ext c inp old) old.res).Flux iVar
      = c.kappa * (ProjFlux ext inp (extractPrimitive ext c inp.U_i inp.turb_ke_i) iVar
            + ProjFlux ext inp (extractPrimitive ext c inp.U_j inp.turb_ke_j) iVar) := by
    rw [initResidual_Flux, if_pos hi]
    rfl
  refine ⟨⟨hRoe res, hL2 res, hLM res⟩, ?_, ?_, ?_⟩
  · rw [ComputeResidual_Flux ext c _ inp old iVar h]
    unfold afterFinalize
    simp only
    rw [hRoe, hinit]
  · rw [ComputeResidual_Flux ext c _ inp old iVar h]
    unfold afterFinalize
    simp only
    rw [hL2, hinit]
  · rw [ComputeResidual_Flux ext c _ inp old iVar h]
    unfold afterFinalize
    simp only
    rw [hLM, hinit]

theorem example_RoeSoundSpeed2_pos (b1 b2 b3 : Bool) (g : ℝ) :
    0 < (roeAverage (constExternals Real.sqrt) (exampleConfig b1 b2 b3)
      (extractPrimitive (constExternals Real.sqrt) (exampleConfig b1 b2 b3)
        (exampleInputs (state2D 1 0 (5 / 2)) (state2D 1 0 (5 / 2)) g).U_i
        (exampleInputs (state2D 1 0 (5 / 2)) (state2D 1 0 (5 / 2)) g).turb_ke_i)
      (extractPrimitive (constExternals Real.sqrt) (exampleConfig b1 b2 b3)
        (exampleInputs (state2D 1 0 (5 / 2)) (state2D 1 0 (5 / 2)) g).U_j
        (exampleInputs (state2D 1 0 (5 / 2)) (state2D 1 0 (5 / 2)) g).turb_ke_j)).RoeSoundSpeed2 := by
  simp [roeAverage, extractPrimitive, exampleInputs, exampleConfig, constExternals, state2D,
    Config.Gamma_Minus_One, sumLoop, forLoop]
  norm_num

/-- C4, at a concrete input: the state `(1, 0, 0, 5/2)` on both sides of a face with normal
`(1, 0)`, explicit scheme, static grid, over the reals with the real square root. -/
theorem no_jump_no_dissipation_witness :
    (exampleInputs (state2D 1 0 (5 / 2)) (state2D 1 0 (5 / 2)) (0 : ℝ)).U_i
      = (exampleInputs (state2D 1 0 (5 / 2)) (state2D 1 0 (5 / 2)) (0 : ℝ)).U_j ∧
    (ComputeResidual (constExternals Real.sqrt) (exampleConfig false false false)
      (CUpwL2Roe_Flow.FinalizeResidual (constExternals Real.sqrt) (exampleConfig false false false))
      (exampleInputs (state2D 1 0 (5 / 2)) (state2D 1 0 (5 / 2)) (0 : ℝ)) exampleScratch).Flux 1
      = (exampleConfig (K := ℝ) false false false).kappa
        * (ProjFlux (constExternals Real.sqrt)
            (exampleInputs (state2D 1 0 (5 / 2)) (state2D 1 0 (5 / 2)) (0 : ℝ))
            (extractPrimitive (constExternals Real.sqrt) (exampleConfig false false false)
              (exampleInputs (state2D 1 0 (5 / 2)) (state2D 1 0 (5 / 2)) (0 : ℝ)).U_i
              (exampleInputs (state2D 1 0 (5 / 2)) (state2D 1 0 (5 / 2)) (0 : ℝ)).turb_ke_i) 1
          + ProjFlux (constExternals Real.sqrt)
            (exampleInputs (state2D 1 0 (5 / 2)) (state2D 1 0 (5 / 2)) (0 : ℝ))
            (extractPrimitive (constExternals Real.sqrt) (exampleConfig false false false)
              (exampleInputs (state2D 1 0 (5 / 2)) (state2D 1 0 (5 / 2)) (0 : ℝ)).U_j
              (exampleInputs (state2D 1 0 (5 / 2)) (state2D 1 0 (5 / 2)) (0 : ℝ)).turb_ke_j) 1) :=
  ⟨rfl, (no_jump_no_dissipation (constExternals Real.sqrt) (exampleConfig false false false)
    (exampleInputs (state2D 1 0 (5 / 2)) (state2D 1 0 (5 / 2)) (0 : ℝ)) exampleScratch
    exampleScratch.res 1 rfl rfl rfl rfl (by simp [exampleConfig])
    (example_RoeSoundSpeed2_pos false false false 0)).2.2.1⟩

/-- C6 (the code departs from the claim). `CUpwRoeBase_Flow::ComputeResidual` on a dynamic
grid, state `(1, 0, 0, 5/2)` on both sides, normal `(1, 0)`, grid velocity `(3, 0)` on both
sides: the projected grid velocity is 3, `Area` is 1 and `Conservatives_i[0] =
Conservatives_j[0] = 1`, so the correction of the claim would subtract
`3*1*0.5*(1 + 1) = 3` from `Flux[0]`; the returned `Flux[0]` is the value left by
`FinalizeResidual`, unchanged, because the `ProjGridVel` read by "Correct for grid motion" is
the variable of the function scope, still `0.0`. -/
theorem grid_motion_flux_correction_not_applied :
    innerProjGridVel 2 (exampleInputs (state2D 1 0 (5 / 2)) (state2D 1 0 (5 / 2)) (3 : ℝ)).GridVel_i
      (exampleInputs (state2D 1 0 (5 / 2)) (state2D 1 0 (5 / 2)) (3 : ℝ)).GridVel_j
      (UnitNormal (constExternals Real.sqrt) 2
        (exampleInputs (state2D 1 0 (5 / 2)) (state2D 1 0 (5 / 2)) (3 : ℝ)).Normal) = 3 ∧
    Area (constExternals Real.sqrt) 2
      (exampleInputs (state2D 1 0 (5 / 2)) (state2D 1 0 (5 / 2)) (3 : ℝ)).Normal = 1 ∧
    (roeState (constExternals Real.sqrt) (exampleConfig false true false)
      (exampleInputs (state2D 1 0 (5 / 2)) (state2D 1 0 (5 / 2)) (3 : ℝ))
      exampleScratch).Conservatives_i 0 = 1 ∧
    (roeState (constExternals Real.sqrt) (exampleConfig false true false)
      (exampleInputs (state2D 1 0 (5 / 2)) (state2D 1 0 (5 / 2)) (3 : ℝ))
      exampleScratch).Conservatives_j 0 = 1 ∧
    (ComputeResidual (constExternals Real.sqrt) (exampleConfig false true false)
      (CUpwRoe_Flow.FinalizeResidual (constExternals Real.sqrt) (exampleConfig false true false))
      (exampleInputs (state2D 1 0 (5 / 2)) (state2D 1 0 (5 / 2)) (3 : ℝ)) exampleScratch).Flux 0
      = (afterFinalize (constExternals Real.sqrt) (exampleConfig false true false)
        (CUpwRoe_Flow.FinalizeResidual (constExternals Real.sqrt) (exampleConfig false true false))
        (exampleInputs (state2D 1 0 (5 / 2)) (state2D 1 0 (5 / 2)) (3 : ℝ)) exampleScratch).Flux 0 ∧
    (ComputeResidual (constExternals Real.sqrt) (exampleConfig false true false)
      (CUpwRoe_Flow.FinalizeResidual (constExternals Real.sqrt) (exampleConfig false true false))
      (exampleInputs (state2D 1 0 (5 / 2)) (state2D 1 0 (5 / 2)) (3 : ℝ)) exampleScratch).Flux 0
      ≠ (afterFinalize (constExternals Real.sqrt) (exampleConfig false true false)
        (CUpwRoe_Flow.FinalizeResidual (constExternals Real.sqrt) (exampleConfig false true false))
        (exampleInputs (state2D 1 0 (5 / 2)) (state2D 1 0 (5 / 2)) (3 : ℝ)) exampleScratch).Flux 0
        - 3 * 1 * 0.5 * (1 + 1) := by
  have hF := ComputeResidual_Flux (constExternals Real.sqrt) (exampleConfig false true false)
    (CUpwRoe_Flow.FinalizeResidual (constExternals Real.sqrt) (exampleConfig false true false))
    (exampleInputs (state2D 1 0 (5 / 2)) (state2D 1 0 (5 / 2)) (3 : ℝ)) exampleScratch 0
    (example_RoeSoundSpeed2_pos false true false 3)
  refine ⟨?_, ?_, ?_, ?_, hF, ?_⟩
  · simp [innerProjGridVel, UnitNormal, Area, exampleInputs, constExternals, sumLoop, forLoop]
    norm_num
  · simp [Area, exampleInputs, constExternals, sumLoop, forLoop]
  · simp [roeState, Conservatives_apply, extractPrimitive, exampleInputs, exampleConfig, state2D]
  · simp [roeState, Conservatives_apply, extractPrimitive, exampleInputs, exampleConfig, state2D]
  · rw [hF]
    intro h
    linarith

/-! ## Positivity of the Roe-averaged sound speed squared -/

section SoundSpeed

/-- One term of the convexity estimate: the square of the weighted mean is at most the
weighted mean of the squares. -/
theorem roe_mean_sq_le (R a b : K) (hR : 0 ≤ R) :
    (R * a + b) / (R + 1.0) * ((R * a + b) / (R + 1.0)) ≤ (R * (a * a) + b * b) / (R + 1.0) := by
  have hD : (0 : K) < R + 1.0 := by norm_num; linarith
  have e : (R * (a * a) + b * b) / (R + 1.0)
      - (R * a + b) / (R + 1.0) * ((R * a + b) / (R + 1.0))
      = R * (a - b) ^ 2 / (R + 1.0) ^ 2 := by
    field_simp
    ring
  have h : 0 ≤ R * (a - b) ^ 2 / (R + 1.0) ^ 2 :=
    div_nonneg (mul_nonneg hR (sq_nonneg _)) (sq_nonneg _)
  linarith

/-- The square of the Roe-averaged velocity is at most the weighted mean of the one-sided
squares. -/
theorem RoeSqVel_le (n : Nat) (R : K) (vi vj : Nat → K) (hR : 0 ≤ R) :
    sumLoop n (fun iDim => (R * vj iDim + vi iDim) / (R + 1.0)
        * ((R * vj iDim + vi iDim) / (R + 1.0)))
      ≤ (R * sumLoop n (fun iDim => vj iDim * vj iDim)
          + sumLoop n (fun iDim => vi iDim * vi iDim)) / (R + 1.0) := by
  rw [sumLoop_eq_sum, sumLoop_eq_sum, sumLoop_eq_sum]
  have e : (R * ∑ i in Finset.range n, vj i * vj i + ∑ i in Finset.range n, vi i * vi i)
        / (R + 1.0)
      = ∑ i in Finset.range n, (R * (vj i * vj i) + vi i * vi i) / (R + 1.0) := by
    rw [Finset.mul_sum, ← Finset.sum_add_distrib, Finset.sum_div]
  rw [e]
  exact Finset.sum_le_sum (fun i _ => roe_mean_sq_le R (vj i) (vi i) hR)

/-- The scalar core: a weighted mean of positive "static enthalpies" stays positive after the
kinetic energy of the mean velocity is removed. -/
theorem roe_c2_pos (R g Hi Hj qi qj qr ki kj : K) (hR : 0 ≤ R) (hg : 0 < g)
    (hai : 0 < Hi - 0.5 * qi - ki) (haj : 0 < Hj - 0.5 * qj - kj)
    (hq : qr ≤ (R * qj + qi) / (R + 1.0)) :
    0 < g * ((R * Hj + Hi) / (R + 1.0) - 0.5 * qr - (R * kj + ki) / (R + 1.0)) := by
  have hD : (0 : K) < R + 1.0 := by norm_num; linarith
  have e : (R * Hj + Hi) / (R + 1.0) - 0.5 * qr - (R * kj + ki) / (R + 1.0)
      = (R * (Hj - 0.5 * qj - kj) + (Hi - 0.5 * qi - ki)) / (R + 1.0)
        + 0.5 * ((R * qj + qi) / (R + 1.0) - qr) := by
    field_simp
    ring
  have h1 : 0 < (R * (Hj - 0.5 * qj - kj) + (Hi - 0.5 * qi - ki)) / (R + 1.0) :=
    div_pos (add_pos_of_nonneg_of_pos (mul_nonneg hR haj.le) hai) hD
  have h2 : (0 : K) ≤ 0.5 * ((R * qj + qi) / (R + 1.0) - qr) :=
    mul_nonneg (by norm_num) (by linarith)
  rw [e]
  exact mul_pos hg (by linarith)

/-- For a positive density and pressure and `Gamma > 1`, the enthalpy exceeds the kinetic
and turbulent energy. -/
theorem static_enthalpy_pos (ext : Externals K) (c : Config K) (U : Nat → K) (k : K)
    (hg : 1 < c.Gamma) (hr : 0 < U 0) (hp : 0 < (extractPrimitive ext c U k).Pressure) :
    0 < (extractPrimitive ext c U k).Enthalpy - 0.5 * (extractPrimitive ext c U k).SqVel
      - (extractPrimitive ext c U k).turb_ke := by
  have hg1 : 0 < c.Gamma_Minus_One := by
    unfold Config.Gamma_Minus_One; norm_num; linarith
  have hr0 : U 0 ≠ 0 := ne_of_gt hr
  have e : (extractPrimitive ext c U k).Enthalpy - 0.5 * (extractPrimitive ext c U k).SqVel
      - (extractPrimitive ext c U k).turb_ke
      = (extractPrimitive ext c U k).Pressure / (c.Gamma_Minus_One * U 0)
        + (extractPrimitive ext c U k).Pressure / U 0 := by
    simp only [extractPrimitive]
    field_simp
    ring
  rw [e]
  exact add_pos (div_pos hp (mul_pos hg1 hr)) (div_pos hp hr)

end SoundSpeed

/-- C9. In `CUpwRoeBase_Flow::ComputeResidual`, for conservative states with positive
densities and positive extracted pressures, `Gamma > 1` and a non-negative `sqrt`,
`RoeSoundSpeed2 = (Gamma-1)*(RoeEnthalpy - 0.5*RoeSqVel - RoeTke)` is strictly positive (for
any velocities and any turbulent kinetic energy), and the degenerate early exit is not taken:
the result is the one of the main path. -/
theorem roe_sound_speed_squared_pos (ext : Externals K) (c : Config K)
    (FinalizeResidual : RoeState K → ResidualType K → ResidualType K)
    (inp : FaceInputs K) (old : Scratch K)
    (hs : ∀ x, 0 ≤ ext.sqrt x) (hg : 1 < c.Gamma)
    (hri : 0 < inp.U_i 0) (hrj : 0 < inp.U_j 0)
    (hpi : 0 < (extractPrimitive ext c inp.U_i inp.turb_ke_i).Pressure)
    (hpj : 0 < (extractPrimitive ext c inp.U_j inp.turb_ke_j).Pressure) :
    0 < (roeAverage ext c (extractPrimitive ext c inp.U_i inp.turb_ke_i)
      (extractPrimitive ext c inp.U_j inp.turb_ke_j)).RoeSoundSpeed2 ∧
    ComputeResidual ext c FinalizeResidual inp old
      = musclStep c inp (gridMotionCorrection c (roeState ext c inp old)
          (afterFinalize ext c FinalizeResidual inp old)) := by
  have hg1 : 0 < c.Gamma_Minus_One := by
    unfold Config.Gamma_Minus_One; norm_num; linarith
  have hpos : 0 < (roeAverage ext c (extractPrimitive ext c inp.U_i inp.turb_ke_i)
      (extractPrimitive ext c inp.U_j inp.turb_ke_j)).RoeSoundSpeed2 := by
    unfold roeAverage
    simp only
    exact roe_c2_pos _ _ _ _ _ _ _ _ _ (hs _) hg1
      (static_enthalpy_pos ext c inp.U_i inp.turb_ke_i hg hri hpi)
      (static_enthalpy_pos ext c inp.U_j inp.turb_ke_j hg hrj hpj)
      (RoeSqVel_le c.nDim _ _ _ (hs _))
  refine ⟨hpos, ?_⟩
  have h0 : ¬ (roeAverage ext c (extractPrimitive ext c inp.U_i inp.turb_ke_i)
      (extractPrimitive ext c inp.U_j inp.turb_ke_j)).RoeSoundSpeed2 ≤ 0.0 := by
    norm_num; exact hpos
  unfold ComputeResidual
  simp only [h0, if_false]

/-- C9, at the Sod states: density 1 and 1/8, pressure 1 and 1/10, zero velocity,
`Gamma = 1.4`, over the reals with the real square root. -/
theorem roe_sound_speed_squared_pos_witness :
    (extractPrimitive (constExternals Real.sqrt) (exampleConfig false false false)
      (exampleInputs (state2D 1 0 (5 / 2)) (state2D (1 / 8) 0 (1 / 4)) (0 : ℝ)).U_i
      (exampleInputs (state2D 1 0 (5 / 2)) (state2D (1 / 8) 0 (1 / 4)) (0 : ℝ)).turb_ke_i).Pressure
      = 1 ∧
    (extractPrimitive (constExternals Real.sqrt) (exampleConfig false false false)
      (exampleInputs (state2D 1 0 (5 / 2)) (state2D (1 / 8) 0 (1 / 4)) (0 : ℝ)).U_j
      (exampleInputs (state2D 1 0 (5 / 2)) (state2D (1 / 8) 0 (1 / 4)) (0 : ℝ)).turb_ke_j).Pressure
      = 1 / 10 ∧
    0 < (roeAverage (constExternals Real.sqrt) (exampleConfig false false false)
      (extractPrimitive (constExternals Real.sqrt) (exampleConfig false false false)
        (exampleInputs (state2D 1 0 (5 / 2)) (state2D (1 / 8) 0 (1 / 4)) (0 : ℝ)).U_i
        (exampleInputs (state2D 1 0 (5 / 2)) (state2D (1 / 8) 0 (1 / 4)) (0 : ℝ)).turb_ke_i)
      (extractPrimitive (constExternals Real.sqrt) (exampleConfig false false false)
        (exampleInputs (state2D 1 0 (5 / 2)) (state2D (1 / 8) 0 (1 / 4)) (0 : ℝ)).U_j
        (exampleInputs (state2D 1 0 (5 / 2)) (state2D (1 / 8) 0 (1 / 4)) (0 : ℝ)).turb_ke_j)).RoeSoundSpeed2 := by
  have hpi : (extractPrimitive (constExternals Real.sqrt) (exampleConfig false false false)
      (exampleInputs (state2D 1 0 (5 / 2)) (state2D (1 / 8) 0 (1 / 4)) (0 : ℝ)).U_i
      (exampleInputs (state2D 1 0 (5 / 2)) (state2D (1 / 8) 0 (1 / 4)) (0 : ℝ)).turb_ke_i).Pressure
      = 1 := by
    simp [extractPrimitive, exampleInputs, exampleConfig, state2D, Config.Gamma_Minus_One,
      sumLoop, forLoop]
    norm_num
  have hpj : (extractPrimitive (constExternals Real.sqrt) (exampleConfig false false false)
      (exampleInputs (state2D 1 0 (5 / 2)) (state2D (1 / 8) 0 (1 / 4)) (0 : ℝ)).U_j
      (exampleInputs (state2D 1 0 (5 / 2)) (state2D (1 / 8) 0 (1 / 4)) (0 : ℝ)).turb_ke_j).Pressure
      = 1 / 10 := by
    simp [extractPrimitive, exampleInputs, exampleConfig, state2D, Config.Gamma_Minus_One,
      sumLoop, forLoop]
    norm_num
  exact ⟨hpi, hpj, (roe_sound_speed_squared_pos (constExternals Real.sqrt)
    (exampleConfig false false false)
    (CUpwRoe_Flow.FinalizeResidual (constExternals Real.sqrt) (exampleConfig false false false))
    (exampleInputs (state2D 1 0 (5 / 2)) (state2D (1 / 8) 0 (1 / 4)) (0 : ℝ)) exampleScratch
    Real.sqrt_nonneg (by norm_num [exampleConfig])
    (by norm_num [exampleInputs, state2D]) (by norm_num [exampleInputs, state2D])
    (by rw [hpi]; norm_num) (by rw [hpj]; norm_num)).1⟩

/-! ## Exchange of the two sides: Roe averages, geometry, eigenvalues -/

section Exchange

theorem IsSqrt.unique {sqrt : K → K} (hs : IsSqrt sqrt) {x y : K} (hy : 0 ≤ y)
    (hxy : y * y = x) : sqrt x = y := by
  have hx : 0 ≤ x := by rw [← hxy]; exact mul_self_nonneg y
  obtain ⟨h0, h1⟩ := hs x hx
  exact (mul_self_inj h0 hy).mp (h1.trans hxy.symm)

/-- The density ratios of the two orientations are inverse to each other. -/
theorem roe_R_swap {sqrt : K → K} (hs : IsSqrt sqrt) (ri rj : K) (hi : 0 < ri) (hj : 0 < rj) :
    0 < sqrt |rj / ri| ∧ sqrt |rj / ri| * sqrt |ri / rj| = 1 ∧
      sqrt |rj / ri| * ri = sqrt |ri / rj| * rj := by
  have e1 : |rj / ri| = rj / ri := abs_of_pos (div_pos hj hi)
  have e2 : |ri / rj| = ri / rj := abs_of_pos (div_pos hi hj)
  rw [e1, e2]
  obtain ⟨a0, a1⟩ := hs (rj / ri) (div_pos hj hi).le
  obtain ⟨b0, b1⟩ := hs (ri / rj) (div_pos hi hj).le
  have hne : sqrt (rj / ri) ≠ 0 := by
    intro h
    rw [h, mul_zero] at a1
    exact absurd a1.symm (ne_of_gt (div_pos hj hi))
  have hpos : 0 < sqrt (rj / ri) := lt_of_le_of_ne a0 (Ne.symm hne)
  have hprod : sqrt (rj / ri) * sqrt (ri / rj) = 1 := by
    have hsq : (sqrt (rj / ri) * sqrt (ri / rj)) * (sqrt (rj / ri) * sqrt (ri / rj)) = 1 * 1 := by
      calc (sqrt (rj / ri) * sqrt (ri / rj)) * (sqrt (rj / ri) * sqrt (ri / rj))
          = (sqrt (rj / ri) * sqrt (rj / ri)) * (sqrt (ri / rj) * sqrt (ri / rj)) := by ring
        _ = 1 * 1 := by
          rw [a1, b1]
          field_simp
    exact (mul_self_inj (mul_nonneg a0 b0) zero_le_one).mp hsq
  refine ⟨hpos, hprod, ?_⟩
  have h3 : sqrt (rj / ri) * (sqrt (rj / ri) * ri) = sqrt (rj / ri) * (sqrt (ri / rj) * rj) := by
    calc sqrt (rj / ri) * (sqrt (rj / ri) * ri)
        = (sqrt (rj / ri) * sqrt (rj / ri)) * ri := by ring
      _ = rj := by rw [a1]; field_simp
      _ = (sqrt (rj / ri) * sqrt (ri / rj)) * rj := by rw [hprod, one_mul]
      _ = sqrt (rj / ri) * (sqrt (ri / rj) * rj) := by ring
  exact mul_left_cancel₀ hne h3

/-- The Roe weighting of a pair of values does not depend on the orientation. -/
theorem roe_weight_swap (R S a b : K) (hR : 0 < R) (h : R * S = 1) :
    (S * a + b) / (S + 1.0) = (R * b + a) / (R + 1.0) := by
  have hS : S = 1 / R := by
    field_simp
    linarith [mul_comm R S]
  have hR1 : R + 1.0 ≠ 0 := by
    have : (0 : K) < R + 1.0 := by norm_num; linarith
    exact ne_of_gt this
  have hRne : R ≠ 0 := ne_of_gt hR
  have hS1 : 1 / R + 1.0 ≠ 0 := by
    have : (0 : K) < 1 / R + 1.0 := by
      have := one_div_pos.mpr hR
      norm_num
      linarith [inv_pos.mpr hR]
    exact ne_of_gt this
  rw [hS]
  field_simp
  ring

theorem sumLoop_congr (n : Nat) (f g : Nat → K) (h : ∀ i, i < n → f i = g i) :
    sumLoop n f = sumLoop n g := by
  rw [sumLoop_eq_sum, sumLoop_eq_sum]
  exact Finset.sum_congr rfl (fun i hi => h i (Finset.mem_range.mp hi))

theorem sumLoop_neg (n : Nat) (f : Nat → K) :
    sumLoop n (fun i => -f i) = -sumLoop n f := by
  rw [sumLoop_eq_sum, sumLoop_eq_sum, Finset.sum_neg_distrib]

theorem Area_neg (ext : Externals K) (nDim : Nat) (n : Nat → K) :
    Area ext nDim (fun iDim => -n iDim) = Area ext nDim n := by
  unfold Area
  congr 1
  exact sumLoop_congr nDim _ _ (fun i _ => by ring)

theorem UnitNormal_neg (ext : Externals K) (nDim : Nat) (n : Nat → K) :
    UnitNormal ext nDim (fun iDim => -n iDim) = fun iDim => -UnitNormal ext nDim n iDim := by
  funext i
  unfold UnitNormal
  rw [Area_neg, neg_div]

theorem projVel_neg (nDim : Nat) (v n : Nat → K) :
    projVel nDim v (fun iDim => -n iDim) = -projVel nDim v n := by
  unfold projVel
  rw [← sumLoop_neg]
  exact sumLoop_congr nDim _ _ (fun i _ => by ring)

theorem HartenHymanFix_neg (x e : K) : HartenHymanFix (-x) e = HartenHymanFix x e := by
  unfold HartenHymanFix
  rw [abs_neg, neg_mul_neg]

theorem HartenHymanEpsilon_neg (x l r : K) :
    HartenHymanEpsilon (-x) (-r) (-l) = HartenHymanEpsilon x l r := by
  unfold HartenHymanEpsilon
  have e1 : -x - -r = r - x := by ring
  have e2 : -l - -x = x - l := by ring
  rw [e1, e2, max_comm (r - x) (x - l)]

/-- The Roe averages do not depend on the orientation, for positive densities. -/
theorem roeAverage_swap (ext : Externals K) (c : Config K) (pi pj : Primitive K)
    (hs : IsSqrt ext.sqrt) (hi : 0 < pi.Density) (hj : 0 < pj.Density) :
    (roeAverage ext c pj pi).RoeDensity = (roeAverage ext c pi pj).RoeDensity ∧
    (roeAverage ext c pj pi).RoeVelocity = (roeAverage ext c pi pj).RoeVelocity ∧
    (roeAverage ext c pj pi).RoeSqVel = (roeAverage ext c pi pj).RoeSqVel ∧
    (roeAverage ext c pj pi).RoeEnthalpy = (roeAverage ext c pi pj).RoeEnthalpy ∧
    (roeAverage ext c pj pi).RoeTke = (roeAverage ext c pi pj).RoeTke ∧
    (roeAverage ext c pj pi).RoeSoundSpeed2 = (roeAverage ext c pi pj).RoeSoundSpeed2 := by
  obtain ⟨hR, hRS, hD⟩ := roe_R_swap hs pi.Density pj.Density hi hj
  have hv : (roeAverage ext c pj pi).RoeVelocity = (roeAverage ext c pi pj).RoeVelocity := by
    funext d
    exact roe_weight_swap _ _ _ _ hR hRS
  have hH : (roeAverage ext c pj pi).RoeEnthalpy = (roeAverage ext c pi pj).RoeEnthalpy :=
    roe_weight_swap _ _ _ _ hR hRS
  have hT : (roeAverage ext c pj pi).RoeTke = (roeAverage ext c pi pj).RoeTke :=
    roe_weight_swap _ _ _ _ hR hRS
  have hq : (roeAverage ext c pj pi).RoeSqVel = (roeAverage ext c pi pj).RoeSqVel := by
    show sumLoop c.nDim (fun iDim => (roeAverage ext c pj pi).RoeVelocity iDim
        * (roeAverage ext c pj pi).RoeVelocity iDim)
      = sumLoop c.nDim (fun iDim => (roeAverage ext c pi pj).RoeVelocity iDim
        * (roeAverage ext c pi pj).RoeVelocity iDim)
    rw [hv]
  refine ⟨hD.symm, hv, hq, hH, hT, ?_⟩
  show c.Gamma_Minus_One * ((roeAverage ext c pj pi).RoeEnthalpy
      - 0.5 * (roeAverage ext c pj pi).RoeSqVel - (roeAverage ext c pj pi).RoeTke)
    = c.Gamma_Minus_One * ((roeAverage ext c pi pj).RoeEnthalpy
      - 0.5 * (roeAverage ext c pi pj).RoeSqVel - (roeAverage ext c pi pj).RoeTke)
  rw [hH, hq, hT]

end Exchange

section EigenExchange

/-- The eigenvalue buffers before the correction loop, entry by entry, for `nVar = nDim + 2`. -/
theorem rawEigenvalues_apply (nDim : Nat) (tkeNeeded : Bool) (PV PVi PVj c ci cj : K)
    (old : EigenBuffers K) (k : Nat) (hk : k < nDim + 2 + (if tkeNeeded then 1 else 0)) :
    (rawEigenvalues nDim (nDim + 2) tkeNeeded PV PVi PVj c ci cj old).Lambda k
      = (if k < nDim then PV else if k = nDim then PV + c
          else if k = nDim + 1 then PV - c else PV) ∧
    (rawEigenvalues nDim (nDim + 2) tkeNeeded PV PVi PVj c ci cj old).Epsilon k
      = (if k < nDim then HartenHymanEpsilon PV PVi PVj
          else if k = nDim then HartenHymanEpsilon (PV + c) (PVi + ci) (PVj + cj)
          else if k = nDim + 1 then HartenHymanEpsilon (PV - c) (PVi - ci) (PVj - cj)
          else HartenHymanEpsilon PV PVi PVj) := by
  have h2 : nDim + 2 - 2 = nDim := by omega
  have h1 : nDim + 2 - 1 = nDim + 1 := by omega
  unfold rawEigenvalues
  simp only [h2, h1]
  by_cases k0 : k < nDim
  · have a1 : k ≠ nDim := by omega
    have a2 : k ≠ nDim + 1 := by omega
    have a3 : k ≠ nDim + 2 := by omega
    cases tkeNeeded <;>
      simp [setV, shearLambda_apply, shearEpsilon_apply, k0, a1, a2, a3]
  · by_cases k1 : k = nDim
    · subst k1
      cases tkeNeeded <;> simp [setV]
    · by_cases k2 : k = nDim + 1
      · subst k2
        cases tkeNeeded <;> simp [setV]
      · cases tkeNeeded with
        | false =>
          simp only [Bool.false_eq_true, if_false, Nat.add_zero] at hk
          omega
        | true =>
          simp only [if_true] at hk
          have k3 : k = nDim + 2 := by omega
          subst k3
          simp [setV]

/-- The corrected eigenvalues, entry by entry, for `nVar = nDim + 2`. -/
theorem fixedLambda_apply (nDim : Nat) (tkeNeeded : Bool) (PV PVi PVj c ci cj : K)
    (old : EigenBuffers K) (k : Nat) (hk : k < nDim + 2 + (if tkeNeeded then 1 else 0)) :
    (correctEigenvalues (nDim + 2 + (if tkeNeeded then 1 else 0))
        (rawEigenvalues nDim (nDim + 2) tkeNeeded PV PVi PVj c ci cj old)).Lambda k
      = if k < nDim then shearLambda PV PVi PVj
        else if k = nDim then plusLambda PV PVi PVj c ci cj
        else if k = nDim + 1 then minusLambda PV PVi PVj c ci cj
        else shearLambda PV PVi PVj := by
  obtain ⟨hL, hE⟩ := rawEigenvalues_apply nDim tkeNeeded PV PVi PVj c ci cj old k hk
  rw [correctEigenvalues_Lambda, if_pos hk, hL, hE]
  unfold shearLambda plusLambda minusLambda
  split_ifs <;> rfl

theorem shearLambda_swap (PV PVi PVj : K) :
    shearLambda (-PV) (-PVj) (-PVi) = shearLambda PV PVi PVj := by
  unfold shearLambda
  rw [HartenHymanFix_neg, HartenHymanEpsilon_neg]

theorem plusLambda_swap (PV PVi PVj c ci cj : K) :
    plusLambda (-PV) (-PVj) (-PVi) c cj ci = minusLambda PV PVi PVj c ci cj := by
  unfold plusLambda minusLambda
  have e1 : -PV + c = -(PV - c) := by ring
  have e2 : -PVj + cj = -(PVj - cj) := by ring
  have e3 : -PVi + ci = -(PVi - ci) := by ring
  rw [e1, e2, e3, HartenHymanFix_neg, HartenHymanEpsilon_neg]

theorem minusLambda_swap (PV PVi PVj c ci cj : K) :
    minusLambda (-PV) (-PVj) (-PVi) c cj ci = plusLambda PV PVi PVj c ci cj := by
  unfold plusLambda minusLambda
  have e1 : -PV - c = -(PV + c) := by ring
  have e2 : -PVj - cj = -(PVj + cj) := by ring
  have e3 : -PVi - ci = -(PVi + ci) := by ring
  rw [e1, e2, e3, HartenHymanFix_neg, HartenHymanEpsilon_neg]

end EigenExchange

/-! ## The modulus matrix `P * diag(Lambda) * invP` under a change of sign of the normal -/

section Modulus

open Matrix

/-- A quadratic polynomial in the diagonal passes through the conjugation by `P`. -/
theorem conj_quadratic {N : ℕ} (P Q : Matrix (Fin N) (Fin N) K) (lam d : Fin N → K)
    (s b g : K) (hPQ : P * Q = 1)
    (hd : ∀ k, d k = s + b * lam k + g * (lam k * lam k)) :
    P * diagonal d * Q
      = s • (1 : Matrix (Fin N) (Fin N) K) + b • (P * diagonal lam * Q)
        + g • ((P * diagonal lam * Q) * (P * diagonal lam * Q)) := by
  have hQP : Q * P = 1 := (Matrix.mul_eq_one_comm).mp hPQ
  have hdiag : diagonal d = s • (1 : Matrix (Fin N) (Fin N) K) + b • diagonal lam
      + g • (diagonal lam * diagonal lam) := by
    ext i j
    by_cases h : i = j
    · subst h
      simp [hd, diagonal_mul_diagonal]
    · simp [diagonal_mul_diagonal, h, Matrix.one_apply_ne h]
  have hBB : (P * diagonal lam * Q) * (P * diagonal lam * Q)
      = P * (diagonal lam * diagonal lam) * Q := by
    calc (P * diagonal lam * Q) * (P * diagonal lam * Q)
        = P * diagonal lam * (Q * P) * diagonal lam * Q := by
          simp only [Matrix.mul_assoc]
      _ = P * (diagonal lam * diagonal lam) * Q := by
          rw [hQP]; simp only [Matrix.mul_assoc, Matrix.one_mul]
  rw [hBB, hdiag]
  simp only [Matrix.mul_add, Matrix.add_mul, Matrix.mul_smul, Matrix.smul_mul, Matrix.mul_one, hPQ]

/-- If two eigensystems diagonalise opposite matrices, and the two diagonals are the same
quadratic function of the eigenvalue up to the sign of its argument, the two conjugated
diagonals agree. -/
theorem modulus_even {N : ℕ} (P Q P2 Q2 : Matrix (Fin N) (Fin N) K)
    (lam lam2 d d2 : Fin N → K) (u s b g : K) (hPQ : P * Q = 1) (hPQ2 : P2 * Q2 = 1)
    (hA : P2 * diagonal lam2 * Q2 = -(P * diagonal lam * Q))
    (hd : ∀ k, d k = s + b * (lam k - u) + g * ((lam k - u) * (lam k - u)))
    (hd2 : ∀ k, d2 k = s - b * (lam2 k + u) + g * ((lam2 k + u) * (lam2 k + u))) :
    P2 * diagonal d2 * Q2 = P * diagonal d * Q := by
  have h1 := conj_quadratic P Q (fun k => lam k - u) d s b g hPQ hd
  have h2 := conj_quadratic P2 Q2 (fun k => lam2 k + u) d2 s (-b) g hPQ2
    (by intro k; rw [hd2]; ring)
  have e1 : P * diagonal (fun k => lam k - u) * Q
      = P * diagonal lam * Q - u • (1 : Matrix (Fin N) (Fin N) K) := by
    have hm : diagonal (fun k => lam k - u)
        = diagonal lam - u • (1 : Matrix (Fin N) (Fin N) K) := by
      ext i j
      by_cases h : i = j
      · subst h; simp
      · simp [h, Matrix.one_apply_ne h]
    rw [hm]
    simp only [Matrix.mul_sub, Matrix.sub_mul, Matrix.mul_smul, Matrix.smul_mul, Matrix.mul_one, hPQ]
  have e2 : P2 * diagonal (fun k => lam2 k + u) * Q2
      = -(P * diagonal lam * Q - u • (1 : Matrix (Fin N) (Fin N) K)) := by
    have hm : diagonal (fun k => lam2 k + u)
        = diagonal lam2 + u • (1 : Matrix (Fin N) (Fin N) K) := by
      ext i j
      by_cases h : i = j
      · subst h; simp
      · simp [h, Matrix.one_apply_ne h]
    rw [hm]
    simp only [Matrix.mul_add, Matrix.add_mul, Matrix.mul_smul, Matrix.smul_mul, Matrix.mul_one,
      hPQ2, hA]
    abel
  rw [h1, h2, e1, e2]
  simp only [neg_smul, smul_neg, neg_neg, neg_mul_neg]

theorem modJac_eq_matrix (n : Nat) (P : Nat → Nat → K) (lam : Nat → K) (Q : Nat → Nat → K)
    (i j : Fin n) :
    modJac n P lam Q i j
      = (toMatrix n P * diagonal (fun k : Fin n => lam k) * toMatrix n Q) i j := by
  unfold modJac
  rw [sumLoop_eq_sum, Finset.sum_range, Matrix.mul_apply]
  refine Finset.sum_congr rfl (fun k _ => ?_)
  rw [Matrix.mul_diagonal]
  rfl

theorem IsInversePair.toMatrix_mul {n : Nat} {P Q : Nat → Nat → K} (h : IsInversePair n P Q) :
    toMatrix n P * toMatrix n Q = 1 := by
  ext i j
  rw [Matrix.mul_apply, Matrix.one_apply]
  have := h i j i.isLt j.isLt
  rw [sumLoop_eq_sum, Finset.sum_range] at this
  rw [show (∑ k : Fin n, toMatrix n P i k * toMatrix n Q k j)
      = ∑ k : Fin n, P i k * Q k j from rfl, this]
  by_cases hij : i = j
  · simp [hij]
  · have : (i : Nat) ≠ j := fun e => hij (Fin.ext e)
    simp [hij, this]

/-- The statement of `modulus_even` on matrix buffers. -/
theorem modJac_even (n : Nat) (P Q P2 Q2 : Nat → Nat → K) (lam lam2 d d2 : Nat → K)
    (u s b g : K) (hPQ : IsInversePair n P Q) (hPQ2 : IsInversePair n P2 Q2)
    (hA : ∀ i j, i < n → j < n → modJac n P2 lam2 Q2 i j = -modJac n P lam Q i j)
    (hd : ∀ k, k < n → d k = s + b * (lam k - u) + g * ((lam k - u) * (lam k - u)))
    (hd2 : ∀ k, k < n → d2 k = s - b * (lam2 k + u) + g * ((lam2 k + u) * (lam2 k + u)))
    (i j : Nat) (hi : i < n) (hj : j < n) :
    modJac n P2 d2 Q2 i j = modJac n P d Q i j := by
  have hAm : toMatrix n P2 * diagonal (fun k : Fin n => lam2 k) * toMatrix n Q2
      = -(toMatrix n P * diagonal (fun k : Fin n => lam k) * toMatrix n Q) := by
    ext a c
    rw [Matrix.neg_apply, ← modJac_eq_matrix, ← modJac_eq_matrix]
    exact hA a c a.isLt c.isLt
  have key := modulus_even (toMatrix n P) (toMatrix n Q) (toMatrix n P2) (toMatrix n Q2)
    (fun k : Fin n => lam k) (fun k : Fin n => lam2 k) (fun k : Fin n => d k)
    (fun k : Fin n => d2 k) u s b g hPQ.toMatrix_mul hPQ2.toMatrix_mul hAm
    (fun k => hd k k.isLt) (fun k => hd2 k k.isLt)
  have h1 := modJac_eq_matrix n P2 d2 Q2 ⟨i, hi⟩ ⟨j, hj⟩
  have h2 := modJac_eq_matrix n P d Q ⟨i, hi⟩ ⟨j, hj⟩
  simp only at h1 h2
  rw [h1, h2, key]

end Modulus

section RoeTensor

theorem Proj_ModJac_Tensor_ij_eq_sum (n : Nat) (P : Nat → Nat → K) (lam : Nat → K)
    (Q : Nat → Nat → K) (i j : Nat) :
    Proj_ModJac_Tensor_ij n P lam Q i j = ∑ k in Finset.range n, P i k * lam k * Q k j := by
  unfold Proj_ModJac_Tensor_ij
  rw [forLoop_add]
  norm_num

theorem modJac_eq_sum (n : Nat) (P : Nat → Nat → K) (lam : Nat → K)
    (Q : Nat → Nat → K) (i j : Nat) :
    modJac n P lam Q i j = ∑ k in Finset.range n, P i k * lam k * Q k j := by
  unfold modJac
  rw [sumLoop_eq_sum]

/-- A loop that assigns the constant `v` down a column. -/
theorem forLoop_setM_col_const (m col : Nat) (v : K) (M : Nat → Nat → K) (i k : Nat) :
    forLoop m (fun a M => setM M a col v) M i k = if i < m ∧ k = col then v else M i k := by
  induction m with
  | zero => simp [forLoop]
  | succ m ih =>
    rw [forLoop_succ]
    by_cases h : i = m ∧ k = col
    · have h2 : i < m + 1 ∧ k = col := ⟨by omega, h.2⟩
      rw [if_pos h2]
      simp only [setM, h, and_self, if_true]
    · have hs : setM (forLoop m (fun a M => setM M a col v) M) m col v i k
          = forLoop m (fun a M => setM M a col v) M i k := by
        simp only [setM, h, if_false]
      rw [hs, ih]
      by_cases h1 : i < m ∧ k = col
      · have h2 : i < m + 1 ∧ k = col := ⟨by omega, h1.2⟩
        rw [if_pos h1, if_pos h2]
      · have h2 : ¬ (i < m + 1 ∧ k = col) := by
          rintro ⟨l, e⟩
          by_cases him : i = m
          · exact h ⟨him, e⟩
          · exact h1 ⟨by omega, e⟩
        rw [if_neg h1, if_neg h2]

/-- A loop that assigns `f iDim` at `(row, iDim + 1)`. -/
theorem forLoop_setM_row_shift (m row : Nat) (f : Nat → K) (M : Nat → Nat → K) (a b : Nat) :
    forLoop m (fun iDim M => setM M row (iDim + 1) (f iDim)) M a b
      = if a = row ∧ 1 ≤ b ∧ b ≤ m then f (b - 1) else M a b := by
  induction m with
  | zero =>
    have h0 : ¬ (a = row ∧ 1 ≤ b ∧ b ≤ 0) := by omega
    rw [if_neg h0]
    rfl
  | succ m ih =>
    rw [forLoop_succ]
    by_cases h : a = row ∧ b = m + 1
    · have h2 : a = row ∧ 1 ≤ b ∧ b ≤ m + 1 := ⟨h.1, by omega, by omega⟩
      rw [if_pos h2]
      simp only [setM, h, and_self, if_true, Nat.add_sub_cancel]
    · have hs : setM (forLoop m (fun iDim M => setM M row (iDim + 1) (f iDim)) M) row (m + 1)
          (f m) a b = forLoop m (fun iDim M => setM M row (iDim + 1) (f iDim)) M a b := by
        simp only [setM, h, if_false]
      rw [hs, ih]
      by_cases h1 : a = row ∧ 1 ≤ b ∧ b ≤ m
      · have h2 : a = row ∧ 1 ≤ b ∧ b ≤ m + 1 := ⟨h1.1, h1.2.1, by omega⟩
        rw [if_pos h1, if_pos h2]
      · have h2 : ¬ (a = row ∧ 1 ≤ b ∧ b ≤ m + 1) := by
          rintro ⟨e, l1, l2⟩
          by_cases hb : b = m + 1
          · exact h ⟨e, hb⟩
          · exact h1 ⟨e, l1, by omega⟩
        rw [if_neg h1, if_neg h2]

theorem roeP_Tensor_apply (c : Config K) (s : RoeState K) (i k : Nat) (hi : i < c.nVar) :
    roeP_Tensor c s i k
      = if c.tkeNeeded = true ∧ k = c.nVar then tkeColumn c s.roe i else s.P_Tensor i k := by
  unfold roeP_Tensor tkeColumn
  by_cases ht : c.tkeNeeded = true
  · simp only [ht, if_true, true_and]
    simp only [setM, forLoop_setM_col_const]
    by_cases hk : k = c.nVar
    · by_cases h1 : i = c.nVar - 1
      · simp [hk, h1]
      · have h2 : i < c.nVar - 1 := by omega
        simp [hk, h1, h2]
    · simp [hk]
  · simp [ht]

theorem roeInvP_Tensor_apply_lt (ext : Externals K) (c : Config K) (s : RoeState K)
    (k j : Nat) (hk : k < c.nVar) :
    roeInvP_Tensor ext c s k j
      = ext.GetPMatrix_inv s.roe.RoeDensity s.roe.RoeVelocity s.roe.RoeTke s.RoeSoundSpeed
          s.UnitNormal k j := by
  unfold roeInvP_Tensor
  by_cases ht : c.tkeNeeded = true
  · have hne : k ≠ c.nVar := by omega
    simp only [ht, if_true]
    simp only [setM, forLoop_setM_row_shift]
    simp [hne]
  · simp [ht]

theorem roeInvP_Tensor_apply_tke (ext : Externals K) (c : Config K) (s : RoeState K)
    (j : Nat) (ht : c.tkeNeeded = true) (hn : c.nVar = c.nDim + 2) (hj : j < c.nVar) :
    roeInvP_Tensor ext c s c.nVar j = tkeRow c s.roe j := by
  unfold roeInvP_Tensor tkeRow
  simp only [ht, if_true]
  simp only [setM, forLoop_setM_row_shift]
  by_cases h1 : j = c.nVar - 1
  · simp [h1]
  · by_cases h2 : 1 ≤ j ∧ j ≤ c.nDim
    · simp [h1, h2]
    · have h3 : j = 0 := by omega
      simp [h3]

/-- The entry `(i, j)` of `P * |Lambda| * invP` in `CUpwRoe_Flow::FinalizeResidual`, split into
the part of the helpers and the part of the turbulence coupling. -/
theorem roe_T_apply (ext : Externals K) (c : Config K) (s : RoeState K) (i j : Nat)
    (hn : c.nVar = c.nDim + 2) (hi : i < c.nVar) (hj : j < c.nVar) :
    Proj_ModJac_Tensor_ij c.nPrimVarTot (roeP_Tensor c s) s.Lambda (roeInvP_Tensor ext c s) i j
      = modJac c.nVar s.P_Tensor s.Lambda
          (ext.GetPMatrix_inv s.roe.RoeDensity s.roe.RoeVelocity s.roe.RoeTke s.RoeSoundSpeed
            s.UnitNormal) i j
        + (if c.tkeNeeded = true then tkeColumn c s.roe i * s.Lambda c.nVar * tkeRow c s.roe j
           else 0) := by
  rw [Proj_ModJac_Tensor_ij_eq_sum, modJac_eq_sum]
  have hsum : ∑ k in Finset.range c.nVar,
        roeP_Tensor c s i k * s.Lambda k * roeInvP_Tensor ext c s k j
      = ∑ k in Finset.range c.nVar, s.P_Tensor i k * s.Lambda k
          * ext.GetPMatrix_inv s.roe.RoeDensity s.roe.RoeVelocity s.roe.RoeTke s.RoeSoundSpeed
              s.UnitNormal k j := by
    refine Finset.sum_congr rfl (fun k hk => ?_)
    have hk2 : k < c.nVar := Finset.mem_range.mp hk
    have hne : ¬ (c.tkeNeeded = true ∧ k = c.nVar) := by
      rintro ⟨_, e⟩
      omega
    rw [roeP_Tensor_apply c s i k hi, if_neg hne, roeInvP_Tensor_apply_lt ext c s k j hk2]
  by_cases ht : c.tkeNeeded = true
  · have hnp : c.nPrimVarTot = c.nVar + 1 := by
      unfold Config.nPrimVarTot
      simp [ht]
    rw [hnp, Finset.sum_range_succ, hsum, if_pos ht, roeP_Tensor_apply c s i c.nVar hi,
      if_pos ⟨ht, rfl⟩, roeInvP_Tensor_apply_tke ext c s j ht hn hj]
  · have hnp : c.nPrimVarTot = c.nVar := by
      unfold Config.nPrimVarTot
      simp [ht]
    rw [hnp, hsum, if_neg ht, add_zero]

end RoeTensor

/-! ## The state seen by `FinalizeResidual` when the two sides are exchanged -/

section StateExchange

/-- On a static grid with `nVar = nDim + 2`, the corrected eigenvalues seen by
`FinalizeResidual`, entry by entry. -/
theorem roeState_Lambda_static (ext : Externals K) (c : Config K) (inp : FaceInputs K)
    (old : Scratch K) (k : Nat) (hd : c.dynamic_grid = false) (hn : c.nVar = c.nDim + 2)
    (hk : k < c.nPrimVarTot) :
    (roeState ext c inp old).Lambda k
      = if k < c.nDim then
          shearLambda
            (projVel c.nDim (roeState ext c inp old).roe.RoeVelocity (roeState ext c inp old).UnitNormal)
            (projVel c.nDim (roeState ext c inp old).pi.Velocity (roeState ext c inp old).UnitNormal)
            (projVel c.nDim (roeState ext c inp old).pj.Velocity (roeState ext c inp old).UnitNormal)
        else if k = c.nDim then
          plusLambda
            (projVel c.nDim (roeState ext c inp old).roe.RoeVelocity (roeState ext c inp old).UnitNormal)
            (projVel c.nDim (roeState ext c inp old).pi.Velocity (roeState ext c inp old).UnitNormal)
            (projVel c.nDim (roeState ext c inp old).pj.Velocity (roeState ext c inp old).UnitNormal)
            (roeState ext c inp old).RoeSoundSpeed (roeState ext c inp old).pi.SoundSpeed
            (roeState ext c inp old).pj.SoundSpeed
        else if k = c.nDim + 1 then
          minusLambda
            (projVel c.nDim (roeState ext c inp old).roe.RoeVelocity (roeState ext c inp old).UnitNormal)
            (projVel c.nDim (roeState ext c inp old).pi.Velocity (roeState ext c inp old).UnitNormal)
            (projVel c.nDim (roeState ext c inp old).pj.Velocity (roeState ext c inp old).UnitNormal)
            (roeState ext c inp old).RoeSoundSpeed (roeState ext c inp old).pi.SoundSpeed
            (roeState ext c inp old).pj.SoundSpeed
        else
          shearLambda
            (projVel c.nDim (roeState ext c inp old).roe.RoeVelocity (roeState ext c inp old).UnitNormal)
            (projVel c.nDim (roeState ext c inp old).pi.Velocity (roeState ext c inp old).UnitNormal)
            (projVel c.nDim (roeState ext c inp old).pj.Velocity (roeState ext c inp old).UnitNormal) := by
  have hk2 : k < c.nDim + 2 + (if c.tkeNeeded then 1 else 0) := by
    unfold Config.nPrimVarTot at hk
    rw [hn] at hk
    exact hk
  have key := fixedLambda_apply c.nDim c.tkeNeeded
    (projVel c.nDim (roeState ext c inp old).roe.RoeVelocity (roeState ext c inp old).UnitNormal)
    (projVel c.nDim (roeState ext c inp old).pi.Velocity (roeState ext c inp old).UnitNormal)
    (projVel c.nDim (roeState ext c inp old).pj.Velocity (roeState ext c inp old).UnitNormal)
    (roeState ext c inp old).RoeSoundSpeed (roeState ext c inp old).pi.SoundSpeed
    (roeState ext c inp old).pj.SoundSpeed old.eig k hk2
  rw [← key]
  unfold roeState
  simp only [adjustedProjVel, hd, Config.nPrimVarTot, hn, Bool.false_eq_true, if_false]

/-- The state seen by `FinalizeResidual` for the exchanged inputs, in terms of the state for
the given inputs. -/
theorem roeState_swap (ext : Externals K) (c : Config K) (inp : FaceInputs K)
    (old old2 : Scratch K) (hs : IsSqrt ext.sqrt) (hri : 0 < inp.U_i 0) (hrj : 0 < inp.U_j 0) :
    (roeState ext c (swapInputs inp) old2).pi = (roeState ext c inp old).pj ∧
    (roeState ext c (swapInputs inp) old2).pj = (roeState ext c inp old).pi ∧
    (roeState ext c (swapInputs inp) old2).Area = (roeState ext c inp old).Area ∧
    (roeState ext c (swapInputs inp) old2).UnitNormal
      = (fun iDim => -(roeState ext c inp old).UnitNormal iDim) ∧
    (roeState ext c (swapInputs inp) old2).roe.RoeDensity
      = (roeState ext c inp old).roe.RoeDensity ∧
    (roeState ext c (swapInputs inp) old2).roe.RoeVelocity
      = (roeState ext c inp old).roe.RoeVelocity ∧
    (roeState ext c (swapInputs inp) old2).roe.RoeSqVel
      = (roeState ext c inp old).roe.RoeSqVel ∧
    (roeState ext c (swapInputs inp) old2).roe.RoeTke = (roeState ext c inp old).roe.RoeTke ∧
    (roeState ext c (swapInputs inp) old2).roe.RoeSoundSpeed2
      = (roeState ext c inp old).roe.RoeSoundSpeed2 ∧
    (roeState ext c (swapInputs inp) old2).RoeSoundSpeed
      = (roeState ext c inp old).RoeSoundSpeed := by
  obtain ⟨h1, h2, h3, _, h5, h6⟩ := roeAverage_swap ext c
    (extractPrimitive ext c inp.U_i inp.turb_ke_i) (extractPrimitive ext c inp.U_j inp.turb_ke_j)
    hs hri hrj
  refine ⟨rfl, rfl, Area_neg ext c.nDim inp.Normal, UnitNormal_neg ext c.nDim inp.Normal,
    h1, h2, h3, h5, h6, ?_⟩
  show ext.sqrt (roeAverage ext c (extractPrimitive ext c inp.U_j inp.turb_ke_j)
      (extractPrimitive ext c inp.U_i inp.turb_ke_i)).RoeSoundSpeed2
    = ext.sqrt (roeAverage ext c (extractPrimitive ext c inp.U_i inp.turb_ke_i)
      (extractPrimitive ext c inp.U_j inp.turb_ke_j)).RoeSoundSpeed2
  rw [h6]

/-- The jump of the conservative variables changes sign when the two sides are exchanged. -/
theorem Diff_U_swap (ext : Externals K) (c : Config K) (inp : FaceInputs K)
    (old old2 : Scratch K) (hn : c.nVar = c.nDim + 2) (j : Nat) (hj : j < c.nVar) :
    Diff_U (roeState ext c (swapInputs inp) old2) j = -Diff_U (roeState ext c inp old) j := by
  have hj2 : j < c.nDim + 2 := by omega
  show Conservatives c.nDim (extractPrimitive ext c inp.U_i inp.turb_ke_i) old2.Conservatives_j j
      - Conservatives c.nDim (extractPrimitive ext c inp.U_j inp.turb_ke_j) old2.Conservatives_i j
    = -(Conservatives c.nDim (extractPrimitive ext c inp.U_j inp.turb_ke_j) old.Conservatives_j j
      - Conservatives c.nDim (extractPrimitive ext c inp.U_i inp.turb_ke_i) old.Conservatives_i j)
  rw [Conservatives_old_irrelevant c.nDim _ old2.Conservatives_j old.Conservatives_i j hj2,
    Conservatives_old_irrelevant c.nDim _ old2.Conservatives_i old.Conservatives_j j hj2]
  ring

/-- The flux of the standard Roe scheme on the main path, with the low-dissipation mode off. -/
theorem roe_flux_formula (ext : Externals K) (c : Config K) (inp : FaceInputs K)
    (old : Scratch K) (iVar : Nat) (hi : iVar < c.nVar) (hl : c.roe_low_dissipation = false)
    (hpos : 0 < (roeAverage ext c (extractPrimitive ext c inp.U_i inp.turb_ke_i)
      (extractPrimitive ext c inp.U_j inp.turb_ke_j)).RoeSoundSpeed2) :
    (ComputeResidual ext c (CUpwRoe_Flow.FinalizeResidual ext c) inp old).Flux iVar
      = c.kappa * (ProjFlux ext inp (roeState ext c inp old).pi iVar
          + ProjFlux ext inp (roeState ext c inp old).pj iVar)
        - ∑ j in Finset.range c.nVar,
            (1.0 - c.kappa)
              * Proj_ModJac_Tensor_ij c.nPrimVarTot (roeP_Tensor c (roeState ext c inp old))
                  (roeState ext c inp old).Lambda
                  (roeInvP_Tensor ext c (roeState ext c inp old)) iVar j
              * Diff_U (roeState ext c inp old) j * (roeState ext c inp old).Area := by
  rw [ComputeResidual_Flux ext c _ inp old iVar hpos]
  unfold afterFinalize
  simp only
  rw [CUpwRoe_Flow.FinalizeResidual_Flux, if_pos hi, initResidual_Flux, if_pos hi]
  have hD : Dissipation_ij ext c (roeState ext c inp old) = 1 := by
    unfold Dissipation_ij
    simp only [hl, Bool.false_eq_true, if_false]
    norm_num
  simp only [hD, mul_one]

end StateExchange

section TensorExchange

/-- The corrected eigenvalues for the exchanged inputs: the shear (and turbulence) entries are
those of the given inputs and the two acoustic entries are exchanged. -/
theorem roeState_Lambda_swap (ext : Externals K) (c : Config K) (inp : FaceInputs K)
    (old old2 : Scratch K) (hs : IsSqrt ext.sqrt) (hri : 0 < inp.U_i 0) (hrj : 0 < inp.U_j 0)
    (hd : c.dynamic_grid = false) (hn : c.nVar = c.nDim + 2) (k : Nat)
    (hk : k < c.nPrimVarTot) :
    (roeState ext c (swapInputs inp) old2).Lambda k
      = if k = c.nDim then (roeState ext c inp old).Lambda (c.nDim + 1)
        else if k = c.nDim + 1 then (roeState ext c inp old).Lambda c.nDim
        else (roeState ext c inp old).Lambda k := by
  obtain ⟨hpi, hpj, _, hN, _, hv, _, _, _, hcs⟩ := roeState_swap ext c inp old old2 hs hri hrj
  have hnp : c.nDim + 1 < c.nPrimVarTot := by
    unfold Config.nPrimVarTot; omega
  have hnp0 : c.nDim < c.nPrimVarTot := by
    unfold Config.nPrimVarTot; omega
  rw [roeState_Lambda_static ext c (swapInputs inp) old2 k hd hn hk,
    roeState_Lambda_static ext c inp old k hd hn hk,
    roeState_Lambda_static ext c inp old (c.nDim + 1) hd hn hnp,
    roeState_Lambda_static ext c inp old c.nDim hd hn hnp0]
  rw [hpi, hpj, hN, hv, hcs]
  simp only [projVel_neg, shearLambda_swap, plusLambda_swap, minusLambda_swap]
  by_cases k0 : k < c.nDim
  · have a1 : k ≠ c.nDim := by omega
    have a2 : k ≠ c.nDim + 1 := by omega
    simp [k0, a1, a2]
  · by_cases k1 : k = c.nDim
    · simp [k1]
    · by_cases k2 : k = c.nDim + 1
      · simp [k2]
      · simp [k0, k1, k2]

/-- The interpolation of three values at `u`, `u + c`, `u - c` by a quadratic. -/
theorem quadratic_interpolation (S a b cs : K) (h : cs ≠ 0) :
    S + (a - b) / (2 * cs) * cs + (a + b - 2 * S) / (2 * cs * cs) * (cs * cs) = a ∧
    S + (a - b) / (2 * cs) * (-cs) + (a + b - 2 * S) / (2 * cs * cs) * (-cs * -cs) = b ∧
    S - (a - b) / (2 * cs) * cs + (a + b - 2 * S) / (2 * cs * cs) * (cs * cs) = b ∧
    S - (a - b) / (2 * cs) * (-cs) + (a + b - 2 * S) / (2 * cs * cs) * (-cs * -cs) = a := by
  refine ⟨?_, ?_, ?_, ?_⟩ <;> field_simp <;> ring

end TensorExchange

section TensorExchange2

/-- On a static grid, the corrected eigenvalues below `nVar` in closed form. -/
theorem roeState_Lambda_lt (ext : Externals K) (c : Config K) (inp : FaceInputs K)
    (old : Scratch K) (hd : c.dynamic_grid = false) (hn : c.nVar = c.nDim + 2) (k : Nat)
    (hk : k < c.nVar) :
    (roeState ext c inp old).Lambda k
      = if k < c.nDim then (shearLambda (projVel c.nDim (roeState ext c inp old).roe.RoeVelocity (roeState ext c inp old).UnitNormal) (projVel c.nDim (roeState ext c inp old).pi.Velocity (roeState ext c inp old).UnitNormal) (projVel c.nDim (roeState ext c inp old).pj.Velocity (roeState ext c inp old).UnitNormal))
        else if k = c.nDim then (plusLambda (projVel c.nDim (roeState ext c inp old).roe.RoeVelocity (roeState ext c inp old).UnitNormal) (projVel c.nDim (roeState ext c inp old).pi.Velocity (roeState ext c inp old).UnitNormal) (projVel c.nDim (roeState ext c inp old).pj.Velocity (roeState ext c inp old).UnitNormal) (roeState ext c inp old).RoeSoundSpeed (roeState ext c inp old).pi.SoundSpeed (roeState ext c inp old).pj.SoundSpeed)
        else (minusLambda (projVel c.nDim (roeState ext c inp old).roe.RoeVelocity (roeState ext c inp old).UnitNormal) (projVel c.nDim (roeState ext c inp old).pi.Velocity (roeState ext c inp old).UnitNormal) (projVel c.nDim (roeState ext c inp old).pj.Velocity (roeState ext c inp old).UnitNormal) (roeState ext c inp old).RoeSoundSpeed (roeState ext c inp old).pi.SoundSpeed (roeState ext c inp old).pj.SoundSpeed) := by
  have hk2 : k < c.nPrimVarTot := by
    unfold Config.nPrimVarTot; omega
  rw [roeState_Lambda_static ext c inp old k hd hn hk2]
  by_cases k0 : k < c.nDim
  · simp [k0]
  · by_cases k1 : k = c.nDim
    · simp [k1]
    · have k2 : k = c.nDim + 1 := by omega
      simp [k2]

/-- The matrix `P * |Lambda| * invP` of `CUpwRoe_Flow::FinalizeResidual` is the same for the
exchanged inputs, under the contract on the eigensystem helpers. -/
theorem roe_T_swap (ext : Externals K) (c : Config K) (inp : FaceInputs K)
    (old old2 : Scratch K) (hs : IsSqrt ext.sqrt) (hri : 0 < inp.U_i 0) (hrj : 0 < inp.U_j 0)
    (hd : c.dynamic_grid = false) (hn : c.nVar = c.nDim + 2)
    (hpos : 0 < (roeState ext c inp old).roe.RoeSoundSpeed2)
    (hc : EigensystemContract ext c (roeState ext c inp old).roe (roeState ext c inp old).RoeSoundSpeed (roeState ext c inp old).UnitNormal)
    (i j : Nat) (hi : i < c.nVar) (hj : j < c.nVar) :
    Proj_ModJac_Tensor_ij c.nPrimVarTot (roeP_Tensor c (roeState ext c (swapInputs inp) old2)) (roeState ext c (swapInputs inp) old2).Lambda
        (roeInvP_Tensor ext c (roeState ext c (swapInputs inp) old2)) i j
      = Proj_ModJac_Tensor_ij c.nPrimVarTot (roeP_Tensor c (roeState ext c inp old)) (roeState ext c inp old).Lambda
        (roeInvP_Tensor ext c (roeState ext c inp old)) i j := by
  obtain ⟨_, _, _, hN, hro, hv, hq, hk, hc2, hcs⟩ := roeState_swap ext c inp old old2 hs hri hrj
  rw [roe_T_apply ext c (roeState ext c (swapInputs inp) old2) i j hn hi hj, roe_T_apply ext c (roeState ext c inp old) i j hn hi hj]
  have htke : (if c.tkeNeeded = true then
        tkeColumn c (roeState ext c (swapInputs inp) old2).roe i * (roeState ext c (swapInputs inp) old2).Lambda c.nVar * tkeRow c (roeState ext c (swapInputs inp) old2).roe j else 0)
      = (if c.tkeNeeded = true then
        tkeColumn c (roeState ext c inp old).roe i * (roeState ext c inp old).Lambda c.nVar * tkeRow c (roeState ext c inp old).roe j else 0) := by
    by_cases ht : c.tkeNeeded = true
    · rw [if_pos ht, if_pos ht]
      have hkk : c.nVar < c.nPrimVarTot := by
        unfold Config.nPrimVarTot; simp [ht]
      have hL : (roeState ext c (swapInputs inp) old2).Lambda c.nVar = (roeState ext c inp old).Lambda c.nVar := by
        rw [roeState_Lambda_swap ext c inp old old2 hs hri hrj hd hn c.nVar hkk]
        have a1 : c.nVar ≠ c.nDim := by omega
        have a2 : c.nVar ≠ c.nDim + 1 := by omega
        rw [if_neg a1, if_neg a2]
      have hcol : tkeColumn c (roeState ext c (swapInputs inp) old2).roe i = tkeColumn c (roeState ext c inp old).roe i := by
        unfold tkeColumn; rw [hq, hc2]
      have hrow : tkeRow c (roeState ext c (swapInputs inp) old2).roe j = tkeRow c (roeState ext c inp old).roe j := by
        unfold tkeRow; rw [hv, hc2, hk]
      rw [hL, hcol, hrow]
    · rw [if_neg ht, if_neg ht]
  rw [htke]
  congr 1
  have hcs0 : (roeState ext c inp old).RoeSoundSpeed ≠ 0 := by
    intro h0
    have h1 := (hs _ hpos.le).2
    have h2 : (roeState ext c inp old).RoeSoundSpeed * (roeState ext c inp old).RoeSoundSpeed = (roeState ext c inp old).roe.RoeSoundSpeed2 := h1
    rw [h0, mul_zero] at h2
    exact absurd h2.symm (ne_of_gt hpos)
  have hP2 : (roeState ext c (swapInputs inp) old2).P_Tensor
      = ext.GetPMatrix (roeState ext c inp old).roe.RoeDensity (roeState ext c inp old).roe.RoeVelocity (roeState ext c inp old).roe.RoeTke (roeState ext c inp old).RoeSoundSpeed
          (fun iDim => -(roeState ext c inp old).UnitNormal iDim) := by
    show ext.GetPMatrix (roeState ext c (swapInputs inp) old2).roe.RoeDensity (roeState ext c (swapInputs inp) old2).roe.RoeVelocity (roeState ext c (swapInputs inp) old2).roe.RoeTke
      (roeState ext c (swapInputs inp) old2).RoeSoundSpeed (roeState ext c (swapInputs inp) old2).UnitNormal = _
    rw [hro, hv, hk, hcs, hN]
  rw [hP2, hro, hv, hk, hcs, hN]
  unfold EigensystemContract at hc
  simp only at hc
  obtain ⟨hPQ, hPQ2, hA⟩ := hc
  rw [projVel_neg] at hA
  have hLam := roeState_Lambda_lt ext c inp old hd hn
  have hLam2 : ∀ k, k < c.nVar → (roeState ext c (swapInputs inp) old2).Lambda k
      = if k < c.nDim then (shearLambda (projVel c.nDim (roeState ext c inp old).roe.RoeVelocity (roeState ext c inp old).UnitNormal) (projVel c.nDim (roeState ext c inp old).pi.Velocity (roeState ext c inp old).UnitNormal) (projVel c.nDim (roeState ext c inp old).pj.Velocity (roeState ext c inp old).UnitNormal))
        else if k = c.nDim then (minusLambda (projVel c.nDim (roeState ext c inp old).roe.RoeVelocity (roeState ext c inp old).UnitNormal) (projVel c.nDim (roeState ext c inp old).pi.Velocity (roeState ext c inp old).UnitNormal) (projVel c.nDim (roeState ext c inp old).pj.Velocity (roeState ext c inp old).UnitNormal) (roeState ext c inp old).RoeSoundSpeed (roeState ext c inp old).pi.SoundSpeed (roeState ext c inp old).pj.SoundSpeed)
        else (plusLambda (projVel c.nDim (roeState ext c inp old).roe.RoeVelocity (roeState ext c inp old).UnitNormal) (projVel c.nDim (roeState ext c inp old).pi.Velocity (roeState ext c inp old).UnitNormal) (projVel c.nDim (roeState ext c inp old).pj.Velocity (roeState ext c inp old).UnitNormal) (roeState ext c inp old).RoeSoundSpeed (roeState ext c inp old).pi.SoundSpeed (roeState ext c inp old).pj.SoundSpeed) := by
    intro k hk1
    have hk2 : k < c.nPrimVarTot := by
      unfold Config.nPrimVarTot; omega
    rw [roeState_Lambda_swap ext c inp old old2 hs hri hrj hd hn k hk2]
    by_cases k0 : k < c.nDim
    · have a1 : k ≠ c.nDim := by omega
      have a2 : k ≠ c.nDim + 1 := by omega
      rw [if_neg a1, if_neg a2, hLam k hk1, if_pos k0, if_pos k0]
    · by_cases k1 : k = c.nDim
      · rw [if_pos k1, hLam (c.nDim + 1) (by omega)]
        simp [k1]
      · have k2 : k = c.nDim + 1 := by omega
        rw [if_neg k1, if_pos k2, hLam c.nDim (by omega)]
        simp [k2]
  obtain ⟨q1, q2, q3, q4⟩ := quadratic_interpolation (shearLambda (projVel c.nDim (roeState ext c inp old).roe.RoeVelocity (roeState ext c inp old).UnitNormal) (projVel c.nDim (roeState ext c inp old).pi.Velocity (roeState ext c inp old).UnitNormal) (projVel c.nDim (roeState ext c inp old).pj.Velocity (roeState ext c inp old).UnitNormal)) (plusLambda (projVel c.nDim (roeState ext c inp old).roe.RoeVelocity (roeState ext c inp old).UnitNormal) (projVel c.nDim (roeState ext c inp old).pi.Velocity (roeState ext c inp old).UnitNormal) (projVel c.nDim (roeState ext c inp old).pj.Velocity (roeState ext c inp old).UnitNormal) (roeState ext c inp old).RoeSoundSpeed (roeState ext c inp old).pi.SoundSpeed (roeState ext c inp old).pj.SoundSpeed) (minusLambda (projVel c.nDim (roeState ext c inp old).roe.RoeVelocity (roeState ext c inp old).UnitNormal) (projVel c.nDim (roeState ext c inp old).pi.Velocity (roeState ext c inp old).UnitNormal) (projVel c.nDim (roeState ext c inp old).pj.Velocity (roeState ext c inp old).UnitNormal) (roeState ext c inp old).RoeSoundSpeed (roeState ext c inp old).pi.SoundSpeed (roeState ext c inp old).pj.SoundSpeed) (roeState ext c inp old).RoeSoundSpeed hcs0
  refine modJac_even c.nVar _ _ _ _
    (flowEigenvalues c.nDim (projVel c.nDim (roeState ext c inp old).roe.RoeVelocity (roeState ext c inp old).UnitNormal) (roeState ext c inp old).RoeSoundSpeed)
    (flowEigenvalues c.nDim (-(projVel c.nDim (roeState ext c inp old).roe.RoeVelocity (roeState ext c inp old).UnitNormal)) (roeState ext c inp old).RoeSoundSpeed)
    (roeState ext c inp old).Lambda (roeState ext c (swapInputs inp) old2).Lambda (projVel c.nDim (roeState ext c inp old).roe.RoeVelocity (roeState ext c inp old).UnitNormal) (shearLambda (projVel c.nDim (roeState ext c inp old).roe.RoeVelocity (roeState ext c inp old).UnitNormal) (projVel c.nDim (roeState ext c inp old).pi.Velocity (roeState ext c inp old).UnitNormal) (projVel c.nDim (roeState ext c inp old).pj.Velocity (roeState ext c inp old).UnitNormal))
    (((plusLambda (projVel c.nDim (roeState ext c inp old).roe.RoeVelocity (roeState ext c inp old).UnitNormal) (projVel c.nDim (roeState ext c inp old).pi.Velocity (roeState ext c inp old).UnitNormal) (projVel c.nDim (roeState ext c inp old).pj.Velocity (roeState ext c inp old).UnitNormal) (roeState ext c inp old).RoeSoundSpeed (roeState ext c inp old).pi.SoundSpeed (roeState ext c inp old).pj.SoundSpeed) - (minusLambda (projVel c.nDim (roeState ext c inp old).roe.RoeVelocity (roeState ext c inp old).UnitNormal) (projVel c.nDim (roeState ext c inp old).pi.Velocity (roeState ext c inp old).UnitNormal) (projVel c.nDim (roeState ext c inp old).pj.Velocity (roeState ext c inp old).UnitNormal) (roeState ext c inp old).RoeSoundSpeed (roeState ext c inp old).pi.SoundSpeed (roeState ext c inp old).pj.SoundSpeed)) / (2 * (roeState ext c inp old).RoeSoundSpeed))
    (((plusLambda (projVel c.nDim (roeState ext c inp old).roe.RoeVelocity (roeState ext c inp old).UnitNormal) (projVel c.nDim (roeState ext c inp old).pi.Velocity (roeState ext c inp old).UnitNormal) (projVel c.nDim (roeState ext c inp old).pj.Velocity (roeState ext c inp old).UnitNormal) (roeState ext c inp old).RoeSoundSpeed (roeState ext c inp old).pi.SoundSpeed (roeState ext c inp old).pj.SoundSpeed) + (minusLambda (projVel c.nDim (roeState ext c inp old).roe.RoeVelocity (roeState ext c inp old).UnitNormal) (projVel c.nDim (roeState ext c inp old).pi.Velocity (roeState ext c inp old).UnitNormal) (projVel c.nDim (roeState ext c inp old).pj.Velocity (roeState ext c inp old).UnitNormal) (roeState ext c inp old).RoeSoundSpeed (roeState ext c inp old).pi.SoundSpeed (roeState ext c inp old).pj.SoundSpeed) - 2 * (shearLambda (projVel c.nDim (roeState ext c inp old).roe.RoeVelocity (roeState ext c inp old).UnitNormal) (projVel c.nDim (roeState ext c inp old).pi.Velocity (roeState ext c inp old).UnitNormal) (projVel c.nDim (roeState ext c inp old).pj.Velocity (roeState ext c inp old).UnitNormal))) / (2 * (roeState ext c inp old).RoeSoundSpeed * (roeState ext c inp old).RoeSoundSpeed))
    hPQ hPQ2 hA ?_ ?_ i j hi hj
  · intro k hk1
    rw [hLam k hk1]
    unfold flowEigenvalues
    by_cases k0 : k < c.nDim
    · simp [k0]
    · by_cases k1 : k = c.nDim
      · simp only [k1, lt_irrefl, if_false, if_true, add_sub_cancel_left]
        exact q1.symm
      · have e : (projVel c.nDim (roeState ext c inp old).roe.RoeVelocity (roeState ext c inp old).UnitNormal) - (roeState ext c inp old).RoeSoundSpeed - (projVel c.nDim (roeState ext c inp old).roe.RoeVelocity (roeState ext c inp old).UnitNormal) = -(roeState ext c inp old).RoeSoundSpeed := by ring
        simp only [k0, k1, if_false, e]
        exact q2.symm
  · intro k hk1
    rw [hLam2 k hk1]
    unfold flowEigenvalues
    by_cases k0 : k < c.nDim
    · simp [k0]
    · by_cases k1 : k = c.nDim
      · have e : -(projVel c.nDim (roeState ext c inp old).roe.RoeVelocity (roeState ext c inp old).UnitNormal) + (roeState ext c inp old).RoeSoundSpeed + (projVel c.nDim (roeState ext c inp old).roe.RoeVelocity (roeState ext c inp old).UnitNormal) = (roeState ext c inp old).RoeSoundSpeed := by ring
        simp only [k1, lt_irrefl, if_false, if_true, e]
        exact q3.symm
      · have e : -(projVel c.nDim (roeState ext c inp old).roe.RoeVelocity (roeState ext c inp old).UnitNormal) - (roeState ext c inp old).RoeSoundSpeed + (projVel c.nDim (roeState ext c inp old).roe.RoeVelocity (roeState ext c inp old).UnitNormal) = -(roeState ext c inp old).RoeSoundSpeed := by ring
        simp only [k0, k1, if_false, e]
        exact q4.symm

end TensorExchange2

section Antisymmetry

theorem ComputeResidual_of_nonpos (ext : Externals K) (c : Config K)
    (FinalizeResidual : RoeState K → ResidualType K → ResidualType K)
    (inp : FaceInputs K) (old : Scratch K)
    (h : (roeAverage ext c (extractPrimitive ext c inp.U_i inp.turb_ke_i)
      (extractPrimitive ext c inp.U_j inp.turb_ke_j)).RoeSoundSpeed2 ≤ 0) :
    ComputeResidual ext c FinalizeResidual inp old = clearResidual c old.res := by
  have h0 : (roeAverage ext c (extractPrimitive ext c inp.U_i inp.turb_ke_i)
      (extractPrimitive ext c inp.U_j inp.turb_ke_j)).RoeSoundSpeed2 ≤ 0.0 := by
    norm_num; exact h
  unfold ComputeResidual
  simp only [h0, if_true]

end Antisymmetry

/-- C10. Standard Roe scheme (`CUpwRoe_Flow`) on a static grid with the low-dissipation mode
off, `nVar = nDim + 2`, a true square root and positive densities: under the contracts on
the helpers defined outside `roe.cpp` (the projected flux changes sign with the normal; P,
invP are an eigensystem of a projected Jacobian that changes sign with the normal),
`ComputeResidual` for the exchanged states and the negated normal returns, in every entry
below `nVar`, the negated flux of the original evaluation, on the main path and on the
degenerate exit, whatever the buffers held before either call. -/
theorem roe_flux_antisymmetry (ext : Externals K) (c : Config K) (inp : FaceInputs K)
    (old old2 : Scratch K) (iVar : Nat)
    (hs : IsSqrt ext.sqrt) (hn : c.nVar = c.nDim + 2) (hd : c.dynamic_grid = false)
    (hl : c.roe_low_dissipation = false) (hri : 0 < inp.U_i 0) (hrj : 0 < inp.U_j 0)
    (hi : iVar < c.nVar) (hF : FluxContract ext)
    (hc : 0 < (roeState ext c inp old).roe.RoeSoundSpeed2 →
      EigensystemContract ext c (roeState ext c inp old).roe (roeState ext c inp old).RoeSoundSpeed (roeState ext c inp old).UnitNormal) :
    (ComputeResidual ext c (CUpwRoe_Flow.FinalizeResidual ext c) (swapInputs inp) old2).Flux iVar
      = -(ComputeResidual ext c (CUpwRoe_Flow.FinalizeResidual ext c) inp old).Flux iVar := by
  obtain ⟨hpi, hpj, hA, _, _, _, _, _, hc2, _⟩ := roeState_swap ext c inp old old2 hs hri hrj
  by_cases hpos : 0 < (roeState ext c inp old).roe.RoeSoundSpeed2
  · have hpos2 : 0 < (roeState ext c (swapInputs inp) old2).roe.RoeSoundSpeed2 := by rw [hc2]; exact hpos
    rw [roe_flux_formula ext c (swapInputs inp) old2 iVar hi hl hpos2,
      roe_flux_formula ext c inp old iVar hi hl hpos]
    have hcent : ProjFlux ext (swapInputs inp) (roeState ext c (swapInputs inp) old2).pi iVar
        + ProjFlux ext (swapInputs inp) (roeState ext c (swapInputs inp) old2).pj iVar
        = -(ProjFlux ext inp (roeState ext c inp old).pi iVar + ProjFlux ext inp (roeState ext c inp old).pj iVar) := by
      rw [hpi, hpj]
      have e1 : ∀ p : Primitive K, ProjFlux ext (swapInputs inp) p iVar
          = -ProjFlux ext inp p iVar := by
        intro p
        exact hF p.Density p.Velocity p.Pressure p.Enthalpy inp.Normal iVar
      rw [e1, e1]
      ring
    have hsum : ∑ j in Finset.range c.nVar,
          (1.0 - c.kappa)
            * Proj_ModJac_Tensor_ij c.nPrimVarTot (roeP_Tensor c (roeState ext c (swapInputs inp) old2)) (roeState ext c (swapInputs inp) old2).Lambda
                (roeInvP_Tensor ext c (roeState ext c (swapInputs inp) old2)) iVar j
            * Diff_U (roeState ext c (swapInputs inp) old2) j * (roeState ext c (swapInputs inp) old2).Area
        = -∑ j in Finset.range c.nVar,
          (1.0 - c.kappa)
            * Proj_ModJac_Tensor_ij c.nPrimVarTot (roeP_Tensor c (roeState ext c inp old)) (roeState ext c inp old).Lambda
                (roeInvP_Tensor ext c (roeState ext c inp old)) iVar j
            * Diff_U (roeState ext c inp old) j * (roeState ext c inp old).Area := by
      rw [← Finset.sum_neg_distrib]
      refine Finset.sum_congr rfl (fun j hj => ?_)
      have hj2 : j < c.nVar := Finset.mem_range.mp hj
      rw [roe_T_swap ext c inp old old2 hs hri hrj hd hn hpos (hc hpos) iVar j hi hj2,
        Diff_U_swap ext c inp old old2 hn j hj2, hA]
      ring
    rw [hcent, hsum]
    ring
  · have h0 : (roeState ext c inp old).roe.RoeSoundSpeed2 ≤ 0 := not_lt.mp hpos
    have h02 : (roeState ext c (swapInputs inp) old2).roe.RoeSoundSpeed2 ≤ 0 := by rw [hc2]; exact h0
    rw [ComputeResidual_of_nonpos ext c _ (swapInputs inp) old2 h02,
      ComputeResidual_of_nonpos ext c _ inp old h0, clearResidual_Flux, clearResidual_Flux,
      if_pos hi, if_pos hi, neg_zero]

section AntisymmetryExample

theorem isSqrt_real : IsSqrt Real.sqrt :=
  fun x hx => ⟨Real.sqrt_nonneg x, Real.mul_self_sqrt hx⟩

theorem fluxContract_euler (sqrt : K → K) (gm1 : K) : FluxContract (eulerExternals2D sqrt gm1) := by
  intro rho v p H n k
  show eulerProjFlux2D rho v p H (fun iDim => -n iDim) k = -eulerProjFlux2D rho v p H n k
  unfold eulerProjFlux2D sel4
  simp only
  split_ifs <;> ring

/-- The Roe state of the example: densities 1 and 1/4, both sides at rest with unit sound
speed, normal `(1, 0)`. -/
theorem example_roeState :
    (roeState (eulerExternals2D Real.sqrt 0.4) (exampleConfig false false false) (exampleInputs (state2D 1 0 (25 / 14)) (state2D (1 / 4) 0 (25 / 56)) (0 : ℝ)) exampleScratch).roe.RoeDensity = 1 / 2 ∧
    (roeState (eulerExternals2D Real.sqrt 0.4) (exampleConfig false false false) (exampleInputs (state2D 1 0 (25 / 14)) (state2D (1 / 4) 0 (25 / 56)) (0 : ℝ)) exampleScratch).roe.RoeVelocity 0 = 0 ∧
    (roeState (eulerExternals2D Real.sqrt 0.4) (exampleConfig false false false) (exampleInputs (state2D 1 0 (25 / 14)) (state2D (1 / 4) 0 (25 / 56)) (0 : ℝ)) exampleScratch).roe.RoeVelocity 1 = 0 ∧
    (roeState (eulerExternals2D Real.sqrt 0.4) (exampleConfig false false false) (exampleInputs (state2D 1 0 (25 / 14)) (state2D (1 / 4) 0 (25 / 56)) (0 : ℝ)) exampleScratch).roe.RoeSoundSpeed2 = 1 ∧
    (roeState (eulerExternals2D Real.sqrt 0.4) (exampleConfig false false false) (exampleInputs (state2D 1 0 (25 / 14)) (state2D (1 / 4) 0 (25 / 56)) (0 : ℝ)) exampleScratch).RoeSoundSpeed = 1 ∧
    (roeState (eulerExternals2D Real.sqrt 0.4) (exampleConfig false false false) (exampleInputs (state2D 1 0 (25 / 14)) (state2D (1 / 4) 0 (25 / 56)) (0 : ℝ)) exampleScratch).UnitNormal 0 = 1 ∧
    (roeState (eulerExternals2D Real.sqrt 0.4) (exampleConfig false false false) (exampleInputs (state2D 1 0 (25 / 14)) (state2D (1 / 4) 0 (25 / 56)) (0 : ℝ)) exampleScratch).UnitNormal 1 = 0 := by
  have hR : Real.sqrt |(4 : ℝ)⁻¹| = 2⁻¹ := by
    have e : |(4 : ℝ)⁻¹| = 4⁻¹ := abs_of_pos (by norm_num)
    rw [e]
    exact isSqrt_real.unique (by norm_num) (by norm_num)
  have hc2 : (roeState (eulerExternals2D Real.sqrt 0.4) (exampleConfig false false false) (exampleInputs (state2D 1 0 (25 / 14)) (state2D (1 / 4) 0 (25 / 56)) (0 : ℝ)) exampleScratch).roe.RoeSoundSpeed2 = 1 := by
    simp [roeState, roeAverage, extractPrimitive, exampleInputs, exampleConfig, eulerExternals2D,
      state2D, Config.Gamma_Minus_One, sumLoop, forLoop, hR]
    norm_num
  refine ⟨?_, ?_, ?_, hc2, ?_, ?_, ?_⟩
  · simp [roeState, roeAverage, extractPrimitive, exampleInputs, exampleConfig, eulerExternals2D,
      state2D, hR]
  · simp [roeState, roeAverage, extractPrimitive, exampleInputs, exampleConfig, eulerExternals2D,
      state2D, hR]
  · simp [roeState, roeAverage, extractPrimitive, exampleInputs, exampleConfig, eulerExternals2D,
      state2D, hR]
  · show Real.sqrt (roeState (eulerExternals2D Real.sqrt 0.4) (exampleConfig false false false) (exampleInputs (state2D 1 0 (25 / 14)) (state2D (1 / 4) 0 (25 / 56)) (0 : ℝ)) exampleScratch).roe.RoeSoundSpeed2 = 1
    rw [hc2, Real.sqrt_one]
  · simp [roeState, UnitNormal, Area, exampleInputs, exampleConfig, eulerExternals2D,
      sumLoop, forLoop]
  · simp [roeState, UnitNormal, Area, exampleInputs, exampleConfig, eulerExternals2D,
      sumLoop, forLoop]

/-- At rest, with density 1/2, unit sound speed and `Gamma - 1 = 0.4`, the Euler matrices
are inverse to each other for the normals `(1, 0)` and `(-1, 0)`. -/
theorem euler_inverse_at_rest (rho c : K) (v n : Nat → K) (h1 : rho = 1 / 2) (h2 : v 0 = 0)
    (h3 : v 1 = 0) (h5 : c = 1) (h6 : n 0 = 1 ∨ n 0 = -1) (h7 : n 1 = 0) :
    IsInversePair 4 (eulerPMatrix2D 0.4 rho v c n) (eulerPMatrixInv2D 0.4 rho v c n) := by
  intro i j hi hj
  rcases h6 with h6 | h6 <;> interval_cases i <;> interval_cases j <;>
    simp [sumLoop, forLoop, eulerPMatrix2D, eulerPMatrixInv2D, mat4, sel4, h1, h2, h3, h5, h6,
      h7] <;>
    norm_num

/-- At rest, the Euler matrices for the normal `(-1, 0)` diagonalise the opposite of the
matrix that those for `(1, 0)` diagonalise. -/
theorem euler_odd_at_rest (rho c : K) (v n : Nat → K) (h1 : rho = 1 / 2) (h2 : v 0 = 0)
    (h3 : v 1 = 0) (h5 : c = 1) (h6 : n 0 = 1) (h7 : n 1 = 0) (i j : Nat) (hi : i < 4)
    (hj : j < 4) :
    modJac 4 (eulerPMatrix2D 0.4 rho v c (fun iDim => -n iDim)) (flowEigenvalues 2 0 c)
        (eulerPMatrixInv2D 0.4 rho v c (fun iDim => -n iDim)) i j
      = -modJac 4 (eulerPMatrix2D 0.4 rho v c n) (flowEigenvalues 2 0 c)
          (eulerPMatrixInv2D 0.4 rho v c n) i j := by
  unfold modJac
  interval_cases i <;> interval_cases j <;>
    simp [flowEigenvalues, sumLoop, forLoop, eulerPMatrix2D, eulerPMatrixInv2D, mat4, sel4,
      h1, h2, h3, h5, h6, h7]

/-- The Euler helpers satisfy the eigensystem contract at a Roe state at rest with density
1/2 and unit sound speed, for the normal `(1, 0)`, with `Gamma - 1 = 0.4`. -/
theorem eulerContract_at_rest (sqrt : K → K) (cfg : Config K) (roe : RoeAverage K) (cs : K)
    (n : Nat → K) (hnVar : cfg.nVar = 4) (hnDim : cfg.nDim = 2)
    (h1 : roe.RoeDensity = 1 / 2) (h2 : roe.RoeVelocity 0 = 0) (h3 : roe.RoeVelocity 1 = 0)
    (h5 : cs = 1) (h6 : n 0 = 1) (h7 : n 1 = 0) :
    EigensystemContract (eulerExternals2D sqrt 0.4) cfg roe cs n := by
  unfold EigensystemContract
  simp only [eulerExternals2D]
  rw [hnVar, hnDim]
  have hvn : projVel 2 roe.RoeVelocity n = 0 := by
    simp [projVel, sumLoop, forLoop, h2, h3]
  have hvm : projVel 2 roe.RoeVelocity (fun iDim => -n iDim) = 0 := by
    simp [projVel, sumLoop, forLoop, h2, h3]
  rw [hvn, hvm]
  refine ⟨euler_inverse_at_rest _ _ _ _ h1 h2 h3 h5 (Or.inl h6) h7,
    euler_inverse_at_rest _ _ _ _ h1 h2 h3 h5 (Or.inr (by simp [h6])) (by simp [h7]), ?_⟩
  intro i j hi hj
  exact euler_odd_at_rest _ _ _ _ h1 h2 h3 h5 h6 h7 i j hi hj

/-- The first row of `P * |Lambda| * invP` at rest, for eigenvalues `(0, 0, 1, 1)`. -/
theorem euler_modulus_row0_at_rest (rho c : K) (v n lam : Nat → K) (h1 : rho = 1 / 2)
    (h2 : v 0 = 0) (h3 : v 1 = 0) (h5 : c = 1) (h6 : n 0 = 1) (h7 : n 1 = 0)
    (l0 : lam 0 = 0) (l1 : lam 1 = 0) (l2 : lam 2 = 1) (l3 : lam 3 = 1) :
    modJac 4 (eulerPMatrix2D 0.4 rho v c n) lam (eulerPMatrixInv2D 0.4 rho v c n) 0 0 = 0 ∧
    modJac 4 (eulerPMatrix2D 0.4 rho v c n) lam (eulerPMatrixInv2D 0.4 rho v c n) 0 1 = 0 ∧
    modJac 4 (eulerPMatrix2D 0.4 rho v c n) lam (eulerPMatrixInv2D 0.4 rho v c n) 0 2 = 0 ∧
    modJac 4 (eulerPMatrix2D 0.4 rho v c n) lam (eulerPMatrixInv2D 0.4 rho v c n) 0 3
      = 2 / 5 := by
  unfold modJac
  refine ⟨?_, ?_, ?_, ?_⟩
  · simp [sumLoop, forLoop, eulerPMatrix2D, eulerPMatrixInv2D, mat4, sel4, h1, h2, h3, h5, h6,
      h7, l0, l1, l2, l3]
  · simp [sumLoop, forLoop, eulerPMatrix2D, eulerPMatrixInv2D, mat4, sel4, h1, h2, h3, h5, h6,
      h7, l0, l1, l2, l3]
  · simp [sumLoop, forLoop, eulerPMatrix2D, eulerPMatrixInv2D, mat4, sel4, h1, h2, h3, h5, h6,
      h7, l0, l1, l2, l3]
  · simp [sumLoop, forLoop, eulerPMatrix2D, eulerPMatrixInv2D, mat4, sel4, h1, h2, h3, h5, h6,
      h7, l0, l1, l2, l3]
    norm_num

/-- The one-sided quantities of the example. -/
theorem example_sides :
    (roeState (eulerExternals2D Real.sqrt 0.4) (exampleConfig false false false) (exampleInputs (state2D 1 0 (25 / 14)) (state2D (1 / 4) 0 (25 / 56)) (0 : ℝ)) exampleScratch).pi.Velocity 0 = 0 ∧ (roeState (eulerExternals2D Real.sqrt 0.4) (exampleConfig false false false) (exampleInputs (state2D 1 0 (25 / 14)) (state2D (1 / 4) 0 (25 / 56)) (0 : ℝ)) exampleScratch).pi.Velocity 1 = 0 ∧
    (roeState (eulerExternals2D Real.sqrt 0.4) (exampleConfig false false false) (exampleInputs (state2D 1 0 (25 / 14)) (state2D (1 / 4) 0 (25 / 56)) (0 : ℝ)) exampleScratch).pj.Velocity 0 = 0 ∧ (roeState (eulerExternals2D Real.sqrt 0.4) (exampleConfig false false false) (exampleInputs (state2D 1 0 (25 / 14)) (state2D (1 / 4) 0 (25 / 56)) (0 : ℝ)) exampleScratch).pj.Velocity 1 = 0 ∧
    (roeState (eulerExternals2D Real.sqrt 0.4) (exampleConfig false false false) (exampleInputs (state2D 1 0 (25 / 14)) (state2D (1 / 4) 0 (25 / 56)) (0 : ℝ)) exampleScratch).pi.SoundSpeed = 1 ∧ (roeState (eulerExternals2D Real.sqrt 0.4) (exampleConfig false false false) (exampleInputs (state2D 1 0 (25 / 14)) (state2D (1 / 4) 0 (25 / 56)) (0 : ℝ)) exampleScratch).pj.SoundSpeed = 1 ∧
    (roeState (eulerExternals2D Real.sqrt 0.4) (exampleConfig false false false) (exampleInputs (state2D 1 0 (25 / 14)) (state2D (1 / 4) 0 (25 / 56)) (0 : ℝ)) exampleScratch).Area = 1 ∧
    Diff_U (roeState (eulerExternals2D Real.sqrt 0.4) (exampleConfig false false false) (exampleInputs (state2D 1 0 (25 / 14)) (state2D (1 / 4) 0 (25 / 56)) (0 : ℝ)) exampleScratch) 0 = -(3 / 4) ∧ Diff_U (roeState (eulerExternals2D Real.sqrt 0.4) (exampleConfig false false false) (exampleInputs (state2D 1 0 (25 / 14)) (state2D (1 / 4) 0 (25 / 56)) (0 : ℝ)) exampleScratch) 3 = -(75 / 56) := by
  refine ⟨?_, ?_, ?_, ?_, ?_, ?_, ?_, ?_, ?_⟩
  · simp [roeState, extractPrimitive, exampleInputs, state2D]
  · simp [roeState, extractPrimitive, exampleInputs, state2D]
  · simp [roeState, extractPrimitive, exampleInputs, state2D]
  · simp [roeState, extractPrimitive, exampleInputs, state2D]
  · have e : |(5 / 7 : ℝ) * 1.4 / 1| = 1 := by norm_num
    show Real.sqrt |(roeState (eulerExternals2D Real.sqrt 0.4) (exampleConfig false false false) (exampleInputs (state2D 1 0 (25 / 14)) (state2D (1 / 4) 0 (25 / 56)) (0 : ℝ)) exampleScratch).pi.Pressure * (exampleConfig (K := ℝ) false false false).Gamma
      / (roeState (eulerExternals2D Real.sqrt 0.4) (exampleConfig false false false) (exampleInputs (state2D 1 0 (25 / 14)) (state2D (1 / 4) 0 (25 / 56)) (0 : ℝ)) exampleScratch).pi.Density| = 1
    have hp : (roeState (eulerExternals2D Real.sqrt 0.4) (exampleConfig false false false) (exampleInputs (state2D 1 0 (25 / 14)) (state2D (1 / 4) 0 (25 / 56)) (0 : ℝ)) exampleScratch).pi.Pressure = 5 / 7 := by
      simp [roeState, extractPrimitive, exampleInputs, exampleConfig, state2D,
        Config.Gamma_Minus_One, sumLoop, forLoop]
      norm_num
    have hr : (roeState (eulerExternals2D Real.sqrt 0.4) (exampleConfig false false false) (exampleInputs (state2D 1 0 (25 / 14)) (state2D (1 / 4) 0 (25 / 56)) (0 : ℝ)) exampleScratch).pi.Density = 1 := by
      simp [roeState, extractPrimitive, exampleInputs, state2D]
    have hg : (exampleConfig (K := ℝ) false false false).Gamma = 1.4 := rfl
    rw [hp, hr, hg, e, Real.sqrt_one]
  · have e : |(5 / 28 : ℝ) * 1.4 / (1 / 4)| = 1 := by norm_num
    show Real.sqrt |(roeState (eulerExternals2D Real.sqrt 0.4) (exampleConfig false false false) (exampleInputs (state2D 1 0 (25 / 14)) (state2D (1 / 4) 0 (25 / 56)) (0 : ℝ)) exampleScratch).pj.Pressure * (exampleConfig (K := ℝ) false false false).Gamma
      / (roeState (eulerExternals2D Real.sqrt 0.4) (exampleConfig false false false) (exampleInputs (state2D 1 0 (25 / 14)) (state2D (1 / 4) 0 (25 / 56)) (0 : ℝ)) exampleScratch).pj.Density| = 1
    have hp : (roeState (eulerExternals2D Real.sqrt 0.4) (exampleConfig false false false) (exampleInputs (state2D 1 0 (25 / 14)) (state2D (1 / 4) 0 (25 / 56)) (0 : ℝ)) exampleScratch).pj.Pressure = 5 / 28 := by
      simp [roeState, extractPrimitive, exampleInputs, exampleConfig, state2D,
        Config.Gamma_Minus_One, sumLoop, forLoop]
      norm_num
    have hr : (roeState (eulerExternals2D Real.sqrt 0.4) (exampleConfig false false false) (exampleInputs (state2D 1 0 (25 / 14)) (state2D (1 / 4) 0 (25 / 56)) (0 : ℝ)) exampleScratch).pj.Density = 1 / 4 := by
      simp [roeState, extractPrimitive, exampleInputs, state2D]
    have hg : (exampleConfig (K := ℝ) false false false).Gamma = 1.4 := rfl
    rw [hp, hr, hg, e, Real.sqrt_one]
  · simp [roeState, Area, exampleInputs, exampleConfig, eulerExternals2D, sumLoop, forLoop]
  · simp [Diff_U, roeState, Conservatives_apply, extractPrimitive, exampleInputs, exampleConfig,
      state2D]
    norm_num
  · simp [Diff_U, roeState, Conservatives_apply, extractPrimitive, exampleInputs, exampleConfig,
      state2D]
    norm_num

/-- The corrected eigenvalues of the example are `(0, 0, 1, 1)`. -/
theorem example_Lambda :
    (roeState (eulerExternals2D Real.sqrt 0.4) (exampleConfig false false false) (exampleInputs (state2D 1 0 (25 / 14)) (state2D (1 / 4) 0 (25 / 56)) (0 : ℝ)) exampleScratch).Lambda 0 = 0 ∧ (roeState (eulerExternals2D Real.sqrt 0.4) (exampleConfig false false false) (exampleInputs (state2D 1 0 (25 / 14)) (state2D (1 / 4) 0 (25 / 56)) (0 : ℝ)) exampleScratch).Lambda 1 = 0 ∧ (roeState (eulerExternals2D Real.sqrt 0.4) (exampleConfig false false false) (exampleInputs (state2D 1 0 (25 / 14)) (state2D (1 / 4) 0 (25 / 56)) (0 : ℝ)) exampleScratch).Lambda 2 = 1 ∧ (roeState (eulerExternals2D Real.sqrt 0.4) (exampleConfig false false false) (exampleInputs (state2D 1 0 (25 / 14)) (state2D (1 / 4) 0 (25 / 56)) (0 : ℝ)) exampleScratch).Lambda 3 = 1 := by
  obtain ⟨_, h2, h3, _, h5, h6, h7⟩ := example_roeState
  obtain ⟨v1, v2, v3, v4, c1, c2, _, _, _⟩ := example_sides
  have hL := roeState_Lambda_lt (eulerExternals2D Real.sqrt 0.4) (exampleConfig false false false) (exampleInputs (state2D 1 0 (25 / 14)) (state2D (1 / 4) 0 (25 / 56)) (0 : ℝ)) exampleScratch rfl rfl
  have hd : (exampleConfig (K := ℝ) false false false).nDim = 2 := rfl
  have hn : (exampleConfig (K := ℝ) false false false).nVar = 4 := rfl
  rw [hd, hn] at hL
  have PV : projVel 2 (roeState (eulerExternals2D Real.sqrt 0.4) (exampleConfig false false false) (exampleInputs (state2D 1 0 (25 / 14)) (state2D (1 / 4) 0 (25 / 56)) (0 : ℝ)) exampleScratch).roe.RoeVelocity (roeState (eulerExternals2D Real.sqrt 0.4) (exampleConfig false false false) (exampleInputs (state2D 1 0 (25 / 14)) (state2D (1 / 4) 0 (25 / 56)) (0 : ℝ)) exampleScratch).UnitNormal = 0 := by
    unfold projVel sumLoop
    simp only [forLoop]
    rw [h2, h3]
    ring
  have PVi : projVel 2 (roeState (eulerExternals2D Real.sqrt 0.4) (exampleConfig false false false) (exampleInputs (state2D 1 0 (25 / 14)) (state2D (1 / 4) 0 (25 / 56)) (0 : ℝ)) exampleScratch).pi.Velocity (roeState (eulerExternals2D Real.sqrt 0.4) (exampleConfig false false false) (exampleInputs (state2D 1 0 (25 / 14)) (state2D (1 / 4) 0 (25 / 56)) (0 : ℝ)) exampleScratch).UnitNormal = 0 := by
    unfold projVel sumLoop
    simp only [forLoop]
    rw [v1, v2]
    ring
  have PVj : projVel 2 (roeState (eulerExternals2D Real.sqrt 0.4) (exampleConfig false false false) (exampleInputs (state2D 1 0 (25 / 14)) (state2D (1 / 4) 0 (25 / 56)) (0 : ℝ)) exampleScratch).pj.Velocity (roeState (eulerExternals2D Real.sqrt 0.4) (exampleConfig false false false) (exampleInputs (state2D 1 0 (25 / 14)) (state2D (1 / 4) 0 (25 / 56)) (0 : ℝ)) exampleScratch).UnitNormal = 0 := by
    unfold projVel sumLoop
    simp only [forLoop]
    rw [v3, v4]
    ring
  rw [PV, PVi, PVj, h5, c1, c2] at hL
  refine ⟨?_, ?_, ?_, ?_⟩
  · rw [hL 0 (by norm_num)]
    norm_num [shearLambda, HartenHymanFix, HartenHymanEpsilon]
  · rw [hL 1 (by norm_num)]
    norm_num [shearLambda, HartenHymanFix, HartenHymanEpsilon]
  · rw [hL 2 (by norm_num)]
    norm_num [plusLambda, HartenHymanFix, HartenHymanEpsilon]
  · rw [hL 3 (by norm_num)]
    norm_num [minusLambda, HartenHymanFix, HartenHymanEpsilon]

/-- The density flux of the example is `15/56`: the central part vanishes (both sides at
rest) and the upwind dissipation does not. -/
theorem example_flux_value :
    (ComputeResidual (eulerExternals2D Real.sqrt 0.4) (exampleConfig false false false) (CUpwRoe_Flow.FinalizeResidual (eulerExternals2D Real.sqrt 0.4) (exampleConfig false false false))
      (exampleInputs (state2D 1 0 (25 / 14)) (state2D (1 / 4) 0 (25 / 56)) (0 : ℝ)) exampleScratch).Flux 0 = 15 / 56 := by
  obtain ⟨h1, h2, h3, h4, h5, h6, h7⟩ := example_roeState
  obtain ⟨v1, v2, v3, v4, _, _, hA, d0, d3⟩ := example_sides
  obtain ⟨l0, l1, l2, l3⟩ := example_Lambda
  have hpos : 0 < (roeAverage (eulerExternals2D Real.sqrt 0.4) (exampleConfig false false false)
      (extractPrimitive (eulerExternals2D Real.sqrt 0.4) (exampleConfig false false false) (exampleInputs (state2D 1 0 (25 / 14)) (state2D (1 / 4) 0 (25 / 56)) (0 : ℝ)).U_i (exampleInputs (state2D 1 0 (25 / 14)) (state2D (1 / 4) 0 (25 / 56)) (0 : ℝ)).turb_ke_i)
      (extractPrimitive (eulerExternals2D Real.sqrt 0.4) (exampleConfig false false false) (exampleInputs (state2D 1 0 (25 / 14)) (state2D (1 / 4) 0 (25 / 56)) (0 : ℝ)).U_j (exampleInputs (state2D 1 0 (25 / 14)) (state2D (1 / 4) 0 (25 / 56)) (0 : ℝ)).turb_ke_j)).RoeSoundSpeed2 := by
    show 0 < (roeState (eulerExternals2D Real.sqrt 0.4) (exampleConfig false false false) (exampleInputs (state2D 1 0 (25 / 14)) (state2D (1 / 4) 0 (25 / 56)) (0 : ℝ)) exampleScratch).roe.RoeSoundSpeed2
    rw [h4]
    norm_num
  rw [roe_flux_formula (eulerExternals2D Real.sqrt 0.4) (exampleConfig false false false) (exampleInputs (state2D 1 0 (25 / 14)) (state2D (1 / 4) 0 (25 / 56)) (0 : ℝ)) exampleScratch 0 (by simp [exampleConfig]) rfl hpos]
  have hT : ∀ j, j < 4 →
      Proj_ModJac_Tensor_ij (exampleConfig (K := ℝ) false false false).nPrimVarTot
        (roeP_Tensor (exampleConfig false false false) (roeState (eulerExternals2D Real.sqrt 0.4) (exampleConfig false false false) (exampleInputs (state2D 1 0 (25 / 14)) (state2D (1 / 4) 0 (25 / 56)) (0 : ℝ)) exampleScratch)) (roeState (eulerExternals2D Real.sqrt 0.4) (exampleConfig false false false) (exampleInputs (state2D 1 0 (25 / 14)) (state2D (1 / 4) 0 (25 / 56)) (0 : ℝ)) exampleScratch).Lambda (roeInvP_Tensor (eulerExternals2D Real.sqrt 0.4) (exampleConfig false false false) (roeState (eulerExternals2D Real.sqrt 0.4) (exampleConfig false false false) (exampleInputs (state2D 1 0 (25 / 14)) (state2D (1 / 4) 0 (25 / 56)) (0 : ℝ)) exampleScratch)) 0 j
      = modJac 4 (eulerPMatrix2D 0.4 (roeState (eulerExternals2D Real.sqrt 0.4) (exampleConfig false false false) (exampleInputs (state2D 1 0 (25 / 14)) (state2D (1 / 4) 0 (25 / 56)) (0 : ℝ)) exampleScratch).roe.RoeDensity (roeState (eulerExternals2D Real.sqrt 0.4) (exampleConfig false false false) (exampleInputs (state2D 1 0 (25 / 14)) (state2D (1 / 4) 0 (25 / 56)) (0 : ℝ)) exampleScratch).roe.RoeVelocity (roeState (eulerExternals2D Real.sqrt 0.4) (exampleConfig false false false) (exampleInputs (state2D 1 0 (25 / 14)) (state2D (1 / 4) 0 (25 / 56)) (0 : ℝ)) exampleScratch).RoeSoundSpeed
          (roeState (eulerExternals2D Real.sqrt 0.4) (exampleConfig false false false) (exampleInputs (state2D 1 0 (25 / 14)) (state2D (1 / 4) 0 (25 / 56)) (0 : ℝ)) exampleScratch).UnitNormal) (roeState (eulerExternals2D Real.sqrt 0.4) (exampleConfig false false false) (exampleInputs (state2D 1 0 (25 / 14)) (state2D (1 / 4) 0 (25 / 56)) (0 : ℝ)) exampleScratch).Lambda
          (eulerPMatrixInv2D 0.4 (roeState (eulerExternals2D Real.sqrt 0.4) (exampleConfig false false false) (exampleInputs (state2D 1 0 (25 / 14)) (state2D (1 / 4) 0 (25 / 56)) (0 : ℝ)) exampleScratch).roe.RoeDensity (roeState (eulerExternals2D Real.sqrt 0.4) (exampleConfig false false false) (exampleInputs (state2D 1 0 (25 / 14)) (state2D (1 / 4) 0 (25 / 56)) (0 : ℝ)) exampleScratch).roe.RoeVelocity (roeState (eulerExternals2D Real.sqrt 0.4) (exampleConfig false false false) (exampleInputs (state2D 1 0 (25 / 14)) (state2D (1 / 4) 0 (25 / 56)) (0 : ℝ)) exampleScratch).RoeSoundSpeed
            (roeState (eulerExternals2D Real.sqrt 0.4) (exampleConfig false false false) (exampleInputs (state2D 1 0 (25 / 14)) (state2D (1 / 4) 0 (25 / 56)) (0 : ℝ)) exampleScratch).UnitNormal) 0 j := by
    intro j hj
    rw [roe_T_apply (eulerExternals2D Real.sqrt 0.4) (exampleConfig false false false) (roeState (eulerExternals2D Real.sqrt 0.4) (exampleConfig false false false) (exampleInputs (state2D 1 0 (25 / 14)) (state2D (1 / 4) 0 (25 / 56)) (0 : ℝ)) exampleScratch) 0 j rfl (by simp [exampleConfig]) hj]
    have ht : ¬ ((exampleConfig (K := ℝ) false false false).tkeNeeded = true) := by
      simp [exampleConfig]
    rw [if_neg ht, add_zero]
    rfl
  obtain ⟨t0, t1, t2, t3⟩ := euler_modulus_row0_at_rest (roeState (eulerExternals2D Real.sqrt 0.4) (exampleConfig false false false) (exampleInputs (state2D 1 0 (25 / 14)) (state2D (1 / 4) 0 (25 / 56)) (0 : ℝ)) exampleScratch).roe.RoeDensity (roeState (eulerExternals2D Real.sqrt 0.4) (exampleConfig false false false) (exampleInputs (state2D 1 0 (25 / 14)) (state2D (1 / 4) 0 (25 / 56)) (0 : ℝ)) exampleScratch).RoeSoundSpeed
    (roeState (eulerExternals2D Real.sqrt 0.4) (exampleConfig false false false) (exampleInputs (state2D 1 0 (25 / 14)) (state2D (1 / 4) 0 (25 / 56)) (0 : ℝ)) exampleScratch).roe.RoeVelocity (roeState (eulerExternals2D Real.sqrt 0.4) (exampleConfig false false false) (exampleInputs (state2D 1 0 (25 / 14)) (state2D (1 / 4) 0 (25 / 56)) (0 : ℝ)) exampleScratch).UnitNormal (roeState (eulerExternals2D Real.sqrt 0.4) (exampleConfig false false false) (exampleInputs (state2D 1 0 (25 / 14)) (state2D (1 / 4) 0 (25 / 56)) (0 : ℝ)) exampleScratch).Lambda h1 h2 h3 h5 h6 h7 l0 l1 l2 l3
  have hn : (exampleConfig (K := ℝ) false false false).nVar = 4 := rfl
  have hk : (exampleConfig (K := ℝ) false false false).kappa = 0.5 := rfl
  have hF : ∀ p : Primitive ℝ, p.Velocity 0 = 0 → p.Velocity 1 = 0 →
      ProjFlux (eulerExternals2D Real.sqrt 0.4) (exampleInputs (state2D 1 0 (25 / 14)) (state2D (1 / 4) 0 (25 / 56)) (0 : ℝ)) p 0 = 0 := by
    intro p a b
    show eulerProjFlux2D p.Density p.Velocity p.Pressure p.Enthalpy (exampleInputs (state2D 1 0 (25 / 14)) (state2D (1 / 4) 0 (25 / 56)) (0 : ℝ)).Normal 0 = 0
    simp [eulerProjFlux2D, sel4, a, b]
  rw [hn, hk, hF _ v1 v2, hF _ v3 v4]
  simp only [Finset.sum_range_succ, Finset.sum_range_zero]
  rw [hT 0 (by norm_num), hT 1 (by norm_num), hT 2 (by norm_num), hT 3 (by norm_num),
    t0, t1, t2, t3, d3, hA]
  norm_num

end AntisymmetryExample

/-- C10, at a concrete input: densities 1 and 1/4, both sides at rest with unit sound speed,
normal `(1, 0)`, `Gamma = 1.4`, `kappa = 0.5`, over the reals with the real square root and
the two-dimensional Euler eigensystem and flux as helpers; the density flux is `15/56` and
the exchanged evaluation returns its opposite. -/
theorem roe_flux_antisymmetry_witness :
    IsSqrt Real.sqrt ∧ FluxContract (eulerExternals2D Real.sqrt 0.4) ∧
    EigensystemContract (eulerExternals2D Real.sqrt 0.4) (exampleConfig false false false)
      (roeState (eulerExternals2D Real.sqrt 0.4) (exampleConfig false false false) (exampleInputs (state2D 1 0 (25 / 14)) (state2D (1 / 4) 0 (25 / 56)) (0 : ℝ)) exampleScratch).roe (roeState (eulerExternals2D Real.sqrt 0.4) (exampleConfig false false false) (exampleInputs (state2D 1 0 (25 / 14)) (state2D (1 / 4) 0 (25 / 56)) (0 : ℝ)) exampleScratch).RoeSoundSpeed (roeState (eulerExternals2D Real.sqrt 0.4) (exampleConfig false false false) (exampleInputs (state2D 1 0 (25 / 14)) (state2D (1 / 4) 0 (25 / 56)) (0 : ℝ)) exampleScratch).UnitNormal ∧
    (0 : ℝ) < (exampleInputs (state2D 1 0 (25 / 14)) (state2D (1 / 4) 0 (25 / 56)) (0 : ℝ)).U_i 0 ∧ (0 : ℝ) < (exampleInputs (state2D 1 0 (25 / 14)) (state2D (1 / 4) 0 (25 / 56)) (0 : ℝ)).U_j 0 ∧
    (ComputeResidual (eulerExternals2D Real.sqrt 0.4) (exampleConfig false false false) (CUpwRoe_Flow.FinalizeResidual (eulerExternals2D Real.sqrt 0.4) (exampleConfig false false false))
        (exampleInputs (state2D 1 0 (25 / 14)) (state2D (1 / 4) 0 (25 / 56)) (0 : ℝ)) exampleScratch).Flux 0 = 15 / 56 ∧
    (ComputeResidual (eulerExternals2D Real.sqrt 0.4) (exampleConfig false false false) (CUpwRoe_Flow.FinalizeResidual (eulerExternals2D Real.sqrt 0.4) (exampleConfig false false false))
        (swapInputs (exampleInputs (state2D 1 0 (25 / 14)) (state2D (1 / 4) 0 (25 / 56)) (0 : ℝ))) exampleScratch).Flux 0
      = -(ComputeResidual (eulerExternals2D Real.sqrt 0.4) (exampleConfig false false false) (CUpwRoe_Flow.FinalizeResidual (eulerExternals2D Real.sqrt 0.4) (exampleConfig false false false))
        (exampleInputs (state2D 1 0 (25 / 14)) (state2D (1 / 4) 0 (25 / 56)) (0 : ℝ)) exampleScratch).Flux 0 := by
  obtain ⟨h1, h2, h3, _, h5, h6, h7⟩ := example_roeState
  have hc := eulerContract_at_rest Real.sqrt (exampleConfig false false false) (roeState (eulerExternals2D Real.sqrt 0.4) (exampleConfig false false false) (exampleInputs (state2D 1 0 (25 / 14)) (state2D (1 / 4) 0 (25 / 56)) (0 : ℝ)) exampleScratch).roe (roeState (eulerExternals2D Real.sqrt 0.4) (exampleConfig false false false) (exampleInputs (state2D 1 0 (25 / 14)) (state2D (1 / 4) 0 (25 / 56)) (0 : ℝ)) exampleScratch).RoeSoundSpeed (roeState (eulerExternals2D Real.sqrt 0.4) (exampleConfig false false false) (exampleInputs (state2D 1 0 (25 / 14)) (state2D (1 / 4) 0 (25 / 56)) (0 : ℝ)) exampleScratch).UnitNormal
    rfl rfl h1 h2 h3 h5 h6 h7
  have hi : (0 : ℝ) < (exampleInputs (state2D 1 0 (25 / 14)) (state2D (1 / 4) 0 (25 / 56)) (0 : ℝ)).U_i 0 := by norm_num [exampleInputs, state2D]
  have hj : (0 : ℝ) < (exampleInputs (state2D 1 0 (25 / 14)) (state2D (1 / 4) 0 (25 / 56)) (0 : ℝ)).U_j 0 := by norm_num [exampleInputs, state2D]
  exact ⟨isSqrt_real, fluxContract_euler Real.sqrt 0.4, hc, hi, hj, example_flux_value,
    roe_flux_antisymmetry (eulerExternals2D Real.sqrt 0.4) (exampleConfig false false false) (exampleInputs (state2D 1 0 (25 / 14)) (state2D (1 / 4) 0 (25 / 56)) (0 : ℝ)) exampleScratch exampleScratch 0 isSqrt_real rfl rfl
      rfl hi hj (by simp [exampleConfig]) (fluxContract_euler Real.sqrt 0.4) (fun _ => hc)⟩

/-! ## Mavriplis' entropy correction in `CUpwGeneralRoe_Flow::ComputeResidual` -/

section Mavriplis

/-- The uncorrected eigenvalues of `CUpwGeneralRoe_Flow`, entry by entry. -/
theorem generalRawLambda_apply (c : GeneralConfig K) (PV a : K) (old : Nat → K) (k : Nat) :
    generalRawLambda c PV a old k
      = if k = c.nVar - 1 then PV - a
        else if k = c.nVar - 2 then PV + a
        else if k < c.nDim then PV else old k := by
  unfold generalRawLambda
  simp only [setV]
  by_cases h1 : k = c.nVar - 1
  · rw [if_pos h1, if_pos h1]
  · rw [if_neg h1, if_neg h1]
    by_cases h2 : k = c.nVar - 2
    · rw [if_pos h2, if_pos h2]
    · rw [if_neg h2, if_neg h2]
      exact forLoop_setV_apply c.nDim (fun _ _ => PV) old k

/-- Every uncorrected eigenvalue below `nVar = nDim + 2` is `PV`, `PV + a` or `PV - a`. -/
theorem generalRawLambda_cases (c : GeneralConfig K) (PV a : K) (old : Nat → K) (k : Nat)
    (hn : c.nVar = c.nDim + 2) (hk : k < c.nVar) :
    generalRawLambda c PV a old k = PV ∨ generalRawLambda c PV a old k = PV + a ∨
      generalRawLambda c PV a old k = PV - a := by
  rw [generalRawLambda_apply]
  by_cases h1 : k = c.nVar - 1
  · rw [if_pos h1]; exact Or.inr (Or.inr rfl)
  · rw [if_neg h1]
    by_cases h2 : k = c.nVar - 2
    · rw [if_pos h2]; exact Or.inr (Or.inl rfl)
    · rw [if_neg h2]
      have h3 : k < c.nDim := by omega
      rw [if_pos h3]; exact Or.inl rfl

/-- The loop of Mavriplis' correction, entry by entry. -/
theorem MavriplisFix_apply (c : GeneralConfig K) (MaxLambda : K) (L : Nat → K) (k : Nat) :
    MavriplisFix c MaxLambda L k
      = if k < c.nVar then max |L k| (c.Delta * MaxLambda) else L k := by
  unfold MavriplisFix
  exact forLoop_setV_apply c.nVar (fun _ x => max |x| (c.Delta * MaxLambda)) L k

/-- The eigenvalues stored by `generalState` are Mavriplis' correction of the raw ones. -/
theorem generalState_Lambda (ext : GeneralExternals K) (c : GeneralConfig K)
    (inp : GeneralInputs K) (old : GeneralScratch K) :
    (generalState ext c inp old).Lambda
      = MavriplisFix c (|generalProjVelocity ext c inp| + (generalState ext c inp old).RoeSoundSpeed)
          (generalRawLambda c (generalProjVelocity ext c inp)
            (generalState ext c inp old).RoeSoundSpeed old.Lambda) := rfl

/-- C12. Mavriplis' entropy correction in `CUpwGeneralRoe_Flow::ComputeResidual`
(`nVar = nDim + 2`): with `MaxLambda = |ProjVelocity| + RoeSoundSpeed` and
`RoeSoundSpeed >= 0`, every corrected eigenvalue `Lambda[iVar]`, `iVar < nVar`, equals
`max(|lambda|, Delta*MaxLambda)` for the uncorrected eigenvalue `lambda`, hence is never
smaller than `|lambda|`, and for `0 <= Delta <= 1` it is never larger than `MaxLambda`. -/
theorem mavriplis_fix_bounds (ext : GeneralExternals K) (c : GeneralConfig K)
    (inp : GeneralInputs K) (old : GeneralScratch K) (iVar : Nat)
    (hn : c.nVar = c.nDim + 2) (hi : iVar < c.nVar)
    (hc : 0 ≤ (generalState ext c inp old).RoeSoundSpeed) :
    (generalState ext c inp old).Lambda iVar
        = max |generalRawLambda c (generalProjVelocity ext c inp)
              (generalState ext c inp old).RoeSoundSpeed old.Lambda iVar|
            (c.Delta * (|generalProjVelocity ext c inp|
              + (generalState ext c inp old).RoeSoundSpeed)) ∧
      |generalRawLambda c (generalProjVelocity ext c inp)
          (generalState ext c inp old).RoeSoundSpeed old.Lambda iVar|
        ≤ (generalState ext c inp old).Lambda iVar ∧
      (0 ≤ c.Delta → c.Delta ≤ 1 →
        (generalState ext c inp old).Lambda iVar
          ≤ |generalProjVelocity ext c inp| + (generalState ext c inp old).RoeSoundSpeed) := by
  have hL := congrFun (generalState_Lambda ext c inp old) iVar
  rw [MavriplisFix_apply, if_pos hi] at hL
  refine ⟨hL, ?_, ?_⟩
  · rw [hL]; exact le_max_left _ _
  · intro hd0 hd1
    rw [hL]
    have hM : 0 ≤ |generalProjVelocity ext c inp| + (generalState ext c inp old).RoeSoundSpeed :=
      add_nonneg (abs_nonneg _) hc
    refine max_le ?_ ?_
    · rcases generalRawLambda_cases c (generalProjVelocity ext c inp)
          (generalState ext c inp old).RoeSoundSpeed old.Lambda iVar hn hi with h | h | h
      · rw [h]; linarith
      · rw [h]
        calc |generalProjVelocity ext c inp + (generalState ext c inp old).RoeSoundSpeed|
            ≤ |generalProjVelocity ext c inp| + |(generalState ext c inp old).RoeSoundSpeed| :=
              abs_add _ _
          _ = _ := by rw [abs_of_nonneg hc]
      · rw [h]
        calc |generalProjVelocity ext c inp - (generalState ext c inp old).RoeSoundSpeed|
            ≤ |generalProjVelocity ext c inp| + |(generalState ext c inp old).RoeSoundSpeed| :=
              abs_sub _ _
          _ = _ := by rw [abs_of_nonneg hc]
    · calc c.Delta * (|generalProjVelocity ext c inp| + (generalState ext c inp old).RoeSoundSpeed)
          ≤ 1 * (|generalProjVelocity ext c inp| + (generalState ext c inp old).RoeSoundSpeed) :=
            mul_le_mul_of_nonneg_right hd1 hM
        _ = _ := one_mul _

end Mavriplis

/-- C12, at a concrete input: an ideal gas moving at velocity `(1/2, 0)` with unit sound
speed across a face of normal `(1, 0)`, `Delta = 0.1`; the eigenvalue of index 3 is
`|1/2 - 1| = 1/2`, between `|lambda|` and `MaxLambda = 3/2`. -/
theorem mavriplis_fix_bounds_witness :
    (4 : Nat) = 2 + 2 ∧ (3 : Nat) < 4 ∧
    (generalState (constGeneralExternals Real.sqrt) (exampleGeneralConfig false)
      flowGeneralInputs exampleGeneralScratch).RoeSoundSpeed = 1 ∧
    generalProjVelocity (constGeneralExternals Real.sqrt) (exampleGeneralConfig false)
      flowGeneralInputs = 1 / 2 ∧
    |generalRawLambda (exampleGeneralConfig false)
        (generalProjVelocity (constGeneralExternals Real.sqrt) (exampleGeneralConfig false)
          flowGeneralInputs)
        (generalState (constGeneralExternals Real.sqrt) (exampleGeneralConfig false)
          flowGeneralInputs exampleGeneralScratch).RoeSoundSpeed
        exampleGeneralScratch.Lambda 3|
      ≤ (generalState (constGeneralExternals Real.sqrt) (exampleGeneralConfig false)
          flowGeneralInputs exampleGeneralScratch).Lambda 3 ∧
    (generalState (constGeneralExternals Real.sqrt) (exampleGeneralConfig false)
        flowGeneralInputs exampleGeneralScratch).Lambda 3
      ≤ |generalProjVelocity (constGeneralExternals Real.sqrt) (exampleGeneralConfig false)
          flowGeneralInputs|
        + (generalState (constGeneralExternals Real.sqrt) (exampleGeneralConfig false)
            flowGeneralInputs exampleGeneralScratch).RoeSoundSpeed := by
  have ha : (generalState (constGeneralExternals Real.sqrt) (exampleGeneralConfig false)
      flowGeneralInputs exampleGeneralScratch).RoeSoundSpeed = 1 := by
    simp [generalState, CUpwGeneralRoe_Flow.ComputeRoeAverage, generalPrimitive,
      constGeneralExternals, exampleGeneralConfig, flowGeneralInputs, sumLoop, forLoop]
    norm_num
  have hv : generalProjVelocity (constGeneralExternals Real.sqrt) (exampleGeneralConfig false)
      flowGeneralInputs = 1 / 2 := by
    simp [generalProjVelocity, CUpwGeneralRoe_Flow.ComputeRoeAverage, generalPrimitive,
      constGeneralExternals, exampleGeneralConfig, flowGeneralInputs, sumLoop, forLoop, projVel]
    norm_num
  have t := mavriplis_fix_bounds (constGeneralExternals Real.sqrt) (exampleGeneralConfig false)
    flowGeneralInputs exampleGeneralScratch 3 rfl (by decide) (Real.sqrt_nonneg _)
  exact ⟨rfl, by decide, ha, hv, t.2.1,
    t.2.2 (by norm_num [exampleGeneralConfig]) (by norm_num [exampleGeneralConfig])⟩

/-- C18. Compressibility blending in `CUpwGeneralRoe_Flow::ComputeRoeAverage`: for all
`Kappa_i`, `Kappa_j`, `Chi_i`, `Chi_j`,
`RoeKappa = (Kappa_i + Kappa_j + 4*(0.5*(Kappa_i + Kappa_j)))/6` and
`RoeChi = (Chi_i + Chi_j + 4*(0.5*(Chi_i + Chi_j)))/6`, which are exactly the arithmetic means
`0.5*(Kappa_i + Kappa_j)` and `0.5*(Chi_i + Chi_j)`; and
`RoeSoundSpeed2 = RoeChi + RoeKappa*(RoeEnthalpy - 0.5*|RoeVelocity|^2)`. -/
theorem general_roe_blend_is_arithmetic_mean (ext : GeneralExternals K) (c : GeneralConfig K)
    (pi pj : GeneralPrimitive K) :
    (CUpwGeneralRoe_Flow.ComputeRoeAverage ext c pi pj).RoeKappa
        = (pi.Kappa + pj.Kappa + 4 * (0.5 * (pi.Kappa + pj.Kappa))) / 6 ∧
      (CUpwGeneralRoe_Flow.ComputeRoeAverage ext c pi pj).RoeChi
        = (pi.Chi + pj.Chi + 4 * (0.5 * (pi.Chi + pj.Chi))) / 6 ∧
      (CUpwGeneralRoe_Flow.ComputeRoeAverage ext c pi pj).RoeKappa = 0.5 * (pi.Kappa + pj.Kappa) ∧
      (CUpwGeneralRoe_Flow.ComputeRoeAverage ext c pi pj).RoeChi = 0.5 * (pi.Chi + pj.Chi) ∧
      (CUpwGeneralRoe_Flow.ComputeRoeAverage ext c pi pj).RoeSoundSpeed2
        = (CUpwGeneralRoe_Flow.ComputeRoeAverage ext c pi pj).RoeChi
          + (CUpwGeneralRoe_Flow.ComputeRoeAverage ext c pi pj).RoeKappa
            * ((CUpwGeneralRoe_Flow.ComputeRoeAverage ext c pi pj).RoeEnthalpy
              - 0.5 * ∑ iDim in Finset.range c.nDim,
                  (CUpwGeneralRoe_Flow.ComputeRoeAverage ext c pi pj).RoeVelocity iDim
                    * (CUpwGeneralRoe_Flow.ComputeRoeAverage ext c pi pj).RoeVelocity iDim) := by
  refine ⟨rfl, rfl, ?_, ?_, ?_⟩
  · show (pi.Kappa + pj.Kappa + 4 * (0.5 * (pi.Kappa + pj.Kappa))) / 6
      = 0.5 * (pi.Kappa + pj.Kappa)
    norm_num
    ring
  · show (pi.Chi + pj.Chi + 4 * (0.5 * (pi.Chi + pj.Chi))) / 6 = 0.5 * (pi.Chi + pj.Chi)
    norm_num
    ring
  · rw [← sumLoop_eq_sum]
    rfl

/-! ## State extraction and Roe averaging in `CUpwRoeBase_Flow::ComputeResidual` -/

section Extraction

/-- C16. State extraction in `CUpwRoeBase_Flow::ComputeResidual`, with `sqrt` the square root:
for every conservative vector `U` with non-zero density `U[0]`,
velocity = momentum/density, pressure =
`(Gamma-1)*(totalEnergy - 0.5*density*|velocity|^2 - density*k)` with `k` the supplied
turbulent kinetic energy divided by the density, enthalpy =
`totalEnergy/density + pressure/density`, and the sound speed is the non-negative number
whose square is `|pressure*Gamma/density|`; hence a state of the same density whose pressure
is the opposite number gets the same sound speed. -/
theorem state_extraction_formulas (ext : Externals K) (c : Config K) (U : Nat → K)
    (turb_ke : K) (hs : IsSqrt ext.sqrt) (hrho : U 0 ≠ 0) :
    (∀ iDim, (extractPrimitive ext c U turb_ke).Velocity iDim = U (iDim + 1) / U 0) ∧
      (extractPrimitive ext c U turb_ke).Pressure
        = (c.Gamma - 1) * (U (c.nDim + 1)
            - 0.5 * U 0 * (∑ iDim in Finset.range c.nDim,
                (U (iDim + 1) / U 0) * (U (iDim + 1) / U 0))
            - U 0 * (turb_ke / U 0)) ∧
      (extractPrimitive ext c U turb_ke).Enthalpy
        = U (c.nDim + 1) / U 0 + (extractPrimitive ext c U turb_ke).Pressure / U 0 ∧
      0 ≤ (extractPrimitive ext c U turb_ke).SoundSpeed ∧
      (extractPrimitive ext c U turb_ke).SoundSpeed * (extractPrimitive ext c U turb_ke).SoundSpeed
        = |(extractPrimitive ext c U turb_ke).Pressure * c.Gamma / U 0| ∧
      (∀ (U2 : Nat → K) (turb_ke2 : K), U2 0 = U 0 →
        (extractPrimitive ext c U2 turb_ke2).Pressure
          = -(extractPrimitive ext c U turb_ke).Pressure →
        (extractPrimitive ext c U2 turb_ke2).SoundSpeed
          = (extractPrimitive ext c U turb_ke).SoundSpeed) := by
  have hS : ∀ (V : Nat → K) (k : K), (extractPrimitive ext c V k).SoundSpeed
      = ext.sqrt |(extractPrimitive ext c V k).Pressure * c.Gamma / V 0| := fun _ _ => rfl
  refine ⟨fun _ => rfl, ?_, rfl, ?_, ?_, ?_⟩
  · show c.Gamma_Minus_One * (U (c.nDim + 1)
        - 0.5 * U 0 * sumLoop c.nDim (fun iDim => U (iDim + 1) / U 0 * (U (iDim + 1) / U 0))
        - U 0 * (turb_ke / U 0)) = _
    rw [sumLoop_eq_sum]
    unfold Config.Gamma_Minus_One
    norm_num
  · rw [hS]
    exact (hs _ (abs_nonneg _)).1
  · rw [hS]
    exact (hs _ (abs_nonneg _)).2
  · intro U2 k2 h0 hp
    rw [hS, hS, hp, h0]
    congr 1
    rw [neg_mul, neg_div, abs_neg]

/-- C16, at a concrete input: the two-dimensional states `(1, 0, 0, 5/2)` and
`(1, 0, 0, -5/2)` with `Gamma = 1.4` have pressures `1` and `-1` and the same sound speed. -/
theorem state_extraction_formulas_witness :
    IsSqrt (constExternals Real.sqrt).sqrt ∧ state2D (1 : ℝ) 0 (5 / 2) 0 ≠ 0 ∧
    (extractPrimitive (constExternals Real.sqrt) (exampleConfig false false false)
      (state2D 1 0 (5 / 2)) 0).Pressure = 1 ∧
    (extractPrimitive (constExternals Real.sqrt) (exampleConfig false false false)
      (state2D 1 0 (-5 / 2)) 0).Pressure = -1 ∧
    (extractPrimitive (constExternals Real.sqrt) (exampleConfig false false false)
      (state2D 1 0 (-5 / 2)) 0).SoundSpeed
      = (extractPrimitive (constExternals Real.sqrt) (exampleConfig false false false)
          (state2D 1 0 (5 / 2)) 0).SoundSpeed ∧
    (extractPrimitive (constExternals Real.sqrt) (exampleConfig false false false)
        (state2D 1 0 (5 / 2)) 0).SoundSpeed
      * (extractPrimitive (constExternals Real.sqrt) (exampleConfig false false false)
        (state2D 1 0 (5 / 2)) 0).SoundSpeed = 7 / 5 := by
  have h0 : state2D (1 : ℝ) 0 (5 / 2) 0 ≠ 0 := by simp [state2D]
  have hp : (extractPrimitive (constExternals Real.sqrt) (exampleConfig false false false)
      (state2D 1 0 (5 / 2)) 0).Pressure = 1 := by
    simp [extractPrimitive, exampleConfig, state2D, Config.Gamma_Minus_One, sumLoop, forLoop]
    norm_num
  have hn : (extractPrimitive (constExternals Real.sqrt) (exampleConfig false false false)
      (state2D 1 0 (-5 / 2)) 0).Pressure = -1 := by
    simp [extractPrimitive, exampleConfig, state2D, Config.Gamma_Minus_One, sumLoop, forLoop]
    norm_num
  have t := state_extraction_formulas (constExternals Real.sqrt)
    (exampleConfig false false false) (state2D 1 0 (5 / 2)) 0 isSqrt_real h0
  refine ⟨isSqrt_real, h0, hp, hn, t.2.2.2.2.2 _ 0 (by simp [state2D]) (by rw [hn, hp]), ?_⟩
  rw [t.2.2.2.2.1, hp]
  norm_num [exampleConfig, state2D]

end Extraction

section RoeWeights

/-- The density ratio `R = sqrt|b/a|` carries `sqrt a` to `sqrt b`. -/
theorem roe_R_mul_sqrt {sqrt : K → K} (hs : IsSqrt sqrt) (a b : K) (ha : 0 < a) (hb : 0 < b) :
    0 < sqrt a ∧ 0 < sqrt b ∧ sqrt |b / a| * sqrt a = sqrt b := by
  obtain ⟨a0, a1⟩ := hs a ha.le
  obtain ⟨b0, b1⟩ := hs b hb.le
  have hR := hs |b / a| (abs_nonneg _)
  rw [abs_of_pos (div_pos hb ha)] at hR ⊢
  have pa : 0 < sqrt a := by
    rcases eq_or_lt_of_le a0 with h | h
    · rw [← h, mul_zero] at a1; exact absurd a1 (ne_of_lt ha)
    · exact h
  have pb : 0 < sqrt b := by
    rcases eq_or_lt_of_le b0 with h | h
    · rw [← h, mul_zero] at b1; exact absurd b1 (ne_of_lt hb)
    · exact h
  refine ⟨pa, pb, ?_⟩
  have hsq : (sqrt (b / a) * sqrt a) * (sqrt (b / a) * sqrt a) = sqrt b * sqrt b := by
    calc (sqrt (b / a) * sqrt a) * (sqrt (b / a) * sqrt a)
        = (sqrt (b / a) * sqrt (b / a)) * (sqrt a * sqrt a) := by ring
      _ = b / a * a := by rw [hR.2, a1]
      _ = b := by field_simp
      _ = sqrt b * sqrt b := b1.symm
  exact (mul_self_inj (mul_nonneg hR.1 a0) b0).mp hsq

/-- The weighting `(R*right + left)/(R + 1)` with `R*sa = sb` is the weighting by `sa`, `sb`. -/
theorem roe_weight_sqrt (R sa sb left right : K) (hR : 0 ≤ R) (ha : 0 < sa) (h : R * sa = sb) :
    (R * right + left) / (R + 1.0) = (sa * left + sb * right) / (sa + sb) := by
  have h1 : R + 1.0 ≠ 0 := by
    have : (0 : K) < R + 1.0 := by norm_num; linarith
    exact ne_of_gt this
  have h2 : sa + sb ≠ 0 := by
    have : 0 < sa + sb := by rw [← h]; nlinarith [mul_nonneg hR ha.le]
    exact ne_of_gt this
  rw [div_eq_div_iff h1 h2, ← h]
  norm_num
  ring

/-- C17. Roe density weighting in `CUpwRoeBase_Flow::ComputeResidual`, with `sqrt` the square
root: with `R = sqrt(|Density_j/Density_i|)`, for every pair of positive densities the
interface density `RoeDensity = R*Density_i` is the geometric mean
`sqrt(Density_i*Density_j)`, and each Roe-averaged velocity component, the Roe enthalpy and
the Roe turbulent kinetic energy equal `(R*right + left)/(R+1)`, which is
`(sqrt(rho_i)*left + sqrt(rho_j)*right)/(sqrt(rho_i) + sqrt(rho_j))`. -/
theorem roe_density_weighting (ext : Externals K) (c : Config K) (pi pj : Primitive K)
    (hs : IsSqrt ext.sqrt) (hi : 0 < pi.Density) (hj : 0 < pj.Density) :
    (roeAverage ext c pi pj).R = ext.sqrt |pj.Density / pi.Density| ∧
      (roeAverage ext c pi pj).RoeDensity = (roeAverage ext c pi pj).R * pi.Density ∧
      (roeAverage ext c pi pj).RoeDensity = ext.sqrt (pi.Density * pj.Density) ∧
      (∀ iDim, (roeAverage ext c pi pj).RoeVelocity iDim
          = ((roeAverage ext c pi pj).R * pj.Velocity iDim + pi.Velocity iDim)
            / ((roeAverage ext c pi pj).R + 1) ∧
        (roeAverage ext c pi pj).RoeVelocity iDim
          = (ext.sqrt pi.Density * pi.Velocity iDim + ext.sqrt pj.Density * pj.Velocity iDim)
            / (ext.sqrt pi.Density + ext.sqrt pj.Density)) ∧
      ((roeAverage ext c pi pj).RoeEnthalpy
          = ((roeAverage ext c pi pj).R * pj.Enthalpy + pi.Enthalpy)
            / ((roeAverage ext c pi pj).R + 1) ∧
        (roeAverage ext c pi pj).RoeEnthalpy
          = (ext.sqrt pi.Density * pi.Enthalpy + ext.sqrt pj.Density * pj.Enthalpy)
            / (ext.sqrt pi.Density + ext.sqrt pj.Density)) ∧
      ((roeAverage ext c pi pj).RoeTke
          = ((roeAverage ext c pi pj).R * pj.turb_ke + pi.turb_ke)
            / ((roeAverage ext c pi pj).R + 1) ∧
        (roeAverage ext c pi pj).RoeTke
          = (ext.sqrt pi.Density * pi.turb_ke + ext.sqrt pj.Density * pj.turb_ke)
            / (ext.sqrt pi.Density + ext.sqrt pj.Density)) := by
  obtain ⟨pa, pb, hR⟩ := roe_R_mul_sqrt hs pi.Density pj.Density hi hj
  have hR0 : 0 ≤ ext.sqrt |pj.Density / pi.Density| := (hs _ (abs_nonneg _)).1
  have one : ∀ x : K, x + 1.0 = x + 1 := fun x => by norm_num
  have hw : ∀ left right : K,
      (ext.sqrt |pj.Density / pi.Density| * right + left)
          / (ext.sqrt |pj.Density / pi.Density| + 1.0)
        = (ext.sqrt pi.Density * left + ext.sqrt pj.Density * right)
          / (ext.sqrt pi.Density + ext.sqrt pj.Density) :=
    fun left right => roe_weight_sqrt _ _ _ left right hR0 pa hR
  refine ⟨rfl, rfl, ?_, fun iDim => ⟨?_, hw _ _⟩, ⟨?_, hw _ _⟩, ⟨?_, hw _ _⟩⟩
  · show ext.sqrt |pj.Density / pi.Density| * pi.Density = ext.sqrt (pi.Density * pj.Density)
    symm
    refine hs.unique (mul_nonneg hR0 hi.le) ?_
    have h2 := (hs _ (abs_nonneg (pj.Density / pi.Density))).2
    rw [abs_of_pos (div_pos hj hi)] at h2 ⊢
    calc ext.sqrt (pj.Density / pi.Density) * pi.Density
          * (ext.sqrt (pj.Density / pi.Density) * pi.Density)
        = (ext.sqrt (pj.Density / pi.Density) * ext.sqrt (pj.Density / pi.Density))
          * (pi.Density * pi.Density) := by ring
      _ = pj.Density / pi.Density * (pi.Density * pi.Density) := by rw [h2]
      _ = pi.Density * pj.Density := by field_simp; ring
  · show (ext.sqrt |pj.Density / pi.Density| * pj.Velocity iDim + pi.Velocity iDim)
      / (ext.sqrt |pj.Density / pi.Density| + 1.0) = _
    rw [one]; rfl
  · show (ext.sqrt |pj.Density / pi.Density| * pj.Enthalpy + pi.Enthalpy)
      / (ext.sqrt |pj.Density / pi.Density| + 1.0) = _
    rw [one]; rfl
  · show (ext.sqrt |pj.Density / pi.Density| * pj.turb_ke + pi.turb_ke)
      / (ext.sqrt |pj.Density / pi.Density| + 1.0) = _
    rw [one]; rfl

/-- C17, at a concrete input: the two-dimensional states `(4, 12, 0, 30)` and `(1, 0, 0, 3)`
have densities 4 and 1, so `RoeDensity = 2`, and velocities `(3, 0)` and `(0, 0)`, so the
first component of the Roe velocity is `(2*3 + 1*0)/(2 + 1) = 2`. -/
theorem roe_density_weighting_witness :
    IsSqrt (constExternals Real.sqrt).sqrt ∧
    (0 : ℝ) < (extractPrimitive (constExternals Real.sqrt) (exampleConfig false false false)
      (state2D 4 12 30) 0).Density ∧
    (0 : ℝ) < (extractPrimitive (constExternals Real.sqrt) (exampleConfig false false false)
      (state2D 1 0 3) 0).Density ∧
    (roeAverage (constExternals Real.sqrt) (exampleConfig false false false)
      (extractPrimitive (constExternals Real.sqrt) (exampleConfig false false false)
        (state2D 4 12 30) 0)
      (extractPrimitive (constExternals Real.sqrt) (exampleConfig false false false)
        (state2D 1 0 3) 0)).RoeDensity = 2 ∧
    (roeAverage (constExternals Real.sqrt) (exampleConfig false false false)
      (extractPrimitive (constExternals Real.sqrt) (exampleConfig false false false)
        (state2D 4 12 30) 0)
      (extractPrimitive (constExternals Real.sqrt) (exampleConfig false false false)
        (state2D 1 0 3) 0)).RoeVelocity 0 = 2 := by
  have hi : (0 : ℝ) < (extractPrimitive (constExternals Real.sqrt)
      (exampleConfig false false false) (state2D 4 12 30) 0).Density := by
    show (0 : ℝ) < state2D 4 12 30 0
    norm_num [state2D]
  have hj : (0 : ℝ) < (extractPrimitive (constExternals Real.sqrt)
      (exampleConfig false false false) (state2D 1 0 3) 0).Density := by
    show (0 : ℝ) < state2D 1 0 3 0
    norm_num [state2D]
  have s4 : Real.sqrt 4 = 2 := isSqrt_real.unique (by norm_num) (by norm_num)
  have t := roe_density_weighting (constExternals Real.sqrt) (exampleConfig false false false)
    (extractPrimitive (constExternals Real.sqrt) (exampleConfig false false false)
      (state2D 4 12 30) 0)
    (extractPrimitive (constExternals Real.sqrt) (exampleConfig false false false)
      (state2D 1 0 3) 0) isSqrt_real hi hj
  refine ⟨isSqrt_real, hi, hj, ?_, ?_⟩
  · rw [t.2.2.1]
    show Real.sqrt (state2D 4 12 30 0 * state2D 1 0 3 0) = 2
    norm_num [state2D, s4]
  · rw [(t.2.2.2.1 0).2]
    show (Real.sqrt (state2D 4 12 30 0) * (state2D 4 12 30 1 / state2D 4 12 30 0)
        + Real.sqrt (state2D 1 0 3 0) * (state2D 1 0 3 1 / state2D 1 0 3 0))
      / (Real.sqrt (state2D 4 12 30 0) + Real.sqrt (state2D 1 0 3 0)) = 2
    norm_num [state2D, s4]

end RoeWeights

/-! ## The Jacobians under an explicit time integration -/

section ExplicitJacobians

theorem clearResidual_explicit (c : Config K) (res : ResidualType K) (h : c.implicit = false) :
    (clearResidual c res).Jacobian_i = res.Jacobian_i ∧
      (clearResidual c res).Jacobian_j = res.Jacobian_j := by
  unfold clearResidual
  constructor
  · refine forLoop_proj_const ResidualType.Jacobian_i _ ?_ c.nVar res
    intro i r
    simp only [h]
    rfl
  · refine forLoop_proj_const ResidualType.Jacobian_j _ ?_ c.nVar res
    intro i r
    simp only [h]
    rfl

theorem initResidual_explicit (ext : Externals K) (c : Config K) (inp : FaceInputs K)
    (s : RoeState K) (res : ResidualType K) (h : c.implicit = false) :
    (initResidual ext c inp s res).Jacobian_i = res.Jacobian_i ∧
      (initResidual ext c inp s res).Jacobian_j = res.Jacobian_j := by
  unfold initResidual
  simp only [h]
  constructor
  · refine forLoop_proj_const ResidualType.Jacobian_i _ ?_ c.nVar res
    intro i r
    rfl
  · refine forLoop_proj_const ResidualType.Jacobian_j _ ?_ c.nVar res
    intro i r
    rfl

theorem CUpwRoe_Flow.FinalizeResidual_explicit (ext : Externals K) (c : Config K)
    (s : RoeState K) (res : ResidualType K) (h : c.implicit = false) :
    (CUpwRoe_Flow.FinalizeResidual ext c s res).Jacobian_i = res.Jacobian_i ∧
      (CUpwRoe_Flow.FinalizeResidual ext c s res).Jacobian_j = res.Jacobian_j := by
  unfold CUpwRoe_Flow.FinalizeResidual
  constructor
  · refine forLoop_proj_const ResidualType.Jacobian_i _ ?_ c.nVar res
    intro i r
    refine forLoop_proj_const ResidualType.Jacobian_i _ ?_ c.nVar r
    intro j r2
    simp only [h]
    rfl
  · refine forLoop_proj_const ResidualType.Jacobian_j _ ?_ c.nVar res
    intro i r
    refine forLoop_proj_const ResidualType.Jacobian_j _ ?_ c.nVar r
    intro j r2
    simp only [h]
    rfl

theorem lowMachFinalize_explicit (ext : Externals K) (c : Config K) (s : RoeState K)
    (w : Nat → K) (res : ResidualType K) (h : c.implicit = false) :
    (lowMachFinalize ext c s w res).Jacobian_i = res.Jacobian_i ∧
      (lowMachFinalize ext c s w res).Jacobian_j = res.Jacobian_j := by
  unfold lowMachFinalize
  simp only [h, Bool.not_false, if_true]
  constructor
  · refine forLoop_proj_const ResidualType.Jacobian_i _ ?_ c.nVar res
    intro i r
    refine forLoop_proj_const ResidualType.Jacobian_i _ ?_ c.nVar r
    intro j r2
    rfl
  · refine forLoop_proj_const ResidualType.Jacobian_j _ ?_ c.nVar res
    intro i r
    refine forLoop_proj_const ResidualType.Jacobian_j _ ?_ c.nVar r
    intro j r2
    rfl

theorem gridMotionCorrection_explicit (c : Config K) (s : RoeState K) (res : ResidualType K)
    (h : c.implicit = false) :
    (gridMotionCorrection c s res).Jacobian_i = res.Jacobian_i ∧
      (gridMotionCorrection c s res).Jacobian_j = res.Jacobian_j := by
  unfold gridMotionCorrection
  by_cases hd : c.dynamic_grid = true
  · simp only [hd, if_true]
    constructor
    · refine forLoop_proj_const ResidualType.Jacobian_i _ ?_ c.nVar res
      intro i r
      simp only [h]
      rfl
    · refine forLoop_proj_const ResidualType.Jacobian_j _ ?_ c.nVar res
      intro i r
      simp only [h]
      rfl
  · simp only [hd]
    exact ⟨rfl, rfl⟩

theorem musclStep_explicit (c : Config K) (inp : FaceInputs K) (res : ResidualType K)
    (h : c.implicit = false) : musclStep c inp res = res := by
  unfold musclStep
  simp [h]

/-- Under an explicit scheme `CUpwRoeBase_Flow::ComputeResidual` leaves the Jacobians alone as
soon as its `FinalizeResidual` does. -/
theorem ComputeResidual_explicit (ext : Externals K) (c : Config K)
    (FinalizeResidual : RoeState K → ResidualType K → ResidualType K)
    (inp : FaceInputs K) (old : Scratch K) (h : c.implicit = false)
    (hF : ∀ s res, (FinalizeResidual s res).Jacobian_i = res.Jacobian_i ∧
      (FinalizeResidual s res).Jacobian_j = res.Jacobian_j) :
    (ComputeResidual ext c FinalizeResidual inp old).Jacobian_i = old.res.Jacobian_i ∧
      (ComputeResidual ext c FinalizeResidual inp old).Jacobian_j = old.res.Jacobian_j := by
  unfold ComputeResidual
  by_cases h0 : (roeAverage ext c (extractPrimitive ext c inp.U_i inp.turb_ke_i)
      (extractPrimitive ext c inp.U_j inp.turb_ke_j)).RoeSoundSpeed2 ≤ 0.0
  · simp only [h0, if_true]
    exact clearResidual_explicit c old.res h
  · simp only [h0, if_false]
    rw [musclStep_explicit c inp _ h]
    have h1 := gridMotionCorrection_explicit c (roeState ext c inp old)
      (afterFinalize ext c FinalizeResidual inp old) h
    have h2 := hF (roeState ext c inp old)
      (initResidual ext c inp (roeState ext c inp old) old.res)
    have h3 := initResidual_explicit ext c inp (roeState ext c inp old) old.res h
    have h4 : afterFinalize ext c FinalizeResidual inp old
        = FinalizeResidual (roeState ext c inp old)
            (initResidual ext c inp (roeState ext c inp old) old.res) := rfl
    rw [h4] at h1
    exact ⟨h1.1.trans (h2.1.trans h3.1), h1.2.trans (h2.2.trans h3.2)⟩

theorem turkelFluxStep_explicit (ext : TurkelExternals K) (c : TurkelConfig K)
    (inp : TurkelInputs K) (old : ResidualType K) (oldLambda : Nat → K)
    (h : c.implicit = false) :
    (turkelFluxStep ext c inp old oldLambda).Jacobian_i = old.Jacobian_i ∧
      (turkelFluxStep ext c inp old oldLambda).Jacobian_j = old.Jacobian_j := by
  unfold turkelFluxStep
  simp only [h]
  constructor
  · refine forLoop_proj_const ResidualType.Jacobian_i _ ?_ c.nVar old
    intro i r
    refine forLoop_proj_const ResidualType.Jacobian_i _ ?_ c.nVar _
    intro j r2
    rfl
  · refine forLoop_proj_const ResidualType.Jacobian_j _ ?_ c.nVar old
    intro i r
    refine forLoop_proj_const ResidualType.Jacobian_j _ ?_ c.nVar _
    intro j r2
    rfl

theorem turkelGridMotion_explicit (c : TurkelConfig K) (inp : TurkelInputs K)
    (s : TurkelState K) (r1 : ResidualType K) (h : c.implicit = false) :
    (turkelGridMotion c inp s r1).Jacobian_i = r1.Jacobian_i ∧
      (turkelGridMotion c inp s r1).Jacobian_j = r1.Jacobian_j := by
  unfold turkelGridMotion
  by_cases hd : c.dynamic_grid = true
  · simp only [hd, if_true, h]
    constructor
    · refine forLoop_proj_const ResidualType.Jacobian_i _ ?_ c.nVar r1
      intro i r
      rfl
    · refine forLoop_proj_const ResidualType.Jacobian_j _ ?_ c.nVar r1
      intro i r
      rfl
  · simp only [hd]
    exact ⟨rfl, rfl⟩

/-- C20. Jacobians are written only when implicit linearization is requested: under an
explicit time-integration scheme (`implicit = false`), for every input and every
configuration (degenerate early exit or not, static or dynamic grid, MUSCL on or off),
`CUpwRoeBase_Flow::ComputeResidual` with the `FinalizeResidual` of `CUpwRoe_Flow`, of
`CUpwL2Roe_Flow` and of `CUpwLMRoe_Flow`, and `CUpwTurkel_Flow::ComputeResidual`, leave every
entry of `Jacobian_i` and `Jacobian_j` equal to its value before the call. -/
theorem jacobians_untouched_when_explicit (ext : Externals K) (c : Config K)
    (inp : FaceInputs K) (old : Scratch K) (text : TurkelExternals K) (tc : TurkelConfig K)
    (tinp : TurkelInputs K) (told : ResidualType K) (toldLambda : Nat → K)
    (h : c.implicit = false) (ht : tc.implicit = false) :
    ((ComputeResidual ext c (CUpwRoe_Flow.FinalizeResidual ext c) inp old).Jacobian_i
        = old.res.Jacobian_i ∧
      (ComputeResidual ext c (CUpwRoe_Flow.FinalizeResidual ext c) inp old).Jacobian_j
        = old.res.Jacobian_j) ∧
    ((ComputeResidual ext c (CUpwL2Roe_Flow.FinalizeResidual ext c) inp old).Jacobian_i
        = old.res.Jacobian_i ∧
      (ComputeResidual ext c (CUpwL2Roe_Flow.FinalizeResidual ext c) inp old).Jacobian_j
        = old.res.Jacobian_j) ∧
    ((ComputeResidual ext c (CUpwLMRoe_Flow.FinalizeResidual ext c) inp old).Jacobian_i
        = old.res.Jacobian_i ∧
      (ComputeResidual ext c (CUpwLMRoe_Flow.FinalizeResidual ext c) inp old).Jacobian_j
        = old.res.Jacobian_j) ∧
    ((CUpwTurkel_Flow.ComputeResidual text tc tinp told toldLambda).Jacobian_i
        = told.Jacobian_i ∧
      (CUpwTurkel_Flow.ComputeResidual text tc tinp told toldLambda).Jacobian_j
        = told.Jacobian_j) := by
  refine ⟨?_, ?_, ?_, ?_⟩
  · exact ComputeResidual_explicit ext c _ inp old h
      (fun s res => CUpwRoe_Flow.FinalizeResidual_explicit ext c s res h)
  · exact ComputeResidual_explicit ext c _ inp old h
      (fun s res => lowMachFinalize_explicit ext c s _ res h)
  · exact ComputeResidual_explicit ext c _ inp old h
      (fun s res => lowMachFinalize_explicit ext c s _ res h)
  · have h1 := turkelGridMotion_explicit tc tinp (turkelState text tc tinp toldLambda)
      (turkelFluxStep text tc tinp told toldLambda) ht
    have h2 := turkelFluxStep_explicit text tc tinp told toldLambda ht
    exact ⟨h1.1.trans h2.1, h1.2.trans h2.2⟩

/-- C20, at a concrete input: an explicit scheme on a dynamic grid with MUSCL on, buffers
that hold 7 everywhere on entry; the Jacobians hold 7 everywhere on return. -/
theorem jacobians_untouched_when_explicit_witness :
    (exampleConfig false true true : Config ℝ).implicit = false ∧
    (exampleTurkelConfig false true : TurkelConfig ℝ).implicit = false ∧
    (ComputeResidual (constExternals Real.sqrt) (exampleConfig false true true)
      (CUpwRoe_Flow.FinalizeResidual (constExternals Real.sqrt) (exampleConfig false true true))
      (exampleInputs (state2D 1 0 (5 / 2)) (state2D (1 / 8) 0 (1 / 4)) 3)
      exampleScratch).Jacobian_i = (fun _ _ => 7) ∧
    (ComputeResidual (constExternals Real.sqrt) (exampleConfig false true true)
      (CUpwL2Roe_Flow.FinalizeResidual (constExternals Real.sqrt) (exampleConfig false true true))
      (exampleInputs (state2D 1 0 (5 / 2)) (state2D (1 / 8) 0 (1 / 4)) 3)
      exampleScratch).Jacobian_j = (fun _ _ => 7) ∧
    (CUpwTurkel_Flow.ComputeResidual (exampleTurkelExternals Real.sqrt)
      (exampleTurkelConfig false true) (exampleTurkelInputs 1 3) exampleResidual
      (fun _ => 7)).Jacobian_i = (fun _ _ => 7) := by
  have t := jacobians_untouched_when_explicit (constExternals Real.sqrt)
    (exampleConfig false true true)
    (exampleInputs (state2D 1 0 (5 / 2)) (state2D (1 / 8) 0 (1 / 4)) 3) exampleScratch
    (exampleTurkelExternals Real.sqrt) (exampleTurkelConfig false true)
    (exampleTurkelInputs 1 3) exampleResidual (fun _ => 7) rfl rfl
  exact ⟨rfl, rfl, t.1.1, t.2.1.2, t.2.2.2.1⟩

end ExplicitJacobians

/-! ## The flux and the mesh-motion block of `CUpwTurkel_Flow::ComputeResidual` -/

section TurkelFlux

theorem setV_setV (a : Nat → K) (i : Nat) (u v : K) : setV (setV a i u) i v = setV a i v := by
  funext k
  by_cases hk : k = i <;> simp [setV, hk]

/-- The double loop `for i < m: F[i] = init i; for j < n: F[i] -= t i j`. -/
theorem forLoop_assign_accum_apply (m n : Nat) (init : Nat → K) (t : Nat → Nat → K)
    (F : Nat → K) (k : Nat) :
    forLoop m (fun i F => forLoop n (fun j F => setV F i (F i - t i j)) (setV F i (init i))) F k
      = if k < m then init k - ∑ j in Finset.range n, t k j else F k := by
  have hb : (fun i (F : Nat → K) =>
        forLoop n (fun j F => setV F i (F i - t i j)) (setV F i (init i)))
      = (fun i F => setV F i ((fun i _ => init i - ∑ j in Finset.range n, t i j) i (F i))) := by
    funext i F
    rw [forLoop_setV_acc n i (fun j x => x - t i j) (setV F i (init i)), setV_setV, setV_same,
      forLoop_sub]
  rw [hb]
  exact forLoop_setV_apply m (fun i _ => init i - ∑ j in Finset.range n, t i j) F k

/-- A loop that rewrites the diagonal entry `(i, i)` at step `i` from its own previous value. -/
theorem forLoop_setM_diag_apply (m : Nat) (g : Nat → K → K) (M : Nat → Nat → K) (a b : Nat) :
    forLoop m (fun i M => setM M i i (g i (M i i))) M a b
      = if a = b ∧ a < m then g a (M a a) else M a b := by
  induction m with
  | zero => simp [forLoop]
  | succ m ih =>
    rw [forLoop_succ]
    by_cases hab : a = m ∧ b = m
    · obtain ⟨ha, hb⟩ := hab
      rw [ha, hb] at ih ⊢
      have h0 : forLoop m (fun i M => setM M i i (g i (M i i))) M m m = M m m := by
        rw [ih]; simp
      simp [setM, h0]
    · have hs : setM (forLoop m (fun i M => setM M i i (g i (M i i))) M) m m
          (g m (forLoop m (fun i M => setM M i i (g i (M i i))) M m m)) a b
          = forLoop m (fun i M => setM M i i (g i (M i i))) M a b := by
        simp [setM, hab]
      rw [hs, ih]
      by_cases h1 : a = b ∧ a < m
      · have h2 : a = b ∧ a < m + 1 := ⟨h1.1, by omega⟩
        rw [if_pos h1, if_pos h2]
      · have h2 : ¬ (a = b ∧ a < m + 1) := by
          rintro ⟨e, l⟩
          rcases Nat.lt_succ_iff_lt_or_eq.mp l with l2 | l2
          · exact h1 ⟨e, l2⟩
          · exact hab ⟨l2, e ▸ l2⟩
        rw [if_neg h1, if_neg h2]

/-- The flux before the mesh-motion block: the central flux less the dissipation. -/
theorem turkelFluxStep_Flux (ext : TurkelExternals K) (c : TurkelConfig K)
    (inp : TurkelInputs K) (old : ResidualType K) (oldLambda : Nat → K) (k : Nat) :
    (turkelFluxStep ext c inp old oldLambda).Flux k
      = if k < c.nVar then
          0.5 * ((turkelState ext c inp oldLambda).ProjFlux_i k
              + (turkelState ext c inp oldLambda).ProjFlux_j k)
            - ∑ j in Finset.range c.nVar,
                0.5 * (turkelState ext c inp oldLambda).Art_Visc k j
                  * ((turkelState ext c inp oldLambda).U_j j
                    - (turkelState ext c inp oldLambda).U_i j)
        else old.Flux k := by
  unfold turkelFluxStep
  have h0 : ∀ r0 : ResidualType K, r0.Flux = old.Flux →
      (forLoop c.nVar (fun iVar r =>
        forLoop c.nVar (fun jVar r =>
          if c.implicit = true then
            ((r.setFlux iVar (r.Flux iVar - 0.5 * (turkelState ext c inp oldLambda).Art_Visc iVar jVar
                * ((turkelState ext c inp oldLambda).U_j jVar
                  - (turkelState ext c inp oldLambda).U_i jVar))).setJac_i iVar jVar
              ((r.setFlux iVar (r.Flux iVar
                  - 0.5 * (turkelState ext c inp oldLambda).Art_Visc iVar jVar
                    * ((turkelState ext c inp oldLambda).U_j jVar
                      - (turkelState ext c inp oldLambda).U_i jVar))).Jacobian_i iVar jVar
                + 0.5 * (turkelState ext c inp oldLambda).Art_Visc iVar jVar)).setJac_j iVar jVar
              (((r.setFlux iVar (r.Flux iVar
                  - 0.5 * (turkelState ext c inp oldLambda).Art_Visc iVar jVar
                    * ((turkelState ext c inp oldLambda).U_j jVar
                      - (turkelState ext c inp oldLambda).U_i jVar))).setJac_i iVar jVar
                ((r.setFlux iVar (r.Flux iVar
                    - 0.5 * (turkelState ext c inp oldLambda).Art_Visc iVar jVar
                      * ((turkelState ext c inp oldLambda).U_j jVar
                        - (turkelState ext c inp oldLambda).U_i jVar))).Jacobian_i iVar jVar
                  + 0.5 * (turkelState ext c inp oldLambda).Art_Visc iVar jVar)).Jacobian_j
                    iVar jVar
                - 0.5 * (turkelState ext c inp oldLambda).Art_Visc iVar jVar)
          else
            r.setFlux iVar (r.Flux iVar - 0.5 * (turkelState ext c inp oldLambda).Art_Visc iVar jVar
              * ((turkelState ext c inp oldLambda).U_j jVar
                - (turkelState ext c inp oldLambda).U_i jVar)))
          (r.setFlux iVar (0.5 * ((turkelState ext c inp oldLambda).ProjFlux_i iVar
            + (turkelState ext c inp oldLambda).ProjFlux_j iVar)))) r0).Flux k
      = if k < c.nVar then
          0.5 * ((turkelState ext c inp oldLambda).ProjFlux_i k
              + (turkelState ext c inp oldLambda).ProjFlux_j k)
            - ∑ j in Finset.range c.nVar,
                0.5 * (turkelState ext c inp oldLambda).Art_Visc k j
                  * ((turkelState ext c inp oldLambda).U_j j
                    - (turkelState ext c inp oldLambda).U_i j)
        else old.Flux k := by
    intro r0 hr0
    rw [forLoop_proj ResidualType.Flux _ (fun iVar F => forLoop c.nVar (fun jVar F =>
      setV F iVar (F iVar - (fun i j => 0.5 * (turkelState ext c inp oldLambda).Art_Visc i j
        * ((turkelState ext c inp oldLambda).U_j j
          - (turkelState ext c inp oldLambda).U_i j)) iVar jVar))
      (setV F iVar ((fun i => 0.5 * ((turkelState ext c inp oldLambda).ProjFlux_i i
        + (turkelState ext c inp oldLambda).ProjFlux_j i)) iVar)))]
    · rw [hr0]
      exact forLoop_assign_accum_apply c.nVar c.nVar _ _ old.Flux k
    · intro i r
      refine forLoop_proj ResidualType.Flux _ _ ?_ c.nVar _
      intro j r2
      by_cases hc : c.implicit = true
      · simp only [hc, if_true]; rfl
      · simp only [hc]; rfl
  by_cases hc : c.implicit = true
  · simp only [hc, if_true] at h0 ⊢
    exact h0 _ rfl
  · simp only [hc] at h0 ⊢
    exact h0 _ rfl

end TurkelFlux

section TurkelGridMotion

/-- The flux after the mesh-motion block of `CUpwTurkel_Flow::ComputeResidual`. -/
theorem turkelGridMotion_Flux (c : TurkelConfig K) (inp : TurkelInputs K) (s : TurkelState K)
    (r1 : ResidualType K) (k : Nat) :
    (turkelGridMotion c inp s r1).Flux k
      = if c.dynamic_grid = true ∧ k < c.nVar then
          r1.Flux k - turkelGridProjVelocity c inp s * 0.5 * (s.U_i k + s.U_j k)
        else r1.Flux k := by
  unfold turkelGridMotion
  by_cases hd : c.dynamic_grid = true
  · simp only [hd, if_true, true_and]
    rw [forLoop_proj ResidualType.Flux _ (fun iVar F => setV F iVar
      ((fun i x => x - turkelGridProjVelocity c inp s * 0.5 * (s.U_i i + s.U_j i)) iVar (F iVar)))]
    · exact forLoop_setV_apply c.nVar
        (fun i x => x - turkelGridProjVelocity c inp s * 0.5 * (s.U_i i + s.U_j i)) r1.Flux k
    · intro i r
      by_cases hc : c.implicit = true
      · simp only [hc, if_true]; rfl
      · simp only [hc]; rfl
  · simp only [hd, false_and, if_false]
    rfl

/-- The Jacobians after the mesh-motion block of `CUpwTurkel_Flow::ComputeResidual`, when
the grid is dynamic and the scheme implicit. -/
theorem turkelGridMotion_Jacobian (c : TurkelConfig K) (inp : TurkelInputs K)
    (s : TurkelState K) (r1 : ResidualType K) (a b : Nat)
    (hd : c.dynamic_grid = true) (hc : c.implicit = true) :
    (turkelGridMotion c inp s r1).Jacobian_i a b
        = (if a = b ∧ a < c.nVar then r1.Jacobian_i a a - 0.5 * turkelGridProjVelocity c inp s
          else r1.Jacobian_i a b) ∧
      (turkelGridMotion c inp s r1).Jacobian_j a b
        = (if a = b ∧ a < c.nVar then r1.Jacobian_j a a - 0.5 * turkelGridProjVelocity c inp s
          else r1.Jacobian_j a b) := by
  unfold turkelGridMotion
  simp only [hd, hc, if_true]
  constructor
  · rw [forLoop_proj ResidualType.Jacobian_i _ (fun iVar M => setM M iVar iVar
      ((fun _ x => x - 0.5 * turkelGridProjVelocity c inp s) iVar (M iVar iVar)))]
    · exact forLoop_setM_diag_apply c.nVar
        (fun _ x => x - 0.5 * turkelGridProjVelocity c inp s) r1.Jacobian_i a b
    · intro i r
      rfl
  · rw [forLoop_proj ResidualType.Jacobian_j _ (fun iVar M => setM M iVar iVar
      ((fun _ x => x - 0.5 * turkelGridProjVelocity c inp s) iVar (M iVar iVar)))]
    · exact forLoop_setM_diag_apply c.nVar
        (fun _ x => x - 0.5 * turkelGridProjVelocity c inp s) r1.Jacobian_j a b
    · intro i r
      rfl

/-- With the same primitive state on both sides the two sides of the Turkel state agree. -/
theorem turkelState_sides (ext : TurkelExternals K) (c : TurkelConfig K)
    (inp : TurkelInputs K) (oldLambda : Nat → K) (h : inp.V_i = inp.V_j) :
    (turkelState ext c inp oldLambda).U_j = (turkelState ext c inp oldLambda).U_i ∧
      (turkelState ext c inp oldLambda).ProjFlux_j
        = (turkelState ext c inp oldLambda).ProjFlux_i := by
  have hp : turkelPrimitive ext c inp.V_j = turkelPrimitive ext c inp.V_i := by rw [h]
  constructor
  · show turkelConservatives c.nDim (turkelPrimitive ext c inp.V_j)
      = turkelConservatives c.nDim (turkelPrimitive ext c inp.V_i)
    rw [hp]
  · show ext.GetInviscidProjFlux (turkelPrimitive ext c inp.V_j).Density
        (turkelPrimitive ext c inp.V_j).Velocity (turkelPrimitive ext c inp.V_j).Pressure
        (turkelPrimitive ext c inp.V_j).Enthalpy inp.Normal
      = ext.GetInviscidProjFlux (turkelPrimitive ext c inp.V_i).Density
        (turkelPrimitive ext c inp.V_i).Velocity (turkelPrimitive ext c inp.V_i).Pressure
        (turkelPrimitive ext c inp.V_i).Enthalpy inp.Normal
    rw [hp]

/-- C19. Turkel scheme with no jump: in `CUpwTurkel_Flow::ComputeResidual` on a static grid,
for every input with identical left and right primitive states (`V_i = V_j`) and every
`iVar < nVar`, each term `0.5*Art_Visc[iVar][jVar]*Diff_U[jVar]` of the dissipation is zero
and the returned flux is `0.5*(ProjFlux_i[iVar] + ProjFlux_j[iVar])`, which is the flux
`ProjFlux_i[iVar]` that `GetInviscidProjFlux` returns for that state, whatever `Beta`, the
eigenvalues and the matrices `absPeJac`, `invRinvPe` and `R_Tensor` are. -/
theorem turkel_no_jump_no_dissipation (ext : TurkelExternals K) (c : TurkelConfig K)
    (inp : TurkelInputs K) (old : ResidualType K) (oldLambda : Nat → K) (iVar : Nat)
    (hV : inp.V_i = inp.V_j) (hd : c.dynamic_grid = false) (hi : iVar < c.nVar) :
    (∀ jVar, 0.5 * (turkelState ext c inp oldLambda).Art_Visc iVar jVar
        * ((turkelState ext c inp oldLambda).U_j jVar
          - (turkelState ext c inp oldLambda).U_i jVar) = 0) ∧
      (CUpwTurkel_Flow.ComputeResidual ext c inp old oldLambda).Flux iVar
        = 0.5 * ((turkelState ext c inp oldLambda).ProjFlux_i iVar
          + (turkelState ext c inp oldLambda).ProjFlux_j iVar) ∧
      (CUpwTurkel_Flow.ComputeResidual ext c inp old oldLambda).Flux iVar
        = ext.GetInviscidProjFlux (turkelPrimitive ext c inp.V_i).Density
            (turkelPrimitive ext c inp.V_i).Velocity (turkelPrimitive ext c inp.V_i).Pressure
            (turkelPrimitive ext c inp.V_i).Enthalpy inp.Normal iVar := by
  obtain ⟨hU, hP⟩ := turkelState_sides ext c inp oldLambda hV
  have hz : ∀ jVar, 0.5 * (turkelState ext c inp oldLambda).Art_Visc iVar jVar
      * ((turkelState ext c inp oldLambda).U_j jVar
        - (turkelState ext c inp oldLambda).U_i jVar) = 0 := by
    intro jVar
    rw [hU, sub_self, mul_zero]
  have hF : (CUpwTurkel_Flow.ComputeResidual ext c inp old oldLambda).Flux iVar
      = 0.5 * ((turkelState ext c inp oldLambda).ProjFlux_i iVar
        + (turkelState ext c inp oldLambda).ProjFlux_j iVar) := by
    unfold CUpwTurkel_Flow.ComputeResidual
    rw [turkelGridMotion_Flux, turkelFluxStep_Flux, if_pos hi]
    have hnd : ¬ (c.dynamic_grid = true ∧ iVar < c.nVar) := by
      rw [hd]; simp
    rw [if_neg hnd, Finset.sum_eq_zero (fun j _ => hz j), sub_zero]
  refine ⟨hz, hF, ?_⟩
  rw [hF, hP]
  show 0.5 * (ext.GetInviscidProjFlux (turkelPrimitive ext c inp.V_i).Density
        (turkelPrimitive ext c inp.V_i).Velocity (turkelPrimitive ext c inp.V_i).Pressure
        (turkelPrimitive ext c inp.V_i).Enthalpy inp.Normal iVar
      + ext.GetInviscidProjFlux (turkelPrimitive ext c inp.V_i).Density
        (turkelPrimitive ext c inp.V_i).Velocity (turkelPrimitive ext c inp.V_i).Pressure
        (turkelPrimitive ext c inp.V_i).Enthalpy inp.Normal iVar) = _
  norm_num
  ring

/-- C19, at a concrete input: velocity `(1/2, 0)`, `Pressure = 5/7`, `Density = 1` on both
sides of a face of normal `(1, 0)`, helper matrices filled with ones: the returned mass flux
is the Euler mass flux `Density*u = 1/2`. -/
theorem turkel_no_jump_no_dissipation_witness :
    (exampleTurkelInputs (1 : ℝ) 0).V_i = (exampleTurkelInputs (1 : ℝ) 0).V_j ∧
    (exampleTurkelConfig false false : TurkelConfig ℝ).dynamic_grid = false ∧
    (0 : Nat) < (exampleTurkelConfig false false : TurkelConfig ℝ).nVar ∧
    (CUpwTurkel_Flow.ComputeResidual (exampleTurkelExternals Real.sqrt)
      (exampleTurkelConfig false false) (exampleTurkelInputs 1 0) exampleResidual
      (fun _ => 7)).Flux 0 = 1 / 2 := by
  have t := turkel_no_jump_no_dissipation (exampleTurkelExternals Real.sqrt)
    (exampleTurkelConfig false false) (exampleTurkelInputs 1 0) exampleResidual
    (fun _ => 7) 0 rfl rfl (by decide)
  refine ⟨rfl, rfl, by decide, ?_⟩
  rw [t.2.2]
  simp [exampleTurkelExternals, turkelPrimitive, exampleTurkelInputs, exampleTurkelConfig,
    eulerProjFlux2D, sel4]

end TurkelGridMotion

section TurkelArea

/-- The geometry and the states of the Turkel example with normal `(2, 0)` and grid
velocity `(3, 0)`: `Area = 2`, the grid velocity projected on the unit normal is 3, and the
density is 1 on both sides. -/
theorem example_turkel_geometry (b : Bool) :
    (turkelState (exampleTurkelExternals Real.sqrt) (exampleTurkelConfig b true)
      (exampleTurkelInputs 2 3) (fun _ => 7)).Area = 2 ∧
    turkelGridProjVelocity (exampleTurkelConfig b true) (exampleTurkelInputs 2 3)
      (turkelState (exampleTurkelExternals Real.sqrt) (exampleTurkelConfig b true)
        (exampleTurkelInputs 2 3) (fun _ => 7)) = 3 ∧
    (turkelState (exampleTurkelExternals Real.sqrt) (exampleTurkelConfig b true)
      (exampleTurkelInputs 2 3) (fun _ => 7)).U_i 0 = 1 ∧
    (turkelState (exampleTurkelExternals Real.sqrt) (exampleTurkelConfig b true)
      (exampleTurkelInputs 2 3) (fun _ => 7)).U_j 0 = 1 := by
  have hA : Real.sqrt (sumLoop 2 (fun iDim => (exampleTurkelInputs (2 : ℝ) 3).Normal iDim
      * (exampleTurkelInputs (2 : ℝ) 3).Normal iDim)) = 2 := by
    have h4 : sumLoop 2 (fun iDim => (exampleTurkelInputs (2 : ℝ) 3).Normal iDim
        * (exampleTurkelInputs (2 : ℝ) 3).Normal iDim) = 4 := by
      simp [sumLoop, forLoop, exampleTurkelInputs]
      norm_num
    rw [h4]
    exact isSqrt_real.unique (by norm_num) (by norm_num)
  refine ⟨hA, ?_, ?_, ?_⟩
  · show sumLoop 2 (fun iDim => 0.5 * ((exampleTurkelInputs (2 : ℝ) 3).GridVel_i iDim
        + (exampleTurkelInputs (2 : ℝ) 3).GridVel_j iDim)
        * ((exampleTurkelInputs (2 : ℝ) 3).Normal iDim
          / Real.sqrt (sumLoop 2 (fun iDim => (exampleTurkelInputs (2 : ℝ) 3).Normal iDim
            * (exampleTurkelInputs (2 : ℝ) 3).Normal iDim)))) = 3
    rw [hA]
    simp [sumLoop, forLoop, exampleTurkelInputs]
    norm_num
  · show turkelConservatives 2 (turkelPrimitive (exampleTurkelExternals Real.sqrt)
      (exampleTurkelConfig b true) (exampleTurkelInputs (2 : ℝ) 3).V_i) 0 = 1
    simp [turkelConservatives, turkelPrimitive, exampleTurkelInputs, exampleTurkelConfig, setV, forLoop]
  · show turkelConservatives 2 (turkelPrimitive (exampleTurkelExternals Real.sqrt)
      (exampleTurkelConfig b true) (exampleTurkelInputs (2 : ℝ) 3).V_j) 0 = 1
    simp [turkelConservatives, turkelPrimitive, exampleTurkelInputs, exampleTurkelConfig, setV, forLoop]

/-- C15 (the code departs from the claim). `CUpwTurkel_Flow::ComputeResidual`, implicit, on
a dynamic grid, with normal `(2, 0)` (so `Area = 2`), grid velocity `(3, 0)` and density 1 on
both sides: the grid velocity projected on the unit normal is 3, so the correction of the
claim would subtract `3*2*0.5*(1 + 1) = 6` from `Flux[0]` and `0.5*3*2 = 3` from the
diagonal of the Jacobians; the mesh-motion block subtracts `3*0.5*(1 + 1) = 3` and
`0.5*3 = 3/2`, the factor `Area` is missing. -/
theorem turkel_grid_motion_correction_lacks_area :
    (turkelState (exampleTurkelExternals Real.sqrt) (exampleTurkelConfig true true)
      (exampleTurkelInputs 2 3) (fun _ => 7)).Area = 2 ∧
    turkelGridProjVelocity (exampleTurkelConfig true true) (exampleTurkelInputs 2 3)
      (turkelState (exampleTurkelExternals Real.sqrt) (exampleTurkelConfig true true)
        (exampleTurkelInputs 2 3) (fun _ => 7)) = 3 ∧
    (turkelState (exampleTurkelExternals Real.sqrt) (exampleTurkelConfig true true)
      (exampleTurkelInputs 2 3) (fun _ => 7)).U_i 0 = 1 ∧
    (turkelState (exampleTurkelExternals Real.sqrt) (exampleTurkelConfig true true)
      (exampleTurkelInputs 2 3) (fun _ => 7)).U_j 0 = 1 ∧
    (turkelFluxStep (exampleTurkelExternals Real.sqrt) (exampleTurkelConfig true true)
        (exampleTurkelInputs 2 3) exampleResidual (fun _ => 7)).Flux 0
      - (CUpwTurkel_Flow.ComputeResidual (exampleTurkelExternals Real.sqrt)
        (exampleTurkelConfig true true) (exampleTurkelInputs 2 3) exampleResidual
        (fun _ => 7)).Flux 0 = 3 ∧
    (turkelFluxStep (exampleTurkelExternals Real.sqrt) (exampleTurkelConfig true true)
        (exampleTurkelInputs 2 3) exampleResidual (fun _ => 7)).Flux 0
      - (CUpwTurkel_Flow.ComputeResidual (exampleTurkelExternals Real.sqrt)
        (exampleTurkelConfig true true) (exampleTurkelInputs 2 3) exampleResidual
        (fun _ => 7)).Flux 0 ≠ 3 * 2 * 0.5 * (1 + 1) ∧
    (turkelFluxStep (exampleTurkelExternals Real.sqrt) (exampleTurkelConfig true true)
        (exampleTurkelInputs 2 3) exampleResidual (fun _ => 7)).Jacobian_i 0 0
      - (CUpwTurkel_Flow.ComputeResidual (exampleTurkelExternals Real.sqrt)
        (exampleTurkelConfig true true) (exampleTurkelInputs 2 3) exampleResidual
        (fun _ => 7)).Jacobian_i 0 0 = 3 / 2 ∧
    (turkelFluxStep (exampleTurkelExternals Real.sqrt) (exampleTurkelConfig true true)
        (exampleTurkelInputs 2 3) exampleResidual (fun _ => 7)).Jacobian_j 0 0
      - (CUpwTurkel_Flow.ComputeResidual (exampleTurkelExternals Real.sqrt)
        (exampleTurkelConfig true true) (exampleTurkelInputs 2 3) exampleResidual
        (fun _ => 7)).Jacobian_j 0 0 = 3 / 2 := by
  obtain ⟨hA, hV, hi, hj⟩ := example_turkel_geometry true
  have hF := turkelGridMotion_Flux (exampleTurkelConfig true true) (exampleTurkelInputs 2 3)
    (turkelState (exampleTurkelExternals Real.sqrt) (exampleTurkelConfig true true)
      (exampleTurkelInputs 2 3) (fun _ => 7))
    (turkelFluxStep (exampleTurkelExternals Real.sqrt) (exampleTurkelConfig true true)
      (exampleTurkelInputs 2 3) exampleResidual (fun _ => 7)) 0
  have hJ := turkelGridMotion_Jacobian (exampleTurkelConfig true true) (exampleTurkelInputs 2 3)
    (turkelState (exampleTurkelExternals Real.sqrt) (exampleTurkelConfig true true)
      (exampleTurkelInputs 2 3) (fun _ => 7))
    (turkelFluxStep (exampleTurkelExternals Real.sqrt) (exampleTurkelConfig true true)
      (exampleTurkelInputs 2 3) exampleResidual (fun _ => 7)) 0 0 rfl rfl
  have hc : (exampleTurkelConfig true true : TurkelConfig ℝ).dynamic_grid = true
      ∧ 0 < (exampleTurkelConfig true true : TurkelConfig ℝ).nVar := ⟨rfl, by decide⟩
  have hc2 : (0 : Nat) = 0 ∧ 0 < (exampleTurkelConfig true true : TurkelConfig ℝ).nVar :=
    ⟨rfl, by decide⟩
  rw [if_pos hc, hV, hi, hj] at hF
  rw [if_pos hc2, if_pos hc2, hV] at hJ
  have e : ∀ f : ResidualType ℝ → ℝ,
      f (CUpwTurkel_Flow.ComputeResidual (exampleTurkelExternals Real.sqrt)
        (exampleTurkelConfig true true) (exampleTurkelInputs 2 3) exampleResidual (fun _ => 7))
      = f (turkelGridMotion (exampleTurkelConfig true true) (exampleTurkelInputs 2 3)
        (turkelState (exampleTurkelExternals Real.sqrt) (exampleTurkelConfig true true)
          (exampleTurkelInputs 2 3) (fun _ => 7))
        (turkelFluxStep (exampleTurkelExternals Real.sqrt) (exampleTurkelConfig true true)
          (exampleTurkelInputs 2 3) exampleResidual (fun _ => 7))) := fun _ => rfl
  refine ⟨hA, hV, hi, hj, ?_, ?_, ?_, ?_⟩
  · rw [e (fun r => r.Flux 0), hF]
    norm_num
  · rw [e (fun r => r.Flux 0), hF]
    norm_num
  · rw [e (fun r => r.Jacobian_i 0 0), hJ.1]
    norm_num
  · rw [e (fun r => r.Jacobian_j 0 0), hJ.2]
    norm_num

end TurkelArea

/-! ## The Jacobians through the block "Correct for grid motion" of the base class -/

section GridMotionJacobian

/-- The block "Correct for grid motion" of `CUpwRoeBase_Flow::ComputeResidual` returns the
Jacobians it received: the `ProjGridVel` it reads is the variable of the function scope. -/
theorem gridMotionCorrection_Jacobian (c : Config K) (s : RoeState K) (res : ResidualType K)
    (a b : Nat) :
    (gridMotionCorrection c s res).Jacobian_i a b = res.Jacobian_i a b ∧
      (gridMotionCorrection c s res).Jacobian_j a b = res.Jacobian_j a b := by
  by_cases hc : c.implicit = true
  · unfold gridMotionCorrection
    by_cases hd : c.dynamic_grid = true
    · simp only [hd, hc, if_true]
      constructor
      · rw [forLoop_proj ResidualType.Jacobian_i _ (fun iVar M => setM M iVar iVar
          ((fun _ x => x - 0.5 * outerProjGridVel * s.Area) iVar (M iVar iVar)))]
        · rw [forLoop_setM_diag_apply c.nVar
            (fun _ x => x - 0.5 * outerProjGridVel * s.Area) res.Jacobian_i a b]
          by_cases hab : a = b ∧ a < c.nVar
          · rw [if_pos hab, ← hab.1]
            norm_num [outerProjGridVel]
          · rw [if_neg hab]
        · intro i r
          rfl
      · rw [forLoop_proj ResidualType.Jacobian_j _ (fun iVar M => setM M iVar iVar
          ((fun _ x => x - 0.5 * outerProjGridVel * s.Area) iVar (M iVar iVar)))]
        · rw [forLoop_setM_diag_apply c.nVar
            (fun _ x => x - 0.5 * outerProjGridVel * s.Area) res.Jacobian_j a b]
          by_cases hab : a = b ∧ a < c.nVar
          · rw [if_pos hab, ← hab.1]
            norm_num [outerProjGridVel]
          · rw [if_neg hab]
        · intro i r
          rfl
    · simp only [hd]
      exact ⟨rfl, rfl⟩
  · have hc2 : c.implicit = false := by simpa using hc
    obtain ⟨h1, h2⟩ := gridMotionCorrection_explicit c s res hc2
    rw [h1, h2]
    exact ⟨rfl, rfl⟩

/-- With MUSCL off and a positive `RoeSoundSpeed2` the returned Jacobians are those left by
`FinalizeResidual`, on a static grid and on a dynamic one. -/
theorem ComputeResidual_Jacobian (ext : Externals K) (c : Config K)
    (FinalizeResidual : RoeState K → ResidualType K → ResidualType K)
    (inp : FaceInputs K) (old : Scratch K) (a b : Nat) (hm : c.muscl = false)
    (h : 0 < (roeAverage ext c (extractPrimitive ext c inp.U_i inp.turb_ke_i)
      (extractPrimitive ext c inp.U_j inp.turb_ke_j)).RoeSoundSpeed2) :
    (ComputeResidual ext c FinalizeResidual inp old).Jacobian_i a b
        = (afterFinalize ext c FinalizeResidual inp old).Jacobian_i a b ∧
      (ComputeResidual ext c FinalizeResidual inp old).Jacobian_j a b
        = (afterFinalize ext c FinalizeResidual inp old).Jacobian_j a b := by
  have h0 : ¬ (roeAverage ext c (extractPrimitive ext c inp.U_i inp.turb_ke_i)
      (extractPrimitive ext c inp.U_j inp.turb_ke_j)).RoeSoundSpeed2 ≤ 0.0 := by
    norm_num; exact h
  have hmu : ∀ r : ResidualType K, musclStep c inp r = r := by
    intro r
    unfold musclStep
    simp [hm]
  unfold ComputeResidual
  simp only [h0, if_false]
  rw [hmu]
  exact gridMotionCorrection_Jacobian c _ _ a b

/-- C14 (the code departs from the claim). `CUpwRoeBase_Flow::ComputeResidual`, implicit, on
a dynamic grid with MUSCL off, state `(1, 0, 0, 5/2)` on both sides, normal `(1, 0)`, grid
velocity `(3, 0)` on both sides: the projected grid velocity is 3 and `Area` is 1, so the
correction of the claim would subtract `0.5*3*1 = 3/2` from `Jacobian_i[0][0]` and
`Jacobian_j[0][0]`; the returned entries are the values left by `FinalizeResidual`, unchanged,
because the `ProjGridVel` read by "Correct for grid motion" is the variable of the function
scope, still `0.0`. -/
theorem grid_motion_jacobian_correction_not_applied :
    innerProjGridVel 2 (exampleInputs (state2D 1 0 (5 / 2)) (state2D 1 0 (5 / 2)) (3 : ℝ)).GridVel_i
      (exampleInputs (state2D 1 0 (5 / 2)) (state2D 1 0 (5 / 2)) (3 : ℝ)).GridVel_j
      (UnitNormal (constExternals Real.sqrt) 2
        (exampleInputs (state2D 1 0 (5 / 2)) (state2D 1 0 (5 / 2)) (3 : ℝ)).Normal) = 3 ∧
    Area (constExternals Real.sqrt) 2
      (exampleInputs (state2D 1 0 (5 / 2)) (state2D 1 0 (5 / 2)) (3 : ℝ)).Normal = 1 ∧
    (ComputeResidual (constExternals Real.sqrt) (exampleConfig true true false)
      (CUpwRoe_Flow.FinalizeResidual (constExternals Real.sqrt) (exampleConfig true true false))
      (exampleInputs (state2D 1 0 (5 / 2)) (state2D 1 0 (5 / 2)) (3 : ℝ))
      exampleScratch).Jacobian_i 0 0
      = (afterFinalize (constExternals Real.sqrt) (exampleConfig true true false)
        (CUpwRoe_Flow.FinalizeResidual (constExternals Real.sqrt) (exampleConfig true true false))
        (exampleInputs (state2D 1 0 (5 / 2)) (state2D 1 0 (5 / 2)) (3 : ℝ))
        exampleScratch).Jacobian_i 0 0 ∧
    (ComputeResidual (constExternals Real.sqrt) (exampleConfig true true false)
      (CUpwRoe_Flow.FinalizeResidual (constExternals Real.sqrt) (exampleConfig true true false))
      (exampleInputs (state2D 1 0 (5 / 2)) (state2D 1 0 (5 / 2)) (3 : ℝ))
      exampleScratch).Jacobian_i 0 0
      ≠ (afterFinalize (constExternals Real.sqrt) (exampleConfig true true false)
        (CUpwRoe_Flow.FinalizeResidual (constExternals Real.sqrt) (exampleConfig true true false))
        (exampleInputs (state2D 1 0 (5 / 2)) (state2D 1 0 (5 / 2)) (3 : ℝ))
        exampleScratch).Jacobian_i 0 0 - 0.5 * 3 * 1 ∧
    (ComputeResidual (constExternals Real.sqrt) (exampleConfig true true false)
      (CUpwRoe_Flow.FinalizeResidual (constExternals Real.sqrt) (exampleConfig true true false))
      (exampleInputs (state2D 1 0 (5 / 2)) (state2D 1 0 (5 / 2)) (3 : ℝ))
      exampleScratch).Jacobian_j 0 0
      = (afterFinalize (constExternals Real.sqrt) (exampleConfig true true false)
        (CUpwRoe_Flow.FinalizeResidual (constExternals Real.sqrt) (exampleConfig true true false))
        (exampleInputs (state2D 1 0 (5 / 2)) (state2D 1 0 (5 / 2)) (3 : ℝ))
        exampleScratch).Jacobian_j 0 0 ∧
    (ComputeResidual (constExternals Real.sqrt) (exampleConfig true true false)
      (CUpwRoe_Flow.FinalizeResidual (constExternals Real.sqrt) (exampleConfig true true false))
      (exampleInputs (state2D 1 0 (5 / 2)) (state2D 1 0 (5 / 2)) (3 : ℝ))
      exampleScratch).Jacobian_j 0 0
      ≠ (afterFinalize (constExternals Real.sqrt) (exampleConfig true true false)
        (CUpwRoe_Flow.FinalizeResidual (constExternals Real.sqrt) (exampleConfig true true false))
        (exampleInputs (state2D 1 0 (5 / 2)) (state2D 1 0 (5 / 2)) (3 : ℝ))
        exampleScratch).Jacobian_j 0 0 - 0.5 * 3 * 1 := by
  have hJ := ComputeResidual_Jacobian (constExternals Real.sqrt) (exampleConfig true true false)
    (CUpwRoe_Flow.FinalizeResidual (constExternals Real.sqrt) (exampleConfig true true false))
    (exampleInputs (state2D 1 0 (5 / 2)) (state2D 1 0 (5 / 2)) (3 : ℝ)) exampleScratch 0 0 rfl
    (example_RoeSoundSpeed2_pos true true false 3)
  refine ⟨?_, ?_, hJ.1, ?_, hJ.2, ?_⟩
  · simp [innerProjGridVel, UnitNormal, Area, exampleInputs, constExternals, sumLoop, forLoop]
    norm_num
  · simp [Area, exampleInputs, constExternals, sumLoop, forLoop]
  · rw [hJ.1]
    intro h
    norm_num at h
    linarith
  · rw [hJ.2]
    intro h
    norm_num at h
    linarith

end GridMotionJacobian

/-! ## The flux of the two branches of `CUpwGeneralRoe_Flow::ComputeResidual` -/

section GeneralBranches

/-- A loop whose body subtracts `g i` from `Flux[i]` (whatever it does to the Jacobians). -/
theorem forLoop_flux_sub (m : Nat) (g : Nat → K) (body : Nat → ResidualType K → ResidualType K)
    (hbody : ∀ i r, (body i r).Flux = setV r.Flux i (r.Flux i - g i))
    (r1 : ResidualType K) (k : Nat) :
    (forLoop m body r1).Flux k = if k < m then r1.Flux k - g k else r1.Flux k := by
  rw [forLoop_proj ResidualType.Flux body (fun i F => setV F i ((fun i x => x - g i) i (F i)))
    hbody]
  exact forLoop_setV_apply m (fun i x => x - g i) r1.Flux k

/-- A double loop `for i < m: Flux[i] = init i; for j < n: Flux[i] -= t i j` (whatever the
inner body does to the Jacobians). -/
theorem forLoop_flux_assign_accum (m n : Nat) (init : Nat → K) (t : Nat → Nat → K)
    (body : Nat → Nat → ResidualType K → ResidualType K)
    (hbody : ∀ i j r, (body i j r).Flux = setV r.Flux i (r.Flux i - t i j))
    (r0 : ResidualType K) (k : Nat) :
    (forLoop m (fun i r => forLoop n (fun j r => body i j r) (r.setFlux i (init i))) r0).Flux k
      = if k < m then init k - ∑ j in Finset.range n, t k j else r0.Flux k := by
  rw [forLoop_proj ResidualType.Flux _ (fun i F => forLoop n (fun j F =>
    setV F i (F i - t i j)) (setV F i (init i)))]
  · exact forLoop_assign_accum_apply m n init t r0.Flux k
  · intro i r
    exact forLoop_proj ResidualType.Flux _ _ (fun j r2 => hbody i j r2) n _

/-- The flux of the branch `if (!implicit)`: `0.5*(ProjFlux_i + ProjFlux_j)` less the
characteristic-wave dissipation with weight `0.5`, less the mesh-motion term. -/
theorem generalExplicitBranch_Flux (c : GeneralConfig K) (inp : GeneralInputs K)
    (s : GeneralState K) (old : GeneralScratch K) (k : Nat) :
    (generalExplicitBranch c inp s old).Flux k
      = if k < c.nVar then
          0.5 * (s.ProjFlux_i k + s.ProjFlux_j k)
            - ∑ j in Finset.range c.nVar,
                0.5 * s.Lambda j * generalDeltaWave c inp s old.delta_wave j
                  * s.P_Tensor k j * s.Area
            - (if c.dynamic_grid = true then
                generalGridProjVelocity c inp * 0.5 * (s.U_i k + s.U_j k) else 0)
        else old.res.Flux k := by
  unfold generalExplicitBranch
  by_cases hd : c.dynamic_grid = true
  · simp only [hd, if_true]
    refine (forLoop_flux_sub c.nVar
      (fun i => generalGridProjVelocity c inp * 0.5 * (s.U_i i + s.U_j i)) _ ?_ _ k).trans ?_
    · intro i r
      rfl
    · rw [forLoop_flux_assign_accum c.nVar c.nVar
        (fun i => 0.5 * (s.ProjFlux_i i + s.ProjFlux_j i))
        (fun i j => 0.5 * s.Lambda j * generalDeltaWave c inp s old.delta_wave j
          * s.P_Tensor i j * s.Area) _ (fun _ _ _ => rfl) old.res k]
      by_cases hk : k < c.nVar
      · simp only [hk, if_true]
      · simp only [hk, if_false]
  · simp only [hd, Bool.false_eq_true, if_false, sub_zero]
    exact forLoop_flux_assign_accum c.nVar c.nVar
      (fun i => 0.5 * (s.ProjFlux_i i + s.ProjFlux_j i))
      (fun i j => 0.5 * s.Lambda j * generalDeltaWave c inp s old.delta_wave j
        * s.P_Tensor i j * s.Area) _ (fun _ _ _ => rfl) old.res k

/-- The flux of the implicit branch: `kappa*(ProjFlux_i + ProjFlux_j)` less the dissipation
`(1 - kappa)*P*|Lambda|*invP*Diff_U*Area`, less the mesh-motion term. -/
theorem generalImplicitBranch_Flux (ext : GeneralExternals K) (c : GeneralConfig K)
    (inp : GeneralInputs K) (s : GeneralState K) (old : GeneralScratch K) (k : Nat) :
    (generalImplicitBranch ext c inp s old).Flux k
      = if k < c.nVar then
          c.kappa * (s.ProjFlux_i k + s.ProjFlux_j k)
            - ∑ j in Finset.range c.nVar,
                (1.0 - c.kappa)
                  * Proj_ModJac_Tensor_ij c.nVar s.P_Tensor s.Lambda
                      (ext.GetPMatrix_inv s.roe.RoeDensity s.roe.RoeVelocity s.RoeSoundSpeed
                        s.roe.RoeChi s.roe.RoeKappa s.UnitNormal) k j
                  * (s.U_j j - s.U_i j) * s.Area
            - (if c.dynamic_grid = true then
                generalGridProjVelocity c inp * 0.5 * (s.U_i k + s.U_j k) else 0)
        else old.res.Flux k := by
  have h1 := forLoop_flux_assign_accum c.nVar c.nVar
    (fun i => c.kappa * (s.ProjFlux_i i + s.ProjFlux_j i))
    (fun i j => (1.0 - c.kappa)
      * Proj_ModJac_Tensor_ij c.nVar s.P_Tensor s.Lambda
          (ext.GetPMatrix_inv s.roe.RoeDensity s.roe.RoeVelocity s.RoeSoundSpeed
            s.roe.RoeChi s.roe.RoeKappa s.UnitNormal) i j
      * (s.U_j j - s.U_i j) * s.Area)
    (fun iVar jVar r =>
      let T := Proj_ModJac_Tensor_ij c.nVar s.P_Tensor s.Lambda
        (ext.GetPMatrix_inv s.roe.RoeDensity s.roe.RoeVelocity s.RoeSoundSpeed
          s.roe.RoeChi s.roe.RoeKappa s.UnitNormal) iVar jVar
      let r2 := r.setFlux iVar
        (r.Flux iVar - (1.0 - c.kappa) * T * (s.U_j jVar - s.U_i jVar) * s.Area)
      let r3 := r2.setJac_i iVar jVar (r2.Jacobian_i iVar jVar + (1.0 - c.kappa) * T * s.Area)
      r3.setJac_j iVar jVar (r3.Jacobian_j iVar jVar - (1.0 - c.kappa) * T * s.Area))
    (fun _ _ _ => rfl)
    { old.res with
      Jacobian_i := ext.GetInviscidProjJac s.pi.Velocity s.pi.Enthalpy s.pi.Chi s.pi.Kappa
        inp.Normal c.kappa
      Jacobian_j := ext.GetInviscidProjJac s.pj.Velocity s.pj.Enthalpy s.pj.Chi s.pj.Kappa
        inp.Normal c.kappa } k
  unfold generalImplicitBranch
  by_cases hd : c.dynamic_grid = true
  · simp only [hd, if_true]
    refine (forLoop_flux_sub c.nVar
      (fun i => generalGridProjVelocity c inp * 0.5 * (s.U_i i + s.U_j i)) _ ?_ _ k).trans ?_
    · intro i r
      rfl
    · by_cases hk : k < c.nVar
      · rw [if_pos hk, if_pos hk]
        rw [if_pos hk] at h1
        exact congrArg (fun x => x - generalGridProjVelocity c inp * 0.5 * (s.U_i k + s.U_j k)) h1
      · rw [if_neg hk, if_neg hk]
        rw [if_neg hk] at h1
        exact h1
  · simp only [hd, Bool.false_eq_true, if_false, sub_zero]
    exact h1

/-- With the same state on both sides every wave amplitude of the branch `if (!implicit)`
is zero. -/
theorem generalDeltaWave_no_jump (c : GeneralConfig K) (inp : GeneralInputs K)
    (s : GeneralState K) (old : Nat → K) (j : Nat) (hp : s.pj = s.pi)
    (hdim : (c.nDim = 2 ∧ c.nVar = 4) ∨ (c.nDim ≠ 2 ∧ c.nVar = 5)) (hj : j < c.nVar) :
    generalDeltaWave c inp s old j = 0 := by
  unfold generalDeltaWave
  simp only [hp, sub_self, zero_mul, mul_zero, sumLoop_zero, zero_div, neg_zero, add_zero]
  rcases hdim with ⟨h2, h4⟩ | ⟨h2, h5⟩
  · rw [if_pos h2]
    rw [h4] at hj
    interval_cases j <;> simp [setV]
  · rw [if_neg h2]
    rw [h5] at hj
    interval_cases j <;> simp [setV]

/-- With the same primitive and secondary variables on both sides, the two sides of the
general-EOS state agree. -/
theorem generalState_sides (ext : GeneralExternals K) (c : GeneralConfig K)
    (inp : GeneralInputs K) (old : GeneralScratch K) (hV : inp.V_i = inp.V_j)
    (hS : inp.S_i = inp.S_j) :
    (generalState ext c inp old).pj = (generalState ext c inp old).pi ∧
      (generalState ext c inp old).U_j = (generalState ext c inp old).U_i ∧
      (generalState ext c inp old).ProjFlux_j = (generalState ext c inp old).ProjFlux_i := by
  have hp : generalPrimitive ext c inp.V_j inp.S_j = generalPrimitive ext c inp.V_i inp.S_i := by
    rw [hV, hS]
  refine ⟨hp, ?_, ?_⟩
  · show generalConservatives c.nDim (generalPrimitive ext c inp.V_j inp.S_j)
      = generalConservatives c.nDim (generalPrimitive ext c inp.V_i inp.S_i)
    rw [hp]
  · show ext.GetInviscidProjFlux (generalPrimitive ext c inp.V_j inp.S_j).Density
        (generalPrimitive ext c inp.V_j inp.S_j).Velocity
        (generalPrimitive ext c inp.V_j inp.S_j).Pressure
        (generalPrimitive ext c inp.V_j inp.S_j).Enthalpy inp.Normal
      = ext.GetInviscidProjFlux (generalPrimitive ext c inp.V_i inp.S_i).Density
        (generalPrimitive ext c inp.V_i inp.S_i).Velocity
        (generalPrimitive ext c inp.V_i inp.S_i).Pressure
        (generalPrimitive ext c inp.V_i inp.S_i).Enthalpy inp.Normal
    rw [hp]

/-- With the same state on both sides and a static grid, the branch `if (!implicit)` returns
`0.5*(ProjFlux_i + ProjFlux_j)` and the implicit branch returns
`kappa*(ProjFlux_i + ProjFlux_j)`, whatever the helpers are. -/
theorem general_branches_no_jump (ext : GeneralExternals K) (c : GeneralConfig K)
    (inp : GeneralInputs K) (old : GeneralScratch K) (k : Nat) (hV : inp.V_i = inp.V_j)
    (hS : inp.S_i = inp.S_j) (hd : c.dynamic_grid = false)
    (hdim : (c.nDim = 2 ∧ c.nVar = 4) ∨ (c.nDim ≠ 2 ∧ c.nVar = 5)) (hk : k < c.nVar) :
    (generalExplicitBranch c inp (generalState ext c inp old) old).Flux k
        = 0.5 * (2 * (generalState ext c inp old).ProjFlux_i k) ∧
      (generalImplicitBranch ext c inp (generalState ext c inp old) old).Flux k
        = c.kappa * (2 * (generalState ext c inp old).ProjFlux_i k) := by
  obtain ⟨hp, hU, hF⟩ := generalState_sides ext c inp old hV hS
  constructor
  · rw [generalExplicitBranch_Flux, if_pos hk, hd, hF]
    rw [Finset.sum_eq_zero (fun j hj => by
      rw [generalDeltaWave_no_jump c inp _ _ j hp hdim (Finset.mem_range.mp hj)]
      ring)]
    simp only [Bool.false_eq_true, if_false, sub_zero]
    ring
  · rw [generalImplicitBranch_Flux, if_pos hk, hd, hF, hU]
    rw [Finset.sum_eq_zero (fun j _ => by rw [sub_self]; ring)]
    simp only [Bool.false_eq_true, if_false, sub_zero]
    ring

/-- C13 (the code departs from the claim). `CUpwGeneralRoe_Flow::ComputeResidual` with
`Roe_Kappa = 0.75` on a static grid, the same state on both sides (velocity `(1/2, 0)`,
`Pressure = 5/7`, `Density = 1`, unit Roe sound speed), normal `(1, 0)`, Euler flux helper:
`RoeSoundSpeed2 = 1 > 0`, both dissipation terms vanish and `ProjFlux_i[0] = ProjFlux_j[0]
= 1/2`; the non-implicit branch returns `Flux[0] = 0.5*(1/2 + 1/2) = 1/2`, the implicit
branch returns `Flux[0] = 0.75*(1/2 + 1/2) = 3/4`. -/
theorem general_branches_differ_for_kappa :
    (CUpwGeneralRoe_Flow.ComputeRoeAverage (fluxGeneralExternals Real.sqrt)
      (kappaGeneralConfig false)
      (generalPrimitive (fluxGeneralExternals Real.sqrt) (kappaGeneralConfig false)
        flowGeneralInputs.V_i flowGeneralInputs.S_i)
      (generalPrimitive (fluxGeneralExternals Real.sqrt) (kappaGeneralConfig false)
        flowGeneralInputs.V_j flowGeneralInputs.S_j)).RoeSoundSpeed2 = 1 ∧
    (CUpwGeneralRoe_Flow.ComputeResidual (fluxGeneralExternals Real.sqrt)
      (kappaGeneralConfig false) flowGeneralInputs exampleGeneralScratch).Flux 0 = 1 / 2 ∧
    (CUpwGeneralRoe_Flow.ComputeResidual (fluxGeneralExternals Real.sqrt)
      (kappaGeneralConfig true) flowGeneralInputs exampleGeneralScratch).Flux 0 = 3 / 4 := by
  have hc : ∀ b : Bool, (CUpwGeneralRoe_Flow.ComputeRoeAverage (fluxGeneralExternals Real.sqrt)
      (kappaGeneralConfig b)
      (generalPrimitive (fluxGeneralExternals Real.sqrt) (kappaGeneralConfig b)
        flowGeneralInputs.V_i flowGeneralInputs.S_i)
      (generalPrimitive (fluxGeneralExternals Real.sqrt) (kappaGeneralConfig b)
        flowGeneralInputs.V_j flowGeneralInputs.S_j)).RoeSoundSpeed2 = 1 := by
    intro b
    simp [CUpwGeneralRoe_Flow.ComputeRoeAverage, generalPrimitive, fluxGeneralExternals,
      kappaGeneralConfig, flowGeneralInputs, sumLoop, forLoop]
    norm_num
  have hP : ∀ b : Bool, (generalState (fluxGeneralExternals Real.sqrt) (kappaGeneralConfig b)
      flowGeneralInputs exampleGeneralScratch).ProjFlux_i 0 = 1 / 2 := by
    intro b
    show eulerProjFlux2D
      (generalPrimitive (fluxGeneralExternals Real.sqrt) (kappaGeneralConfig b)
        flowGeneralInputs.V_i flowGeneralInputs.S_i).Density
      (generalPrimitive (fluxGeneralExternals Real.sqrt) (kappaGeneralConfig b)
        flowGeneralInputs.V_i flowGeneralInputs.S_i).Velocity
      (generalPrimitive (fluxGeneralExternals Real.sqrt) (kappaGeneralConfig b)
        flowGeneralInputs.V_i flowGeneralInputs.S_i).Pressure
      (generalPrimitive (fluxGeneralExternals Real.sqrt) (kappaGeneralConfig b)
        flowGeneralInputs.V_i flowGeneralInputs.S_i).Enthalpy flowGeneralInputs.Normal 0 = 1 / 2
    simp [generalPrimitive, kappaGeneralConfig, flowGeneralInputs, eulerProjFlux2D, sel4]
  have h0 : ∀ b : Bool, ¬ (CUpwGeneralRoe_Flow.ComputeRoeAverage (fluxGeneralExternals Real.sqrt)
      (kappaGeneralConfig b)
      (generalPrimitive (fluxGeneralExternals Real.sqrt) (kappaGeneralConfig b)
        flowGeneralInputs.V_i flowGeneralInputs.S_i)
      (generalPrimitive (fluxGeneralExternals Real.sqrt) (kappaGeneralConfig b)
        flowGeneralInputs.V_j flowGeneralInputs.S_j)).RoeSoundSpeed2 ≤ 0.0 := by
    intro b
    rw [hc b]
    norm_num
  have t := fun b : Bool => general_branches_no_jump (fluxGeneralExternals Real.sqrt)
    (kappaGeneralConfig b) flowGeneralInputs exampleGeneralScratch 0 rfl rfl rfl
    (Or.inl ⟨rfl, rfl⟩) (show 0 < 4 by decide)
  refine ⟨hc false, ?_, ?_⟩
  · unfold CUpwGeneralRoe_Flow.ComputeResidual
    simp only [h0 false, if_false]
    have e : (!(kappaGeneralConfig false : GeneralConfig ℝ).implicit) = true := rfl
    rw [if_pos e, (t false).1, hP false]
    norm_num
  · unfold CUpwGeneralRoe_Flow.ComputeResidual
    simp only [h0 true, if_false]
    have e : ¬ ((!(kappaGeneralConfig true : GeneralConfig ℝ).implicit) = true) := by
      simp [kappaGeneralConfig]
    rw [if_neg e, (t true).2, hP true]
    norm_num [kappaGeneralConfig]

end GeneralBranches

/-! ## The dissipation of the low-Mach schemes against the standard Roe dissipation -/

section LowMachAgainstRoe

/-- Both Mach numbers at least 1 give `zeta = 1`. -/
theorem zeta_eq_one (M_i M_j : K) (hi : 1 ≤ M_i) (hj : 1 ≤ M_j) : zeta M_i M_j = 1 := by
  unfold zeta
  have e1 : (1.0 : K) = 1 := by norm_num
  have h : 1 ≤ max M_i M_j := le_trans hi (le_max_left _ _)
  rw [e1, min_eq_right h, max_eq_right (by norm_num)]

/-- With `zeta = 1` the wave amplitudes of L2Roe are those of LMRoe. -/
theorem lowMachDeltaWave_one (c : Config K) (s : RoeState K) :
    lowMachDeltaWave c s 1 (fun a => a * 1) = lowMachDeltaWave c s 1 (fun a => a) := by
  have h : (fun a : K => a * 1) = (fun a => a) := by
    funext a
    rw [mul_one]
  rw [h]

/-- If `Q * P = 1` and `P * w = d` then `Q * d = w` (sums over `k < n`). -/
theorem decompose_of_reconstruct (n : Nat) (P Q : Nat → Nat → K) (w d : Nat → K)
    (hQP : IsInversePair n Q P)
    (hrec : ∀ i, i < n → sumLoop n (fun k => P i k * w k) = d i) (m : Nat) (hm : m < n) :
    ∑ j in Finset.range n, Q m j * d j = w m := by
  have h1 : ∀ j ∈ Finset.range n, Q m j * d j = ∑ l in Finset.range n, Q m j * P j l * w l := by
    intro j hj
    rw [← hrec j (Finset.mem_range.mp hj), sumLoop_eq_sum, Finset.mul_sum]
    exact Finset.sum_congr rfl (fun l _ => by ring)
  rw [Finset.sum_congr rfl h1, Finset.sum_comm]
  have h2 : ∀ l ∈ Finset.range n,
      ∑ j in Finset.range n, Q m j * P j l * w l = (if m = l then 1 else 0) * w l := by
    intro l hl
    rw [← Finset.sum_mul, ← sumLoop_eq_sum, hQP m l hm (Finset.mem_range.mp hl)]
  rw [Finset.sum_congr rfl h2]
  simp [Finset.sum_ite_eq, hm]

/-- The standard Roe dissipation `sum_j (P*Lambda*Q)[i][j]*d[j]` written with the
characteristic amplitudes `w = Q*d`. -/
theorem modulus_apply_of_decompose (n : Nat) (P Q : Nat → Nat → K) (lam w d : Nat → K)
    (a b : K) (i : Nat)
    (hw : ∀ m, m < n → ∑ j in Finset.range n, Q m j * d j = w m) :
    ∑ j in Finset.range n, a * (∑ m in Finset.range n, P i m * lam m * Q m j) * d j * b
      = ∑ m in Finset.range n, a * lam m * w m * P i m * b := by
  have h1 : ∀ j ∈ Finset.range n,
      a * (∑ m in Finset.range n, P i m * lam m * Q m j) * d j * b
        = ∑ m in Finset.range n, a * lam m * P i m * b * (Q m j * d j) := by
    intro j _
    rw [Finset.mul_sum, Finset.sum_mul, Finset.sum_mul]
    exact Finset.sum_congr rfl (fun m _ => by ring)
  rw [Finset.sum_congr rfl h1, Finset.sum_comm]
  refine Finset.sum_congr rfl (fun m hm => ?_)
  rw [← Finset.mul_sum, hw m (Finset.mem_range.mp hm)]
  ring

/-- With the turbulent-kinetic-energy channel and the low-dissipation mode off,
`CUpwRoe_Flow::FinalizeResidual` subtracts `sum_j (1 - kappa)*(P*Lambda*invP)[i][j]*Diff_U[j]*Area`
with the matrices of the helpers. -/
theorem roe_dissipation_plain (ext : Externals K) (c : Config K) (s : RoeState K)
    (res : ResidualType K) (k : Nat) (hl : c.roe_low_dissipation = false)
    (ht : c.tkeNeeded = false) :
    (CUpwRoe_Flow.FinalizeResidual ext c s res).Flux k
      = if k < c.nVar then
          res.Flux k - ∑ j in Finset.range c.nVar,
            (1.0 - c.kappa)
              * (∑ m in Finset.range c.nVar, s.P_Tensor k m * s.Lambda m
                  * ext.GetPMatrix_inv s.roe.RoeDensity s.roe.RoeVelocity s.roe.RoeTke
                      s.RoeSoundSpeed s.UnitNormal m j)
              * Diff_U s j * s.Area
        else res.Flux k := by
  have hP : roeP_Tensor c s = s.P_Tensor := by
    unfold roeP_Tensor
    simp [ht]
  have hQ : roeInvP_Tensor ext c s
      = ext.GetPMatrix_inv s.roe.RoeDensity s.roe.RoeVelocity s.roe.RoeTke s.RoeSoundSpeed
          s.UnitNormal := by
    unfold roeInvP_Tensor
    simp [ht]
  have hN : c.nPrimVarTot = c.nVar := by
    unfold Config.nPrimVarTot
    simp [ht]
  have hD : Dissipation_ij ext c s = 1 := by
    unfold Dissipation_ij
    rw [hl]
    norm_num
  rw [CUpwRoe_Flow.FinalizeResidual_Flux, hP, hQ, hN, hD]
  by_cases hk : k < c.nVar
  · rw [if_pos hk, if_pos hk]
    congr 1
    refine Finset.sum_congr rfl (fun j _ => ?_)
    rw [Proj_ModJac_Tensor_ij_eq_sum, mul_one]
  · rw [if_neg hk, if_neg hk]

end LowMachAgainstRoe

/-! ## A jump of the turbulent kinetic energy alone -/

section TkeJump

/-- The Roe state of `tkeJumpInputs`: density 1, velocity `(2, 0)`, unit sound speed, unit
normal `(1, 0)`, unit area. -/
theorem tkeJump_roe :
    (tkeJumpState Real.sqrt).roe.RoeDensity = 1 ∧
    (tkeJumpState Real.sqrt).roe.RoeVelocity 0 = 2 ∧
    (tkeJumpState Real.sqrt).roe.RoeVelocity 1 = 0 ∧
    (tkeJumpState Real.sqrt).roe.RoeSoundSpeed2 = 1 ∧
    (tkeJumpState Real.sqrt).RoeSoundSpeed = 1 ∧
    (tkeJumpState Real.sqrt).UnitNormal 0 = 1 ∧
    (tkeJumpState Real.sqrt).UnitNormal 1 = 0 ∧
    (tkeJumpState Real.sqrt).Area = 1 := by
  have hc2 : (tkeJumpState Real.sqrt).roe.RoeSoundSpeed2 = 1 := by
    simp [tkeJumpState, roeState, roeAverage, extractPrimitive, tkeJumpInputs, exampleTkeConfig,
      eulerExternals2D, state2D, Config.Gamma_Minus_One, sumLoop, forLoop]
    norm_num
  refine ⟨?_, ?_, ?_, hc2, ?_, ?_, ?_, ?_⟩
  · simp [tkeJumpState, roeState, roeAverage, extractPrimitive, tkeJumpInputs, exampleTkeConfig,
      eulerExternals2D, state2D]
  · simp [tkeJumpState, roeState, roeAverage, extractPrimitive, tkeJumpInputs, exampleTkeConfig,
      eulerExternals2D, state2D]
    norm_num
  · simp [tkeJumpState, roeState, roeAverage, extractPrimitive, tkeJumpInputs, exampleTkeConfig,
      eulerExternals2D, state2D]
  · show Real.sqrt (tkeJumpState Real.sqrt).roe.RoeSoundSpeed2 = 1
    rw [hc2, Real.sqrt_one]
  · simp [tkeJumpState, roeState, UnitNormal, Area, tkeJumpInputs, exampleTkeConfig,
      eulerExternals2D, sumLoop, forLoop]
  · simp [tkeJumpState, roeState, UnitNormal, Area, tkeJumpInputs, exampleTkeConfig,
      eulerExternals2D, sumLoop, forLoop]
  · simp [tkeJumpState, roeState, Area, tkeJumpInputs, exampleTkeConfig, eulerExternals2D,
      sumLoop, forLoop]

/-- The one-sided quantities of `tkeJumpInputs`: the two sides have the same density,
velocity, pressure and sound speed; the total energies differ by 1. -/
theorem tkeJump_sides :
    ((tkeJumpState Real.sqrt).pi.Density = 1 ∧ (tkeJumpState Real.sqrt).pj.Density = 1) ∧
    ((tkeJumpState Real.sqrt).pi.Velocity 0 = 2 ∧ (tkeJumpState Real.sqrt).pi.Velocity 1 = 0 ∧
      (tkeJumpState Real.sqrt).pj.Velocity 0 = 2 ∧ (tkeJumpState Real.sqrt).pj.Velocity 1 = 0) ∧
    ((tkeJumpState Real.sqrt).pi.Pressure = 5 / 7 ∧
      (tkeJumpState Real.sqrt).pj.Pressure = 5 / 7) ∧
    ((tkeJumpState Real.sqrt).pi.SoundSpeed = 1 ∧ (tkeJumpState Real.sqrt).pj.SoundSpeed = 1) ∧
    (Diff_U (tkeJumpState Real.sqrt) 0 = 0 ∧ Diff_U (tkeJumpState Real.sqrt) 1 = 0 ∧
      Diff_U (tkeJumpState Real.sqrt) 2 = 0 ∧ Diff_U (tkeJumpState Real.sqrt) 3 = 1) := by
  have di : (tkeJumpState Real.sqrt).pi.Density = 1 := by
    simp [tkeJumpState, roeState, extractPrimitive, tkeJumpInputs, state2D]
  have dj : (tkeJumpState Real.sqrt).pj.Density = 1 := by
    simp [tkeJumpState, roeState, extractPrimitive, tkeJumpInputs, state2D]
  have pi_ : (tkeJumpState Real.sqrt).pi.Pressure = 5 / 7 := by
    simp [tkeJumpState, roeState, extractPrimitive, tkeJumpInputs, exampleTkeConfig, state2D,
      Config.Gamma_Minus_One, sumLoop, forLoop]
    norm_num
  have pj_ : (tkeJumpState Real.sqrt).pj.Pressure = 5 / 7 := by
    simp [tkeJumpState, roeState, extractPrimitive, tkeJumpInputs, exampleTkeConfig, state2D,
      Config.Gamma_Minus_One, sumLoop, forLoop]
    norm_num
  have e : |(5 / 7 : ℝ) * 1.4 / 1| = 1 := by norm_num
  have hg : (exampleTkeConfig : Config ℝ).Gamma = 1.4 := rfl
  refine ⟨⟨di, dj⟩, ⟨?_, ?_, ?_, ?_⟩, ⟨pi_, pj_⟩, ⟨?_, ?_⟩, ⟨?_, ?_, ?_, ?_⟩⟩
  · simp [tkeJumpState, roeState, extractPrimitive, tkeJumpInputs, state2D]
  · simp [tkeJumpState, roeState, extractPrimitive, tkeJumpInputs, state2D]
  · simp [tkeJumpState, roeState, extractPrimitive, tkeJumpInputs, state2D]
  · simp [tkeJumpState, roeState, extractPrimitive, tkeJumpInputs, state2D]
  · show Real.sqrt |(tkeJumpState Real.sqrt).pi.Pressure * (exampleTkeConfig : Config ℝ).Gamma
      / (tkeJumpState Real.sqrt).pi.Density| = 1
    rw [pi_, di, hg, e, Real.sqrt_one]
  · show Real.sqrt |(tkeJumpState Real.sqrt).pj.Pressure * (exampleTkeConfig : Config ℝ).Gamma
      / (tkeJumpState Real.sqrt).pj.Density| = 1
    rw [pj_, dj, hg, e, Real.sqrt_one]
  · simp [Diff_U, tkeJumpState, roeState, Conservatives_apply, extractPrimitive, tkeJumpInputs,
      exampleTkeConfig, state2D]
  · simp [Diff_U, tkeJumpState, roeState, Conservatives_apply, extractPrimitive, tkeJumpInputs,
      exampleTkeConfig, state2D]
  · simp [Diff_U, tkeJumpState, roeState, Conservatives_apply, extractPrimitive, tkeJumpInputs,
      exampleTkeConfig, state2D]
  · simp [Diff_U, tkeJumpState, roeState, Conservatives_apply, extractPrimitive, tkeJumpInputs,
      exampleTkeConfig, state2D]
    norm_num

/-- In two dimensions, two sides with the same density, pressure and velocity components
give zero wave amplitudes in both low-Mach schemes, whatever the other members are. -/
theorem lowMachDeltaWave_2D_eq_zero (c : Config K) (s : RoeState K) (z : K) (shear : K → K)
    (h2 : c.nDim = 2) (hr : s.pj.Density = s.pi.Density) (hp : s.pj.Pressure = s.pi.Pressure)
    (hv0 : s.pj.Velocity 0 = s.pi.Velocity 0) (hv1 : s.pj.Velocity 1 = s.pi.Velocity 1)
    (h0 : shear 0 = 0) (k : Nat) :
    lowMachDeltaWave c s z shear k = 0 := by
  have hpd : proj_delta_vel c s z = 0 := by
    unfold proj_delta_vel sumLoop delta_vel
    rw [h2]
    simp only [forLoop]
    rw [hv0, hv1]
    ring
  have d0 : delta_vel s 0 = 0 := by
    unfold delta_vel
    rw [hv0, sub_self]
  have d1 : delta_vel s 1 = 0 := by
    unfold delta_vel
    rw [hv1, sub_self]
  unfold lowMachDeltaWave
  simp only [h2, if_true, hpd, d0, d1, hr, hp, sub_self, zero_div, mul_zero, h0, neg_zero,
    add_zero, setV]
  split_ifs <;> norm_num

/-- The corrected eigenvalues of `tkeJumpInputs` are `(2, 2, 3, 1)`. -/
theorem tkeJump_Lambda :
    (tkeJumpState Real.sqrt).Lambda 0 = 2 ∧ (tkeJumpState Real.sqrt).Lambda 1 = 2 ∧
    (tkeJumpState Real.sqrt).Lambda 2 = 3 ∧ (tkeJumpState Real.sqrt).Lambda 3 = 1 := by
  obtain ⟨_, r2, r3, _, r5, r6, r7, _⟩ := tkeJump_roe
  obtain ⟨_, ⟨v1, v2, v3, v4⟩, _, ⟨c1, c2⟩, _⟩ := tkeJump_sides
  have hL : ∀ k, k < 4 → (tkeJumpState Real.sqrt).Lambda k
      = if k < 2 then
          shearLambda
            (projVel 2 (tkeJumpState Real.sqrt).roe.RoeVelocity (tkeJumpState Real.sqrt).UnitNormal)
            (projVel 2 (tkeJumpState Real.sqrt).pi.Velocity (tkeJumpState Real.sqrt).UnitNormal)
            (projVel 2 (tkeJumpState Real.sqrt).pj.Velocity (tkeJumpState Real.sqrt).UnitNormal)
        else if k = 2 then
          plusLambda
            (projVel 2 (tkeJumpState Real.sqrt).roe.RoeVelocity (tkeJumpState Real.sqrt).UnitNormal)
            (projVel 2 (tkeJumpState Real.sqrt).pi.Velocity (tkeJumpState Real.sqrt).UnitNormal)
            (projVel 2 (tkeJumpState Real.sqrt).pj.Velocity (tkeJumpState Real.sqrt).UnitNormal)
            (tkeJumpState Real.sqrt).RoeSoundSpeed (tkeJumpState Real.sqrt).pi.SoundSpeed
            (tkeJumpState Real.sqrt).pj.SoundSpeed
        else
          minusLambda
            (projVel 2 (tkeJumpState Real.sqrt).roe.RoeVelocity (tkeJumpState Real.sqrt).UnitNormal)
            (projVel 2 (tkeJumpState Real.sqrt).pi.Velocity (tkeJumpState Real.sqrt).UnitNormal)
            (projVel 2 (tkeJumpState Real.sqrt).pj.Velocity (tkeJumpState Real.sqrt).UnitNormal)
            (tkeJumpState Real.sqrt).RoeSoundSpeed (tkeJumpState Real.sqrt).pi.SoundSpeed
            (tkeJumpState Real.sqrt).pj.SoundSpeed :=
    fun k hk => roeState_Lambda_lt (eulerExternals2D Real.sqrt 0.4) exampleTkeConfig
      tkeJumpInputs exampleScratch rfl rfl k hk
  have PV : projVel 2 (tkeJumpState Real.sqrt).roe.RoeVelocity
      (tkeJumpState Real.sqrt).UnitNormal = 2 := by
    unfold projVel sumLoop
    simp only [forLoop]
    rw [r2, r3, r6, r7]
    norm_num
  have PVi : projVel 2 (tkeJumpState Real.sqrt).pi.Velocity
      (tkeJumpState Real.sqrt).UnitNormal = 2 := by
    unfold projVel sumLoop
    simp only [forLoop]
    rw [v1, v2, r6, r7]
    norm_num
  have PVj : projVel 2 (tkeJumpState Real.sqrt).pj.Velocity
      (tkeJumpState Real.sqrt).UnitNormal = 2 := by
    unfold projVel sumLoop
    simp only [forLoop]
    rw [v3, v4, r6, r7]
    norm_num
  rw [PV, PVi, PVj, r5, c1, c2] at hL
  refine ⟨?_, ?_, ?_, ?_⟩
  · rw [hL 0 (by norm_num)]
    norm_num [shearLambda, HartenHymanFix, HartenHymanEpsilon]
  · rw [hL 1 (by norm_num)]
    norm_num [shearLambda, HartenHymanFix, HartenHymanEpsilon]
  · rw [hL 2 (by norm_num)]
    norm_num [plusLambda, HartenHymanFix, HartenHymanEpsilon]
  · rw [hL 3 (by norm_num)]
    norm_num [minusLambda, HartenHymanFix, HartenHymanEpsilon]

/-- The entry `(1, 3)` of `P * |Lambda| * invP` for the Euler eigensystem at density 1,
velocity `(2, 0)`, unit sound speed, normal `(1, 0)` and eigenvalues `(2, 2, 3, 1)`. -/
theorem euler_modulus_entry_supersonic (rho c : K) (v n lam : Nat → K) (h1 : rho = 1)
    (h2 : v 0 = 2) (h3 : v 1 = 0) (h5 : c = 1) (h6 : n 0 = 1) (h7 : n 1 = 0)
    (l0 : lam 0 = 2) (l1 : lam 1 = 2) (l2 : lam 2 = 3) (l3 : lam 3 = 1) :
    modJac 4 (eulerPMatrix2D 0.4 rho v c n) lam (eulerPMatrixInv2D 0.4 rho v c n) 1 3
      = 2 / 5 := by
  unfold modJac
  simp [sumLoop, forLoop, eulerPMatrix2D, eulerPMatrixInv2D, mat4, sel4, h1, h2, h3, h5, h6,
    h7, l0, l1, l2, l3]
  norm_num

/-- For `tkeJumpInputs` the standard Roe scheme subtracts `1/5` from the momentum flux
`Flux[1]`: `(1 - kappa)*(P*|Lambda|*invP)[1][3]*Diff_U[3]*Area = 0.5*(2/5)*1*1`. -/
theorem tkeJump_roe_dissipation (res : ResidualType ℝ) :
    (CUpwRoe_Flow.FinalizeResidual (eulerExternals2D Real.sqrt 0.4) exampleTkeConfig
      (tkeJumpState Real.sqrt) res).Flux 1 = res.Flux 1 - 1 / 5 := by
  obtain ⟨r1, r2, r3, _, r5, r6, r7, rA⟩ := tkeJump_roe
  obtain ⟨_, _, _, _, ⟨d0, d1, d2, d3⟩⟩ := tkeJump_sides
  obtain ⟨l0, l1, l2, l3⟩ := tkeJump_Lambda
  have hT : Proj_ModJac_Tensor_ij (exampleTkeConfig : Config ℝ).nPrimVarTot
      (roeP_Tensor exampleTkeConfig (tkeJumpState Real.sqrt)) (tkeJumpState Real.sqrt).Lambda
      (roeInvP_Tensor (eulerExternals2D Real.sqrt 0.4) exampleTkeConfig (tkeJumpState Real.sqrt))
      1 3 = 2 / 5 := by
    rw [roe_T_apply (eulerExternals2D Real.sqrt 0.4) exampleTkeConfig (tkeJumpState Real.sqrt)
      1 3 rfl (by simp [exampleTkeConfig]) (by simp [exampleTkeConfig])]
    have ht : (exampleTkeConfig : Config ℝ).tkeNeeded = true := rfl
    have hcol : tkeColumn exampleTkeConfig (tkeJumpState Real.sqrt).roe 1 = 0 := by
      simp [tkeColumn, exampleTkeConfig]
      norm_num
    rw [if_pos ht, hcol, zero_mul, zero_mul, add_zero]
    exact euler_modulus_entry_supersonic (tkeJumpState Real.sqrt).roe.RoeDensity
      (tkeJumpState Real.sqrt).RoeSoundSpeed (tkeJumpState Real.sqrt).roe.RoeVelocity
      (tkeJumpState Real.sqrt).UnitNormal (tkeJumpState Real.sqrt).Lambda r1 r2 r3 r5 r6 r7
      l0 l1 l2 l3
  have hD : Dissipation_ij (eulerExternals2D Real.sqrt 0.4) exampleTkeConfig
      (tkeJumpState Real.sqrt) = 1 := by
    simp [Dissipation_ij, exampleTkeConfig]
    norm_num
  have hn : (exampleTkeConfig : Config ℝ).nVar = 4 := rfl
  have hk : (exampleTkeConfig : Config ℝ).kappa = 0.5 := rfl
  rw [CUpwRoe_Flow.FinalizeResidual_Flux, hn, if_pos (by norm_num), hk, hD, rA]
  simp only [Finset.sum_range_succ, Finset.sum_range_zero]
  rw [d0, d1, d2, d3, hT]
  norm_num

/-- For `tkeJumpInputs` both low-Mach schemes subtract nothing: every wave amplitude is 0. -/
theorem tkeJump_lowMach_dissipation (res : ResidualType ℝ) (k : Nat) :
    (CUpwL2Roe_Flow.FinalizeResidual (eulerExternals2D Real.sqrt 0.4) exampleTkeConfig
        (tkeJumpState Real.sqrt) res).Flux k = res.Flux k ∧
      (CUpwLMRoe_Flow.FinalizeResidual (eulerExternals2D Real.sqrt 0.4) exampleTkeConfig
        (tkeJumpState Real.sqrt) res).Flux k = res.Flux k := by
  obtain ⟨⟨di, dj⟩, ⟨v1, v2, v3, v4⟩, ⟨p1, p2⟩, _, _⟩ := tkeJump_sides
  have hw : ∀ (z : ℝ) (shear : ℝ → ℝ), shear 0 = 0 → ∀ j,
      lowMachDeltaWave exampleTkeConfig (tkeJumpState Real.sqrt) z shear j = 0 :=
    fun z shear h0 j => lowMachDeltaWave_2D_eq_zero exampleTkeConfig (tkeJumpState Real.sqrt)
      z shear rfl (dj.trans di.symm) (p2.trans p1.symm) (v3.trans v1.symm) (v4.trans v2.symm)
      h0 j
  have hF : ∀ w : Nat → ℝ, (∀ j, w j = 0) →
      (lowMachFinalize (eulerExternals2D Real.sqrt 0.4) exampleTkeConfig
        (tkeJumpState Real.sqrt) w res).Flux k = res.Flux k := by
    intro w h
    rw [lowMachFinalize_Flux]
    by_cases hk : k < (exampleTkeConfig : Config ℝ).nVar
    · rw [if_pos hk, Finset.sum_eq_zero (fun j _ => by rw [h j]; ring), sub_zero]
    · rw [if_neg hk]
  constructor
  · exact hF _ (hw _ _ (by norm_num))
  · exact hF _ (hw _ _ rfl)

/-- Two supersonic states that differ only in their turbulent kinetic
energy: density 1, velocity `(2, 0)`, pressure `5/7` (Mach number 2) on both sides,
`turb_ke_i = 0`, `turb_ke_j = 1`, total energies `53/14` and `67/14`, normal `(1, 0)`,
`kappa = 0.5`, two-dimensional Euler eigensystem as helpers. `RoeSoundSpeed2 = 1 > 0` and
`zeta = 1`. The jumps of density, velocity and pressure are 0, so L2Roe and LMRoe subtract 0
from `Flux[1]`; the jump of the total energy is 1, so the standard Roe scheme subtracts
`0.5*(2/5)*1 = 1/5`. The fluxes returned by `ComputeResidual` differ by that amount. -/
theorem low_mach_dissipation_differs_on_tke_jump :
    0 < (tkeJumpState Real.sqrt).roe.RoeSoundSpeed2 ∧
    1 ≤ machNumber Real.sqrt 2 (tkeJumpState Real.sqrt).pi.Velocity
      (tkeJumpState Real.sqrt).pi.Pressure 1.4 (tkeJumpState Real.sqrt).pi.Density ∧
    1 ≤ machNumber Real.sqrt 2 (tkeJumpState Real.sqrt).pj.Velocity
      (tkeJumpState Real.sqrt).pj.Pressure 1.4 (tkeJumpState Real.sqrt).pj.Density ∧
    stateZeta (eulerExternals2D Real.sqrt 0.4) exampleTkeConfig (tkeJumpState Real.sqrt) = 1 ∧
    exampleResidual.Flux 1
      - (CUpwRoe_Flow.FinalizeResidual (eulerExternals2D Real.sqrt 0.4) exampleTkeConfig
          (tkeJumpState Real.sqrt) exampleResidual).Flux 1 = 1 / 5 ∧
    exampleResidual.Flux 1
      - (CUpwL2Roe_Flow.FinalizeResidual (eulerExternals2D Real.sqrt 0.4) exampleTkeConfig
          (tkeJumpState Real.sqrt) exampleResidual).Flux 1 = 0 ∧
    exampleResidual.Flux 1
      - (CUpwLMRoe_Flow.FinalizeResidual (eulerExternals2D Real.sqrt 0.4) exampleTkeConfig
          (tkeJumpState Real.sqrt) exampleResidual).Flux 1 = 0 ∧
    (ComputeResidual (eulerExternals2D Real.sqrt 0.4) exampleTkeConfig
        (CUpwRoe_Flow.FinalizeResidual (eulerExternals2D Real.sqrt 0.4) exampleTkeConfig)
        tkeJumpInputs exampleScratch).Flux 1
      = (ComputeResidual (eulerExternals2D Real.sqrt 0.4) exampleTkeConfig
          (CUpwL2Roe_Flow.FinalizeResidual (eulerExternals2D Real.sqrt 0.4) exampleTkeConfig)
          tkeJumpInputs exampleScratch).Flux 1 - 1 / 5 := by
  obtain ⟨_, _, _, r4, _⟩ := tkeJump_roe
  obtain ⟨⟨di, dj⟩, ⟨v1, v2, v3, v4⟩, ⟨p1, p2⟩, _, _⟩ := tkeJump_sides
  have s4 : Real.sqrt 4 = 2 := isSqrt_real.unique (by norm_num) (by norm_num)
  have hpos : 0 < (tkeJumpState Real.sqrt).roe.RoeSoundSpeed2 := by
    rw [r4]
    norm_num
  have hMi : 1 ≤ machNumber Real.sqrt 2 (tkeJumpState Real.sqrt).pi.Velocity
      (tkeJumpState Real.sqrt).pi.Pressure 1.4 (tkeJumpState Real.sqrt).pi.Density := by
    unfold machNumber sumLoop
    simp only [forLoop]
    rw [v1, v2, p1, di]
    have e : (0 + (2 : ℝ) * 2 + 0 * 0) / |5 / 7 * 1.4 / 1| = 4 := by norm_num
    rw [e, s4]
    norm_num
  have hMj : 1 ≤ machNumber Real.sqrt 2 (tkeJumpState Real.sqrt).pj.Velocity
      (tkeJumpState Real.sqrt).pj.Pressure 1.4 (tkeJumpState Real.sqrt).pj.Density := by
    unfold machNumber sumLoop
    simp only [forLoop]
    rw [v3, v4, p2, dj]
    have e : (0 + (2 : ℝ) * 2 + 0 * 0) / |5 / 7 * 1.4 / 1| = 4 := by norm_num
    rw [e, s4]
    norm_num
  have hR := tkeJump_roe_dissipation
  have hL := tkeJump_lowMach_dissipation
  refine ⟨hpos, hMi, hMj, zeta_eq_one _ _ hMi hMj, ?_, ?_, ?_, ?_⟩
  · rw [hR exampleResidual]
    ring
  · rw [(hL exampleResidual 1).1, sub_self]
  · rw [(hL exampleResidual 1).2, sub_self]
  · rw [ComputeResidual_Flux _ _ _ _ _ 1 hpos, ComputeResidual_Flux _ _ _ _ _ 1 hpos]
    exact (hR _).trans (congrArg (fun x => x - 1 / 5) (hL _ 1).1.symm)

end TkeJump

/-! ## A supersonic jump of density and pressure -/

section SupersonicJump

/-- The Roe state of `supersonicInputs`: density 1/2, velocity `(2, 0)`, unit sound speed,
unit normal `(1, 0)`. -/
theorem supersonic_roe :
    (supersonicState Real.sqrt).roe.RoeDensity = 1 / 2 ∧
    (supersonicState Real.sqrt).roe.RoeVelocity 0 = 2 ∧
    (supersonicState Real.sqrt).roe.RoeVelocity 1 = 0 ∧
    (supersonicState Real.sqrt).roe.RoeSoundSpeed2 = 1 ∧
    (supersonicState Real.sqrt).RoeSoundSpeed = 1 ∧
    (supersonicState Real.sqrt).UnitNormal 0 = 1 ∧
    (supersonicState Real.sqrt).UnitNormal 1 = 0 := by
  have hR : Real.sqrt |(4 : ℝ)⁻¹| = 2⁻¹ := by
    have e : |(4 : ℝ)⁻¹| = 4⁻¹ := abs_of_pos (by norm_num)
    rw [e]
    exact isSqrt_real.unique (by norm_num) (by norm_num)
  have hc2 : (supersonicState Real.sqrt).roe.RoeSoundSpeed2 = 1 := by
    simp [supersonicState, supersonicInputs, roeState, roeAverage, extractPrimitive,
      exampleInputs, exampleConfig, eulerExternals2D, state2D, Config.Gamma_Minus_One, sumLoop,
      forLoop, hR]
    norm_num
  refine ⟨?_, ?_, ?_, hc2, ?_, ?_, ?_⟩
  · simp [supersonicState, supersonicInputs, roeState, roeAverage, extractPrimitive,
      exampleInputs, exampleConfig, eulerExternals2D, state2D, hR]
  · simp [supersonicState, supersonicInputs, roeState, roeAverage, extractPrimitive,
      exampleInputs, exampleConfig, eulerExternals2D, state2D, hR]
    norm_num
  · simp [supersonicState, supersonicInputs, roeState, roeAverage, extractPrimitive,
      exampleInputs, exampleConfig, eulerExternals2D, state2D, hR]
  · show Real.sqrt (supersonicState Real.sqrt).roe.RoeSoundSpeed2 = 1
    rw [hc2, Real.sqrt_one]
  · simp [supersonicState, supersonicInputs, roeState, UnitNormal, Area, exampleInputs,
      exampleConfig, eulerExternals2D, sumLoop, forLoop]
  · simp [supersonicState, supersonicInputs, roeState, UnitNormal, Area, exampleInputs,
      exampleConfig, eulerExternals2D, sumLoop, forLoop]

/-- The one-sided quantities of `supersonicInputs` and the jump of the conservative
variables. -/
theorem supersonic_sides :
    ((supersonicState Real.sqrt).pi.Density = 1 ∧
      (supersonicState Real.sqrt).pj.Density = 1 / 4) ∧
    ((supersonicState Real.sqrt).pi.Velocity 0 = 2 ∧
      (supersonicState Real.sqrt).pi.Velocity 1 = 0 ∧
      (supersonicState Real.sqrt).pj.Velocity 0 = 2 ∧
      (supersonicState Real.sqrt).pj.Velocity 1 = 0) ∧
    ((supersonicState Real.sqrt).pi.Pressure = 5 / 7 ∧
      (supersonicState Real.sqrt).pj.Pressure = 5 / 28) ∧
    (Diff_U (supersonicState Real.sqrt) 0 = -(3 / 4) ∧
      Diff_U (supersonicState Real.sqrt) 1 = -(3 / 2) ∧
      Diff_U (supersonicState Real.sqrt) 2 = 0 ∧
      Diff_U (supersonicState Real.sqrt) 3 = -(159 / 56)) := by
  refine ⟨⟨?_, ?_⟩, ⟨?_, ?_, ?_, ?_⟩, ⟨?_, ?_⟩, ⟨?_, ?_, ?_, ?_⟩⟩
  · simp [supersonicState, supersonicInputs, roeState, extractPrimitive, exampleInputs, state2D]
  · simp [supersonicState, supersonicInputs, roeState, extractPrimitive, exampleInputs, state2D]
  · simp [supersonicState, supersonicInputs, roeState, extractPrimitive, exampleInputs, state2D]
  · simp [supersonicState, supersonicInputs, roeState, extractPrimitive, exampleInputs, state2D]
  · simp [supersonicState, supersonicInputs, roeState, extractPrimitive, exampleInputs, state2D]
    norm_num
  · simp [supersonicState, supersonicInputs, roeState, extractPrimitive, exampleInputs, state2D]
  · simp [supersonicState, supersonicInputs, roeState, extractPrimitive, exampleInputs,
      exampleConfig, state2D, Config.Gamma_Minus_One, sumLoop, forLoop]
    norm_num
  · simp [supersonicState, supersonicInputs, roeState, extractPrimitive, exampleInputs,
      exampleConfig, state2D, Config.Gamma_Minus_One, sumLoop, forLoop]
    norm_num
  · simp [Diff_U, supersonicState, supersonicInputs, roeState, Conservatives_apply,
      extractPrimitive, exampleInputs, exampleConfig, state2D]
    norm_num
  · simp [Diff_U, supersonicState, supersonicInputs, roeState, Conservatives_apply,
      extractPrimitive, exampleInputs, exampleConfig, state2D]
    norm_num
  · simp [Diff_U, supersonicState, supersonicInputs, roeState, Conservatives_apply,
      extractPrimitive, exampleInputs, exampleConfig, state2D]
  · simp [Diff_U, supersonicState, supersonicInputs, roeState, Conservatives_apply,
      extractPrimitive, exampleInputs, exampleConfig, state2D]
    norm_num

/-- The wave amplitudes of `supersonicInputs` at `zeta = 1`. -/
theorem supersonic_waves :
    lowMachDeltaWave (exampleConfig false false false) (supersonicState Real.sqrt) 1
        (fun a => a) 0 = -(3 / 14) ∧
    lowMachDeltaWave (exampleConfig false false false) (supersonicState Real.sqrt) 1
        (fun a => a) 1 = 0 ∧
    lowMachDeltaWave (exampleConfig false false false) (supersonicState Real.sqrt) 1
        (fun a => a) 2 = -(15 / 14) ∧
    lowMachDeltaWave (exampleConfig false false false) (supersonicState Real.sqrt) 1
        (fun a => a) 3 = -(15 / 14) := by
  obtain ⟨r1, _, _, r4, r5, r6, r7⟩ := supersonic_roe
  obtain ⟨⟨di, dj⟩, ⟨v1, v2, v3, v4⟩, ⟨p1, p2⟩, _⟩ := supersonic_sides
  have hpd : proj_delta_vel (exampleConfig false false false) (supersonicState Real.sqrt) 1
      = 0 := by
    unfold proj_delta_vel sumLoop delta_vel
    simp only [forLoop]
    rw [v1, v2, v3, v4]
    norm_num [exampleConfig, forLoop]
  have d0 : delta_vel (supersonicState Real.sqrt) 0 = 0 := by
    unfold delta_vel
    rw [v1, v3, sub_self]
  have d1 : delta_vel (supersonicState Real.sqrt) 1 = 0 := by
    unfold delta_vel
    rw [v2, v4, sub_self]
  have h2 : (exampleConfig false false false : Config ℝ).nDim = 2 := rfl
  unfold lowMachDeltaWave
  simp only [h2, if_true, hpd, d0, d1, di, dj, p1, p2, r1, r4, r5, r6, r7, setV]
  refine ⟨?_, ?_, ?_, ?_⟩ <;> norm_num

/-- At density 1/2, velocity `(2, 0)`, unit sound speed and `Gamma - 1 = 0.4`, for the
normal `(1, 0)`, the matrix `eulerPMatrixInv2D` is a left inverse of `eulerPMatrix2D`. -/
theorem euler_left_inverse_supersonic (rho c : K) (v n : Nat → K) (h1 : rho = 1 / 2)
    (h2 : v 0 = 2) (h3 : v 1 = 0) (h5 : c = 1) (h6 : n 0 = 1) (h7 : n 1 = 0) :
    IsInversePair 4 (eulerPMatrixInv2D 0.4 rho v c n) (eulerPMatrix2D 0.4 rho v c n) := by
  intro i j hi hj
  interval_cases i <;> interval_cases j <;>
    simp [sumLoop, forLoop, eulerPMatrix2D, eulerPMatrixInv2D, mat4, sel4, h1, h2, h3, h5, h6,
      h7] <;>
    norm_num

/-- At that state the amplitudes `(-3/14, 0, -15/14, -15/14)` reconstruct the jump
`(-3/4, -3/2, 0, -159/56)` through `eulerPMatrix2D`. -/
theorem euler_reconstruct_supersonic (rho c : K) (v n w : Nat → K) (h1 : rho = 1 / 2)
    (h2 : v 0 = 2) (h3 : v 1 = 0) (h5 : c = 1) (h6 : n 0 = 1) (h7 : n 1 = 0)
    (w0 : w 0 = -(3 / 14)) (w1 : w 1 = 0) (w2 : w 2 = -(15 / 14)) (w3 : w 3 = -(15 / 14)) :
    sumLoop 4 (fun k => eulerPMatrix2D 0.4 rho v c n 0 k * w k) = -(3 / 4) ∧
    sumLoop 4 (fun k => eulerPMatrix2D 0.4 rho v c n 1 k * w k) = -(3 / 2) ∧
    sumLoop 4 (fun k => eulerPMatrix2D 0.4 rho v c n 2 k * w k) = 0 ∧
    sumLoop 4 (fun k => eulerPMatrix2D 0.4 rho v c n 3 k * w k) = -(159 / 56) := by
  refine ⟨?_, ?_, ?_, ?_⟩ <;>
    simp [sumLoop, forLoop, eulerPMatrix2D, mat4, sel4, h1, h2, h3, h5, h6, h7, w0, w1, w2,
      w3] <;>
    norm_num

end SupersonicJump

/-! ## A jump of the total energy alone, for arbitrary helpers -/

section EnergyJump

/-- If `Q` is the inverse of `P` and no eigenvalue is zero, no column of `P * Lambda * Q`
vanishes. -/
theorem modJac_column_ne_zero (n : Nat) (P Q : Nat → Nat → K) (lam : Nat → K)
    (hPQ : IsInversePair n P Q) (hQP : IsInversePair n Q P)
    (hlam : ∀ k, k < n → lam k ≠ 0) (j : Nat) (hj : j < n) :
    ∃ i, i < n ∧ modJac n P lam Q i j ≠ 0 := by
  by_contra hcon
  have hall : ∀ i, i < n → modJac n P lam Q i j = 0 := by
    intro i hi
    by_contra h
    exact hcon ⟨i, hi, h⟩
  have hrec : ∀ i, i < n → sumLoop n (fun k => P i k * (lam k * Q k j)) = (fun _ => (0 : K)) i := by
    intro i hi
    have h := hall i hi
    unfold modJac at h
    rw [← h]
    exact congrArg (sumLoop n) (funext (fun k => by ring))
  have hx : ∀ m, m < n → lam m * Q m j = 0 := by
    intro m hm
    have h := decompose_of_reconstruct n P Q (fun k => lam k * Q k j) (fun _ => 0) hQP hrec m hm
    simp only [mul_zero, Finset.sum_const_zero] at h
    exact h.symm
  have hq : ∀ m, m < n → Q m j = 0 := by
    intro m hm
    rcases mul_eq_zero.mp (hx m hm) with h | h
    · exact absurd h (hlam m hm)
    · exact h
  have h1 := hPQ j j hj hj
  rw [sumLoop_eq_sum, if_pos rfl,
    Finset.sum_eq_zero (fun k hk => by rw [hq k (Finset.mem_range.mp hk), mul_zero])] at h1
  exact zero_ne_one h1

/-- When only the total energy jumps, `CUpwRoe_Flow::FinalizeResidual` subtracts the last
column of `P * |Lambda| * invP` times that jump; the turbulence coupling does not enter. -/
theorem roe_dissipation_of_energy_jump (ext : Externals K) (c : Config K) (s : RoeState K)
    (res : ResidualType K) (i : Nat) (hn : c.nVar = c.nDim + 2)
    (hl : c.roe_low_dissipation = false) (hD : ∀ j, j < c.nVar - 1 → Diff_U s j = 0)
    (hi : i < c.nVar) :
    res.Flux i - (CUpwRoe_Flow.FinalizeResidual ext c s res).Flux i
      = (1 - c.kappa)
        * modJac c.nVar s.P_Tensor s.Lambda
            (ext.GetPMatrix_inv s.roe.RoeDensity s.roe.RoeVelocity s.roe.RoeTke s.RoeSoundSpeed
              s.UnitNormal) i (c.nVar - 1)
        * Diff_U s (c.nVar - 1) * s.Area := by
  have hlast : c.nVar - 1 < c.nVar := by omega
  have hDis : Dissipation_ij ext c s = 1 := by
    unfold Dissipation_ij
    rw [hl]
    norm_num
  have hrow : tkeRow c s.roe (c.nVar - 1) = 0 := by
    unfold tkeRow
    rw [if_pos rfl]
    norm_num
  rw [CUpwRoe_Flow.FinalizeResidual_Flux, if_pos hi, hDis]
  have hsum : ∑ j in Finset.range c.nVar,
        (1.0 - c.kappa)
          * Proj_ModJac_Tensor_ij c.nPrimVarTot (roeP_Tensor c s) s.Lambda
              (roeInvP_Tensor ext c s) i j
          * Diff_U s j * s.Area * 1
      = (1.0 - c.kappa)
          * Proj_ModJac_Tensor_ij c.nPrimVarTot (roeP_Tensor c s) s.Lambda
              (roeInvP_Tensor ext c s) i (c.nVar - 1)
          * Diff_U s (c.nVar - 1) * s.Area * 1 := by
    refine Finset.sum_eq_single (c.nVar - 1) ?_ ?_
    · intro j hj hne
      have hj2 : j < c.nVar - 1 := by
        have := Finset.mem_range.mp hj
        omega
      rw [hD j hj2]
      ring
    · intro h
      exact absurd (Finset.mem_range.mpr hlast) h
  rw [hsum, roe_T_apply ext c s i (c.nVar - 1) hn hi hlast, hrow]
  by_cases ht : c.tkeNeeded = true
  · rw [if_pos ht]
    norm_num
  · rw [if_neg ht]
    norm_num

/-- For every pair of helpers such that `invP` is the inverse of `P`, with non-zero
eigenvalues, `kappa != 1` and a non-zero area: when only the total energy jumps, the
standard Roe scheme subtracts a non-zero amount from some component of the residual. -/
theorem roe_dissipation_nonzero_of_energy_jump (ext : Externals K) (c : Config K)
    (s : RoeState K) (res : ResidualType K) (hn : c.nVar = c.nDim + 2)
    (hl : c.roe_low_dissipation = false)
    (hPQ : IsInversePair c.nVar s.P_Tensor
      (ext.GetPMatrix_inv s.roe.RoeDensity s.roe.RoeVelocity s.roe.RoeTke s.RoeSoundSpeed
        s.UnitNormal))
    (hQP : InverseContract ext c s) (hlam : ∀ k, k < c.nVar → s.Lambda k ≠ 0)
    (hk : c.kappa ≠ 1) (hA : s.Area ≠ 0) (hD : ∀ j, j < c.nVar - 1 → Diff_U s j = 0)
    (hE : Diff_U s (c.nVar - 1) ≠ 0) :
    ∃ i, i < c.nVar ∧ res.Flux i - (CUpwRoe_Flow.FinalizeResidual ext c s res).Flux i ≠ 0 := by
  have hlast : c.nVar - 1 < c.nVar := by omega
  obtain ⟨i, hi, hne⟩ := modJac_column_ne_zero c.nVar s.P_Tensor _ s.Lambda hPQ hQP hlam
    (c.nVar - 1) hlast
  refine ⟨i, hi, ?_⟩
  rw [roe_dissipation_of_energy_jump ext c s res i hn hl hD hi]
  have h1 : (1 : K) - c.kappa ≠ 0 := sub_ne_zero.mpr (Ne.symm hk)
  exact mul_ne_zero (mul_ne_zero (mul_ne_zero h1 hne) hE) hA

end EnergyJump

/-! ## `GetMUSCLJac` as a scaling of each side's Jacobian -/

section MusclScaling

/-- C26. `GetMUSCLJac` as implemented scales each Jacobian entry in place by a factor that
does not involve the other side's Jacobian: for all `a, b < nVar` the corrected `jac_i[a][b]`
is the entry value of `jac_i[a][b]` times `1 - muscl_kappa*lim_i[b] + muscl*lim_j[b]` and the
corrected `jac_j[a][b]` is the entry value of `jac_j[a][b]` times
`1 - muscl_kappa*lim_j[b] + muscl*lim_i[b]`; hence two calls that differ only in `jac_j`
produce the same corrected `jac_i` (and two calls that differ only in `jac_i` the same
corrected `jac_j`). -/
theorem GetMUSCLJac_scales_each_side (c : Config K) (jac : JacPair K) (lim_i lim_j : Nat → K) :
    (∀ a b, a < c.nVar → b < c.nVar →
      (GetMUSCLJac c jac lim_i lim_j).jac_i a b
        = jac.jac_i a b * (1 - c.muscl_kappa * lim_i b + boolToK c.muscl * lim_j b) ∧
      (GetMUSCLJac c jac lim_i lim_j).jac_j a b
        = jac.jac_j a b * (1 - c.muscl_kappa * lim_j b + boolToK c.muscl * lim_i b)) ∧
    (∀ jac2 : JacPair K, jac2.jac_i = jac.jac_i →
      (GetMUSCLJac c jac2 lim_i lim_j).jac_i = (GetMUSCLJac c jac lim_i lim_j).jac_i) ∧
    (∀ jac2 : JacPair K, jac2.jac_j = jac.jac_j →
      (GetMUSCLJac c jac2 lim_i lim_j).jac_j = (GetMUSCLJac c jac lim_i lim_j).jac_j) := by
  refine ⟨?_, ?_, ?_⟩
  · intro a b ha hb
    rw [GetMUSCLJac_jac_i, GetMUSCLJac_jac_j, if_pos ⟨ha, hb⟩, if_pos ⟨ha, hb⟩]
    constructor
    · norm_num
      ring
    · norm_num
      ring
  · intro jac2 h
    funext a b
    rw [GetMUSCLJac_jac_i, GetMUSCLJac_jac_i, h]
  · intro jac2 h
    funext a b
    rw [GetMUSCLJac_jac_j, GetMUSCLJac_jac_j, h]

/-- C26, at a concrete input: `nVar = 4`, `muscl` on, `muscl_kappa = 0.5`, limiters 1,
`jac_i = 1` and `jac_j = 3` in every entry: the corrected `jac_i[0][0]` is
`1*(1 - 0.5 + 1) = 3/2`, the corrected `jac_j[0][0]` is `3*(1 - 0.5 + 1) = 9/2`, and
replacing `jac_j` by 5 in every entry leaves the corrected `jac_i` as it is. -/
theorem GetMUSCLJac_scales_each_side_witness :
    (0 : Nat) < (exampleConfig false false true : Config ℚ).nVar ∧
    (GetMUSCLJac (exampleConfig false false true : Config ℚ)
      { jac_i := fun _ _ => 1, jac_j := fun _ _ => 3 } (fun _ => 1) (fun _ => 1)).jac_i 0 0
      = 3 / 2 ∧
    (GetMUSCLJac (exampleConfig false false true : Config ℚ)
      { jac_i := fun _ _ => 1, jac_j := fun _ _ => 3 } (fun _ => 1) (fun _ => 1)).jac_j 0 0
      = 9 / 2 ∧
    (GetMUSCLJac (exampleConfig false false true : Config ℚ)
      { jac_i := fun _ _ => 1, jac_j := fun _ _ => 5 } (fun _ => 1) (fun _ => 1)).jac_i
      = (GetMUSCLJac (exampleConfig false false true : Config ℚ)
        { jac_i := fun _ _ => 1, jac_j := fun _ _ => 3 } (fun _ => 1) (fun _ => 1)).jac_i := by
  have t := GetMUSCLJac_scales_each_side (exampleConfig false false true : Config ℚ)
    { jac_i := fun _ _ => 1, jac_j := fun _ _ => 3 } (fun _ => 1) (fun _ => 1)
  have h0 : (0 : Nat) < (exampleConfig false false true : Config ℚ).nVar := by decide
  refine ⟨h0, ?_, ?_, t.2.1 { jac_i := fun _ _ => 1, jac_j := fun _ _ => 5 } rfl⟩
  · rw [(t.1 0 0 h0 h0).1]
    norm_num [exampleConfig, Config.muscl_kappa, boolToK]
  · rw [(t.1 0 0 h0 h0).2]
    norm_num [exampleConfig, Config.muscl_kappa, boolToK]

/-- C27. First-order fallback of the MUSCL correction: for every pair of Jacobians, when all
entries of `lim_i` and `lim_j` are 0 (fully limited), `GetMUSCLJac` leaves every entry of
`jac_i` and `jac_j` unchanged, for every value of `muscl_kappa` and of the `muscl` flag. -/
theorem GetMUSCLJac_fully_limited (c : Config K) (jac : JacPair K) (lim_i lim_j : Nat → K)
    (hi : ∀ k, lim_i k = 0) (hj : ∀ k, lim_j k = 0) :
    (GetMUSCLJac c jac lim_i lim_j).jac_i = jac.jac_i ∧
      (GetMUSCLJac c jac lim_i lim_j).jac_j = jac.jac_j := by
  constructor
  · funext a b
    rw [GetMUSCLJac_jac_i, hi b, hj b]
    split_ifs
    · norm_num
    · rfl
  · funext a b
    rw [GetMUSCLJac_jac_j, hi b, hj b]
    split_ifs
    · norm_num
    · rfl

/-- C27, at a concrete input: `nVar = 4`, `muscl` on, `MUSCL_Kappa = 1`, limiters 0,
`jac_i = 1` and `jac_j = 3` in every entry. -/
theorem GetMUSCLJac_fully_limited_witness :
    (∀ k : Nat, (fun _ : Nat => (0 : ℚ)) k = 0) ∧
    (GetMUSCLJac (exampleConfig false false true : Config ℚ)
      { jac_i := fun _ _ => 1, jac_j := fun _ _ => 3 } (fun _ => 0) (fun _ => 0)).jac_i
      = (fun _ _ => 1) ∧
    (GetMUSCLJac (exampleConfig false false true : Config ℚ)
      { jac_i := fun _ _ => 1, jac_j := fun _ _ => 3 } (fun _ => 0) (fun _ => 0)).jac_j
      = (fun _ _ => 3) := by
  have t := GetMUSCLJac_fully_limited (exampleConfig false false true : Config ℚ)
    { jac_i := fun _ _ => 1, jac_j := fun _ _ => 3 } (fun _ => 0) (fun _ => 0)
    (fun _ => rfl) (fun _ => rfl)
  exact ⟨fun _ => rfl, t.1, t.2⟩

end MusclScaling

/-! ## Symmetry and consistency of the Roe averages -/

section RoeAverageSymmetry

/-- C29. Roe-average symmetry in `CUpwRoeBase_Flow::ComputeResidual`, with `sqrt` the square
root: for every pair of states with positive densities, exchanging the left and right states
leaves `RoeDensity`, every component of `RoeVelocity`, `RoeEnthalpy`, `RoeTke` and
`RoeSoundSpeed2` unchanged, and `R` becomes `1/R`. -/
theorem roe_average_symmetry (ext : Externals K) (c : Config K) (U_i U_j : Nat → K)
    (turb_ke_i turb_ke_j : K) (hs : IsSqrt ext.sqrt) (hi : 0 < U_i 0) (hj : 0 < U_j 0) :
    (roeAverage ext c (extractPrimitive ext c U_j turb_ke_j)
        (extractPrimitive ext c U_i turb_ke_i)).RoeDensity
      = (roeAverage ext c (extractPrimitive ext c U_i turb_ke_i)
          (extractPrimitive ext c U_j turb_ke_j)).RoeDensity ∧
    (∀ iDim, (roeAverage ext c (extractPrimitive ext c U_j turb_ke_j)
        (extractPrimitive ext c U_i turb_ke_i)).RoeVelocity iDim
      = (roeAverage ext c (extractPrimitive ext c U_i turb_ke_i)
          (extractPrimitive ext c U_j turb_ke_j)).RoeVelocity iDim) ∧
    (roeAverage ext c (extractPrimitive ext c U_j turb_ke_j)
        (extractPrimitive ext c U_i turb_ke_i)).RoeEnthalpy
      = (roeAverage ext c (extractPrimitive ext c U_i turb_ke_i)
          (extractPrimitive ext c U_j turb_ke_j)).RoeEnthalpy ∧
    (roeAverage ext c (extractPrimitive ext c U_j turb_ke_j)
        (extractPrimitive ext c U_i turb_ke_i)).RoeTke
      = (roeAverage ext c (extractPrimitive ext c U_i turb_ke_i)
          (extractPrimitive ext c U_j turb_ke_j)).RoeTke ∧
    (roeAverage ext c (extractPrimitive ext c U_j turb_ke_j)
        (extractPrimitive ext c U_i turb_ke_i)).RoeSoundSpeed2
      = (roeAverage ext c (extractPrimitive ext c U_i turb_ke_i)
          (extractPrimitive ext c U_j turb_ke_j)).RoeSoundSpeed2 ∧
    (roeAverage ext c (extractPrimitive ext c U_j turb_ke_j)
        (extractPrimitive ext c U_i turb_ke_i)).R
      = 1 / (roeAverage ext c (extractPrimitive ext c U_i turb_ke_i)
          (extractPrimitive ext c U_j turb_ke_j)).R := by
  obtain ⟨h1, h2, _, h4, h5, h6⟩ := roeAverage_swap ext c
    (extractPrimitive ext c U_i turb_ke_i) (extractPrimitive ext c U_j turb_ke_j) hs hi hj
  obtain ⟨hpos, hprod, _⟩ := roe_R_swap hs (U_i 0) (U_j 0) hi hj
  refine ⟨h1, fun iDim => congrFun h2 iDim, h4, h5, h6, ?_⟩
  show ext.sqrt |U_i 0 / U_j 0| = 1 / ext.sqrt |U_j 0 / U_i 0|
  rw [eq_div_iff (ne_of_gt hpos), mul_comm]
  exact hprod

/-- C29, at a concrete input: the two-dimensional states `(4, 12, 0, 30)` and `(1, 0, 0, 3)`:
`R = 1/2` in one order and `2` in the other, `RoeDensity = 2` in both. -/
theorem roe_average_symmetry_witness :
    IsSqrt (constExternals Real.sqrt).sqrt ∧ (0 : ℝ) < state2D 4 12 30 0 ∧
    (0 : ℝ) < state2D 1 0 3 0 ∧
    (roeAverage (constExternals Real.sqrt) (exampleConfig false false false)
      (extractPrimitive (constExternals Real.sqrt) (exampleConfig false false false)
        (state2D 1 0 3) 0)
      (extractPrimitive (constExternals Real.sqrt) (exampleConfig false false false)
        (state2D 4 12 30) 0)).RoeDensity
      = (roeAverage (constExternals Real.sqrt) (exampleConfig false false false)
        (extractPrimitive (constExternals Real.sqrt) (exampleConfig false false false)
          (state2D 4 12 30) 0)
        (extractPrimitive (constExternals Real.sqrt) (exampleConfig false false false)
          (state2D 1 0 3) 0)).RoeDensity ∧
    (roeAverage (constExternals Real.sqrt) (exampleConfig false false false)
      (extractPrimitive (constExternals Real.sqrt) (exampleConfig false false false)
        (state2D 1 0 3) 0)
      (extractPrimitive (constExternals Real.sqrt) (exampleConfig false false false)
        (state2D 4 12 30) 0)).R
      = 1 / (roeAverage (constExternals Real.sqrt) (exampleConfig false false false)
        (extractPrimitive (constExternals Real.sqrt) (exampleConfig false false false)
          (state2D 4 12 30) 0)
        (extractPrimitive (constExternals Real.sqrt) (exampleConfig false false false)
          (state2D 1 0 3) 0)).R := by
  have hi : (0 : ℝ) < state2D 4 12 30 0 := by norm_num [state2D]
  have hj : (0 : ℝ) < state2D 1 0 3 0 := by norm_num [state2D]
  have t := roe_average_symmetry (constExternals Real.sqrt) (exampleConfig false false false)
    (state2D 4 12 30) (state2D 1 0 3) 0 0 isSqrt_real hi hj
  exact ⟨isSqrt_real, hi, hj, t.1, t.2.2.2.2.2⟩

end RoeAverageSymmetry

section RoeAverageConsistency

/-- The Roe average of a state with itself. -/
theorem roeAverage_self (ext : Externals K) (c : Config K) (U : Nat → K) (turb_ke : K)
    (hs : IsSqrt ext.sqrt) (hρ : 0 < U 0) :
    (roeAverage ext c (extractPrimitive ext c U turb_ke) (extractPrimitive ext c U turb_ke)).R = 1 ∧
    (roeAverage ext c (extractPrimitive ext c U turb_ke)
      (extractPrimitive ext c U turb_ke)).RoeDensity = (extractPrimitive ext c U turb_ke).Density ∧
    (roeAverage ext c (extractPrimitive ext c U turb_ke)
      (extractPrimitive ext c U turb_ke)).RoeVelocity = (extractPrimitive ext c U turb_ke).Velocity ∧
    (roeAverage ext c (extractPrimitive ext c U turb_ke)
      (extractPrimitive ext c U turb_ke)).RoeEnthalpy = (extractPrimitive ext c U turb_ke).Enthalpy ∧
    (roeAverage ext c (extractPrimitive ext c U turb_ke)
      (extractPrimitive ext c U turb_ke)).RoeTke = (extractPrimitive ext c U turb_ke).turb_ke ∧
    (roeAverage ext c (extractPrimitive ext c U turb_ke)
      (extractPrimitive ext c U turb_ke)).RoeSoundSpeed2
        = c.Gamma * (extractPrimitive ext c U turb_ke).Pressure
            / (extractPrimitive ext c U turb_ke).Density := by
  have hne : U 0 ≠ 0 := ne_of_gt hρ
  have hR : ext.sqrt |U 0 / U 0| = 1 := by
    rw [div_self hne, abs_one]
    exact hs.unique zero_le_one (one_mul 1)
  have avg : ∀ x : K, ((1 : K) * x + x) / (1 + 1.0) = x := by
    intro x; norm_num
  have hV : (roeAverage ext c (extractPrimitive ext c U turb_ke)
      (extractPrimitive ext c U turb_ke)).RoeVelocity
        = (extractPrimitive ext c U turb_ke).Velocity := by
    funext iDim
    show (ext.sqrt |U 0 / U 0| * (U (iDim + 1) / U 0) + U (iDim + 1) / U 0)
      / (ext.sqrt |U 0 / U 0| + 1.0) = U (iDim + 1) / U 0
    rw [hR]; exact avg _
  have hH : (roeAverage ext c (extractPrimitive ext c U turb_ke)
      (extractPrimitive ext c U turb_ke)).RoeEnthalpy
        = (extractPrimitive ext c U turb_ke).Enthalpy := by
    show (ext.sqrt |U 0 / U 0| * (extractPrimitive ext c U turb_ke).Enthalpy
      + (extractPrimitive ext c U turb_ke).Enthalpy) / (ext.sqrt |U 0 / U 0| + 1.0) = _
    rw [hR]; exact avg _
  have hT : (roeAverage ext c (extractPrimitive ext c U turb_ke)
      (extractPrimitive ext c U turb_ke)).RoeTke
        = (extractPrimitive ext c U turb_ke).turb_ke := by
    show (ext.sqrt |U 0 / U 0| * (extractPrimitive ext c U turb_ke).turb_ke
      + (extractPrimitive ext c U turb_ke).turb_ke) / (ext.sqrt |U 0 / U 0| + 1.0) = _
    rw [hR]; exact avg _
  have hQ : (roeAverage ext c (extractPrimitive ext c U turb_ke)
      (extractPrimitive ext c U turb_ke)).RoeSqVel
        = (extractPrimitive ext c U turb_ke).SqVel := by
    show sumLoop c.nDim (fun iDim =>
      (roeAverage ext c (extractPrimitive ext c U turb_ke)
        (extractPrimitive ext c U turb_ke)).RoeVelocity iDim *
      (roeAverage ext c (extractPrimitive ext c U turb_ke)
        (extractPrimitive ext c U turb_ke)).RoeVelocity iDim) = _
    rw [hV]; rfl
  refine ⟨hR, ?_, hV, hH, hT, ?_⟩
  · show ext.sqrt |U 0 / U 0| * U 0 = U 0
    rw [hR, one_mul]
  · show c.Gamma_Minus_One * ((roeAverage ext c (extractPrimitive ext c U turb_ke)
        (extractPrimitive ext c U turb_ke)).RoeEnthalpy
      - 0.5 * (roeAverage ext c (extractPrimitive ext c U turb_ke)
        (extractPrimitive ext c U turb_ke)).RoeSqVel
      - (roeAverage ext c (extractPrimitive ext c U turb_ke)
        (extractPrimitive ext c U turb_ke)).RoeTke) = _
    rw [hH, hQ, hT]
    show c.Gamma_Minus_One * (U (c.nDim + 1) / U 0
        + c.Gamma_Minus_One * (U (c.nDim + 1)
            - 0.5 * U 0 * (extractPrimitive ext c U turb_ke).SqVel - U 0 * (turb_ke / U 0)) / U 0
        - 0.5 * (extractPrimitive ext c U turb_ke).SqVel - turb_ke / U 0)
      = c.Gamma * (c.Gamma_Minus_One * (U (c.nDim + 1)
            - 0.5 * U 0 * (extractPrimitive ext c U turb_ke).SqVel - U 0 * (turb_ke / U 0)))
          / U 0
    generalize (extractPrimitive ext c U turb_ke).SqVel = q
    unfold Config.Gamma_Minus_One
    field_simp
    ring

/-- C28. Roe-average consistency in `CUpwRoeBase_Flow::ComputeResidual`, with `sqrt` the square
root: when the left and right states are identical (same conservative vector, same turbulent
kinetic energy) with positive density, `R = 1`, `RoeDensity`, `RoeVelocity`, `RoeEnthalpy` and
`RoeTke` equal the one-sided values, and `RoeSoundSpeed2 = Gamma*Pressure/Density`; the guard
`RoeSoundSpeed2 <= 0.0` of the early exit holds exactly when `Gamma*Pressure/Density <= 0`, so
`ComputeResidual` returns the cleared buffers in that case and the full computation otherwise,
and then `RoeSoundSpeed` equals the one-sided `SoundSpeed`. The identities hold for every
`Gamma`, in particular for `Gamma != 1`. -/
theorem roe_average_consistency (ext : Externals K) (c : Config K)
    (FinalizeResidual : RoeState K → ResidualType K → ResidualType K)
    (inp : FaceInputs K) (old : Scratch K) (hs : IsSqrt ext.sqrt)
    (hU : inp.U_j = inp.U_i) (hk : inp.turb_ke_j = inp.turb_ke_i) (hρ : 0 < inp.U_i 0) :
    (roeAverage ext c (extractPrimitive ext c inp.U_i inp.turb_ke_i)
      (extractPrimitive ext c inp.U_j inp.turb_ke_j)).R = 1 ∧
    (roeAverage ext c (extractPrimitive ext c inp.U_i inp.turb_ke_i)
      (extractPrimitive ext c inp.U_j inp.turb_ke_j)).RoeDensity
        = (extractPrimitive ext c inp.U_i inp.turb_ke_i).Density ∧
    (∀ iDim, (roeAverage ext c (extractPrimitive ext c inp.U_i inp.turb_ke_i)
      (extractPrimitive ext c inp.U_j inp.turb_ke_j)).RoeVelocity iDim
        = (extractPrimitive ext c inp.U_i inp.turb_ke_i).Velocity iDim) ∧
    (roeAverage ext c (extractPrimitive ext c inp.U_i inp.turb_ke_i)
      (extractPrimitive ext c inp.U_j inp.turb_ke_j)).RoeEnthalpy
        = (extractPrimitive ext c inp.U_i inp.turb_ke_i).Enthalpy ∧
    (roeAverage ext c (extractPrimitive ext c inp.U_i inp.turb_ke_i)
      (extractPrimitive ext c inp.U_j inp.turb_ke_j)).RoeTke
        = (extractPrimitive ext c inp.U_i inp.turb_ke_i).turb_ke ∧
    (roeAverage ext c (extractPrimitive ext c inp.U_i inp.turb_ke_i)
      (extractPrimitive ext c inp.U_j inp.turb_ke_j)).RoeSoundSpeed2
        = c.Gamma * (extractPrimitive ext c inp.U_i inp.turb_ke_i).Pressure
            / (extractPrimitive ext c inp.U_i inp.turb_ke_i).Density ∧
    ((roeAverage ext c (extractPrimitive ext c inp.U_i inp.turb_ke_i)
      (extractPrimitive ext c inp.U_j inp.turb_ke_j)).RoeSoundSpeed2 ≤ 0.0
        ↔ c.Gamma * (extractPrimitive ext c inp.U_i inp.turb_ke_i).Pressure
            / (extractPrimitive ext c inp.U_i inp.turb_ke_i).Density ≤ 0) ∧
    ComputeResidual ext c FinalizeResidual inp old
      = (if c.Gamma * (extractPrimitive ext c inp.U_i inp.turb_ke_i).Pressure
            / (extractPrimitive ext c inp.U_i inp.turb_ke_i).Density ≤ 0
          then clearResidual c old.res
          else musclStep c inp (gridMotionCorrection c (roeState ext c inp old)
            (afterFinalize ext c FinalizeResidual inp old))) ∧
    (0 < c.Gamma * (extractPrimitive ext c inp.U_i inp.turb_ke_i).Pressure
            / (extractPrimitive ext c inp.U_i inp.turb_ke_i).Density →
      (roeState ext c inp old).RoeSoundSpeed
        = (extractPrimitive ext c inp.U_i inp.turb_ke_i).SoundSpeed) := by
  obtain ⟨h1, h2, h3, h4, h5, h6⟩ := roeAverage_self ext c inp.U_i inp.turb_ke_i hs hρ
  have h0 : (0.0 : K) = 0 := by norm_num
  refine ⟨?_, ?_, ?_, ?_, ?_, ?_, ?_, ?_, ?_⟩
  · rw [hU, hk]; exact h1
  · rw [hU, hk]; exact h2
  · intro iDim; rw [hU, hk]; exact congrFun h3 iDim
  · rw [hU, hk]; exact h4
  · rw [hU, hk]; exact h5
  · rw [hU, hk]; exact h6
  · rw [hU, hk, h6, h0]
  · unfold ComputeResidual
    simp only
    rw [hU, hk, h6, h0]
  · intro hpos
    show ext.sqrt (roeAverage ext c (extractPrimitive ext c inp.U_i inp.turb_ke_i)
      (extractPrimitive ext c inp.U_j inp.turb_ke_j)).RoeSoundSpeed2
        = ext.sqrt |(extractPrimitive ext c inp.U_i inp.turb_ke_i).Pressure * c.Gamma
            / (extractPrimitive ext c inp.U_i inp.turb_ke_i).Density|
    rw [hU, hk, h6, mul_comm c.Gamma, abs_of_pos]
    rw [mul_comm]; exact hpos

/-- C28, at a concrete input: the state `(1, 0, 0, 5/2)` on both sides of the face has
`R = 1` and `RoeSoundSpeed2 = Gamma*Pressure/Density`. -/
theorem roe_average_consistency_witness :
    IsSqrt (constExternals Real.sqrt).sqrt ∧
    (exampleInputs (state2D (1 : ℝ) 0 (5 / 2)) (state2D 1 0 (5 / 2)) 0).U_j
      = (exampleInputs (state2D (1 : ℝ) 0 (5 / 2)) (state2D 1 0 (5 / 2)) 0).U_i ∧
    (0 : ℝ) < (exampleInputs (state2D (1 : ℝ) 0 (5 / 2)) (state2D 1 0 (5 / 2)) 0).U_i 0 ∧
    (roeAverage (constExternals Real.sqrt) (exampleConfig false false false)
      (extractPrimitive (constExternals Real.sqrt) (exampleConfig false false false)
        (exampleInputs (state2D (1 : ℝ) 0 (5 / 2)) (state2D 1 0 (5 / 2)) 0).U_i
        (exampleInputs (state2D (1 : ℝ) 0 (5 / 2)) (state2D 1 0 (5 / 2)) 0).turb_ke_i)
      (extractPrimitive (constExternals Real.sqrt) (exampleConfig false false false)
        (exampleInputs (state2D (1 : ℝ) 0 (5 / 2)) (state2D 1 0 (5 / 2)) 0).U_j
        (exampleInputs (state2D (1 : ℝ) 0 (5 / 2)) (state2D 1 0 (5 / 2)) 0).turb_ke_j)).R = 1 := by
  have hρ : (0 : ℝ) < (exampleInputs (state2D (1 : ℝ) 0 (5 / 2)) (state2D 1 0 (5 / 2)) 0).U_i 0 := by
    norm_num [exampleInputs, state2D]
  exact ⟨isSqrt_real, rfl, hρ,
    (roe_average_consistency (constExternals Real.sqrt) (exampleConfig false false false)
      (fun _ r => r) (exampleInputs (state2D (1 : ℝ) 0 (5 / 2)) (state2D 1 0 (5 / 2)) 0)
      exampleScratch isSqrt_real rfl rfl hρ).1⟩

end RoeAverageConsistency

/-! ## Symmetry of the entropy-fixed eigenvalues -/

section EigenSymmetry

/-- The array `Lambda` seen by `FinalizeResidual` is the one of `roeEigen`. -/
theorem roeState_Lambda_eq (ext : Externals K) (c : Config K) (inp : FaceInputs K)
    (old : Scratch K) : (roeState ext c inp old).Lambda = (roeEigen ext c inp old).Lambda :=
  rfl

/-- On a static grid with `nVar = nDim + 2`, the array `Epsilon` entry by entry. -/
theorem roeEigen_Epsilon_static (ext : Externals K) (c : Config K) (inp : FaceInputs K)
    (old : Scratch K) (k : Nat) (hd : c.dynamic_grid = false) (hn : c.nVar = c.nDim + 2)
    (hk : k < c.nPrimVarTot) :
    (roeEigen ext c inp old).Epsilon k
      = if k < c.nDim then
          HartenHymanEpsilon
            (projVel c.nDim (roeState ext c inp old).roe.RoeVelocity (roeState ext c inp old).UnitNormal)
            (projVel c.nDim (roeState ext c inp old).pi.Velocity (roeState ext c inp old).UnitNormal)
            (projVel c.nDim (roeState ext c inp old).pj.Velocity (roeState ext c inp old).UnitNormal)
        else if k = c.nDim then
          HartenHymanEpsilon
            (projVel c.nDim (roeState ext c inp old).roe.RoeVelocity (roeState ext c inp old).UnitNormal
              + (roeState ext c inp old).RoeSoundSpeed)
            (projVel c.nDim (roeState ext c inp old).pi.Velocity (roeState ext c inp old).UnitNormal
              + (roeState ext c inp old).pi.SoundSpeed)
            (projVel c.nDim (roeState ext c inp old).pj.Velocity (roeState ext c inp old).UnitNormal
              + (roeState ext c inp old).pj.SoundSpeed)
        else if k = c.nDim + 1 then
          HartenHymanEpsilon
            (projVel c.nDim (roeState ext c inp old).roe.RoeVelocity (roeState ext c inp old).UnitNormal
              - (roeState ext c inp old).RoeSoundSpeed)
            (projVel c.nDim (roeState ext c inp old).pi.Velocity (roeState ext c inp old).UnitNormal
              - (roeState ext c inp old).pi.SoundSpeed)
            (projVel c.nDim (roeState ext c inp old).pj.Velocity (roeState ext c inp old).UnitNormal
              - (roeState ext c inp old).pj.SoundSpeed)
        else
          HartenHymanEpsilon
            (projVel c.nDim (roeState ext c inp old).roe.RoeVelocity (roeState ext c inp old).UnitNormal)
            (projVel c.nDim (roeState ext c inp old).pi.Velocity (roeState ext c inp old).UnitNormal)
            (projVel c.nDim (roeState ext c inp old).pj.Velocity (roeState ext c inp old).UnitNormal) := by
  have hk2 : k < c.nDim + 2 + (if c.tkeNeeded then 1 else 0) := by
    unfold Config.nPrimVarTot at hk
    rw [hn] at hk
    exact hk
  have key := (rawEigenvalues_apply c.nDim c.tkeNeeded
    (projVel c.nDim (roeState ext c inp old).roe.RoeVelocity (roeState ext c inp old).UnitNormal)
    (projVel c.nDim (roeState ext c inp old).pi.Velocity (roeState ext c inp old).UnitNormal)
    (projVel c.nDim (roeState ext c inp old).pj.Velocity (roeState ext c inp old).UnitNormal)
    (roeState ext c inp old).RoeSoundSpeed (roeState ext c inp old).pi.SoundSpeed
    (roeState ext c inp old).pj.SoundSpeed old.eig k hk2).2
  rw [← key]
  unfold roeEigen roeState correctEigenvalues
  simp only [adjustedProjVel, hd, hn, Bool.false_eq_true, if_false]

/-- The array `Epsilon` for the exchanged inputs: the shear (and turbulence) entries are those
of the given inputs and the two acoustic entries are exchanged. -/
theorem roeEigen_Epsilon_swap (ext : Externals K) (c : Config K) (inp : FaceInputs K)
    (old old2 : Scratch K) (hs : IsSqrt ext.sqrt) (hri : 0 < inp.U_i 0) (hrj : 0 < inp.U_j 0)
    (hd : c.dynamic_grid = false) (hn : c.nVar = c.nDim + 2) (k : Nat)
    (hk : k < c.nPrimVarTot) :
    (roeEigen ext c (swapInputs inp) old2).Epsilon k
      = if k = c.nDim then (roeEigen ext c inp old).Epsilon (c.nDim + 1)
        else if k = c.nDim + 1 then (roeEigen ext c inp old).Epsilon c.nDim
        else (roeEigen ext c inp old).Epsilon k := by
  obtain ⟨hpi, hpj, _, hN, _, hv, _, _, _, hcs⟩ := roeState_swap ext c inp old old2 hs hri hrj
  have hnp : c.nDim + 1 < c.nPrimVarTot := by
    unfold Config.nPrimVarTot; omega
  have hnp0 : c.nDim < c.nPrimVarTot := by
    unfold Config.nPrimVarTot; omega
  have e1 : ∀ a b : K, -a + b = -(a - b) := fun a b => by ring
  have e2 : ∀ a b : K, -a - b = -(a + b) := fun a b => by ring
  rw [roeEigen_Epsilon_static ext c (swapInputs inp) old2 k hd hn hk,
    roeEigen_Epsilon_static ext c inp old k hd hn hk,
    roeEigen_Epsilon_static ext c inp old (c.nDim + 1) hd hn hnp,
    roeEigen_Epsilon_static ext c inp old c.nDim hd hn hnp0]
  rw [hpi, hpj, hN, hv, hcs]
  simp only [projVel_neg, e1, e2, HartenHymanEpsilon_neg]
  by_cases k0 : k < c.nDim
  · have a1 : k ≠ c.nDim := by omega
    have a2 : k ≠ c.nDim + 1 := by omega
    simp [k0, a1, a2]
  · by_cases k1 : k = c.nDim
    · simp [k1]
    · by_cases k2 : k = c.nDim + 1
      · simp [k2]
      · simp [k0, k1, k2]

/-- C30. Symmetry of the entropy-fixed eigenvalues in `CUpwRoeBase_Flow::ComputeResidual`, with
`sqrt` the square root and `nVar = nDim + 2`: on a static grid, for positive densities and a
positive `RoeSoundSpeed2`, exchanging the left and right states and negating the face normal
leaves each corrected shear eigenvalue `Lambda[0..nDim-1]` and the turbulence eigenvalue
`Lambda[nVar]` unchanged and exchanges the corrected acoustic eigenvalues `Lambda[nVar-2]` and
`Lambda[nVar-1]`; the entries of `Epsilon` behave in the same way. The previous contents of
the buffers (`old`, `old2`) play no role. -/
theorem entropy_fixed_eigenvalues_symmetry (ext : Externals K) (c : Config K)
    (inp : FaceInputs K) (old old2 : Scratch K) (hs : IsSqrt ext.sqrt)
    (hri : 0 < inp.U_i 0) (hrj : 0 < inp.U_j 0)
    (hpos : 0 < (roeAverage ext c (extractPrimitive ext c inp.U_i inp.turb_ke_i)
      (extractPrimitive ext c inp.U_j inp.turb_ke_j)).RoeSoundSpeed2)
    (hd : c.dynamic_grid = false) (hn : c.nVar = c.nDim + 2) (k : Nat)
    (hk : k < c.nPrimVarTot) :
    (roeEigen ext c (swapInputs inp) old2).Lambda k
      = (if k = c.nVar - 2 then (roeEigen ext c inp old).Lambda (c.nVar - 1)
        else if k = c.nVar - 1 then (roeEigen ext c inp old).Lambda (c.nVar - 2)
        else (roeEigen ext c inp old).Lambda k) ∧
    (roeEigen ext c (swapInputs inp) old2).Epsilon k
      = (if k = c.nVar - 2 then (roeEigen ext c inp old).Epsilon (c.nVar - 1)
        else if k = c.nVar - 1 then (roeEigen ext c inp old).Epsilon (c.nVar - 2)
        else (roeEigen ext c inp old).Epsilon k) := by
  have h2 : c.nVar - 2 = c.nDim := by omega
  have h1 : c.nVar - 1 = c.nDim + 1 := by omega
  rw [h2, h1]
  exact ⟨roeState_Lambda_swap ext c inp old old2 hs hri hrj hd hn k hk,
    roeEigen_Epsilon_swap ext c inp old old2 hs hri hrj hd hn k hk⟩

/-- C30, at a concrete input: the states `(1, 0, 0, 25/14)` and `(1/4, 0, 0, 25/56)` across a
face with normal `(1, 0)` on a static grid, over the reals with the real square root; the
entry `nVar - 2 = 2` for the exchanged inputs is the entry `nVar - 1 = 3` of the given ones. -/
theorem entropy_fixed_eigenvalues_symmetry_witness :
    IsSqrt (constExternals Real.sqrt).sqrt ∧
    (0 : ℝ) < (exampleInputs (state2D 1 0 (25 / 14)) (state2D (1 / 4) 0 (25 / 56)) (0 : ℝ)).U_i 0 ∧
    (0 : ℝ) < (exampleInputs (state2D 1 0 (25 / 14)) (state2D (1 / 4) 0 (25 / 56)) (0 : ℝ)).U_j 0 ∧
    0 < (roeAverage (constExternals Real.sqrt) (exampleConfig false false false)
      (extractPrimitive (constExternals Real.sqrt) (exampleConfig false false false)
        (exampleInputs (state2D 1 0 (25 / 14)) (state2D (1 / 4) 0 (25 / 56)) (0 : ℝ)).U_i
        (exampleInputs (state2D 1 0 (25 / 14)) (state2D (1 / 4) 0 (25 / 56)) (0 : ℝ)).turb_ke_i)
      (extractPrimitive (constExternals Real.sqrt) (exampleConfig false false false)
        (exampleInputs (state2D 1 0 (25 / 14)) (state2D (1 / 4) 0 (25 / 56)) (0 : ℝ)).U_j
        (exampleInputs (state2D 1 0 (25 / 14)) (state2D (1 / 4) 0 (25 / 56)) (0 : ℝ)).turb_ke_j)).RoeSoundSpeed2 ∧
    (roeEigen (constExternals Real.sqrt) (exampleConfig false false false)
      (swapInputs (exampleInputs (state2D 1 0 (25 / 14)) (state2D (1 / 4) 0 (25 / 56)) (0 : ℝ)))
      exampleScratch).Lambda 2
      = (roeEigen (constExternals Real.sqrt) (exampleConfig false false false)
        (exampleInputs (state2D 1 0 (25 / 14)) (state2D (1 / 4) 0 (25 / 56)) (0 : ℝ))
        exampleScratch).Lambda 3 ∧
    (roeEigen (constExternals Real.sqrt) (exampleConfig false false false)
      (swapInputs (exampleInputs (state2D 1 0 (25 / 14)) (state2D (1 / 4) 0 (25 / 56)) (0 : ℝ)))
      exampleScratch).Epsilon 2
      = (roeEigen (constExternals Real.sqrt) (exampleConfig false false false)
        (exampleInputs (state2D 1 0 (25 / 14)) (state2D (1 / 4) 0 (25 / 56)) (0 : ℝ))
        exampleScratch).Epsilon 3 := by
  have hi : (0 : ℝ) < (exampleInputs (state2D 1 0 (25 / 14)) (state2D (1 / 4) 0 (25 / 56)) (0 : ℝ)).U_i 0 := by
    norm_num [exampleInputs, state2D]
  have hj : (0 : ℝ) < (exampleInputs (state2D 1 0 (25 / 14)) (state2D (1 / 4) 0 (25 / 56)) (0 : ℝ)).U_j 0 := by
    norm_num [exampleInputs, state2D]
  have hpos : 0 < (roeAverage (constExternals Real.sqrt) (exampleConfig false false false)
      (extractPrimitive (constExternals Real.sqrt) (exampleConfig false false false)
        (exampleInputs (state2D 1 0 (25 / 14)) (state2D (1 / 4) 0 (25 / 56)) (0 : ℝ)).U_i
        (exampleInputs (state2D 1 0 (25 / 14)) (state2D (1 / 4) 0 (25 / 56)) (0 : ℝ)).turb_ke_i)
      (extractPrimitive (constExternals Real.sqrt) (exampleConfig false false false)
        (exampleInputs (state2D 1 0 (25 / 14)) (state2D (1 / 4) 0 (25 / 56)) (0 : ℝ)).U_j
        (exampleInputs (state2D 1 0 (25 / 14)) (state2D (1 / 4) 0 (25 / 56)) (0 : ℝ)).turb_ke_j)).RoeSoundSpeed2 := by
    simp [roeAverage, extractPrimitive, exampleInputs, exampleConfig, constExternals, state2D,
      Config.Gamma_Minus_One, sumLoop, forLoop]
    positivity
  have t := entropy_fixed_eigenvalues_symmetry (constExternals Real.sqrt)
    (exampleConfig false false false)
    (exampleInputs (state2D 1 0 (25 / 14)) (state2D (1 / 4) 0 (25 / 56)) (0 : ℝ))
    exampleScratch exampleScratch isSqrt_real hi hj hpos rfl rfl 2 (by decide)
  exact ⟨isSqrt_real, hi, hj, hpos, t.1, t.2⟩

end EigenSymmetry

/-! ## The wave amplitudes of L2Roe and of the low-Mach Roe scheme -/

section WaveScaling

theorem l2roe_FinalizeResidual_eq (ext : Externals K) (c : Config K) (s : RoeState K)
    (res : ResidualType K) :
    CUpwL2Roe_Flow.FinalizeResidual ext c s res
      = lowMachFinalize ext c s (CUpwL2Roe_Flow.delta_wave ext c s) res :=
  rfl

theorem lmroe_FinalizeResidual_eq (ext : Externals K) (c : Config K) (s : RoeState K)
    (res : ResidualType K) :
    CUpwLMRoe_Flow.FinalizeResidual ext c s res
      = lowMachFinalize ext c s (CUpwLMRoe_Flow.delta_wave ext c s) res :=
  rfl

/-- The wave amplitudes entry by entry, in two and in three dimensions. -/
theorem lowMachDeltaWave_apply (c : Config K) (s : RoeState K) (z : K) (shear : K → K)
    (hdim : c.nDim = 2 ∨ c.nDim = 3) :
    lowMachDeltaWave c s z shear 0
      = s.pj.Density - s.pi.Density - (s.pj.Pressure - s.pi.Pressure) / s.roe.RoeSoundSpeed2 ∧
    (∀ k, 1 ≤ k → k < c.nDim → lowMachDeltaWave c s z shear k
      = shear (if c.nDim = 2 ∨ k = 2
          then s.UnitNormal 1 * delta_vel s 0 - s.UnitNormal 0 * delta_vel s 1
          else s.UnitNormal 0 * delta_vel s 2 - s.UnitNormal 2 * delta_vel s 0)) ∧
    lowMachDeltaWave c s z shear c.nDim
      = projVel c.nDim (delta_vel s) s.UnitNormal * z
        + (s.pj.Pressure - s.pi.Pressure) / (s.roe.RoeDensity * s.RoeSoundSpeed) ∧
    lowMachDeltaWave c s z shear (c.nDim + 1)
      = -(projVel c.nDim (delta_vel s) s.UnitNormal * z)
        + (s.pj.Pressure - s.pi.Pressure) / (s.roe.RoeDensity * s.RoeSoundSpeed) := by
  rcases hdim with h | h
  · refine ⟨?_, ?_, ?_, ?_⟩
    · simp [lowMachDeltaWave, h, setV]
    · intro k h1 h2
      have hk : k = 1 := by omega
      simp [lowMachDeltaWave, h, setV, hk]
    · simp [lowMachDeltaWave, h, setV, proj_delta_vel, projVel]
    · simp [lowMachDeltaWave, h, setV, proj_delta_vel, projVel]
  · refine ⟨?_, ?_, ?_, ?_⟩
    · simp [lowMachDeltaWave, h, setV]
    · intro k h1 h2
      have hk : k = 1 ∨ k = 2 := by omega
      rcases hk with hk | hk <;> simp [lowMachDeltaWave, h, setV, hk]
    · simp [lowMachDeltaWave, h, setV, proj_delta_vel, projVel]
    · simp [lowMachDeltaWave, h, setV, proj_delta_vel, projVel]

/-- The one-sided data of `obliqueInputs`. -/
theorem oblique_sides :
    ((obliqueState Real.sqrt).pi.Density = 1 ∧ (obliqueState Real.sqrt).pj.Density = 1 / 4) ∧
    ((obliqueState Real.sqrt).pi.Pressure = 5 / 7 ∧
      (obliqueState Real.sqrt).pj.Pressure = 5 / 7) ∧
    (delta_vel (obliqueState Real.sqrt) 0 = 1 / 2 ∧ delta_vel (obliqueState Real.sqrt) 1 = 0) ∧
    ((obliqueState Real.sqrt).UnitNormal 0 = 3 / 5 ∧
      (obliqueState Real.sqrt).UnitNormal 1 = 4 / 5) := by
  have hA : Real.sqrt ((3 : ℝ) / 5 * (3 / 5) + 4 / 5 * (4 / 5)) = 1 :=
    isSqrt_real.unique (by norm_num) (by norm_num)
  refine ⟨⟨?_, ?_⟩, ⟨?_, ?_⟩, ⟨?_, ?_⟩, ⟨?_, ?_⟩⟩
  · simp [obliqueState, obliqueInputs, roeState, extractPrimitive, exampleInputs, state2D]
  · simp [obliqueState, obliqueInputs, roeState, extractPrimitive, exampleInputs, state2D]
  · simp [obliqueState, obliqueInputs, roeState, extractPrimitive, exampleInputs,
      exampleConfig, state2D, Config.Gamma_Minus_One, sumLoop, forLoop]
    norm_num
  · simp [obliqueState, obliqueInputs, roeState, extractPrimitive, exampleInputs,
      exampleConfig, state2D, Config.Gamma_Minus_One, sumLoop, forLoop]
    norm_num
  · simp [delta_vel, obliqueState, obliqueInputs, roeState, extractPrimitive, exampleInputs,
      state2D]
    norm_num
  · simp [delta_vel, obliqueState, obliqueInputs, roeState, extractPrimitive, exampleInputs,
      state2D]
  · simp [obliqueState, obliqueInputs, roeState, UnitNormal, Area, exampleInputs,
      exampleConfig, constExternals, sumLoop, forLoop, hA]
  · simp [obliqueState, obliqueInputs, roeState, UnitNormal, Area, exampleInputs,
      exampleConfig, constExternals, sumLoop, forLoop, hA]

/-- The clamped Mach number of `obliqueInputs` is `1/4`. -/
theorem oblique_zeta :
    stateZeta (constExternals Real.sqrt) (exampleConfig false false false)
      (obliqueState Real.sqrt) = 1 / 4 := by
  have hM : Real.sqrt ((16 : ℝ)⁻¹) = 1 / 4 :=
    isSqrt_real.unique (by norm_num) (by norm_num)
  have hi : machNumber Real.sqrt 2 (obliqueState Real.sqrt).pi.Velocity
      (obliqueState Real.sqrt).pi.Pressure 1.4 (obliqueState Real.sqrt).pi.Density = 0 := by
    simp [machNumber, obliqueState, obliqueInputs, roeState, extractPrimitive, exampleInputs,
      state2D, sumLoop, forLoop]
  have hj : machNumber Real.sqrt 2 (obliqueState Real.sqrt).pj.Velocity
      (obliqueState Real.sqrt).pj.Pressure 1.4 (obliqueState Real.sqrt).pj.Density = 1 / 4 := by
    have e : sumLoop 2 (fun iDim => (obliqueState Real.sqrt).pj.Velocity iDim
          * (obliqueState Real.sqrt).pj.Velocity iDim)
        / |(obliqueState Real.sqrt).pj.Pressure * 1.4 / (obliqueState Real.sqrt).pj.Density|
        = (16 : ℝ)⁻¹ := by
      rw [oblique_sides.2.1.2, oblique_sides.1.2]
      have a : |(5 : ℝ) / 7 * 1.4 / (1 / 4)| = 4 := by
        rw [abs_of_pos (by norm_num)]
        norm_num
      rw [a]
      simp [obliqueState, obliqueInputs, roeState, extractPrimitive, exampleInputs,
        state2D, sumLoop, forLoop]
      norm_num
    unfold machNumber
    rw [e, hM]
  show zeta (machNumber Real.sqrt 2 (obliqueState Real.sqrt).pi.Velocity
      (obliqueState Real.sqrt).pi.Pressure 1.4 (obliqueState Real.sqrt).pi.Density)
    (machNumber Real.sqrt 2 (obliqueState Real.sqrt).pj.Velocity
      (obliqueState Real.sqrt).pj.Pressure 1.4 (obliqueState Real.sqrt).pj.Density) = 1 / 4
  rw [hi, hj]
  unfold zeta
  norm_num

/-- The wave amplitudes of `obliqueInputs` for a scaling `z` of the projected velocity jump
and a treatment `shear` of the shear entry. -/
theorem oblique_waves (z : ℝ) (shear : ℝ → ℝ) :
    lowMachDeltaWave (exampleConfig false false false) (obliqueState Real.sqrt) z shear 0
      = -(3 / 4) ∧
    lowMachDeltaWave (exampleConfig false false false) (obliqueState Real.sqrt) z shear 1
      = shear (2 / 5) ∧
    lowMachDeltaWave (exampleConfig false false false) (obliqueState Real.sqrt) z shear 2
      = 3 / 10 * z ∧
    lowMachDeltaWave (exampleConfig false false false) (obliqueState Real.sqrt) z shear 3
      = -(3 / 10 * z) := by
  obtain ⟨⟨r1, r2⟩, ⟨p1, p2⟩, ⟨d0, d1⟩, ⟨n0, n1⟩⟩ := oblique_sides
  obtain ⟨w0, w1, w2, w3⟩ := lowMachDeltaWave_apply (exampleConfig false false false)
    (obliqueState Real.sqrt) z shear (Or.inl rfl)
  have hp : projVel 2 (delta_vel (obliqueState Real.sqrt)) (obliqueState Real.sqrt).UnitNormal
      = 3 / 10 := by
    simp only [projVel, sumLoop, forLoop]
    rw [d0, d1, n0, n1]
    norm_num
  have e2 : (exampleConfig (K := ℝ) false false false).nDim = 2 := rfl
  refine ⟨?_, ?_, ?_, ?_⟩
  · rw [w0, r1, r2, p1, p2]
    norm_num
  · rw [w1 1 (le_refl 1) (by decide), d0, d1, n0, n1, if_pos (Or.inl e2)]
    norm_num
  · rw [e2] at w2
    rw [w2, hp, p1, p2]
    norm_num
  · rw [e2] at w3
    rw [w3, hp, p1, p2]
    norm_num

/-- C21, as the code has it: in `CUpwLMRoe_Flow::FinalizeResidual`, in two and in three
dimensions, the entropy-wave amplitude `delta_wave[0]` and every shear-wave amplitude are the
same as they would be with `zeta = 1`; `zeta` multiplies the projected velocity jump inside the
two acoustic amplitudes, which are `zeta*proj_delta_vel + delta_p/(RoeDensity*RoeSoundSpeed)`
and `-zeta*proj_delta_vel + delta_p/(RoeDensity*RoeSoundSpeed)`. -/
theorem lmroe_wave_scaling (ext : Externals K) (c : Config K) (s : RoeState K)
    (hdim : c.nDim = 2 ∨ c.nDim = 3) :
    CUpwLMRoe_Flow.delta_wave ext c s 0 = lowMachDeltaWave c s 1 (fun a => a) 0 ∧
    (∀ k, 1 ≤ k → k < c.nDim →
      CUpwLMRoe_Flow.delta_wave ext c s k = lowMachDeltaWave c s 1 (fun a => a) k) ∧
    CUpwLMRoe_Flow.delta_wave ext c s c.nDim
      = stateZeta ext c s * projVel c.nDim (delta_vel s) s.UnitNormal
        + (s.pj.Pressure - s.pi.Pressure) / (s.roe.RoeDensity * s.RoeSoundSpeed) ∧
    CUpwLMRoe_Flow.delta_wave ext c s (c.nDim + 1)
      = -(stateZeta ext c s * projVel c.nDim (delta_vel s) s.UnitNormal)
        + (s.pj.Pressure - s.pi.Pressure) / (s.roe.RoeDensity * s.RoeSoundSpeed) ∧
    lowMachDeltaWave c s 1 (fun a => a) c.nDim
      = projVel c.nDim (delta_vel s) s.UnitNormal
        + (s.pj.Pressure - s.pi.Pressure) / (s.roe.RoeDensity * s.RoeSoundSpeed) ∧
    lowMachDeltaWave c s 1 (fun a => a) (c.nDim + 1)
      = -projVel c.nDim (delta_vel s) s.UnitNormal
        + (s.pj.Pressure - s.pi.Pressure) / (s.roe.RoeDensity * s.RoeSoundSpeed) := by
  obtain ⟨a0, a1, a2, a3⟩ := lowMachDeltaWave_apply c s (stateZeta ext c s) (fun a => a) hdim
  obtain ⟨b0, b1, b2, b3⟩ := lowMachDeltaWave_apply c s 1 (fun a => a) hdim
  unfold CUpwLMRoe_Flow.delta_wave
  refine ⟨?_, ?_, ?_, ?_, ?_, ?_⟩
  · rw [a0, b0]
  · intro k h1 h2
    rw [a1 k h1 h2, b1 k h1 h2]
  · rw [a2, mul_comm]
  · rw [a3, mul_comm]
  · rw [b2, mul_one]
  · rw [b3, mul_one]

/-- C21, at a concrete input: `obliqueInputs` in two dimensions, over the reals with the real
square root. -/
theorem lmroe_wave_scaling_witness :
    ((exampleConfig (K := ℝ) false false false).nDim = 2
      ∨ (exampleConfig (K := ℝ) false false false).nDim = 3) ∧
    CUpwLMRoe_Flow.delta_wave (constExternals Real.sqrt) (exampleConfig false false false)
        (obliqueState Real.sqrt) 0
      = lowMachDeltaWave (exampleConfig false false false) (obliqueState Real.sqrt) 1
          (fun a => a) 0 :=
  ⟨Or.inl rfl, (lmroe_wave_scaling (constExternals Real.sqrt) (exampleConfig false false false)
    (obliqueState Real.sqrt) (Or.inl rfl)).1⟩

/-- C21 does not hold as stated: for `obliqueInputs` (`zeta = 1/4`) the shear amplitude
`delta_wave[1]` of `CUpwLMRoe_Flow::FinalizeResidual` is `2/5`, its value for `zeta = 1` and not
`zeta` times it, while the acoustic amplitudes `delta_wave[2]`, `delta_wave[3]` are `3/40`
and `-3/40` instead of their values `3/10` and `-3/10` for `zeta = 1`. -/
theorem lmroe_scales_acoustic_not_shear :
    stateZeta (constExternals Real.sqrt) (exampleConfig false false false)
      (obliqueState Real.sqrt) = 1 / 4 ∧
    CUpwLMRoe_Flow.delta_wave (constExternals Real.sqrt) (exampleConfig false false false)
      (obliqueState Real.sqrt) 1 = 2 / 5 ∧
    lowMachDeltaWave (exampleConfig false false false) (obliqueState Real.sqrt) 1
      (fun a => a) 1 = 2 / 5 ∧
    CUpwLMRoe_Flow.delta_wave (constExternals Real.sqrt) (exampleConfig false false false)
      (obliqueState Real.sqrt) 2 = 3 / 40 ∧
    lowMachDeltaWave (exampleConfig false false false) (obliqueState Real.sqrt) 1
      (fun a => a) 2 = 3 / 10 ∧
    CUpwLMRoe_Flow.delta_wave (constExternals Real.sqrt) (exampleConfig false false false)
      (obliqueState Real.sqrt) 3 = -(3 / 40) ∧
    lowMachDeltaWave (exampleConfig false false false) (obliqueState Real.sqrt) 1
      (fun a => a) 3 = -(3 / 10) := by
  obtain ⟨_, a1, a2, a3⟩ := oblique_waves (1 / 4) (fun a => a)
  obtain ⟨_, b1, b2, b3⟩ := oblique_waves 1 (fun a => a)
  unfold CUpwLMRoe_Flow.delta_wave
  rw [oblique_zeta]
  refine ⟨rfl, a1, b1, ?_, ?_, ?_, ?_⟩
  · rw [a2]; norm_num
  · rw [b2]; norm_num
  · rw [a3]; norm_num
  · rw [b3]; norm_num

/-- C22, as the code has it: in `CUpwL2Roe_Flow::FinalizeResidual`, in two and in three
dimensions, every shear-wave amplitude equals `zeta` times its value for `zeta = 1`; the
entropy-wave amplitude `delta_wave[0] = delta_rho - delta_p/RoeSoundSpeed2` carries no factor
`zeta` and equals its value for `zeta = 1`; in the two acoustic amplitudes `zeta` multiplies
the projected velocity jump. -/
theorem l2roe_wave_scaling (ext : Externals K) (c : Config K) (s : RoeState K)
    (hdim : c.nDim = 2 ∨ c.nDim = 3) :
    (∀ k, 1 ≤ k → k < c.nDim →
      CUpwL2Roe_Flow.delta_wave ext c s k
        = stateZeta ext c s * lowMachDeltaWave c s 1 (fun a => a * 1) k) ∧
    CUpwL2Roe_Flow.delta_wave ext c s 0 = lowMachDeltaWave c s 1 (fun a => a * 1) 0 ∧
    CUpwL2Roe_Flow.delta_wave ext c s 0
      = s.pj.Density - s.pi.Density - (s.pj.Pressure - s.pi.Pressure) / s.roe.RoeSoundSpeed2 ∧
    CUpwL2Roe_Flow.delta_wave ext c s c.nDim
      = stateZeta ext c s * projVel c.nDim (delta_vel s) s.UnitNormal
        + (s.pj.Pressure - s.pi.Pressure) / (s.roe.RoeDensity * s.RoeSoundSpeed) ∧
    CUpwL2Roe_Flow.delta_wave ext c s (c.nDim + 1)
      = -(stateZeta ext c s * projVel c.nDim (delta_vel s) s.UnitNormal)
        + (s.pj.Pressure - s.pi.Pressure) / (s.roe.RoeDensity * s.RoeSoundSpeed) := by
  obtain ⟨a0, a1, a2, a3⟩ := lowMachDeltaWave_apply c s (stateZeta ext c s)
    (fun a => a * stateZeta ext c s) hdim
  obtain ⟨b0, b1, _, _⟩ := lowMachDeltaWave_apply c s 1 (fun a => a * 1) hdim
  unfold CUpwL2Roe_Flow.delta_wave
  refine ⟨?_, ?_, a0, ?_, ?_⟩
  · intro k h1 h2
    rw [a1 k h1 h2, b1 k h1 h2, mul_one, mul_comm]
  · rw [a0, b0]
  · rw [a2, mul_comm]
  · rw [a3, mul_comm]

/-- C22, at a concrete input: `obliqueInputs` in two dimensions, over the reals with the real
square root. -/
theorem l2roe_wave_scaling_witness :
    ((exampleConfig (K := ℝ) false false false).nDim = 2
      ∨ (exampleConfig (K := ℝ) false false false).nDim = 3) ∧
    CUpwL2Roe_Flow.delta_wave (constExternals Real.sqrt) (exampleConfig false false false)
        (obliqueState Real.sqrt) 0
      = lowMachDeltaWave (exampleConfig false false false) (obliqueState Real.sqrt) 1
          (fun a => a * 1) 0 :=
  ⟨Or.inl rfl, (l2roe_wave_scaling (constExternals Real.sqrt) (exampleConfig false false false)
    (obliqueState Real.sqrt) (Or.inl rfl)).2.1⟩

/-- C22 does not hold as stated: for `obliqueInputs` (`zeta = 1/4`) the entropy-wave amplitude
`delta_wave[0]` of `CUpwL2Roe_Flow::FinalizeResidual` is `-3/4`, which is its value for
`zeta = 1` and not `zeta` times that value (`-3/16`). -/
theorem l2roe_entropy_wave_not_scaled :
    stateZeta (constExternals Real.sqrt) (exampleConfig false false false)
      (obliqueState Real.sqrt) = 1 / 4 ∧
    CUpwL2Roe_Flow.delta_wave (constExternals Real.sqrt) (exampleConfig false false false)
      (obliqueState Real.sqrt) 0 = -(3 / 4) ∧
    lowMachDeltaWave (exampleConfig false false false) (obliqueState Real.sqrt) 1
      (fun a => a * 1) 0 = -(3 / 4) ∧
    CUpwL2Roe_Flow.delta_wave (constExternals Real.sqrt) (exampleConfig false false false)
      (obliqueState Real.sqrt) 0
      ≠ stateZeta (constExternals Real.sqrt) (exampleConfig false false false)
          (obliqueState Real.sqrt)
        * lowMachDeltaWave (exampleConfig false false false) (obliqueState Real.sqrt) 1
            (fun a => a * 1) 0 := by
  have a0 := (oblique_waves (1 / 4) (fun a => a * (1 / 4))).1
  have b0 := (oblique_waves 1 (fun a => a * 1)).1
  unfold CUpwL2Roe_Flow.delta_wave
  rw [oblique_zeta]
  refine ⟨rfl, a0, b0, ?_⟩
  rw [a0, b0]
  norm_num

end WaveScaling

/-! ## The turbulence augmentation of `CUpwRoe_Flow::FinalizeResidual` -/

section TkeAugmentation

/-- The loop `sum_k P[i][k]*Lambda[k]*invP[k][j]` over `k < nVar` on the matrices of the
helpers is the product `modJac`. -/
theorem Proj_ModJac_Tensor_ij_eq_modJac (n : Nat) (P : Nat → Nat → K) (lam : Nat → K)
    (Q : Nat → Nat → K) (i j : Nat) :
    Proj_ModJac_Tensor_ij n P lam Q i j = modJac n P lam Q i j := by
  rw [Proj_ModJac_Tensor_ij_eq_sum, modJac_eq_sum]

/-- Without the turbulence coupling, `CUpwRoe_Flow::FinalizeResidual` uses the matrices of the
helpers as they are. -/
theorem roe_T_plain (ext : Externals K) (c : Config K) (s : RoeState K) (i j : Nat)
    (ht : c.tkeNeeded = false) :
    Proj_ModJac_Tensor_ij c.nPrimVarTot (roeP_Tensor c s) s.Lambda (roeInvP_Tensor ext c s) i j
      = Proj_ModJac_Tensor_ij c.nVar s.P_Tensor s.Lambda
          (ext.GetPMatrix_inv s.roe.RoeDensity s.roe.RoeVelocity s.roe.RoeTke s.RoeSoundSpeed
            s.UnitNormal) i j := by
  unfold roeP_Tensor roeInvP_Tensor Config.nPrimVarTot
  simp only [ht, Bool.false_eq_true, if_false, Nat.add_zero]

/-- C24. Turbulence augmentation in `CUpwRoe_Flow::FinalizeResidual`, with `nVar = nDim + 2`
and the constant `FIVE3` equal to `5/3`: when the turbulent kinetic energy is coupled, the
extra column `P_Tensor[.][nVar]` is zero in every row except the last, where it is
`(Gamma - 5/3)*RoeSqVel/(2*RoeSoundSpeed2)`, and the extra row `invP_Tensor[nVar][.]` is
`-RoeTke`, then `(Gamma - 5/3)*RoeVelocity[d]/(2*RoeSoundSpeed2)` for each `d`, then `0`.
The product `P*|Lambda|*invP` over `nPrimVarTot` terms equals the product of the matrices of
the helpers over `nVar` terms in every row but the last and in the last column, and the
flux entries of density and momentum after `FinalizeResidual` are those obtained with the
coupling switched off. -/
theorem tke_augmentation (ext : Externals K) (c : Config K) (s : RoeState K)
    (res : ResidualType K) (ht : c.tkeNeeded = true) (hn : c.nVar = c.nDim + 2) :
    (∀ i, i < c.nVar - 1 → roeP_Tensor c s i c.nVar = 0) ∧
    roeP_Tensor c s (c.nVar - 1) c.nVar
      = (c.Gamma - 5 / 3) * s.roe.RoeSqVel / (2 * s.roe.RoeSoundSpeed2) ∧
    roeInvP_Tensor ext c s c.nVar 0 = -s.roe.RoeTke ∧
    (∀ d, d < c.nDim → roeInvP_Tensor ext c s c.nVar (d + 1)
      = (c.Gamma - 5 / 3) * s.roe.RoeVelocity d / (2 * s.roe.RoeSoundSpeed2)) ∧
    roeInvP_Tensor ext c s c.nVar (c.nVar - 1) = 0 ∧
    (∀ i j, i < c.nVar - 1 → j < c.nVar →
      Proj_ModJac_Tensor_ij c.nPrimVarTot (roeP_Tensor c s) s.Lambda (roeInvP_Tensor ext c s) i j
        = Proj_ModJac_Tensor_ij c.nVar s.P_Tensor s.Lambda
            (ext.GetPMatrix_inv s.roe.RoeDensity s.roe.RoeVelocity s.roe.RoeTke s.RoeSoundSpeed
              s.UnitNormal) i j) ∧
    (∀ i, i < c.nVar →
      Proj_ModJac_Tensor_ij c.nPrimVarTot (roeP_Tensor c s) s.Lambda (roeInvP_Tensor ext c s)
          i (c.nVar - 1)
        = Proj_ModJac_Tensor_ij c.nVar s.P_Tensor s.Lambda
            (ext.GetPMatrix_inv s.roe.RoeDensity s.roe.RoeVelocity s.roe.RoeTke s.RoeSoundSpeed
              s.UnitNormal) i (c.nVar - 1)) ∧
    (∀ i, i < c.nVar - 1 →
      (CUpwRoe_Flow.FinalizeResidual ext c s res).Flux i
        = (CUpwRoe_Flow.FinalizeResidual ext { c with tkeNeeded := false } s res).Flux i) := by
  have hrow : ∀ i j, i < c.nVar - 1 → j < c.nVar →
      Proj_ModJac_Tensor_ij c.nPrimVarTot (roeP_Tensor c s) s.Lambda (roeInvP_Tensor ext c s) i j
        = Proj_ModJac_Tensor_ij c.nVar s.P_Tensor s.Lambda
            (ext.GetPMatrix_inv s.roe.RoeDensity s.roe.RoeVelocity s.roe.RoeTke s.RoeSoundSpeed
              s.UnitNormal) i j := by
    intro i j hi hj
    have hne : i ≠ c.nVar - 1 := by omega
    rw [roe_T_apply ext c s i j hn (by omega) hj, if_pos ht, Proj_ModJac_Tensor_ij_eq_modJac]
    unfold tkeColumn
    rw [if_neg hne]
    norm_num
  refine ⟨?_, ?_, ?_, ?_, ?_, hrow, ?_, ?_⟩
  · intro i hi
    have hne : i ≠ c.nVar - 1 := by omega
    rw [roeP_Tensor_apply c s i c.nVar (by omega), if_pos ⟨ht, rfl⟩]
    unfold tkeColumn
    rw [if_neg hne]
    norm_num
  · rw [roeP_Tensor_apply c s (c.nVar - 1) c.nVar (by omega), if_pos ⟨ht, rfl⟩]
    unfold tkeColumn FIVE3
    rw [if_pos rfl]
    norm_num
  · rw [roeInvP_Tensor_apply_tke ext c s 0 ht hn (by omega)]
    unfold tkeRow
    have h1 : (0 : Nat) ≠ c.nVar - 1 := by omega
    have h2 : ¬ (1 ≤ 0 ∧ 0 ≤ c.nDim) := by omega
    rw [if_neg h1, if_neg h2]
  · intro d hd
    rw [roeInvP_Tensor_apply_tke ext c s (d + 1) ht hn (by omega)]
    unfold tkeRow FIVE3
    have h1 : d + 1 ≠ c.nVar - 1 := by omega
    have h2 : 1 ≤ d + 1 ∧ d + 1 ≤ c.nDim := by omega
    rw [if_neg h1, if_pos h2, Nat.add_sub_cancel]
    norm_num
  · rw [roeInvP_Tensor_apply_tke ext c s (c.nVar - 1) ht hn (by omega)]
    unfold tkeRow
    rw [if_pos rfl]
    norm_num
  · intro i hi
    rw [roe_T_apply ext c s i (c.nVar - 1) hn hi (by omega), if_pos ht,
      Proj_ModJac_Tensor_ij_eq_modJac]
    unfold tkeRow
    rw [if_pos rfl]
    norm_num
  · intro i hi
    have hi2 : i < c.nVar := by omega
    have hi3 : i < ({ c with tkeNeeded := false } : Config K).nVar := hi2
    rw [CUpwRoe_Flow.FinalizeResidual_Flux, CUpwRoe_Flow.FinalizeResidual_Flux, if_pos hi2,
      if_pos hi3]
    congr 1
    refine Finset.sum_congr rfl (fun j hj => ?_)
    have hj2 : j < c.nVar := Finset.mem_range.mp hj
    rw [hrow i j hi hj2, roe_T_plain ext { c with tkeNeeded := false } s i j rfl]
    rfl

/-- C24, at a concrete input: the two-dimensional configuration with the turbulent kinetic
energy coupled and the state of `tkeJumpInputs`; the extra column vanishes in row 0. -/
theorem tke_augmentation_witness :
    (exampleTkeConfig : Config ℝ).tkeNeeded = true ∧
    (exampleTkeConfig : Config ℝ).nVar = (exampleTkeConfig : Config ℝ).nDim + 2 ∧
    roeP_Tensor exampleTkeConfig (tkeJumpState Real.sqrt) 0 (exampleTkeConfig : Config ℝ).nVar
      = 0 ∧
    roeInvP_Tensor (eulerExternals2D Real.sqrt 0.4) exampleTkeConfig (tkeJumpState Real.sqrt)
      (exampleTkeConfig : Config ℝ).nVar 0 = -(tkeJumpState Real.sqrt).roe.RoeTke :=
  ⟨rfl, rfl,
    (tke_augmentation (eulerExternals2D Real.sqrt 0.4) exampleTkeConfig (tkeJumpState Real.sqrt)
      exampleScratch.res rfl rfl).1 0 (by decide),
    (tke_augmentation (eulerExternals2D Real.sqrt 0.4) exampleTkeConfig (tkeJumpState Real.sqrt)
      exampleScratch.res rfl rfl).2.2.1⟩

end TkeAugmentation

/-! ## The Jacobians of the dissipation step -/

section DissipationJacobians

/-- A double loop whose inner body rewrites the entry `(i, j)` of one of the matrices of the
residual from its previous value. -/
theorem forLoop_matrix_apply (proj : ResidualType K → Nat → Nat → K) (m n : Nat)
    (g : Nat → Nat → K → K) (body : Nat → Nat → ResidualType K → ResidualType K)
    (hbody : ∀ i j r, proj (body i j r) = setM (proj r) i j (g i j (proj r i j)))
    (r0 : ResidualType K) (a b : Nat) :
    proj (forLoop m (fun i r => forLoop n (fun j r => body i j r) r) r0) a b
      = if a < m ∧ b < n then g a b (proj r0 a b) else proj r0 a b := by
  rw [forLoop_proj proj _ (fun i M => forLoop n (fun j M => setM M i j (g i j (M i j))) M)]
  · exact forLoop_setM_apply m n g (proj r0) a b
  · intro i r
    exact forLoop_proj proj _ _ (fun j r2 => hbody i j r2) n _

/-- The Jacobians after `CUpwRoe_Flow::FinalizeResidual` in implicit mode. -/
theorem CUpwRoe_Flow.FinalizeResidual_Jacobian (ext : Externals K) (c : Config K)
    (s : RoeState K) (res : ResidualType K) (himp : c.implicit = true) (a b : Nat) :
    (CUpwRoe_Flow.FinalizeResidual ext c s res).Jacobian_i a b
      = (if a < c.nVar ∧ b < c.nVar then
          res.Jacobian_i a b + (1.0 - c.kappa)
            * Proj_ModJac_Tensor_ij c.nPrimVarTot (roeP_Tensor c s) s.Lambda
                (roeInvP_Tensor ext c s) a b * s.Area * Dissipation_ij ext c s
        else res.Jacobian_i a b) ∧
    (CUpwRoe_Flow.FinalizeResidual ext c s res).Jacobian_j a b
      = (if a < c.nVar ∧ b < c.nVar then
          res.Jacobian_j a b - (1.0 - c.kappa)
            * Proj_ModJac_Tensor_ij c.nPrimVarTot (roeP_Tensor c s) s.Lambda
                (roeInvP_Tensor ext c s) a b * s.Area * Dissipation_ij ext c s
        else res.Jacobian_j a b) := by
  unfold CUpwRoe_Flow.FinalizeResidual
  simp only [himp, if_true]
  constructor
  · refine forLoop_matrix_apply ResidualType.Jacobian_i c.nVar c.nVar
      (fun i j x => x + (1.0 - c.kappa)
        * Proj_ModJac_Tensor_ij c.nPrimVarTot (roeP_Tensor c s) s.Lambda
            (roeInvP_Tensor ext c s) i j * s.Area * Dissipation_ij ext c s) _ ?_ res a b
    intro i j r
    rfl
  · refine forLoop_matrix_apply ResidualType.Jacobian_j c.nVar c.nVar
      (fun i j x => x - (1.0 - c.kappa)
        * Proj_ModJac_Tensor_ij c.nPrimVarTot (roeP_Tensor c s) s.Lambda
            (roeInvP_Tensor ext c s) i j * s.Area * Dissipation_ij ext c s) _ ?_ res a b
    intro i j r
    rfl

/-- The Jacobians after the common part of the two low-Mach `FinalizeResidual` methods in
implicit mode. -/
theorem lowMachFinalize_Jacobian (ext : Externals K) (c : Config K) (s : RoeState K)
    (w : Nat → K) (res : ResidualType K) (himp : c.implicit = true) (a b : Nat) :
    (lowMachFinalize ext c s w res).Jacobian_i a b
      = (if a < c.nVar ∧ b < c.nVar then
          res.Jacobian_i a b + (1.0 - c.kappa)
            * Proj_ModJac_Tensor_ij c.nVar s.P_Tensor s.Lambda
                (ext.GetPMatrix_inv s.roe.RoeDensity s.roe.RoeVelocity s.roe.RoeTke
                  s.RoeSoundSpeed s.UnitNormal) a b * s.Area
        else res.Jacobian_i a b) ∧
    (lowMachFinalize ext c s w res).Jacobian_j a b
      = (if a < c.nVar ∧ b < c.nVar then
          res.Jacobian_j a b - (1.0 - c.kappa)
            * Proj_ModJac_Tensor_ij c.nVar s.P_Tensor s.Lambda
                (ext.GetPMatrix_inv s.roe.RoeDensity s.roe.RoeVelocity s.roe.RoeTke
                  s.RoeSoundSpeed s.UnitNormal) a b * s.Area
        else res.Jacobian_j a b) := by
  have hi : (forLoop c.nVar (fun iVar r => forLoop c.nVar (fun kVar r =>
        ResidualType.setFlux r iVar (r.Flux iVar -
          (1.0 - c.kappa) * s.Lambda kVar * w kVar * s.P_Tensor iVar kVar * s.Area)) r)
        res).Jacobian_i = res.Jacobian_i := by
    refine forLoop_proj_const ResidualType.Jacobian_i _ ?_ c.nVar res
    intro i r
    refine forLoop_proj_const ResidualType.Jacobian_i _ ?_ c.nVar r
    intro j r2
    rfl
  have hj : (forLoop c.nVar (fun iVar r => forLoop c.nVar (fun kVar r =>
        ResidualType.setFlux r iVar (r.Flux iVar -
          (1.0 - c.kappa) * s.Lambda kVar * w kVar * s.P_Tensor iVar kVar * s.Area)) r)
        res).Jacobian_j = res.Jacobian_j := by
    refine forLoop_proj_const ResidualType.Jacobian_j _ ?_ c.nVar res
    intro i r
    refine forLoop_proj_const ResidualType.Jacobian_j _ ?_ c.nVar r
    intro j r2
    rfl
  unfold lowMachFinalize
  simp only [himp, Bool.not_true, Bool.false_eq_true, if_false]
  constructor
  · refine (forLoop_matrix_apply ResidualType.Jacobian_i c.nVar c.nVar
      (fun i j x => x + (1.0 - c.kappa)
        * Proj_ModJac_Tensor_ij c.nVar s.P_Tensor s.Lambda
            (ext.GetPMatrix_inv s.roe.RoeDensity s.roe.RoeVelocity s.roe.RoeTke
              s.RoeSoundSpeed s.UnitNormal) i j * s.Area) _ ?_ _ a b).trans ?_
    · intro i j r
      rfl
    · rw [hi]
  · refine (forLoop_matrix_apply ResidualType.Jacobian_j c.nVar c.nVar
      (fun i j x => x - (1.0 - c.kappa)
        * Proj_ModJac_Tensor_ij c.nVar s.P_Tensor s.Lambda
            (ext.GetPMatrix_inv s.roe.RoeDensity s.roe.RoeVelocity s.roe.RoeTke
              s.RoeSoundSpeed s.UnitNormal) i j * s.Area) _ ?_ _ a b).trans ?_
    · intro i j r
      rfl
    · rw [hj]

/-- With the low-dissipation mode off and without the turbulence coupling, the Jacobians
after the common part of the low-Mach methods are those after `CUpwRoe_Flow`. -/
theorem lowMachFinalize_Jacobian_eq_roe (ext : Externals K) (c : Config K) (s : RoeState K)
    (w : Nat → K) (res : ResidualType K) (himp : c.implicit = true)
    (hl : c.roe_low_dissipation = false) (ht : c.tkeNeeded = false) :
    (lowMachFinalize ext c s w res).Jacobian_i
        = (CUpwRoe_Flow.FinalizeResidual ext c s res).Jacobian_i ∧
      (lowMachFinalize ext c s w res).Jacobian_j
        = (CUpwRoe_Flow.FinalizeResidual ext c s res).Jacobian_j := by
  have hD : Dissipation_ij ext c s = 1 := by
    unfold Dissipation_ij
    simp only [hl, Bool.false_eq_true, if_false]
    norm_num
  constructor
  · funext a b
    rw [(lowMachFinalize_Jacobian ext c s w res himp a b).1,
      (CUpwRoe_Flow.FinalizeResidual_Jacobian ext c s res himp a b).1, hD, mul_one,
      roe_T_plain ext c s a b ht]
  · funext a b
    rw [(lowMachFinalize_Jacobian ext c s w res himp a b).2,
      (CUpwRoe_Flow.FinalizeResidual_Jacobian ext c s res himp a b).2, hD, mul_one,
      roe_T_plain ext c s a b ht]

/-- The state of `tkeJumpInputs` does not depend on the time integration. -/
theorem tkeJumpState_implicit (sqrt : K → K) :
    roeState (eulerExternals2D sqrt 0.4) implicitTkeConfig tkeJumpInputs exampleScratch
      = tkeJumpState sqrt :=
  rfl

/-- The Roe averages of `tkeJumpInputs` that enter the turbulence coupling, and the
turbulence eigenvalue `Lambda[nVar]`. -/
theorem tkeJump_coupling :
    (tkeJumpState Real.sqrt).roe.RoeSqVel = 4 ∧ (tkeJumpState Real.sqrt).roe.RoeTke = 1 / 2 ∧
    (tkeJumpState Real.sqrt).Lambda 4 = 2 := by
  obtain ⟨_, r2, r3, _, r5, r6, r7, _⟩ := tkeJump_roe
  obtain ⟨_, ⟨v1, v2, v3, v4⟩, _, ⟨c1, c2⟩, _⟩ := tkeJump_sides
  refine ⟨?_, ?_, ?_⟩
  · show sumLoop 2 (fun iDim => (tkeJumpState Real.sqrt).roe.RoeVelocity iDim
      * (tkeJumpState Real.sqrt).roe.RoeVelocity iDim) = 4
    simp only [sumLoop, forLoop]
    rw [r2, r3]
    norm_num
  · simp [tkeJumpState, roeState, roeAverage, extractPrimitive, tkeJumpInputs, exampleTkeConfig,
      eulerExternals2D, state2D]
    norm_num
  · have hL := roeState_Lambda_static (eulerExternals2D Real.sqrt 0.4) exampleTkeConfig
      tkeJumpInputs exampleScratch 4 rfl rfl (by decide)
    have PV : projVel 2 (tkeJumpState Real.sqrt).roe.RoeVelocity
        (tkeJumpState Real.sqrt).UnitNormal = 2 := by
      unfold projVel sumLoop
      simp only [forLoop]
      rw [r2, r3, r6, r7]
      norm_num
    have PVi : projVel 2 (tkeJumpState Real.sqrt).pi.Velocity
        (tkeJumpState Real.sqrt).UnitNormal = 2 := by
      unfold projVel sumLoop
      simp only [forLoop]
      rw [v1, v2, r6, r7]
      norm_num
    have PVj : projVel 2 (tkeJumpState Real.sqrt).pj.Velocity
        (tkeJumpState Real.sqrt).UnitNormal = 2 := by
      unfold projVel sumLoop
      simp only [forLoop]
      rw [v3, v4, r6, r7]
      norm_num
    have e : (exampleTkeConfig : Config ℝ).nDim = 2 := rfl
    rw [e] at hL
    change (tkeJumpState Real.sqrt).Lambda 4 = _ at hL
    rw [hL]
    simp only [show ¬ (4 < 2) by decide, show ¬ (4 = 2) by decide, show ¬ (4 = 2 + 1) by decide,
      if_false]
    change shearLambda
      (projVel 2 (tkeJumpState Real.sqrt).roe.RoeVelocity (tkeJumpState Real.sqrt).UnitNormal)
      (projVel 2 (tkeJumpState Real.sqrt).pi.Velocity (tkeJumpState Real.sqrt).UnitNormal)
      (projVel 2 (tkeJumpState Real.sqrt).pj.Velocity (tkeJumpState Real.sqrt).UnitNormal) = 2
    rw [PV, PVi, PVj]
    norm_num [shearLambda, HartenHymanFix, HartenHymanEpsilon]

/-- C23, as the code has it: in implicit mode, with the low-dissipation mode off and the
turbulent-kinetic-energy channel off, `CUpwL2Roe_Flow::FinalizeResidual` and
`CUpwLMRoe_Flow::FinalizeResidual` leave the same `Jacobian_i` and `Jacobian_j` as
`CUpwRoe_Flow::FinalizeResidual` started from the same buffers and the same Roe state,
eigenvalues, kappa and Area: every entry below `nVar` of `Jacobian_i` is increased, and the
same entry of `Jacobian_j` decreased, by `(1 - kappa)*(P*|Lambda|*invP)[iVar][jVar]*Area`. -/
theorem low_mach_jacobian_fallback (ext : Externals K) (c : Config K) (s : RoeState K)
    (res : ResidualType K) (himp : c.implicit = true) (hl : c.roe_low_dissipation = false)
    (ht : c.tkeNeeded = false) :
    ((CUpwL2Roe_Flow.FinalizeResidual ext c s res).Jacobian_i
        = (CUpwRoe_Flow.FinalizeResidual ext c s res).Jacobian_i ∧
      (CUpwL2Roe_Flow.FinalizeResidual ext c s res).Jacobian_j
        = (CUpwRoe_Flow.FinalizeResidual ext c s res).Jacobian_j) ∧
    ((CUpwLMRoe_Flow.FinalizeResidual ext c s res).Jacobian_i
        = (CUpwRoe_Flow.FinalizeResidual ext c s res).Jacobian_i ∧
      (CUpwLMRoe_Flow.FinalizeResidual ext c s res).Jacobian_j
        = (CUpwRoe_Flow.FinalizeResidual ext c s res).Jacobian_j) ∧
    (∀ a b, a < c.nVar → b < c.nVar →
      (CUpwRoe_Flow.FinalizeResidual ext c s res).Jacobian_i a b
        = res.Jacobian_i a b + (1.0 - c.kappa)
          * Proj_ModJac_Tensor_ij c.nVar s.P_Tensor s.Lambda
              (ext.GetPMatrix_inv s.roe.RoeDensity s.roe.RoeVelocity s.roe.RoeTke
                s.RoeSoundSpeed s.UnitNormal) a b * s.Area ∧
      (CUpwRoe_Flow.FinalizeResidual ext c s res).Jacobian_j a b
        = res.Jacobian_j a b - (1.0 - c.kappa)
          * Proj_ModJac_Tensor_ij c.nVar s.P_Tensor s.Lambda
              (ext.GetPMatrix_inv s.roe.RoeDensity s.roe.RoeVelocity s.roe.RoeTke
                s.RoeSoundSpeed s.UnitNormal) a b * s.Area) := by
  have h2 := lowMachFinalize_Jacobian_eq_roe ext c s
    (lowMachDeltaWave c s (stateZeta ext c s) (fun a => a * stateZeta ext c s)) res himp hl ht
  have hM := lowMachFinalize_Jacobian_eq_roe ext c s
    (lowMachDeltaWave c s (stateZeta ext c s) (fun a => a)) res himp hl ht
  refine ⟨h2, hM, ?_⟩
  intro a b ha hb
  rw [← hM.1, ← hM.2, (lowMachFinalize_Jacobian ext c s _ res himp a b).1,
    (lowMachFinalize_Jacobian ext c s _ res himp a b).2, if_pos ⟨ha, hb⟩, if_pos ⟨ha, hb⟩]
  exact ⟨rfl, rfl⟩

/-- C23, at a concrete input: the implicit two-dimensional configuration without turbulence
coupling and the state of `supersonicInputs`. -/
theorem low_mach_jacobian_fallback_witness :
    (exampleConfig (K := ℝ) true false false).implicit = true ∧
    (exampleConfig (K := ℝ) true false false).roe_low_dissipation = false ∧
    (exampleConfig (K := ℝ) true false false).tkeNeeded = false ∧
    (CUpwL2Roe_Flow.FinalizeResidual (eulerExternals2D Real.sqrt 0.4)
        (exampleConfig true false false) (supersonicState Real.sqrt) exampleScratch.res).Jacobian_i
      = (CUpwRoe_Flow.FinalizeResidual (eulerExternals2D Real.sqrt 0.4)
        (exampleConfig true false false) (supersonicState Real.sqrt) exampleScratch.res).Jacobian_i ∧
    (CUpwLMRoe_Flow.FinalizeResidual (eulerExternals2D Real.sqrt 0.4)
        (exampleConfig true false false) (supersonicState Real.sqrt) exampleScratch.res).Jacobian_j
      = (CUpwRoe_Flow.FinalizeResidual (eulerExternals2D Real.sqrt 0.4)
        (exampleConfig true false false) (supersonicState Real.sqrt) exampleScratch.res).Jacobian_j :=
  ⟨rfl, rfl, rfl,
    (low_mach_jacobian_fallback (eulerExternals2D Real.sqrt 0.4) (exampleConfig true false false)
      (supersonicState Real.sqrt) exampleScratch.res rfl rfl rfl).1.1,
    (low_mach_jacobian_fallback (eulerExternals2D Real.sqrt 0.4) (exampleConfig true false false)
      (supersonicState Real.sqrt) exampleScratch.res rfl rfl rfl).2.1.2⟩

/-- The difference between the Jacobians of `CUpwRoe_Flow` and of the low-Mach methods with
the turbulence coupling, in the energy row of the implicit example: `4/15`. -/
theorem tkeJump_jacobian_gap (w : Nat → ℝ) :
    (CUpwRoe_Flow.FinalizeResidual (eulerExternals2D Real.sqrt 0.4) implicitTkeConfig
        (tkeJumpState Real.sqrt) exampleScratch.res).Jacobian_i 3 0
      - (lowMachFinalize (eulerExternals2D Real.sqrt 0.4) implicitTkeConfig
        (tkeJumpState Real.sqrt) w exampleScratch.res).Jacobian_i 3 0 = 4 / 15 ∧
    (lowMachFinalize (eulerExternals2D Real.sqrt 0.4) implicitTkeConfig
        (tkeJumpState Real.sqrt) w exampleScratch.res).Jacobian_j 3 0
      - (CUpwRoe_Flow.FinalizeResidual (eulerExternals2D Real.sqrt 0.4) implicitTkeConfig
        (tkeJumpState Real.sqrt) exampleScratch.res).Jacobian_j 3 0 = 4 / 15 := by
  obtain ⟨_, _, _, r4, _, _, _, rA⟩ := tkeJump_roe
  obtain ⟨q1, q2, q3⟩ := tkeJump_coupling
  have hn : (implicitTkeConfig : Config ℝ).nVar = 4 := rfl
  have h34 : (3 < 4 ∧ 0 < 4) := by decide
  have hT := roe_T_apply (eulerExternals2D Real.sqrt 0.4) implicitTkeConfig
    (tkeJumpState Real.sqrt) 3 0 rfl (by decide) (by decide)
  have hcol : tkeColumn implicitTkeConfig (tkeJumpState Real.sqrt).roe 3 = -(8 / 15) := by
    unfold tkeColumn FIVE3
    rw [q1, r4]
    simp [implicitTkeConfig, exampleTkeConfig]
    norm_num
  have hrow : tkeRow implicitTkeConfig (tkeJumpState Real.sqrt).roe 0 = -(1 / 2) := by
    unfold tkeRow
    rw [q2]
    simp [implicitTkeConfig, exampleTkeConfig]
  have hD : Dissipation_ij (eulerExternals2D Real.sqrt 0.4) implicitTkeConfig
      (tkeJumpState Real.sqrt) = 1 := by
    simp [Dissipation_ij, implicitTkeConfig, exampleTkeConfig]
    norm_num
  have hk : (implicitTkeConfig : Config ℝ).kappa = 0.5 := rfl
  rw [if_pos (show (implicitTkeConfig : Config ℝ).tkeNeeded = true from rfl), hn, q3, hcol, hrow,
    ← Proj_ModJac_Tensor_ij_eq_modJac] at hT
  rw [(CUpwRoe_Flow.FinalizeResidual_Jacobian _ implicitTkeConfig _ _ rfl 3 0).1,
    (CUpwRoe_Flow.FinalizeResidual_Jacobian _ implicitTkeConfig _ _ rfl 3 0).2,
    (lowMachFinalize_Jacobian _ implicitTkeConfig _ w _ rfl 3 0).1,
    (lowMachFinalize_Jacobian _ implicitTkeConfig _ w _ rfl 3 0).2, hn, if_pos h34, if_pos h34,
    if_pos h34, if_pos h34, hT, hD, rA, hk]
  constructor <;> norm_num <;> ring

/-- C23 does not hold with the turbulent-kinetic-energy channel active: for the implicit
two-dimensional configuration with the coupling and the states of `tkeJumpInputs`, the entry
`[3][0]` of `Jacobian_i` after `CUpwRoe_Flow::FinalizeResidual` exceeds by `4/15` the entry after
`CUpwL2Roe_Flow::FinalizeResidual` and after `CUpwLMRoe_Flow::FinalizeResidual`, and the entry
of `Jacobian_j` is lower by `4/15`: the low-Mach methods sum over `kVar < nVar` and do not
have the extra column and row of the coupling. -/
theorem low_mach_jacobian_lacks_tke_coupling :
    (CUpwRoe_Flow.FinalizeResidual (eulerExternals2D Real.sqrt 0.4) implicitTkeConfig
        (roeState (eulerExternals2D Real.sqrt 0.4) implicitTkeConfig tkeJumpInputs exampleScratch)
        exampleScratch.res).Jacobian_i 3 0
      - (CUpwL2Roe_Flow.FinalizeResidual (eulerExternals2D Real.sqrt 0.4) implicitTkeConfig
        (roeState (eulerExternals2D Real.sqrt 0.4) implicitTkeConfig tkeJumpInputs exampleScratch)
        exampleScratch.res).Jacobian_i 3 0 = 4 / 15 ∧
    (CUpwRoe_Flow.FinalizeResidual (eulerExternals2D Real.sqrt 0.4) implicitTkeConfig
        (roeState (eulerExternals2D Real.sqrt 0.4) implicitTkeConfig tkeJumpInputs exampleScratch)
        exampleScratch.res).Jacobian_i 3 0
      - (CUpwLMRoe_Flow.FinalizeResidual (eulerExternals2D Real.sqrt 0.4) implicitTkeConfig
        (roeState (eulerExternals2D Real.sqrt 0.4) implicitTkeConfig tkeJumpInputs exampleScratch)
        exampleScratch.res).Jacobian_i 3 0 = 4 / 15 ∧
    (CUpwL2Roe_Flow.FinalizeResidual (eulerExternals2D Real.sqrt 0.4) implicitTkeConfig
        (roeState (eulerExternals2D Real.sqrt 0.4) implicitTkeConfig tkeJumpInputs exampleScratch)
        exampleScratch.res).Jacobian_j 3 0
      - (CUpwRoe_Flow.FinalizeResidual (eulerExternals2D Real.sqrt 0.4) implicitTkeConfig
        (roeState (eulerExternals2D Real.sqrt 0.4) implicitTkeConfig tkeJumpInputs exampleScratch)
        exampleScratch.res).Jacobian_j 3 0 = 4 / 15 ∧
    (CUpwLMRoe_Flow.FinalizeResidual (eulerExternals2D Real.sqrt 0.4) implicitTkeConfig
        (roeState (eulerExternals2D Real.sqrt 0.4) implicitTkeConfig tkeJumpInputs exampleScratch)
        exampleScratch.res).Jacobian_j 3 0
      - (CUpwRoe_Flow.FinalizeResidual (eulerExternals2D Real.sqrt 0.4) implicitTkeConfig
        (roeState (eulerExternals2D Real.sqrt 0.4) implicitTkeConfig tkeJumpInputs exampleScratch)
        exampleScratch.res).Jacobian_j 3 0 = 4 / 15 := by
  rw [tkeJumpState_implicit]
  exact ⟨(tkeJump_jacobian_gap _).1, (tkeJump_jacobian_gap _).1, (tkeJump_jacobian_gap _).2,
    (tkeJump_jacobian_gap _).2⟩

end DissipationJacobians

/-! ## Conservation of the Jacobian sum in the dissipation step -/

section JacobianSum

/-- A double loop whose outer body first applies a step that leaves the matrix alone and whose
inner body rewrites the entry `(i, j)` of the matrix from its previous value. -/
theorem forLoop_matrix_apply_pre (proj : ResidualType K → Nat → Nat → K) (m n : Nat)
    (g : Nat → Nat → K → K) (body : Nat → Nat → ResidualType K → ResidualType K)
    (pre : Nat → ResidualType K → ResidualType K)
    (hbody : ∀ i j r, proj (body i j r) = setM (proj r) i j (g i j (proj r i j)))
    (hpre : ∀ i r, proj (pre i r) = proj r)
    (r0 : ResidualType K) (a b : Nat) :
    proj (forLoop m (fun i r => forLoop n (fun j r => body i j r) (pre i r)) r0) a b
      = if a < m ∧ b < n then g a b (proj r0 a b) else proj r0 a b := by
  rw [forLoop_proj proj _ (fun i M => forLoop n (fun j M => setM M i j (g i j (M i j))) M)]
  · exact forLoop_setM_apply m n g (proj r0) a b
  · intro i r
    rw [forLoop_proj proj (fun j r => body i j r) (fun j M => setM M i j (g i j (M i j)))
      (fun j r2 => hbody i j r2) n (pre i r), hpre]

/-- The block "Jacobian contributions due to grid motion" apart, the implicit branch of
`CUpwGeneralRoe_Flow::ComputeResidual` is `generalImplicitFluxStep`. -/
theorem generalImplicitBranch_static (ext : GeneralExternals K) (c : GeneralConfig K)
    (inp : GeneralInputs K) (s : GeneralState K) (old : GeneralScratch K)
    (hd : c.dynamic_grid = false) :
    generalImplicitBranch ext c inp s old = generalImplicitFluxStep ext c inp s old := by
  unfold generalImplicitBranch generalImplicitFluxStep
  simp only [hd, Bool.false_eq_true, if_false]

/-- The Jacobians after the flux loop of the implicit branch of
`CUpwGeneralRoe_Flow::ComputeResidual`. -/
theorem generalImplicitFluxStep_Jacobian (ext : GeneralExternals K) (c : GeneralConfig K)
    (inp : GeneralInputs K) (s : GeneralState K) (old : GeneralScratch K) (a b : Nat) :
    (generalImplicitFluxStep ext c inp s old).Jacobian_i a b
      = (if a < c.nVar ∧ b < c.nVar then
          ext.GetInviscidProjJac s.pi.Velocity s.pi.Enthalpy s.pi.Chi s.pi.Kappa inp.Normal
              c.kappa a b
            + (1.0 - c.kappa) * Proj_ModJac_Tensor_ij c.nVar s.P_Tensor s.Lambda
                (ext.GetPMatrix_inv s.roe.RoeDensity s.roe.RoeVelocity s.RoeSoundSpeed
                  s.roe.RoeChi s.roe.RoeKappa s.UnitNormal) a b * s.Area
        else ext.GetInviscidProjJac s.pi.Velocity s.pi.Enthalpy s.pi.Chi s.pi.Kappa inp.Normal
          c.kappa a b) ∧
    (generalImplicitFluxStep ext c inp s old).Jacobian_j a b
      = (if a < c.nVar ∧ b < c.nVar then
          ext.GetInviscidProjJac s.pj.Velocity s.pj.Enthalpy s.pj.Chi s.pj.Kappa inp.Normal
              c.kappa a b
            - (1.0 - c.kappa) * Proj_ModJac_Tensor_ij c.nVar s.P_Tensor s.Lambda
                (ext.GetPMatrix_inv s.roe.RoeDensity s.roe.RoeVelocity s.RoeSoundSpeed
                  s.roe.RoeChi s.roe.RoeKappa s.UnitNormal) a b * s.Area
        else ext.GetInviscidProjJac s.pj.Velocity s.pj.Enthalpy s.pj.Chi s.pj.Kappa inp.Normal
          c.kappa a b) := by
  unfold generalImplicitFluxStep
  constructor
  · refine forLoop_matrix_apply_pre ResidualType.Jacobian_i c.nVar c.nVar
      (fun i j x => x + (1.0 - c.kappa) * Proj_ModJac_Tensor_ij c.nVar s.P_Tensor s.Lambda
        (ext.GetPMatrix_inv s.roe.RoeDensity s.roe.RoeVelocity s.RoeSoundSpeed
          s.roe.RoeChi s.roe.RoeKappa s.UnitNormal) i j * s.Area) _ _ ?_ ?_ _ a b
    · intro i j r
      rfl
    · intro i r
      rfl
  · refine forLoop_matrix_apply_pre ResidualType.Jacobian_j c.nVar c.nVar
      (fun i j x => x - (1.0 - c.kappa) * Proj_ModJac_Tensor_ij c.nVar s.P_Tensor s.Lambda
        (ext.GetPMatrix_inv s.roe.RoeDensity s.roe.RoeVelocity s.RoeSoundSpeed
          s.roe.RoeChi s.roe.RoeKappa s.UnitNormal) i j * s.Area) _ _ ?_ ?_ _ a b
    · intro i j r
      rfl
    · intro i r
      rfl

/-- The Jacobians after the flux loop of `CUpwTurkel_Flow::ComputeResidual` in implicit
mode. -/
theorem turkelFluxStep_Jacobian (ext : TurkelExternals K) (c : TurkelConfig K)
    (inp : TurkelInputs K) (old : ResidualType K) (oldLambda : Nat → K)
    (himp : c.implicit = true) (a b : Nat) :
    (turkelFluxStep ext c inp old oldLambda).Jacobian_i a b
      = (if a < c.nVar ∧ b < c.nVar then
          ext.GetInviscidProjJac (turkelState ext c inp oldLambda).pi.Velocity
              (turkelState ext c inp oldLambda).pi.Energy inp.turb_ke_i inp.Normal 0.5 a b
            + 0.5 * (turkelState ext c inp oldLambda).Art_Visc a b
        else ext.GetInviscidProjJac (turkelState ext c inp oldLambda).pi.Velocity
          (turkelState ext c inp oldLambda).pi.Energy inp.turb_ke_i inp.Normal 0.5 a b) ∧
    (turkelFluxStep ext c inp old oldLambda).Jacobian_j a b
      = (if a < c.nVar ∧ b < c.nVar then
          ext.GetInviscidProjJac (turkelState ext c inp oldLambda).pj.Velocity
              (turkelState ext c inp oldLambda).pj.Energy inp.turb_ke_j inp.Normal 0.5 a b
            - 0.5 * (turkelState ext c inp oldLambda).Art_Visc a b
        else ext.GetInviscidProjJac (turkelState ext c inp oldLambda).pj.Velocity
          (turkelState ext c inp oldLambda).pj.Energy inp.turb_ke_j inp.Normal 0.5 a b) := by
  unfold turkelFluxStep
  simp only [himp, if_true]
  constructor
  · refine forLoop_matrix_apply_pre ResidualType.Jacobian_i c.nVar c.nVar
      (fun i j x => x + 0.5 * (turkelState ext c inp oldLambda).Art_Visc i j) _ _ ?_ ?_ _ a b
    · intro i j r
      rfl
    · intro i r
      rfl
  · refine forLoop_matrix_apply_pre ResidualType.Jacobian_j c.nVar c.nVar
      (fun i j x => x - 0.5 * (turkelState ext c inp oldLambda).Art_Visc i j) _ _ ?_ ?_ _ a b
    · intro i j r
      rfl
    · intro i r
      rfl

/-- In implicit mode the block "Initialize residual (flux) and Jacobians" leaves the two
central-flux Jacobians in the buffers. -/
theorem initResidual_Jacobian (ext : Externals K) (c : Config K) (inp : FaceInputs K)
    (s : RoeState K) (res : ResidualType K) (himp : c.implicit = true) :
    (initResidual ext c inp s res).Jacobian_i
        = ext.GetInviscidProjJac s.pi.Velocity s.pi.Energy s.pi.turb_ke inp.Normal c.kappa ∧
      (initResidual ext c inp s res).Jacobian_j
        = ext.GetInviscidProjJac s.pj.Velocity s.pj.Energy s.pj.turb_ke inp.Normal c.kappa := by
  unfold initResidual
  rw [if_pos himp]
  exact ⟨rfl, rfl⟩

/-- The sum `Jacobian_i + Jacobian_j` is the same before and after
`CUpwRoe_Flow::FinalizeResidual`. -/
theorem CUpwRoe_Flow.FinalizeResidual_Jacobian_sum (ext : Externals K) (c : Config K)
    (s : RoeState K) (res : ResidualType K) (himp : c.implicit = true) (a b : Nat) :
    (CUpwRoe_Flow.FinalizeResidual ext c s res).Jacobian_i a b
        + (CUpwRoe_Flow.FinalizeResidual ext c s res).Jacobian_j a b
      = res.Jacobian_i a b + res.Jacobian_j a b := by
  rw [(CUpwRoe_Flow.FinalizeResidual_Jacobian ext c s res himp a b).1,
    (CUpwRoe_Flow.FinalizeResidual_Jacobian ext c s res himp a b).2]
  by_cases h : a < c.nVar ∧ b < c.nVar
  · rw [if_pos h, if_pos h]; ring
  · rw [if_neg h, if_neg h]

/-- The sum `Jacobian_i + Jacobian_j` is the same before and after the common part of the two
low-Mach `FinalizeResidual` methods. -/
theorem lowMachFinalize_Jacobian_sum (ext : Externals K) (c : Config K) (s : RoeState K)
    (w : Nat → K) (res : ResidualType K) (himp : c.implicit = true) (a b : Nat) :
    (lowMachFinalize ext c s w res).Jacobian_i a b
        + (lowMachFinalize ext c s w res).Jacobian_j a b
      = res.Jacobian_i a b + res.Jacobian_j a b := by
  rw [(lowMachFinalize_Jacobian ext c s w res himp a b).1,
    (lowMachFinalize_Jacobian ext c s w res himp a b).2]
  by_cases h : a < c.nVar ∧ b < c.nVar
  · rw [if_pos h, if_pos h]; ring
  · rw [if_neg h, if_neg h]

/-- C25. In implicit mode the dissipation step conserves the Jacobian sum. For each of the
`FinalizeResidual` methods of `CUpwRoe_Flow`, `CUpwL2Roe_Flow` and `CUpwLMRoe_Flow`, whatever
the state and the buffers on entry, the increase of `Jacobian_i[a][b]` is the decrease of
`Jacobian_j[a][b]`, so that inside `CUpwRoeBase_Flow::ComputeResidual` the sum
`Jacobian_i + Jacobian_j` right after `FinalizeResidual` is the sum of the two central-flux
Jacobians `GetInviscidProjJac(.., kappa, ..)`; the same sum rule holds after the flux loop of
`CUpwTurkel_Flow::ComputeResidual` and after the flux loop of the implicit branch of
`CUpwGeneralRoe_Flow::ComputeResidual` (which is the whole branch on a static grid). -/
theorem dissipation_conserves_jacobian_sum (ext : Externals K) (c : Config K)
    (inp : FaceInputs K) (old : Scratch K) (s : RoeState K) (res : ResidualType K)
    (text : TurkelExternals K) (tc : TurkelConfig K) (tinp : TurkelInputs K)
    (told : ResidualType K) (toldLambda : Nat → K)
    (gext : GeneralExternals K) (gc : GeneralConfig K) (ginp : GeneralInputs K)
    (gs : GeneralState K) (gold : GeneralScratch K)
    (himp : c.implicit = true) (htimp : tc.implicit = true) (a b : Nat) :
    ((CUpwRoe_Flow.FinalizeResidual ext c s res).Jacobian_i a b - res.Jacobian_i a b
        = res.Jacobian_j a b - (CUpwRoe_Flow.FinalizeResidual ext c s res).Jacobian_j a b ∧
      (CUpwL2Roe_Flow.FinalizeResidual ext c s res).Jacobian_i a b - res.Jacobian_i a b
        = res.Jacobian_j a b - (CUpwL2Roe_Flow.FinalizeResidual ext c s res).Jacobian_j a b ∧
      (CUpwLMRoe_Flow.FinalizeResidual ext c s res).Jacobian_i a b - res.Jacobian_i a b
        = res.Jacobian_j a b - (CUpwLMRoe_Flow.FinalizeResidual ext c s res).Jacobian_j a b) ∧
    ((afterFinalize ext c (CUpwRoe_Flow.FinalizeResidual ext c) inp old).Jacobian_i a b
        + (afterFinalize ext c (CUpwRoe_Flow.FinalizeResidual ext c) inp old).Jacobian_j a b
        = ext.GetInviscidProjJac (roeState ext c inp old).pi.Velocity
            (roeState ext c inp old).pi.Energy (roeState ext c inp old).pi.turb_ke inp.Normal
            c.kappa a b
          + ext.GetInviscidProjJac (roeState ext c inp old).pj.Velocity
            (roeState ext c inp old).pj.Energy (roeState ext c inp old).pj.turb_ke inp.Normal
            c.kappa a b ∧
      (afterFinalize ext c (CUpwL2Roe_Flow.FinalizeResidual ext c) inp old).Jacobian_i a b
        + (afterFinalize ext c (CUpwL2Roe_Flow.FinalizeResidual ext c) inp old).Jacobian_j a b
        = ext.GetInviscidProjJac (roeState ext c inp old).pi.Velocity
            (roeState ext c inp old).pi.Energy (roeState ext c inp old).pi.turb_ke inp.Normal
            c.kappa a b
          + ext.GetInviscidProjJac (roeState ext c inp old).pj.Velocity
            (roeState ext c inp old).pj.Energy (roeState ext c inp old).pj.turb_ke inp.Normal
            c.kappa a b ∧
      (afterFinalize ext c (CUpwLMRoe_Flow.FinalizeResidual ext c) inp old).Jacobian_i a b
        + (afterFinalize ext c (CUpwLMRoe_Flow.FinalizeResidual ext c) inp old).Jacobian_j a b
        = ext.GetInviscidProjJac (roeState ext c inp old).pi.Velocity
            (roeState ext c inp old).pi.Energy (roeState ext c inp old).pi.turb_ke inp.Normal
            c.kappa a b
          + ext.GetInviscidProjJac (roeState ext c inp old).pj.Velocity
            (roeState ext c inp old).pj.Energy (roeState ext c inp old).pj.turb_ke inp.Normal
            c.kappa a b) ∧
    ((turkelFluxStep text tc tinp told toldLambda).Jacobian_i a b
        + (turkelFluxStep text tc tinp told toldLambda).Jacobian_j a b
      = text.GetInviscidProjJac (turkelState text tc tinp toldLambda).pi.Velocity
          (turkelState text tc tinp toldLambda).pi.Energy tinp.turb_ke_i tinp.Normal 0.5 a b
        + text.GetInviscidProjJac (turkelState text tc tinp toldLambda).pj.Velocity
          (turkelState text tc tinp toldLambda).pj.Energy tinp.turb_ke_j tinp.Normal 0.5 a b) ∧
    ((generalImplicitFluxStep gext gc ginp gs gold).Jacobian_i a b
        + (generalImplicitFluxStep gext gc ginp gs gold).Jacobian_j a b
      = gext.GetInviscidProjJac gs.pi.Velocity gs.pi.Enthalpy gs.pi.Chi gs.pi.Kappa ginp.Normal
          gc.kappa a b
        + gext.GetInviscidProjJac gs.pj.Velocity gs.pj.Enthalpy gs.pj.Chi gs.pj.Kappa ginp.Normal
          gc.kappa a b) ∧
    (gc.dynamic_grid = false →
      (generalImplicitBranch gext gc ginp gs gold).Jacobian_i a b
        + (generalImplicitBranch gext gc ginp gs gold).Jacobian_j a b
      = gext.GetInviscidProjJac gs.pi.Velocity gs.pi.Enthalpy gs.pi.Chi gs.pi.Kappa ginp.Normal
          gc.kappa a b
        + gext.GetInviscidProjJac gs.pj.Velocity gs.pj.Enthalpy gs.pj.Chi gs.pj.Kappa ginp.Normal
          gc.kappa a b) := by
  have hRoe := fun s res => CUpwRoe_Flow.FinalizeResidual_Jacobian_sum ext c s res himp a b
  have hLow := fun s w res => lowMachFinalize_Jacobian_sum ext c s w res himp a b
  have hinit := initResidual_Jacobian ext c inp (roeState ext c inp old) old.res himp
  have hG : (generalImplicitFluxStep gext gc ginp gs gold).Jacobian_i a b
        + (generalImplicitFluxStep gext gc ginp gs gold).Jacobian_j a b
      = gext.GetInviscidProjJac gs.pi.Velocity gs.pi.Enthalpy gs.pi.Chi gs.pi.Kappa ginp.Normal
          gc.kappa a b
        + gext.GetInviscidProjJac gs.pj.Velocity gs.pj.Enthalpy gs.pj.Chi gs.pj.Kappa ginp.Normal
          gc.kappa a b := by
    rw [(generalImplicitFluxStep_Jacobian gext gc ginp gs gold a b).1,
      (generalImplicitFluxStep_Jacobian gext gc ginp gs gold a b).2]
    by_cases h : a < gc.nVar ∧ b < gc.nVar
    · rw [if_pos h, if_pos h]; ring
    · rw [if_neg h, if_neg h]
  refine ⟨⟨?_, ?_, ?_⟩, ⟨?_, ?_, ?_⟩, ?_, hG, ?_⟩
  · have h := hRoe s res
    linarith
  · have h := hLow s (lowMachDeltaWave c s (stateZeta ext c s)
      (fun a => a * stateZeta ext c s)) res
    have e : CUpwL2Roe_Flow.FinalizeResidual ext c s res = lowMachFinalize ext c s
      (lowMachDeltaWave c s (stateZeta ext c s) (fun a => a * stateZeta ext c s)) res := rfl
    rw [e]
    linarith
  · have h := hLow s (lowMachDeltaWave c s (stateZeta ext c s) (fun a => a)) res
    have e : CUpwLMRoe_Flow.FinalizeResidual ext c s res = lowMachFinalize ext c s
      (lowMachDeltaWave c s (stateZeta ext c s) (fun a => a)) res := rfl
    rw [e]
    linarith
  · unfold afterFinalize
    simp only
    rw [hRoe, hinit.1, hinit.2]
  · unfold afterFinalize
    simp only
    have e : ∀ r, CUpwL2Roe_Flow.FinalizeResidual ext c (roeState ext c inp old) r
        = lowMachFinalize ext c (roeState ext c inp old)
          (lowMachDeltaWave c (roeState ext c inp old) (stateZeta ext c (roeState ext c inp old))
            (fun a => a * stateZeta ext c (roeState ext c inp old))) r := fun _ => rfl
    rw [e, hLow, hinit.1, hinit.2]
  · unfold afterFinalize
    simp only
    have e : ∀ r, CUpwLMRoe_Flow.FinalizeResidual ext c (roeState ext c inp old) r
        = lowMachFinalize ext c (roeState ext c inp old)
          (lowMachDeltaWave c (roeState ext c inp old) (stateZeta ext c (roeState ext c inp old))
            (fun a => a)) r := fun _ => rfl
    rw [e, hLow, hinit.1, hinit.2]
  · rw [(turkelFluxStep_Jacobian text tc tinp told toldLambda htimp a b).1,
      (turkelFluxStep_Jacobian text tc tinp told toldLambda htimp a b).2]
    by_cases h : a < tc.nVar ∧ b < tc.nVar
    · rw [if_pos h, if_pos h]; ring
    · rw [if_neg h, if_neg h]
  · intro hd
    rw [generalImplicitBranch_static gext gc ginp gs gold hd]
    exact hG

/-- C25, at a concrete input: the implicit two-dimensional configurations of the three
classes with the states used in the other examples; entry `[0][0]`. -/
theorem dissipation_conserves_jacobian_sum_witness :
    (exampleConfig (K := ℝ) true false false).implicit = true ∧
    (exampleTurkelConfig (K := ℝ) true false).implicit = true ∧
    (CUpwRoe_Flow.FinalizeResidual (eulerExternals2D Real.sqrt 0.4)
        (exampleConfig true false false) (supersonicState Real.sqrt)
        exampleScratch.res).Jacobian_i 0 0 - exampleScratch.res.Jacobian_i 0 0
      = exampleScratch.res.Jacobian_j 0 0
        - (CUpwRoe_Flow.FinalizeResidual (eulerExternals2D Real.sqrt 0.4)
          (exampleConfig true false false) (supersonicState Real.sqrt)
          exampleScratch.res).Jacobian_j 0 0 ∧
    (kappaGeneralConfig (K := ℝ) true).dynamic_grid = false ∧
    (generalImplicitBranch (fluxGeneralExternals Real.sqrt) (kappaGeneralConfig true)
        flowGeneralInputs
        (generalState (fluxGeneralExternals Real.sqrt) (kappaGeneralConfig true)
          flowGeneralInputs exampleGeneralScratch) exampleGeneralScratch).Jacobian_i 0 0
      + (generalImplicitBranch (fluxGeneralExternals Real.sqrt) (kappaGeneralConfig true)
        flowGeneralInputs
        (generalState (fluxGeneralExternals Real.sqrt) (kappaGeneralConfig true)
          flowGeneralInputs exampleGeneralScratch) exampleGeneralScratch).Jacobian_j 0 0
      = 0 := by
  have t := dissipation_conserves_jacobian_sum (eulerExternals2D Real.sqrt 0.4)
    (exampleConfig true false false) supersonicInputs exampleScratch
    (supersonicState Real.sqrt) exampleScratch.res
    (exampleTurkelExternals Real.sqrt) (exampleTurkelConfig true false)
    (exampleTurkelInputs 1 0) exampleResidual (fun _ => 7)
    (fluxGeneralExternals Real.sqrt) (kappaGeneralConfig true) flowGeneralInputs
    (generalState (fluxGeneralExternals Real.sqrt) (kappaGeneralConfig true) flowGeneralInputs
      exampleGeneralScratch) exampleGeneralScratch rfl rfl 0 0
  refine ⟨rfl, rfl, t.1.1, rfl, ?_⟩
  rw [t.2.2.2.2 rfl]
  simp [fluxGeneralExternals]

end JacobianSum

/-! ## The Harten-Hyman fix on the shear waves and its upper bound -/

section ShearFix

/-- The buffers after the correction loop are the correction of the buffers before it. -/
theorem roeEigen_eq (ext : Externals K) (c : Config K) (inp : FaceInputs K) (old : Scratch K) :
    roeEigen ext c inp old = correctEigenvalues c.nPrimVarTot (roeRawEigen ext c inp old) :=
  rfl

/-- Below `nPrimVarTot` the corrected eigenvalue is the fix of the uncorrected one, and
`Epsilon` is not changed by the correction loop. -/
theorem roeEigen_apply (ext : Externals K) (c : Config K) (inp : FaceInputs K) (old : Scratch K)
    (k : Nat) (hk : k < c.nPrimVarTot) :
    (roeEigen ext c inp old).Lambda k
        = HartenHymanFix ((roeRawEigen ext c inp old).Lambda k)
            ((roeRawEigen ext c inp old).Epsilon k) ∧
      (roeEigen ext c inp old).Epsilon k = (roeRawEigen ext c inp old).Epsilon k := by
  rw [roeEigen_eq, correctEigenvalues_Lambda, if_pos hk]
  exact ⟨rfl, rfl⟩

/-- With `nVar = nDim + 2`, the uncorrected shear and turbulence entries, on a static or a
dynamic grid. -/
theorem roeRawEigen_shear (ext : Externals K) (c : Config K) (inp : FaceInputs K)
    (old : Scratch K) (hn : c.nVar = c.nDim + 2) (k : Nat)
    (hk : k < c.nDim ∨ (c.tkeNeeded = true ∧ k = c.nVar)) :
    (roeRawEigen ext c inp old).Lambda k
        = adjustedProjVel c inp (roeState ext c inp old).UnitNormal
            (roeState ext c inp old).roe.RoeVelocity ∧
      (roeRawEigen ext c inp old).Epsilon k
        = HartenHymanEpsilon
            (adjustedProjVel c inp (roeState ext c inp old).UnitNormal
              (roeState ext c inp old).roe.RoeVelocity)
            (adjustedProjVel c inp (roeState ext c inp old).UnitNormal
              (roeState ext c inp old).pi.Velocity)
            (adjustedProjVel c inp (roeState ext c inp old).UnitNormal
              (roeState ext c inp old).pj.Velocity) := by
  have hk2 : k < c.nDim + 2 + (if c.tkeNeeded then 1 else 0) := by
    rcases hk with h | ⟨ht, h⟩
    · omega
    · simp only [ht, if_true]; omega
  obtain ⟨hL, hE⟩ := rawEigenvalues_apply c.nDim c.tkeNeeded
    (adjustedProjVel c inp (roeState ext c inp old).UnitNormal
      (roeState ext c inp old).roe.RoeVelocity)
    (adjustedProjVel c inp (roeState ext c inp old).UnitNormal
      (roeState ext c inp old).pi.Velocity)
    (adjustedProjVel c inp (roeState ext c inp old).UnitNormal
      (roeState ext c inp old).pj.Velocity)
    (roeState ext c inp old).RoeSoundSpeed (roeState ext c inp old).pi.SoundSpeed
    (roeState ext c inp old).pj.SoundSpeed old.eig k hk2
  have e : roeRawEigen ext c inp old
      = rawEigenvalues c.nDim (c.nDim + 2) c.tkeNeeded
        (adjustedProjVel c inp (roeState ext c inp old).UnitNormal
          (roeState ext c inp old).roe.RoeVelocity)
        (adjustedProjVel c inp (roeState ext c inp old).UnitNormal
          (roeState ext c inp old).pi.Velocity)
        (adjustedProjVel c inp (roeState ext c inp old).UnitNormal
          (roeState ext c inp old).pj.Velocity)
        (roeState ext c inp old).RoeSoundSpeed (roeState ext c inp old).pi.SoundSpeed
        (roeState ext c inp old).pj.SoundSpeed old.eig := by
    unfold roeRawEigen
    rw [hn]
    rfl
  rw [e, hL, hE]
  rcases hk with h | ⟨ht, h⟩
  · simp only [h, if_true]
    exact ⟨trivial, trivial⟩
  · have a0 : ¬ k < c.nDim := by omega
    have a1 : k ≠ c.nDim := by omega
    have a2 : k ≠ c.nDim + 1 := by omega
    simp only [a0, a1, a2, if_false]
    exact ⟨trivial, trivial⟩

/-- The projection on the normal is linear: the projected Roe velocity is the `R`-weighted
mean of the projected one-sided velocities. -/
theorem projVel_roe (ext : Externals K) (c : Config K) (pi pj : Primitive K) (n : Nat → K) :
    projVel c.nDim (roeAverage ext c pi pj).RoeVelocity n
      = ((roeAverage ext c pi pj).R * projVel c.nDim pj.Velocity n + projVel c.nDim pi.Velocity n)
        / ((roeAverage ext c pi pj).R + 1.0) := by
  unfold projVel
  rw [sumLoop_eq_sum, sumLoop_eq_sum, sumLoop_eq_sum, Finset.mul_sum, ← Finset.sum_add_distrib,
    Finset.sum_div]
  refine Finset.sum_congr rfl (fun i _ => ?_)
  show ((roeAverage ext c pi pj).R * pj.Velocity i + pi.Velocity i)
      / ((roeAverage ext c pi pj).R + 1.0) * n i = _
  ring

/-- The projected velocities after the adjustment for mesh motion obey the same mean. -/
theorem adjustedProjVel_roe (ext : Externals K) (c : Config K) (inp : FaceInputs K)
    (pi pj : Primitive K) (n : Nat → K) (hR : 0 < (roeAverage ext c pi pj).R) :
    adjustedProjVel c inp n (roeAverage ext c pi pj).RoeVelocity
      = ((roeAverage ext c pi pj).R * adjustedProjVel c inp n pj.Velocity
          + adjustedProjVel c inp n pi.Velocity) / ((roeAverage ext c pi pj).R + 1.0) := by
  have h1 : (roeAverage ext c pi pj).R + 1.0 ≠ 0 := by
    have : (0 : K) < (roeAverage ext c pi pj).R + 1.0 := by norm_num; linarith
    exact ne_of_gt this
  unfold adjustedProjVel
  by_cases hd : c.dynamic_grid = true
  · simp only [hd, if_true]
    rw [projVel_roe]
    field_simp
    ring
  · simp only [hd, Bool.false_eq_true, if_false]
    exact projVel_roe ext c pi pj n

/-- For a weight `R > 0` and `PV = (R*PV_j + PV_i)/(R + 1)`, the Harten-Hyman `Epsilon` of the
shear wave is positive exactly in expansion (`PV_i < PV_j`) and zero otherwise. -/
theorem shear_epsilon_sign (R PVi PVj : K) (hR : 0 < R) :
    (0 < HartenHymanEpsilon ((R * PVj + PVi) / (R + 1.0)) PVi PVj ↔ PVi < PVj) ∧
    (PVj ≤ PVi → HartenHymanEpsilon ((R * PVj + PVi) / (R + 1.0)) PVi PVj = 0) := by
  have h1 : (0 : K) < R + 1 := by linarith
  have e10 : (R + 1.0 : K) = R + 1 := by norm_num
  have ea : (R * PVj + PVi) / (R + 1) - PVi = R / (R + 1) * (PVj - PVi) := by
    field_simp
    ring
  have eb : PVj - (R * PVj + PVi) / (R + 1) = 1 / (R + 1) * (PVj - PVi) := by
    field_simp
    ring
  have hzero : PVj ≤ PVi →
      HartenHymanEpsilon ((R * PVj + PVi) / (R + 1.0)) PVi PVj = 0 := by
    intro h
    unfold HartenHymanEpsilon
    rw [e10, ea, eb]
    have a1 : R / (R + 1) * (PVj - PVi) ≤ 0 :=
      mul_nonpos_of_nonneg_of_nonpos (div_pos hR h1).le (by linarith)
    have a2 : 1 / (R + 1) * (PVj - PVi) ≤ 0 :=
      mul_nonpos_of_nonneg_of_nonpos (div_pos one_pos h1).le (by linarith)
    have e0 : (0.0 : K) = 0 := by norm_num
    rw [e0, max_eq_left (max_le a1 a2), mul_zero]
  refine ⟨⟨?_, ?_⟩, hzero⟩
  · intro hpos
    by_contra hcon
    rw [hzero (not_lt.mp hcon)] at hpos
    exact lt_irrefl _ hpos
  · intro h
    unfold HartenHymanEpsilon
    rw [e10, ea]
    have a1 : 0 < R / (R + 1) * (PVj - PVi) := mul_pos (div_pos hR h1) (by linarith)
    have a3 : 0 < max (0.0 : K) (max (R / (R + 1) * (PVj - PVi)) (PVj - (R * PVj + PVi) / (R + 1))) :=
      lt_of_lt_of_le a1 (le_trans (le_max_left _ _) (le_max_right _ _))
    have h4 : (0 : K) < 4.0 := by norm_num
    exact mul_pos h4 a3

/-- C31. The Harten-Hyman fix is inactive on shear waves in compression. In
`CUpwRoeBase_Flow::ComputeResidual`, with `sqrt` the square root, `nVar = nDim + 2`, positive
densities, on a static or a dynamic grid, for every shear index `k < nDim` and for the
turbulence index `k = nVar` when the turbulent kinetic energy is coupled: `Epsilon[k]` is
strictly positive if and only if `ProjVelocity_i < ProjVelocity_j`; when
`ProjVelocity_j <= ProjVelocity_i` it is 0 and the corrected `Lambda[k]` is `|ProjVelocity|`. -/
theorem harten_hyman_inactive_in_compression (ext : Externals K) (c : Config K)
    (inp : FaceInputs K) (old : Scratch K) (hs : IsSqrt ext.sqrt)
    (hri : 0 < inp.U_i 0) (hrj : 0 < inp.U_j 0) (hn : c.nVar = c.nDim + 2) (k : Nat)
    (hk : k < c.nDim ∨ (c.tkeNeeded = true ∧ k = c.nVar)) :
    (0 < (roeEigen ext c inp old).Epsilon k ↔
      adjustedProjVel c inp (roeState ext c inp old).UnitNormal
          (roeState ext c inp old).pi.Velocity
        < adjustedProjVel c inp (roeState ext c inp old).UnitNormal
          (roeState ext c inp old).pj.Velocity) ∧
    (adjustedProjVel c inp (roeState ext c inp old).UnitNormal
          (roeState ext c inp old).pj.Velocity
        ≤ adjustedProjVel c inp (roeState ext c inp old).UnitNormal
          (roeState ext c inp old).pi.Velocity →
      (roeEigen ext c inp old).Epsilon k = 0 ∧
      (roeEigen ext c inp old).Lambda k
        = |adjustedProjVel c inp (roeState ext c inp old).UnitNormal
            (roeState ext c inp old).roe.RoeVelocity|) := by
  have hkp : k < c.nPrimVarTot := by
    unfold Config.nPrimVarTot
    rcases hk with h | ⟨ht, h⟩
    · omega
    · simp only [ht, if_true]; omega
  have hR : 0 < (roeAverage ext c (extractPrimitive ext c inp.U_i inp.turb_ke_i)
      (extractPrimitive ext c inp.U_j inp.turb_ke_j)).R :=
    (roe_R_swap hs (inp.U_i 0) (inp.U_j 0) hri hrj).1
  obtain ⟨hL, hE⟩ := roeEigen_apply ext c inp old k hkp
  obtain ⟨rL, rE⟩ := roeRawEigen_shear ext c inp old hn k hk
  have hPV : adjustedProjVel c inp (roeState ext c inp old).UnitNormal
        (roeState ext c inp old).roe.RoeVelocity
      = ((roeAverage ext c (extractPrimitive ext c inp.U_i inp.turb_ke_i)
            (extractPrimitive ext c inp.U_j inp.turb_ke_j)).R
          * adjustedProjVel c inp (roeState ext c inp old).UnitNormal
              (roeState ext c inp old).pj.Velocity
          + adjustedProjVel c inp (roeState ext c inp old).UnitNormal
              (roeState ext c inp old).pi.Velocity)
        / ((roeAverage ext c (extractPrimitive ext c inp.U_i inp.turb_ke_i)
            (extractPrimitive ext c inp.U_j inp.turb_ke_j)).R + 1.0) :=
    adjustedProjVel_roe ext c inp (extractPrimitive ext c inp.U_i inp.turb_ke_i)
      (extractPrimitive ext c inp.U_j inp.turb_ke_j) (roeState ext c inp old).UnitNormal hR
  obtain ⟨s1, s2⟩ := shear_epsilon_sign
    (roeAverage ext c (extractPrimitive ext c inp.U_i inp.turb_ke_i)
      (extractPrimitive ext c inp.U_j inp.turb_ke_j)).R
    (adjustedProjVel c inp (roeState ext c inp old).UnitNormal
      (roeState ext c inp old).pi.Velocity)
    (adjustedProjVel c inp (roeState ext c inp old).UnitNormal
      (roeState ext c inp old).pj.Velocity) hR
  rw [← hPV] at s1 s2
  rw [hL, hE, rL, rE]
  refine ⟨s1, fun h => ⟨s2 h, ?_⟩⟩
  rw [s2 h]
  unfold HartenHymanFix
  rw [if_neg (not_lt.mpr (abs_nonneg _))]

/-- C31, at a concrete input: `obliqueInputs` (gas at rest on the left, velocity `(1/2, 0)` on
the right, unit normal `(3/5, 4/5)`), first shear index, over the reals with the real square
root. -/
theorem harten_hyman_inactive_in_compression_witness :
    IsSqrt (constExternals Real.sqrt).sqrt ∧
    (0 : ℝ) < (obliqueInputs (K := ℝ)).U_i 0 ∧ (0 : ℝ) < (obliqueInputs (K := ℝ)).U_j 0 ∧
    (exampleConfig (K := ℝ) false false false).nVar
      = (exampleConfig (K := ℝ) false false false).nDim + 2 ∧
    (0 < (roeEigen (constExternals Real.sqrt) (exampleConfig false false false) obliqueInputs
        exampleScratch).Epsilon 0 ↔
      adjustedProjVel (exampleConfig false false false) obliqueInputs
          (obliqueState Real.sqrt).UnitNormal (obliqueState Real.sqrt).pi.Velocity
        < adjustedProjVel (exampleConfig false false false) obliqueInputs
          (obliqueState Real.sqrt).UnitNormal (obliqueState Real.sqrt).pj.Velocity) := by
  have hi : (0 : ℝ) < (obliqueInputs (K := ℝ)).U_i 0 := by
    norm_num [obliqueInputs, exampleInputs, state2D]
  have hj : (0 : ℝ) < (obliqueInputs (K := ℝ)).U_j 0 := by
    norm_num [obliqueInputs, exampleInputs, state2D]
  exact ⟨isSqrt_real, hi, hj, rfl,
    (harten_hyman_inactive_in_compression (constExternals Real.sqrt)
      (exampleConfig false false false) obliqueInputs exampleScratch isSqrt_real hi hj rfl 0
      (Or.inl (by decide))).1⟩

end ShearFix

section FixUpperBound

/-- In the smoothed branch (`|lambda| < epsilon`) the corrected eigenvalue lies between
`epsilon/2` and `epsilon`. -/
theorem HartenHymanFix_smooth_bounds (lambda epsilon : K) (h : |lambda| < epsilon) :
    epsilon / 2 ≤ HartenHymanFix lambda epsilon ∧ HartenHymanFix lambda epsilon ≤ epsilon ∧
      0 < HartenHymanFix lambda epsilon := by
  have he : 0 < epsilon := lt_of_le_of_lt (abs_nonneg lambda) h
  have hsq : lambda * lambda = |lambda| * |lambda| := (abs_mul_abs_self lambda).symm
  have hlt : lambda * lambda ≤ epsilon * epsilon := by
    rw [hsq]
    exact mul_le_mul h.le h.le (abs_nonneg _) he.le
  have hq0 : 0 ≤ lambda * lambda / epsilon := div_nonneg (mul_self_nonneg _) he.le
  have hq1 : lambda * lambda / epsilon ≤ epsilon := by
    rw [div_le_iff₀ he]
    exact hlt
  have e : HartenHymanFix lambda epsilon = (lambda * lambda / epsilon + epsilon) / 2 := by
    unfold HartenHymanFix
    rw [if_pos h]
    norm_num
    ring
  rw [e]
  refine ⟨?_, ?_, ?_⟩
  · linarith
  · linarith
  · linarith

/-- The corrected eigenvalue is non-negative and at most `max(|lambda|, epsilon)`. -/
theorem HartenHymanFix_le_max (lambda epsilon : K) :
    0 ≤ HartenHymanFix lambda epsilon ∧ HartenHymanFix lambda epsilon ≤ max |lambda| epsilon := by
  by_cases h : |lambda| < epsilon
  · obtain ⟨_, h2, h3⟩ := HartenHymanFix_smooth_bounds lambda epsilon h
    exact ⟨h3.le, le_trans h2 (le_max_right _ _)⟩
  · have e : HartenHymanFix lambda epsilon = |lambda| := by
      unfold HartenHymanFix
      rw [if_neg h]
    rw [e]
    exact ⟨abs_nonneg _, le_max_left _ _⟩

/-- At the switch `|lambda| = epsilon` the value returned (the branch `fabs(lambda)`) and the
expression of the smoothed branch are both `epsilon`. -/
theorem HartenHymanFix_switch (lambda epsilon : K) (h : |lambda| = epsilon) :
    HartenHymanFix lambda epsilon = epsilon ∧
      0.5 * (lambda * lambda / epsilon + epsilon) = epsilon := by
  constructor
  · unfold HartenHymanFix
    rw [if_neg (by rw [h]; exact lt_irrefl _), h]
  · have hsq : lambda * lambda = epsilon * epsilon := by
      rw [← h]
      exact (abs_mul_abs_self lambda).symm
    rw [hsq]
    by_cases he : epsilon = 0
    · rw [he]
      norm_num
    · rw [mul_div_assoc, div_self he]
      norm_num
      ring

/-- C32. Upper bound of the Harten-Hyman fix in `CUpwRoeBase_Flow::ComputeResidual`. For every
eigenvalue `lambda` and every `epsilon` (in particular every `epsilon >= 0`), the corrected
eigenvalue is non-negative and at most `max(|lambda|, epsilon)`; when `|lambda| < epsilon` it
lies in `[epsilon/2, epsilon]` and is strictly positive; at `|lambda| = epsilon` the value
returned and the expression `0.5*(lambda*lambda/epsilon + epsilon)` of the other branch are
both `epsilon`. With `nVar = nDim + 2`, for every index `k < nPrimVarTot` of the arrays that
`ComputeResidual` builds, `Epsilon[k] >= 0` and the corrected `Lambda[k]` is the fix of the
uncorrected one, is non-negative and is at most `max(|Lambda[k]|, Epsilon[k])`. -/
theorem harten_hyman_fix_upper_bound (ext : Externals K) (c : Config K) (inp : FaceInputs K)
    (old : Scratch K) (lambda epsilon : K) (hn : c.nVar = c.nDim + 2) (k : Nat)
    (hk : k < c.nPrimVarTot) :
    (0 ≤ HartenHymanFix lambda epsilon ∧ HartenHymanFix lambda epsilon ≤ max |lambda| epsilon) ∧
    (|lambda| < epsilon →
      epsilon / 2 ≤ HartenHymanFix lambda epsilon ∧ HartenHymanFix lambda epsilon ≤ epsilon ∧
        0 < HartenHymanFix lambda epsilon) ∧
    (|lambda| = epsilon →
      HartenHymanFix lambda epsilon = epsilon ∧
        0.5 * (lambda * lambda / epsilon + epsilon) = epsilon) ∧
    (0 ≤ (roeEigen ext c inp old).Epsilon k ∧
      (roeEigen ext c inp old).Lambda k
        = HartenHymanFix ((roeRawEigen ext c inp old).Lambda k)
            ((roeEigen ext c inp old).Epsilon k) ∧
      0 ≤ (roeEigen ext c inp old).Lambda k ∧
      (roeEigen ext c inp old).Lambda k
        ≤ max |(roeRawEigen ext c inp old).Lambda k| ((roeEigen ext c inp old).Epsilon k)) := by
  obtain ⟨hL, hE⟩ := roeEigen_apply ext c inp old k hk
  have hpos : 0 ≤ (roeRawEigen ext c inp old).Epsilon k := by
    obtain ⟨l, r, h⟩ := rawEigenvalues_Epsilon c.nDim c.nVar c.tkeNeeded
      (adjustedProjVel c inp (roeState ext c inp old).UnitNormal
        (roeState ext c inp old).roe.RoeVelocity)
      (adjustedProjVel c inp (roeState ext c inp old).UnitNormal
        (roeState ext c inp old).pi.Velocity)
      (adjustedProjVel c inp (roeState ext c inp old).UnitNormal
        (roeState ext c inp old).pj.Velocity)
      (roeState ext c inp old).RoeSoundSpeed (roeState ext c inp old).pi.SoundSpeed
      (roeState ext c inp old).pj.SoundSpeed old.eig k hn hk
    have e : (roeRawEigen ext c inp old).Epsilon k = HartenHymanEpsilon
        ((roeRawEigen ext c inp old).Lambda k) l r := h
    rw [e]
    exact HartenHymanEpsilon_nonneg _ _ _
  refine ⟨HartenHymanFix_le_max lambda epsilon, HartenHymanFix_smooth_bounds lambda epsilon,
    HartenHymanFix_switch lambda epsilon, ?_⟩
  rw [hE, hL]
  exact ⟨hpos, rfl, (HartenHymanFix_le_max _ _).1, (HartenHymanFix_le_max _ _).2⟩

/-- C32, at a concrete input: `lambda = 1`, `epsilon = 2` (smoothed branch, corrected value
`5/4`) and the acoustic index 2 of `obliqueInputs`, over the reals with the real square root. -/
theorem harten_hyman_fix_upper_bound_witness :
    (exampleConfig (K := ℝ) false false false).nVar
      = (exampleConfig (K := ℝ) false false false).nDim + 2 ∧
    2 < (exampleConfig (K := ℝ) false false false).nPrimVarTot ∧
    |(1 : ℝ)| < 2 ∧ HartenHymanFix (1 : ℝ) 2 = 5 / 4 ∧
    (2 : ℝ) / 2 ≤ HartenHymanFix (1 : ℝ) 2 ∧ HartenHymanFix (1 : ℝ) 2 ≤ 2 ∧
    0 ≤ (roeEigen (constExternals Real.sqrt) (exampleConfig false false false) obliqueInputs
      exampleScratch).Lambda 2 := by
  have t := harten_hyman_fix_upper_bound (constExternals Real.sqrt)
    (exampleConfig false false false) obliqueInputs exampleScratch 1 2 rfl 2 (by decide)
  have h12 : |(1 : ℝ)| < 2 := by norm_num
  have hv : HartenHymanFix (1 : ℝ) 2 = 5 / 4 := by
    unfold HartenHymanFix
    rw [if_pos h12]
    norm_num
  exact ⟨rfl, by decide, h12, hv, (t.2.1 h12).1, (t.2.1 h12).2.1, t.2.2.2.2.2.1⟩

/-- One Mach number at least 1 gives `zeta = 1`. -/
theorem zeta_eq_one_of_max (M_i M_j : K) (h : 1 ≤ max M_i M_j) : zeta M_i M_j = 1 := by
  unfold zeta
  have e1 : (1.0 : K) = 1 := by norm_num
  rw [e1, min_eq_right h, max_eq_right (by norm_num)]

/-- The left Mach number of `supersonicInputs` is 2. -/
theorem supersonic_mach_i :
    1 ≤ machNumber Real.sqrt 2 (supersonicState Real.sqrt).pi.Velocity
      (supersonicState Real.sqrt).pi.Pressure 1.4 (supersonicState Real.sqrt).pi.Density := by
  obtain ⟨⟨di, _⟩, ⟨v1, v2, _, _⟩, ⟨p1, _⟩, _⟩ := supersonic_sides
  have s4 : Real.sqrt 4 = 2 := isSqrt_real.unique (by norm_num) (by norm_num)
  unfold machNumber sumLoop
  simp only [forLoop]
  rw [v1, v2, p1, di]
  have e : (0 + (2 : ℝ) * 2 + 0 * 0) / |5 / 7 * 1.4 / 1| = 4 := by norm_num
  rw [e, s4]
  norm_num

/-- C33. L2Roe and Low-Mach Roe coincide when the scaling is inactive: for every state with
`max(M_i, M_j) >= 1`, in any number of dimensions (2D and 3D in particular), `zeta = 1`,
`CUpwL2Roe_Flow::FinalizeResidual` and `CUpwLMRoe_Flow::FinalizeResidual` compute the same
`delta_wave` and return the same residual and the same two Jacobians from the same buffers on
entry, in implicit and in explicit mode. -/
theorem low_mach_schemes_coincide (ext : Externals K) (c : Config K) (s : RoeState K)
    (res : ResidualType K)
    (hM : 1 ≤ max (machNumber ext.sqrt c.nDim s.pi.Velocity s.pi.Pressure c.Gamma s.pi.Density)
      (machNumber ext.sqrt c.nDim s.pj.Velocity s.pj.Pressure c.Gamma s.pj.Density)) :
    stateZeta ext c s = 1 ∧
    CUpwL2Roe_Flow.delta_wave ext c s = CUpwLMRoe_Flow.delta_wave ext c s ∧
    (CUpwL2Roe_Flow.FinalizeResidual ext c s res).Flux
      = (CUpwLMRoe_Flow.FinalizeResidual ext c s res).Flux ∧
    (CUpwL2Roe_Flow.FinalizeResidual ext c s res).Jacobian_i
      = (CUpwLMRoe_Flow.FinalizeResidual ext c s res).Jacobian_i ∧
    (CUpwL2Roe_Flow.FinalizeResidual ext c s res).Jacobian_j
      = (CUpwLMRoe_Flow.FinalizeResidual ext c s res).Jacobian_j := by
  have hz : stateZeta ext c s = 1 := zeta_eq_one_of_max _ _ hM
  have hw : CUpwL2Roe_Flow.delta_wave ext c s = CUpwLMRoe_Flow.delta_wave ext c s := by
    unfold CUpwL2Roe_Flow.delta_wave CUpwLMRoe_Flow.delta_wave
    rw [hz]
    exact lowMachDeltaWave_one c s
  have hF : CUpwL2Roe_Flow.FinalizeResidual ext c s res
      = CUpwLMRoe_Flow.FinalizeResidual ext c s res := by
    show lowMachFinalize ext c s (CUpwL2Roe_Flow.delta_wave ext c s) res
      = lowMachFinalize ext c s (CUpwLMRoe_Flow.delta_wave ext c s) res
    rw [hw]
  refine ⟨hz, hw, ?_, ?_, ?_⟩ <;> rw [hF]

/-- C33, at a concrete input: the supersonic states of `supersonicInputs` (Mach 2) in the
implicit two-dimensional configuration, over the reals with the real square root. -/
theorem low_mach_schemes_coincide_witness :
    1 ≤ max (machNumber Real.sqrt 2 (supersonicState Real.sqrt).pi.Velocity
        (supersonicState Real.sqrt).pi.Pressure 1.4 (supersonicState Real.sqrt).pi.Density)
      (machNumber Real.sqrt 2 (supersonicState Real.sqrt).pj.Velocity
        (supersonicState Real.sqrt).pj.Pressure 1.4 (supersonicState Real.sqrt).pj.Density) ∧
    CUpwL2Roe_Flow.delta_wave (eulerExternals2D Real.sqrt 0.4) (exampleConfig true false false)
        (supersonicState Real.sqrt)
      = CUpwLMRoe_Flow.delta_wave (eulerExternals2D Real.sqrt 0.4)
        (exampleConfig true false false) (supersonicState Real.sqrt) ∧
    (CUpwL2Roe_Flow.FinalizeResidual (eulerExternals2D Real.sqrt 0.4)
        (exampleConfig true false false) (supersonicState Real.sqrt) exampleResidual).Jacobian_i
      = (CUpwLMRoe_Flow.FinalizeResidual (eulerExternals2D Real.sqrt 0.4)
        (exampleConfig true false false) (supersonicState Real.sqrt) exampleResidual).Jacobian_i := by
  have hM : 1 ≤ max (machNumber Real.sqrt 2 (supersonicState Real.sqrt).pi.Velocity
        (supersonicState Real.sqrt).pi.Pressure 1.4 (supersonicState Real.sqrt).pi.Density)
      (machNumber Real.sqrt 2 (supersonicState Real.sqrt).pj.Velocity
        (supersonicState Real.sqrt).pj.Pressure 1.4 (supersonicState Real.sqrt).pj.Density) :=
    le_max_of_le_left supersonic_mach_i
  have t := low_mach_schemes_coincide (eulerExternals2D Real.sqrt 0.4)
    (exampleConfig true false false) (supersonicState Real.sqrt) exampleResidual hM
  exact ⟨hM, t.2.1, t.2.2.2.1⟩

end FixUpperBound

/-! ## The wave amplitudes of the low-Mach schemes in three dimensions -/

section TangentialJump

/-- In three dimensions, on a face whose unit normal has `n_x = n_z = 0`, two sides with the
same density, pressure and velocity components `u`, `v` give zero wave amplitudes in both
low-Mach schemes, whatever the jump of `w` is. -/
theorem lowMachDeltaWave_3D_eq_zero (c : Config K) (s : RoeState K) (z : K) (shear : K → K)
    (h3 : c.nDim = 3) (hn0 : s.UnitNormal 0 = 0) (hn2 : s.UnitNormal 2 = 0)
    (hr : s.pj.Density = s.pi.Density) (hp : s.pj.Pressure = s.pi.Pressure)
    (hv0 : s.pj.Velocity 0 = s.pi.Velocity 0) (hv1 : s.pj.Velocity 1 = s.pi.Velocity 1)
    (h0 : shear 0 = 0) (k : Nat) :
    lowMachDeltaWave c s z shear k = 0 := by
  have d0 : delta_vel s 0 = 0 := by
    unfold delta_vel
    rw [hv0, sub_self]
  have d1 : delta_vel s 1 = 0 := by
    unfold delta_vel
    rw [hv1, sub_self]
  have hpd : proj_delta_vel c s z = 0 := by
    unfold proj_delta_vel sumLoop
    rw [h3]
    simp only [forLoop]
    rw [d0, d1, hn2]
    ring
  have hne : ¬ c.nDim = 2 := by omega
  unfold lowMachDeltaWave
  simp only [hne, if_false, hpd, d0, d1, hn0, hn2, hr, hp, sub_self, zero_div, mul_zero,
    zero_mul, h0, neg_zero, add_zero, setV]
  split_ifs <;> norm_num

/-- Zero wave amplitudes leave the residual as it is. -/
theorem lowMachFinalize_Flux_of_zero (ext : Externals K) (c : Config K) (s : RoeState K)
    (w : Nat → K) (res : ResidualType K) (hw : ∀ j, w j = 0) (k : Nat) :
    (lowMachFinalize ext c s w res).Flux k = res.Flux k := by
  rw [lowMachFinalize_Flux]
  by_cases hk : k < c.nVar
  · rw [if_pos hk, Finset.sum_eq_zero (fun j _ => by rw [hw j]; ring), sub_zero]
  · rw [if_neg hk]

/-- In two dimensions the wave amplitudes determine the jumps: for a unit normal and
`RoeDensity*RoeSoundSpeed != 0`, zero amplitudes at `zeta = 1` force zero jumps of density,
pressure and of both velocity components. -/
theorem lowMachDeltaWave_2D_injective (c : Config K) (s : RoeState K) (h2 : c.nDim = 2)
    (hunit : s.UnitNormal 0 * s.UnitNormal 0 + s.UnitNormal 1 * s.UnitNormal 1 = 1)
    (hrc : s.roe.RoeDensity * s.RoeSoundSpeed ≠ 0)
    (hw : ∀ k, lowMachDeltaWave c s 1 (fun a => a) k = 0) :
    s.pj.Density - s.pi.Density = 0 ∧ s.pj.Pressure - s.pi.Pressure = 0 ∧
      delta_vel s 0 = 0 ∧ delta_vel s 1 = 0 := by
  obtain ⟨w0, w1, w2, w3⟩ := lowMachDeltaWave_apply c s 1 (fun a => a) (Or.inl h2)
  have e1 := w1 1 (le_refl 1) (by omega)
  rw [hw] at w0 w2 w3 e1
  rw [h2] at w2 w3
  rw [if_pos (Or.inl h2)] at e1
  have hpv : projVel 2 (delta_vel s) s.UnitNormal
      = delta_vel s 0 * s.UnitNormal 0 + delta_vel s 1 * s.UnitNormal 1 := by
    simp [projVel, sumLoop, forLoop]
  rw [hpv] at w2 w3
  have hq : (s.pj.Pressure - s.pi.Pressure) / (s.roe.RoeDensity * s.RoeSoundSpeed) = 0 := by
    linarith
  have hp : s.pj.Pressure - s.pi.Pressure = 0 := by
    rcases div_eq_zero_iff.mp hq with h | h
    · exact h
    · exact absurd h hrc
  have hproj : delta_vel s 0 * s.UnitNormal 0 + delta_vel s 1 * s.UnitNormal 1 = 0 := by
    linarith
  have hr : s.pj.Density - s.pi.Density = 0 := by
    rw [hp, zero_div, sub_zero] at w0
    exact w0.symm
  refine ⟨hr, hp, ?_, ?_⟩
  · have : delta_vel s 0
        = (delta_vel s 0 * s.UnitNormal 0 + delta_vel s 1 * s.UnitNormal 1) * s.UnitNormal 0
          + (s.UnitNormal 1 * delta_vel s 0 - s.UnitNormal 0 * delta_vel s 1) * s.UnitNormal 1 := by
      linear_combination (-(delta_vel s 0)) * hunit
    rw [this, hproj, ← e1]
    ring
  · have : delta_vel s 1
        = (delta_vel s 0 * s.UnitNormal 0 + delta_vel s 1 * s.UnitNormal 1) * s.UnitNormal 1
          - (s.UnitNormal 1 * delta_vel s 0 - s.UnitNormal 0 * delta_vel s 1) * s.UnitNormal 0 := by
      linear_combination (-(delta_vel s 1)) * hunit
    rw [this, hproj, ← e1]
    ring

/-- When only the component `j0` of the conservative variables jumps, with the
turbulent-kinetic-energy channel and the low-dissipation mode off,
`CUpwRoe_Flow::FinalizeResidual` subtracts the column `j0` of `P * |Lambda| * invP` times
that jump. -/
theorem roe_dissipation_of_single_jump (ext : Externals K) (c : Config K) (s : RoeState K)
    (res : ResidualType K) (i j0 : Nat) (hl : c.roe_low_dissipation = false)
    (ht : c.tkeNeeded = false) (hD : ∀ j, j < c.nVar → j ≠ j0 → Diff_U s j = 0)
    (hi : i < c.nVar) (hj0 : j0 < c.nVar) :
    res.Flux i - (CUpwRoe_Flow.FinalizeResidual ext c s res).Flux i
      = (1 - c.kappa)
        * modJac c.nVar s.P_Tensor s.Lambda
            (ext.GetPMatrix_inv s.roe.RoeDensity s.roe.RoeVelocity s.roe.RoeTke s.RoeSoundSpeed
              s.UnitNormal) i j0
        * Diff_U s j0 * s.Area := by
  rw [roe_dissipation_plain ext c s res i hl ht, if_pos hi, modJac_eq_sum]
  have hsum : ∑ j in Finset.range c.nVar,
        (1.0 - c.kappa)
          * (∑ m in Finset.range c.nVar, s.P_Tensor i m * s.Lambda m
              * ext.GetPMatrix_inv s.roe.RoeDensity s.roe.RoeVelocity s.roe.RoeTke
                  s.RoeSoundSpeed s.UnitNormal m j)
          * Diff_U s j * s.Area
      = (1.0 - c.kappa)
          * (∑ m in Finset.range c.nVar, s.P_Tensor i m * s.Lambda m
              * ext.GetPMatrix_inv s.roe.RoeDensity s.roe.RoeVelocity s.roe.RoeTke
                  s.RoeSoundSpeed s.UnitNormal m j0)
          * Diff_U s j0 * s.Area := by
    refine Finset.sum_eq_single j0 ?_ ?_
    · intro j hj hne
      rw [hD j (Finset.mem_range.mp hj) hne]
      ring
    · intro h
      exact absurd (Finset.mem_range.mpr hj0) h
  rw [hsum]
  norm_num

/-- For every pair of helpers such that `invP` is the inverse of `P`, with non-zero
eigenvalues, `kappa != 1` and a non-zero area: when exactly one conservative variable jumps,
the standard Roe scheme subtracts a non-zero amount from some component of the residual. -/
theorem roe_dissipation_nonzero_of_single_jump (ext : Externals K) (c : Config K)
    (s : RoeState K) (res : ResidualType K) (j0 : Nat) (hl : c.roe_low_dissipation = false)
    (ht : c.tkeNeeded = false)
    (hPQ : IsInversePair c.nVar s.P_Tensor
      (ext.GetPMatrix_inv s.roe.RoeDensity s.roe.RoeVelocity s.roe.RoeTke s.RoeSoundSpeed
        s.UnitNormal))
    (hQP : InverseContract ext c s) (hlam : ∀ k, k < c.nVar → s.Lambda k ≠ 0)
    (hk : c.kappa ≠ 1) (hA : s.Area ≠ 0) (hj0 : j0 < c.nVar)
    (hD : ∀ j, j < c.nVar → j ≠ j0 → Diff_U s j = 0) (hE : Diff_U s j0 ≠ 0) :
    ∃ i, i < c.nVar ∧ res.Flux i - (CUpwRoe_Flow.FinalizeResidual ext c s res).Flux i ≠ 0 := by
  obtain ⟨i, hi, hne⟩ := modJac_column_ne_zero c.nVar s.P_Tensor _ s.Lambda hPQ hQP hlam j0 hj0
  refine ⟨i, hi, ?_⟩
  rw [roe_dissipation_of_single_jump ext c s res i j0 hl ht hD hi hj0]
  have h1 : (1 : K) - c.kappa ≠ 0 := sub_ne_zero.mpr (Ne.symm hk)
  exact mul_ne_zero (mul_ne_zero (mul_ne_zero h1 hne) hE) hA

set_option maxHeartbeats 1600000 in
/-- At density 1, velocity `(0, 2, 0)`, sound speed `3/2` and `Gamma - 1 = 0.4`, for the
normal `(0, 1, 0)`, the matrix `eulerPMatrixInv3D` is a right inverse of `eulerPMatrix3D`. -/
theorem euler3D_right_inverse_tangential (rho c : K) (v n : Nat → K) (h1 : rho = 1)
    (h2 : v 0 = 0) (h3 : v 1 = 2) (h4 : v 2 = 0) (h5 : c = 3 / 2) (h6 : n 0 = 0)
    (h7 : n 1 = 1) (h8 : n 2 = 0) :
    IsInversePair 5 (eulerPMatrix3D 0.4 rho v c n) (eulerPMatrixInv3D 0.4 rho v c n) := by
  intro i j hi hj
  interval_cases i <;> interval_cases j <;>
    simp [sumLoop, forLoop, eulerPMatrix3D, eulerPMatrixInv3D, mat5, sel5, h1, h2, h3, h4, h5,
      h6, h7, h8] <;>
    norm_num

set_option maxHeartbeats 1600000 in
/-- At the same state the matrix `eulerPMatrixInv3D` is a left inverse of `eulerPMatrix3D`. -/
theorem euler3D_left_inverse_tangential (rho c : K) (v n : Nat → K) (h1 : rho = 1)
    (h2 : v 0 = 0) (h3 : v 1 = 2) (h4 : v 2 = 0) (h5 : c = 3 / 2) (h6 : n 0 = 0)
    (h7 : n 1 = 1) (h8 : n 2 = 0) :
    IsInversePair 5 (eulerPMatrixInv3D 0.4 rho v c n) (eulerPMatrix3D 0.4 rho v c n) := by
  intro i j hi hj
  interval_cases i <;> interval_cases j <;>
    simp [sumLoop, forLoop, eulerPMatrix3D, eulerPMatrixInv3D, mat5, sel5, h1, h2, h3, h4, h5,
      h6, h7, h8] <;>
    norm_num

/-- The entry `(3, 3)` of `P * |Lambda| * invP` for the three-dimensional Euler eigensystem
at that state is the first shear eigenvalue. -/
theorem euler3D_modulus_entry_tangential (rho c : K) (v n lam : Nat → K) (h1 : rho = 1)
    (h2 : v 0 = 0) (h3 : v 1 = 2) (h4 : v 2 = 0) (h5 : c = 3 / 2) (h6 : n 0 = 0)
    (h7 : n 1 = 1) (h8 : n 2 = 0) :
    modJac 5 (eulerPMatrix3D 0.4 rho v c n) lam (eulerPMatrixInv3D 0.4 rho v c n) 3 3
      = lam 0 := by
  unfold modJac
  simp [sumLoop, forLoop, eulerPMatrix3D, eulerPMatrixInv3D, mat5, sel5, h1, h2, h3, h4, h5,
    h6, h7, h8]

/-- The one-sided data of `tangentialJumpInputs` and the jump of the conservative variables:
only `rho*w` jumps. -/
theorem tangential_sides :
    ((tangentialJumpState Real.sqrt).pi.Density = 1 ∧
      (tangentialJumpState Real.sqrt).pj.Density = 1) ∧
    ((tangentialJumpState Real.sqrt).pi.Velocity 0 = 0 ∧
      (tangentialJumpState Real.sqrt).pi.Velocity 1 = 2 ∧
      (tangentialJumpState Real.sqrt).pi.Velocity 2 = 5 / 2 ∧
      (tangentialJumpState Real.sqrt).pj.Velocity 0 = 0 ∧
      (tangentialJumpState Real.sqrt).pj.Velocity 1 = 2 ∧
      (tangentialJumpState Real.sqrt).pj.Velocity 2 = -(5 / 2)) ∧
    ((tangentialJumpState Real.sqrt).pi.Pressure = 5 / 7 ∧
      (tangentialJumpState Real.sqrt).pj.Pressure = 5 / 7) ∧
    (Diff_U (tangentialJumpState Real.sqrt) 0 = 0 ∧
      Diff_U (tangentialJumpState Real.sqrt) 1 = 0 ∧
      Diff_U (tangentialJumpState Real.sqrt) 2 = 0 ∧
      Diff_U (tangentialJumpState Real.sqrt) 3 = -5 ∧
      Diff_U (tangentialJumpState Real.sqrt) 4 = 0) := by
  refine ⟨⟨?_, ?_⟩, ⟨?_, ?_, ?_, ?_, ?_, ?_⟩, ⟨?_, ?_⟩, ⟨?_, ?_, ?_, ?_, ?_⟩⟩
  · simp [tangentialJumpState, roeState, extractPrimitive, tangentialJumpInputs, state3D, sel5]
  · simp [tangentialJumpState, roeState, extractPrimitive, tangentialJumpInputs, state3D, sel5]
  · simp [tangentialJumpState, roeState, extractPrimitive, tangentialJumpInputs, state3D, sel5]
  · simp [tangentialJumpState, roeState, extractPrimitive, tangentialJumpInputs, state3D, sel5]
  · simp [tangentialJumpState, roeState, extractPrimitive, tangentialJumpInputs, state3D, sel5]
  · simp [tangentialJumpState, roeState, extractPrimitive, tangentialJumpInputs, state3D, sel5]
  · simp [tangentialJumpState, roeState, extractPrimitive, tangentialJumpInputs, state3D, sel5]
  · simp [tangentialJumpState, roeState, extractPrimitive, tangentialJumpInputs, state3D, sel5]
  · simp [tangentialJumpState, roeState, extractPrimitive, tangentialJumpInputs, state3D, sel5,
      exampleConfig3D, Config.Gamma_Minus_One, sumLoop, forLoop]
    norm_num
  · simp [tangentialJumpState, roeState, extractPrimitive, tangentialJumpInputs, state3D, sel5,
      exampleConfig3D, Config.Gamma_Minus_One, sumLoop, forLoop]
    norm_num
  · simp [Diff_U, tangentialJumpState, roeState, Conservatives_apply, extractPrimitive,
      tangentialJumpInputs, exampleConfig3D, state3D, sel5]
  · simp [Diff_U, tangentialJumpState, roeState, Conservatives_apply, extractPrimitive,
      tangentialJumpInputs, exampleConfig3D, state3D, sel5]
  · simp [Diff_U, tangentialJumpState, roeState, Conservatives_apply, extractPrimitive,
      tangentialJumpInputs, exampleConfig3D, state3D, sel5]
  · simp [Diff_U, tangentialJumpState, roeState, Conservatives_apply, extractPrimitive,
      tangentialJumpInputs, exampleConfig3D, state3D, sel5]
    norm_num
  · simp [Diff_U, tangentialJumpState, roeState, Conservatives_apply, extractPrimitive,
      tangentialJumpInputs, exampleConfig3D, state3D, sel5]

/-- The Roe state of `tangentialJumpInputs`: density 1, velocity `(0, 2, 0)`, sound speed
`3/2`, unit normal `(0, 1, 0)`, unit area. -/
theorem tangential_roe :
    (tangentialJumpState Real.sqrt).roe.RoeDensity = 1 ∧
    ((tangentialJumpState Real.sqrt).roe.RoeVelocity 0 = 0 ∧
      (tangentialJumpState Real.sqrt).roe.RoeVelocity 1 = 2 ∧
      (tangentialJumpState Real.sqrt).roe.RoeVelocity 2 = 0) ∧
    (tangentialJumpState Real.sqrt).roe.RoeSoundSpeed2 = 9 / 4 ∧
    (tangentialJumpState Real.sqrt).RoeSoundSpeed = 3 / 2 ∧
    ((tangentialJumpState Real.sqrt).UnitNormal 0 = 0 ∧
      (tangentialJumpState Real.sqrt).UnitNormal 1 = 1 ∧
      (tangentialJumpState Real.sqrt).UnitNormal 2 = 0) ∧
    (tangentialJumpState Real.sqrt).Area = 1 := by
  have hc2 : (tangentialJumpState Real.sqrt).roe.RoeSoundSpeed2 = 9 / 4 := by
    simp [tangentialJumpState, roeState, roeAverage, extractPrimitive, tangentialJumpInputs,
      exampleConfig3D, eulerExternals3D, state3D, sel5, Config.Gamma_Minus_One, sumLoop, forLoop]
    norm_num
  refine ⟨?_, ⟨?_, ?_, ?_⟩, hc2, ?_, ⟨?_, ?_, ?_⟩, ?_⟩
  · simp [tangentialJumpState, roeState, roeAverage, extractPrimitive, tangentialJumpInputs,
      exampleConfig3D, eulerExternals3D, state3D, sel5]
  · simp [tangentialJumpState, roeState, roeAverage, extractPrimitive, tangentialJumpInputs,
      exampleConfig3D, eulerExternals3D, state3D, sel5]
  · simp [tangentialJumpState, roeState, roeAverage, extractPrimitive, tangentialJumpInputs,
      exampleConfig3D, eulerExternals3D, state3D, sel5]
    norm_num
  · simp [tangentialJumpState, roeState, roeAverage, extractPrimitive, tangentialJumpInputs,
      exampleConfig3D, eulerExternals3D, state3D, sel5]
  · show Real.sqrt (tangentialJumpState Real.sqrt).roe.RoeSoundSpeed2 = 3 / 2
    rw [hc2]
    exact isSqrt_real.unique (by norm_num) (by norm_num)
  · simp [tangentialJumpState, roeState, UnitNormal, Area, tangentialJumpInputs,
      exampleConfig3D, eulerExternals3D, sumLoop, forLoop]
  · simp [tangentialJumpState, roeState, UnitNormal, Area, tangentialJumpInputs,
      exampleConfig3D, eulerExternals3D, sumLoop, forLoop]
  · simp [tangentialJumpState, roeState, UnitNormal, Area, tangentialJumpInputs,
      exampleConfig3D, eulerExternals3D, sumLoop, forLoop]
  · simp [tangentialJumpState, roeState, Area, tangentialJumpInputs,
      exampleConfig3D, eulerExternals3D, sumLoop, forLoop]

/-- The first corrected shear eigenvalue of `tangentialJumpInputs` is 2. -/
theorem tangential_Lambda : (tangentialJumpState Real.sqrt).Lambda 0 = 2 := by
  obtain ⟨_, ⟨r1, r2, r3⟩, _, _, ⟨n0, n1, n2⟩, _⟩ := tangential_roe
  obtain ⟨_, ⟨v1, v2, v3, v4, v5, v6⟩, _, _⟩ := tangential_sides
  obtain ⟨hL, _⟩ := roeEigen_apply (eulerExternals3D Real.sqrt 0.4) exampleConfig3D
    tangentialJumpInputs exampleScratch 0 (by decide)
  obtain ⟨rL, rE⟩ := roeRawEigen_shear (eulerExternals3D Real.sqrt 0.4) exampleConfig3D
    tangentialJumpInputs exampleScratch rfl 0 (Or.inl (by decide))
  have hstat : ∀ v : Nat → ℝ, adjustedProjVel exampleConfig3D tangentialJumpInputs
      (tangentialJumpState Real.sqrt).UnitNormal v
        = v 0 * (tangentialJumpState Real.sqrt).UnitNormal 0
          + v 1 * (tangentialJumpState Real.sqrt).UnitNormal 1
          + v 2 * (tangentialJumpState Real.sqrt).UnitNormal 2 := by
    intro v
    simp [adjustedProjVel, exampleConfig3D, projVel, sumLoop, forLoop]
  have PV : adjustedProjVel exampleConfig3D tangentialJumpInputs
      (tangentialJumpState Real.sqrt).UnitNormal
      (tangentialJumpState Real.sqrt).roe.RoeVelocity = 2 := by
    rw [hstat, r1, r2, r3, n0, n1, n2]
    norm_num
  have PVi : adjustedProjVel exampleConfig3D tangentialJumpInputs
      (tangentialJumpState Real.sqrt).UnitNormal
      (tangentialJumpState Real.sqrt).pi.Velocity = 2 := by
    rw [hstat, v1, v2, v3, n0, n1, n2]
    norm_num
  have PVj : adjustedProjVel exampleConfig3D tangentialJumpInputs
      (tangentialJumpState Real.sqrt).UnitNormal
      (tangentialJumpState Real.sqrt).pj.Velocity = 2 := by
    rw [hstat, v4, v5, v6, n0, n1, n2]
    norm_num
  change (roeEigen (eulerExternals3D Real.sqrt 0.4) exampleConfig3D tangentialJumpInputs
    exampleScratch).Lambda 0 = 2
  rw [hL, rL, rE]
  change HartenHymanFix
    (adjustedProjVel exampleConfig3D tangentialJumpInputs
      (tangentialJumpState Real.sqrt).UnitNormal (tangentialJumpState Real.sqrt).roe.RoeVelocity)
    (HartenHymanEpsilon
      (adjustedProjVel exampleConfig3D tangentialJumpInputs
        (tangentialJumpState Real.sqrt).UnitNormal (tangentialJumpState Real.sqrt).roe.RoeVelocity)
      (adjustedProjVel exampleConfig3D tangentialJumpInputs
        (tangentialJumpState Real.sqrt).UnitNormal (tangentialJumpState Real.sqrt).pi.Velocity)
      (adjustedProjVel exampleConfig3D tangentialJumpInputs
        (tangentialJumpState Real.sqrt).UnitNormal (tangentialJumpState Real.sqrt).pj.Velocity))
    = 2
  rw [PV, PVi, PVj]
  norm_num [HartenHymanFix, HartenHymanEpsilon]

/-- Both Mach numbers of `tangentialJumpInputs` are `sqrt(41)/2 >= 1`. -/
theorem tangential_mach :
    1 ≤ machNumber Real.sqrt 3 (tangentialJumpState Real.sqrt).pi.Velocity
      (tangentialJumpState Real.sqrt).pi.Pressure 1.4 (tangentialJumpState Real.sqrt).pi.Density ∧
    1 ≤ machNumber Real.sqrt 3 (tangentialJumpState Real.sqrt).pj.Velocity
      (tangentialJumpState Real.sqrt).pj.Pressure 1.4
      (tangentialJumpState Real.sqrt).pj.Density := by
  obtain ⟨⟨di, dj⟩, ⟨v1, v2, v3, v4, v5, v6⟩, ⟨p1, p2⟩, _⟩ := tangential_sides
  constructor
  · unfold machNumber sumLoop
    simp only [forLoop]
    rw [v1, v2, v3, p1, di]
    have e : (0 + (0 : ℝ) * 0 + 2 * 2 + 5 / 2 * (5 / 2)) / |5 / 7 * 1.4 / 1| = 41 / 4 := by
      norm_num
    rw [e]
    exact Real.one_le_sqrt.mpr (by norm_num)
  · unfold machNumber sumLoop
    simp only [forLoop]
    rw [v4, v5, v6, p2, dj]
    have e : (0 + (0 : ℝ) * 0 + 2 * 2 + -(5 / 2) * -(5 / 2)) / |5 / 7 * 1.4 / 1| = 41 / 4 := by
      norm_num
    rw [e]
    exact Real.one_le_sqrt.mpr (by norm_num)

/-- A tangential velocity jump in three dimensions. Face with normal `(0, 1, 0)`, density 1
and pressure `5/7` on both sides, velocities `(0, 2, 5/2)` and `(0, 2, -5/2)` (Mach number
`sqrt(41)/2` on both sides, so `zeta = 1`), `Gamma = 1.4`, `kappa = 0.5`, no turbulent kinetic
energy, low-dissipation mode off, three-dimensional Euler eigensystem as helpers;
`RoeSoundSpeed2 = 9/4 > 0`. The only jump is `Diff_U[3] = -5` (the momentum `rho*w`). The
wave amplitudes of the 3D branch, `UnitNormal[0]*delta_vel[2] - UnitNormal[2]*delta_vel[0]`
and `UnitNormal[1]*delta_vel[0] - UnitNormal[0]*delta_vel[1]`, do not see `delta_vel[2]` when
`UnitNormal[0] = 0`: every entry of `delta_wave` is 0 and `CUpwL2Roe_Flow::FinalizeResidual`
and `CUpwLMRoe_Flow::FinalizeResidual` subtract nothing from any component of the residual,
while `CUpwRoe_Flow::FinalizeResidual` subtracts
`(1 - kappa)*(P*|Lambda|*invP)[3][3]*Diff_U[3]*Area = 0.5*2*(-5)*1 = -5` from `Flux[3]`. -/
theorem low_mach_3d_waves_miss_tangential_jump :
    0 < (tangentialJumpState Real.sqrt).roe.RoeSoundSpeed2 ∧
    1 ≤ machNumber Real.sqrt 3 (tangentialJumpState Real.sqrt).pi.Velocity
      (tangentialJumpState Real.sqrt).pi.Pressure 1.4 (tangentialJumpState Real.sqrt).pi.Density ∧
    1 ≤ machNumber Real.sqrt 3 (tangentialJumpState Real.sqrt).pj.Velocity
      (tangentialJumpState Real.sqrt).pj.Pressure 1.4 (tangentialJumpState Real.sqrt).pj.Density ∧
    stateZeta (eulerExternals3D Real.sqrt 0.4) exampleConfig3D (tangentialJumpState Real.sqrt)
      = 1 ∧
    Diff_U (tangentialJumpState Real.sqrt) 3 = -5 ∧
    (∀ k, CUpwL2Roe_Flow.delta_wave (eulerExternals3D Real.sqrt 0.4) exampleConfig3D
        (tangentialJumpState Real.sqrt) k = 0 ∧
      CUpwLMRoe_Flow.delta_wave (eulerExternals3D Real.sqrt 0.4) exampleConfig3D
        (tangentialJumpState Real.sqrt) k = 0) ∧
    (∀ k, exampleResidual.Flux k
        - (CUpwL2Roe_Flow.FinalizeResidual (eulerExternals3D Real.sqrt 0.4) exampleConfig3D
            (tangentialJumpState Real.sqrt) exampleResidual).Flux k = 0 ∧
      exampleResidual.Flux k
        - (CUpwLMRoe_Flow.FinalizeResidual (eulerExternals3D Real.sqrt 0.4) exampleConfig3D
            (tangentialJumpState Real.sqrt) exampleResidual).Flux k = 0) ∧
    exampleResidual.Flux 3
      - (CUpwRoe_Flow.FinalizeResidual (eulerExternals3D Real.sqrt 0.4) exampleConfig3D
          (tangentialJumpState Real.sqrt) exampleResidual).Flux 3 = -5 := by
  obtain ⟨r0, ⟨r1, r2, r3⟩, r4, r5, ⟨n0, n1, n2⟩, rA⟩ := tangential_roe
  obtain ⟨⟨di, dj⟩, ⟨v1, v2, v3, v4, v5, v6⟩, ⟨p1, p2⟩, ⟨d0, d1, d2, d3, d4⟩⟩ := tangential_sides
  obtain ⟨hMi, hMj⟩ := tangential_mach
  have hpos : 0 < (tangentialJumpState Real.sqrt).roe.RoeSoundSpeed2 := by
    rw [r4]
    norm_num
  have hw : ∀ (z : ℝ) (shear : ℝ → ℝ), shear 0 = 0 → ∀ j,
      lowMachDeltaWave exampleConfig3D (tangentialJumpState Real.sqrt) z shear j = 0 :=
    fun z shear h0 j => lowMachDeltaWave_3D_eq_zero exampleConfig3D
      (tangentialJumpState Real.sqrt) z shear rfl n0 n2 (dj.trans di.symm) (p2.trans p1.symm)
      (v4.trans v1.symm) (v5.trans v2.symm) h0 j
  have hw2 : ∀ k, CUpwL2Roe_Flow.delta_wave (eulerExternals3D Real.sqrt 0.4) exampleConfig3D
      (tangentialJumpState Real.sqrt) k = 0 :=
    fun k => hw _ _ (by norm_num) k
  have hwM : ∀ k, CUpwLMRoe_Flow.delta_wave (eulerExternals3D Real.sqrt 0.4) exampleConfig3D
      (tangentialJumpState Real.sqrt) k = 0 :=
    fun k => hw _ _ rfl k
  have hT : modJac 5 (tangentialJumpState Real.sqrt).P_Tensor
      (tangentialJumpState Real.sqrt).Lambda
      ((eulerExternals3D Real.sqrt 0.4).GetPMatrix_inv
        (tangentialJumpState Real.sqrt).roe.RoeDensity
        (tangentialJumpState Real.sqrt).roe.RoeVelocity
        (tangentialJumpState Real.sqrt).roe.RoeTke (tangentialJumpState Real.sqrt).RoeSoundSpeed
        (tangentialJumpState Real.sqrt).UnitNormal) 3 3 = 2 := by
    rw [← tangential_Lambda]
    exact euler3D_modulus_entry_tangential (tangentialJumpState Real.sqrt).roe.RoeDensity
      (tangentialJumpState Real.sqrt).RoeSoundSpeed
      (tangentialJumpState Real.sqrt).roe.RoeVelocity (tangentialJumpState Real.sqrt).UnitNormal
      (tangentialJumpState Real.sqrt).Lambda r0 r1 r2 r3 r5 n0 n1 n2
  have hD : ∀ j, j < (exampleConfig3D : Config ℝ).nVar → j ≠ 3 →
      Diff_U (tangentialJumpState Real.sqrt) j = 0 := by
    intro j hj hne
    have hj5 : j < 5 := hj
    interval_cases j
    · exact d0
    · exact d1
    · exact d2
    · exact absurd rfl hne
    · exact d4
  have hR := roe_dissipation_of_single_jump (eulerExternals3D Real.sqrt 0.4) exampleConfig3D
    (tangentialJumpState Real.sqrt) exampleResidual 3 3 rfl rfl hD (by decide) (by decide)
  have hn : (exampleConfig3D : Config ℝ).nVar = 5 := rfl
  have hk : (exampleConfig3D : Config ℝ).kappa = 0.5 := rfl
  refine ⟨hpos, hMi, hMj, zeta_eq_one _ _ hMi hMj, d3, fun k => ⟨hw2 k, hwM k⟩, ?_, ?_⟩
  · intro k
    constructor
    · rw [l2roe_FinalizeResidual_eq, lowMachFinalize_Flux_of_zero _ _ _ _ _ hw2, sub_self]
    · rw [lmroe_FinalizeResidual_eq, lowMachFinalize_Flux_of_zero _ _ _ _ _ hwM, sub_self]
  · rw [hR, hn, hT, d3, rA, hk]
    norm_num

end TangentialJump

/-! ## The low-Mach schemes at `zeta = 1` in two dimensions -/

section LowMachTwoDimensions

/-- The Roe averages reproduce the jump of a momentum: `u*(rho_j - rho_i) + rho*(u_j - u_i)
= rho_j*u_j - rho_i*u_i` for `rho = R*rho_i`, `u = (R*u_j + u_i)/(R + 1)`, `R*R = rho_j/rho_i`. -/
theorem roe_momentum_jump (ri rj R ui uj : K) (hR : R * R * ri = rj) (hR1 : R + 1 ≠ 0) :
    (R * uj + ui) / (R + 1) * (rj - ri) + R * ri * (uj - ui) = rj * uj - ri * ui := by
  subst hR
  field_simp
  ring

/-- The Roe averages reproduce the jump of a kinetic energy. -/
theorem roe_kinetic_jump (ri rj R ui uj : K) (hR : R * R * ri = rj) (hR1 : R + 1 ≠ 0) :
    0.5 * ((R * uj + ui) / (R + 1) * ((R * uj + ui) / (R + 1))) * (rj - ri)
        + R * ri * ((R * uj + ui) / (R + 1)) * (uj - ui)
      = 0.5 * rj * (uj * uj) - 0.5 * ri * (ui * ui) := by
  subst hR
  have e : (0.5 : K) = 1 / 2 := by norm_num
  rw [e]
  field_simp
  ring

/-- The acoustic amplitudes carry the pressure jump: two cancellations of the sound speed. -/
theorem acoustic_pressure_terms (rho c gm1 dp : K) (hrho0 : rho ≠ 0) (hc : c ≠ 0)
    (hg : gm1 ≠ 0) :
    rho / c * (dp / (rho * c)) = dp / (c * c) ∧ rho * c / gm1 * (dp / (rho * c)) = dp / gm1 := by
  constructor
  · field_simp
    ring
  · field_simp
    ring

/-- The amplitudes `w` of the low-Mach schemes at `zeta = 1`, sent through the right
eigenvectors of the two-dimensional Euler equations at the Roe state `(rho, u, v, c)`,
give back the jumps of density and momentum, and `dp/gm1` plus the jump of the kinetic energy
(`dp` is the pressure jump), which is the jump of the total energy of an ideal gas. -/
theorem euler_waves_reconstruct (gm1 ri rj R ui vi uj vj c c2 n0 n1 : K)
    (rho u v dp pdv w0 w1 w2 w3 : K)
    (hR : R * R * ri = rj) (hR1 : R + 1 ≠ 0) (hrho0 : rho ≠ 0) (hc : c ≠ 0) (hc2 : c * c = c2)
    (hg : gm1 ≠ 0) (hn : n0 * n0 + n1 * n1 = 1)
    (hrho : rho = R * ri) (hu : u = (R * uj + ui) / (R + 1)) (hv : v = (R * vj + vi) / (R + 1))
    (hpdv : pdv = (uj - ui) * n0 + (vj - vi) * n1)
    (hw0 : w0 = rj - ri - dp / c2) (hw1 : w1 = n1 * (uj - ui) - n0 * (vj - vi))
    (hw2 : w2 = pdv + dp / (rho * c)) (hw3 : w3 = -pdv + dp / (rho * c)) :
    1 * w0 + 0 * w1 + 0.5 * (rho / c) * w2 + 0.5 * (rho / c) * w3 = rj - ri ∧
    u * w0 + rho * n1 * w1 + 0.5 * (u * (rho / c) + n0 * rho) * w2
        + 0.5 * (u * (rho / c) - n0 * rho) * w3 = rj * uj - ri * ui ∧
    v * w0 + -rho * n0 * w1 + 0.5 * (v * (rho / c) + n1 * rho) * w2
        + 0.5 * (v * (rho / c) - n1 * rho) * w3 = rj * vj - ri * vi ∧
    0.5 * (u * u + v * v) * w0 + rho * (u * n1 - v * n0) * w1
        + 0.5 * (0.5 * (u * u + v * v) * (rho / c) + rho * (u * n0 + v * n1) + rho * c / gm1) * w2
        + 0.5 * (0.5 * (u * u + v * v) * (rho / c) - rho * (u * n0 + v * n1) + rho * c / gm1) * w3
      = dp / gm1 + (0.5 * rj * (uj * uj + vj * vj) - 0.5 * ri * (ui * ui + vi * vi)) := by
  have e : (0.5 : K) = 1 / 2 := by norm_num
  have hmu := roe_momentum_jump ri rj R ui uj hR hR1
  have hmv := roe_momentum_jump ri rj R vi vj hR hR1
  have hku := roe_kinetic_jump ri rj R ui uj hR hR1
  have hkv := roe_kinetic_jump ri rj R vi vj hR hR1
  rw [← hu, ← hrho] at hmu hku
  rw [← hv, ← hrho] at hmv hkv
  rw [e] at hku hkv
  have a0 : 1 * w0 + 0 * w1 + 0.5 * (rho / c) * w2 + 0.5 * (rho / c) * w3 = rj - ri := by
    rw [hw0, hw2, hw3, ← hc2, e]
    field_simp
    ring
  have a1 : u * w0 + rho * n1 * w1 + 0.5 * (u * (rho / c) + n0 * rho) * w2
        + 0.5 * (u * (rho / c) - n0 * rho) * w3
      = u * (rj - ri) + rho * (uj - ui) * (n0 * n0 + n1 * n1) := by
    rw [hw0, hw1, hw2, hw3, hpdv, ← hc2, e]
    field_simp
    ring
  have a2 : v * w0 + -rho * n0 * w1 + 0.5 * (v * (rho / c) + n1 * rho) * w2
        + 0.5 * (v * (rho / c) - n1 * rho) * w3
      = v * (rj - ri) + rho * (vj - vi) * (n0 * n0 + n1 * n1) := by
    rw [hw0, hw1, hw2, hw3, hpdv, ← hc2, e]
    field_simp
    ring
  obtain ⟨hA, hB⟩ := acoustic_pressure_terms rho c gm1 dp hrho0 hc hg
  rw [hc2] at hA
  have a3 : 0.5 * (u * u + v * v) * w0 + rho * (u * n1 - v * n0) * w1
        + 0.5 * (0.5 * (u * u + v * v) * (rho / c) + rho * (u * n0 + v * n1) + rho * c / gm1) * w2
        + 0.5 * (0.5 * (u * u + v * v) * (rho / c) - rho * (u * n0 + v * n1) + rho * c / gm1) * w3
      = dp / gm1 + (1 / 2 * (u * u + v * v) * (rj - ri)
          + rho * (u * (uj - ui) + v * (vj - vi)) * (n0 * n0 + n1 * n1)) := by
    rw [hw0, hw1, hw2, hw3, hpdv, e]
    linear_combination (1 / 2 * (u * u + v * v)) * hA + hB
  refine ⟨a0, ?_, ?_, ?_⟩
  · rw [a1, hn, mul_one]
    exact hmu
  · rw [a2, hn, mul_one]
    exact hmv
  · rw [a3, hn, mul_one, e]
    linear_combination hku + hkv

/-- With a square root `sqrt`, positive densities, a non-zero normal and a positive
`RoeSoundSpeed2`, the Roe state has `R*R*Density_i = Density_j`, `R + 1 > 0`, a non-zero
`RoeDensity`, a sound speed with `c*c = RoeSoundSpeed2` and `c > 0`, `Gamma - 1` non-zero and,
in two dimensions, a unit normal. -/
theorem roeState_wellFormed_2D (ext : Externals K) (c : Config K) (inp : FaceInputs K)
    (old : Scratch K) (hs : IsSqrt ext.sqrt) (h2 : c.nDim = 2)
    (hri : 0 < inp.U_i 0) (hrj : 0 < inp.U_j 0)
    (hN : inp.Normal 0 ≠ 0 ∨ inp.Normal 1 ≠ 0)
    (hc2 : 0 < (roeState ext c inp old).roe.RoeSoundSpeed2) :
    (roeState ext c inp old).roe.R * (roeState ext c inp old).roe.R * inp.U_i 0 = inp.U_j 0 ∧
    0 < (roeState ext c inp old).roe.R + 1 ∧
    (roeState ext c inp old).roe.RoeDensity ≠ 0 ∧
    0 < (roeState ext c inp old).RoeSoundSpeed ∧
    (roeState ext c inp old).RoeSoundSpeed * (roeState ext c inp old).RoeSoundSpeed
      = (roeState ext c inp old).roe.RoeSoundSpeed2 ∧
    c.Gamma_Minus_One ≠ 0 ∧
    (roeState ext c inp old).UnitNormal 0 * (roeState ext c inp old).UnitNormal 0
      + (roeState ext c inp old).UnitNormal 1 * (roeState ext c inp old).UnitNormal 1 = 1 := by
  set s := roeState ext c inp old with hsdef
  have hq : 0 < inp.U_j 0 / inp.U_i 0 := div_pos hrj hri
  have hR : s.roe.R = ext.sqrt |inp.U_j 0 / inp.U_i 0| := rfl
  rw [abs_of_pos hq] at hR
  obtain ⟨hR0, hRR⟩ := hs _ hq.le
  rw [← hR] at hR0 hRR
  have hRne : s.roe.R ≠ 0 := by
    intro h
    rw [h, mul_zero] at hRR
    exact absurd hRR.symm (ne_of_gt hq)
  have hC : s.RoeSoundSpeed = ext.sqrt s.roe.RoeSoundSpeed2 := rfl
  obtain ⟨hC0, hCC⟩ := hs _ hc2.le
  rw [← hC] at hC0 hCC
  have hCne : s.RoeSoundSpeed ≠ 0 := by
    intro h
    rw [h, mul_zero] at hCC
    exact absurd hCC (ne_of_lt hc2)
  have hc2def : s.roe.RoeSoundSpeed2
      = c.Gamma_Minus_One * (s.roe.RoeEnthalpy - 0.5 * s.roe.RoeSqVel - s.roe.RoeTke) := rfl
  have hg : c.Gamma_Minus_One ≠ 0 := by
    intro h
    rw [hc2def, h, zero_mul] at hc2
    exact lt_irrefl _ hc2
  have hA : s.Area = ext.sqrt (sumLoop c.nDim (fun d => inp.Normal d * inp.Normal d)) := rfl
  have hsum : sumLoop c.nDim (fun d => inp.Normal d * inp.Normal d)
      = inp.Normal 0 * inp.Normal 0 + inp.Normal 1 * inp.Normal 1 := by
    rw [h2]
    simp [sumLoop, forLoop]
  have hpos : 0 < inp.Normal 0 * inp.Normal 0 + inp.Normal 1 * inp.Normal 1 := by
    rcases hN with h | h
    · have := mul_self_pos.mpr h
      have := mul_self_nonneg (inp.Normal 1)
      linarith
    · have := mul_self_pos.mpr h
      have := mul_self_nonneg (inp.Normal 0)
      linarith
  rw [hsum] at hA
  obtain ⟨_, hAA⟩ := hs _ hpos.le
  rw [← hA] at hAA
  have hAne : s.Area ≠ 0 := by
    intro h
    rw [h, mul_zero] at hAA
    exact absurd hAA (ne_of_lt hpos)
  have hUn : ∀ k, s.UnitNormal k = inp.Normal k / s.Area := fun _ => rfl
  refine ⟨?_, by linarith, ?_, lt_of_le_of_ne hC0 (Ne.symm hCne), hCC, hg, ?_⟩
  · rw [hRR]
    field_simp
  · show s.roe.R * inp.U_i 0 ≠ 0
    exact mul_ne_zero hRne (ne_of_gt hri)
  · rw [hUn, hUn, div_mul_div_comm, div_mul_div_comm, ← add_div, hAA]
    exact div_self (ne_of_gt hpos)

/-- In two dimensions, without a jump in turbulent kinetic energy, the wave amplitudes of the
low-Mach schemes at `zeta = 1` reconstruct the jump of the conservative variables through the
right eigenvectors `eulerPMatrix2D` taken at the Roe state:
`sum_k P[i][k]*delta_wave[k] = Diff_U[i]`. -/
theorem lowMach_waves_reconstruct_2D (ext : Externals K) (c : Config K) (inp : FaceInputs K)
    (old : Scratch K) (hs : IsSqrt ext.sqrt) (h2 : c.nDim = 2)
    (hri : 0 < inp.U_i 0) (hrj : 0 < inp.U_j 0) (hk : inp.turb_ke_i = inp.turb_ke_j)
    (hN : inp.Normal 0 ≠ 0 ∨ inp.Normal 1 ≠ 0)
    (hc2 : 0 < (roeState ext c inp old).roe.RoeSoundSpeed2) (i : Nat) (hi : i < 4) :
    sumLoop 4 (fun k =>
        eulerPMatrix2D c.Gamma_Minus_One (roeState ext c inp old).roe.RoeDensity
            (roeState ext c inp old).roe.RoeVelocity (roeState ext c inp old).RoeSoundSpeed
            (roeState ext c inp old).UnitNormal i k
          * lowMachDeltaWave c (roeState ext c inp old) 1 (fun a => a) k)
      = Diff_U (roeState ext c inp old) i := by
  obtain ⟨hRR, hR1, hrho0, hC0, hCC, hg, hunit⟩ :=
    roeState_wellFormed_2D ext c inp old hs h2 hri hrj hN hc2
  set s := roeState ext c inp old with hsdef
  obtain ⟨w0, w1, w2, w3⟩ := lowMachDeltaWave_apply c s 1 (fun a => a) (Or.inl h2)
  have w1a := w1 1 (le_refl 1) (by rw [h2]; norm_num)
  rw [h2] at w2 w3
  simp only [h2, true_or, if_true] at w1a
  have hpv : projVel 2 (delta_vel s) s.UnitNormal * 1
      = (s.pj.Velocity 0 - s.pi.Velocity 0) * s.UnitNormal 0
        + (s.pj.Velocity 1 - s.pi.Velocity 1) * s.UnitNormal 1 := by
    simp [projVel, sumLoop, forLoop, delta_vel]
  rw [hpv] at w2 w3
  have e1 : (1.0 : K) = 1 := by norm_num
  have hRv : ∀ k, s.roe.RoeVelocity k
      = (s.roe.R * s.pj.Velocity k + s.pi.Velocity k) / (s.roe.R + 1) := by
    intro k
    show (s.roe.R * s.pj.Velocity k + s.pi.Velocity k) / (s.roe.R + 1.0) = _
    rw [e1]
  have hrec := euler_waves_reconstruct c.Gamma_Minus_One (inp.U_i 0) (inp.U_j 0) s.roe.R
    (s.pi.Velocity 0) (s.pi.Velocity 1) (s.pj.Velocity 0) (s.pj.Velocity 1)
    s.RoeSoundSpeed s.roe.RoeSoundSpeed2
    (s.UnitNormal 0) (s.UnitNormal 1) s.roe.RoeDensity (s.roe.RoeVelocity 0)
    (s.roe.RoeVelocity 1) (s.pj.Pressure - s.pi.Pressure)
    ((s.pj.Velocity 0 - s.pi.Velocity 0) * s.UnitNormal 0
        + (s.pj.Velocity 1 - s.pi.Velocity 1) * s.UnitNormal 1)
    (lowMachDeltaWave c s 1 (fun a => a) 0) (lowMachDeltaWave c s 1 (fun a => a) 1)
    (lowMachDeltaWave c s 1 (fun a => a) 2) (lowMachDeltaWave c s 1 (fun a => a) 3)
    hRR (ne_of_gt hR1) hrho0 (ne_of_gt hC0) hCC hg hunit rfl (hRv 0) (hRv 1) rfl
    w0 w1a w2 w3
  obtain ⟨q0, q1, q2, q3⟩ := hrec
  have hi0 : inp.U_i 0 ≠ 0 := ne_of_gt hri
  have hj0 : inp.U_j 0 ≠ 0 := ne_of_gt hrj
  have hD : ∀ k, Diff_U s k
      = Conservatives c.nDim s.pj old.Conservatives_j k
        - Conservatives c.nDim s.pi old.Conservatives_i k := fun _ => rfl
  have hsum : ∀ f : Nat → K, sumLoop 4 f = f 0 + f 1 + f 2 + f 3 := by
    intro f
    simp [sumLoop, forLoop]
  have hSq : ∀ p : Primitive K, sumLoop c.nDim (fun d => p.Velocity d * p.Velocity d)
      = p.Velocity 0 * p.Velocity 0 + p.Velocity 1 * p.Velocity 1 := by
    intro p
    rw [h2]
    simp [sumLoop, forLoop]
  have hPi : s.pi.Pressure = c.Gamma_Minus_One * (inp.U_i 3
      - 0.5 * inp.U_i 0 * (s.pi.Velocity 0 * s.pi.Velocity 0 + s.pi.Velocity 1 * s.pi.Velocity 1)
      - inp.U_i 0 * (inp.turb_ke_i / inp.U_i 0)) := by
    rw [← hSq s.pi]
    show c.Gamma_Minus_One * (inp.U_i (c.nDim + 1) - _ - _) = _
    rw [h2]
    rfl
  have hPj : s.pj.Pressure = c.Gamma_Minus_One * (inp.U_j 3
      - 0.5 * inp.U_j 0 * (s.pj.Velocity 0 * s.pj.Velocity 0 + s.pj.Velocity 1 * s.pj.Velocity 1)
      - inp.U_j 0 * (inp.turb_ke_j / inp.U_j 0)) := by
    rw [← hSq s.pj]
    show c.Gamma_Minus_One * (inp.U_j (c.nDim + 1) - _ - _) = _
    rw [h2]
    rfl
  have hEi : s.pi.Density * s.pi.Energy = inp.U_i 3 := by
    show inp.U_i 0 * (inp.U_i (c.nDim + 1) / inp.U_i 0) = _
    rw [h2]
    field_simp
  have hEj : s.pj.Density * s.pj.Energy = inp.U_j 3 := by
    show inp.U_j 0 * (inp.U_j (c.nDim + 1) / inp.U_j 0) = _
    rw [h2]
    field_simp
  have hdp : (s.pj.Pressure - s.pi.Pressure) / c.Gamma_Minus_One
      + (0.5 * inp.U_j 0 * (s.pj.Velocity 0 * s.pj.Velocity 0 + s.pj.Velocity 1 * s.pj.Velocity 1)
        - 0.5 * inp.U_i 0
          * (s.pi.Velocity 0 * s.pi.Velocity 0 + s.pi.Velocity 1 * s.pi.Velocity 1))
      = inp.U_j 3 - inp.U_i 3 := by
    rw [hPi, hPj, hk, mul_div_cancel₀ _ hi0, mul_div_cancel₀ _ hj0, ← mul_sub,
      mul_div_cancel_left₀ _ hg]
    ring
  rw [hsum, hD, Conservatives_apply, Conservatives_apply, h2]
  interval_cases i
  · exact q0
  · exact q1
  · exact q2
  · refine q3.trans ?_
    rw [hdp]
    exact (congrArg₂ (fun a b => a - b) hEj hEi).symm

/-- If `invP` is the inverse of `P` and amplitudes `w` reconstruct the jump `Diff_U`, the
update of the low-Mach schemes with `w` is the update of the standard Roe scheme (turbulence
coupling and low-dissipation mode off). -/
theorem lowMachFinalize_eq_roe_of_reconstruct (ext : Externals K) (c : Config K)
    (s : RoeState K) (w : Nat → K) (res : ResidualType K) (iVar : Nat)
    (hl : c.roe_low_dissipation = false) (ht : c.tkeNeeded = false)
    (hinv : InverseContract ext c s)
    (hrec : ∀ i, i < c.nVar → sumLoop c.nVar (fun k => s.P_Tensor i k * w k) = Diff_U s i) :
    (CUpwRoe_Flow.FinalizeResidual ext c s res).Flux iVar
      = (lowMachFinalize ext c s w res).Flux iVar := by
  have hw := decompose_of_reconstruct c.nVar s.P_Tensor
    (ext.GetPMatrix_inv s.roe.RoeDensity s.roe.RoeVelocity s.roe.RoeTke s.RoeSoundSpeed
      s.UnitNormal) w (Diff_U s) hinv hrec
  rw [roe_dissipation_plain ext c s res iVar hl ht, lowMachFinalize_Flux]
  by_cases hk : iVar < c.nVar
  · rw [if_pos hk, if_pos hk,
      modulus_apply_of_decompose c.nVar s.P_Tensor _ s.Lambda _ (Diff_U s) (1.0 - c.kappa)
        s.Area iVar hw]
  · rw [if_neg hk, if_neg hk]

/-- C11 (amended). In two dimensions (`nDim = 2`, `nVar = 4`), with the low-dissipation mode
off, the turbulent-kinetic-energy channel off (`tkeNeeded` false, the same `turb_ke` on both
sides), positive densities, a non-zero normal and a positive `RoeSoundSpeed2` (the condition
under which `ComputeResidual` calls `FinalizeResidual`), for every input whose left and right
Mach numbers are both at least 1: `zeta = 1`, and the dissipation term subtracted from every
component of the residual by `CUpwL2Roe_Flow::FinalizeResidual` and by
`CUpwLMRoe_Flow::FinalizeResidual` equals the one subtracted by
`CUpwRoe_Flow::FinalizeResidual`, whatever the residual on entry; the fluxes returned by
`ComputeResidual` with the three methods agree. The helpers enter through two contracts:
`GetPMatrix` returns the right eigenvectors `eulerPMatrix2D` and `GetPMatrix_inv` the inverse
matrix. Three dimensions are left out. -/
theorem low_mach_matches_roe_in_two_dimensions (ext : Externals K) (c : Config K)
    (inp : FaceInputs K) (old : Scratch K) (res : ResidualType K) (iVar : Nat)
    (hs : IsSqrt ext.sqrt) (h2 : c.nDim = 2) (hn : c.nVar = 4)
    (hl : c.roe_low_dissipation = false) (ht : c.tkeNeeded = false)
    (hk : inp.turb_ke_i = inp.turb_ke_j) (hri : 0 < inp.U_i 0) (hrj : 0 < inp.U_j 0)
    (hN : inp.Normal 0 ≠ 0 ∨ inp.Normal 1 ≠ 0)
    (hc2 : 0 < (roeState ext c inp old).roe.RoeSoundSpeed2)
    (hMi : 1 ≤ machNumber ext.sqrt c.nDim (roeState ext c inp old).pi.Velocity
      (roeState ext c inp old).pi.Pressure c.Gamma (roeState ext c inp old).pi.Density)
    (hMj : 1 ≤ machNumber ext.sqrt c.nDim (roeState ext c inp old).pj.Velocity
      (roeState ext c inp old).pj.Pressure c.Gamma (roeState ext c inp old).pj.Density)
    (hP : EulerPMatrixContract c (roeState ext c inp old))
    (hinv : InverseContract ext c (roeState ext c inp old)) :
    stateZeta ext c (roeState ext c inp old) = 1 ∧
    res.Flux iVar
        - (CUpwL2Roe_Flow.FinalizeResidual ext c (roeState ext c inp old) res).Flux iVar
      = res.Flux iVar
        - (CUpwRoe_Flow.FinalizeResidual ext c (roeState ext c inp old) res).Flux iVar ∧
    res.Flux iVar
        - (CUpwLMRoe_Flow.FinalizeResidual ext c (roeState ext c inp old) res).Flux iVar
      = res.Flux iVar
        - (CUpwRoe_Flow.FinalizeResidual ext c (roeState ext c inp old) res).Flux iVar ∧
    (ComputeResidual ext c (CUpwL2Roe_Flow.FinalizeResidual ext c) inp old).Flux iVar
      = (ComputeResidual ext c (CUpwRoe_Flow.FinalizeResidual ext c) inp old).Flux iVar ∧
    (ComputeResidual ext c (CUpwLMRoe_Flow.FinalizeResidual ext c) inp old).Flux iVar
      = (ComputeResidual ext c (CUpwRoe_Flow.FinalizeResidual ext c) inp old).Flux iVar := by
  have hz : stateZeta ext c (roeState ext c inp old) = 1 := zeta_eq_one _ _ hMi hMj
  have hrec : ∀ i, i < c.nVar →
      sumLoop c.nVar (fun k => (roeState ext c inp old).P_Tensor i k
        * lowMachDeltaWave c (roeState ext c inp old) 1 (fun a => a) k)
        = Diff_U (roeState ext c inp old) i := by
    intro i hi
    rw [hn] at hi ⊢
    rw [← lowMach_waves_reconstruct_2D ext c inp old hs h2 hri hrj hk hN hc2 i hi,
      sumLoop_eq_sum, sumLoop_eq_sum]
    exact Finset.sum_congr rfl (fun k hk4 => by rw [hP i k hi (Finset.mem_range.mp hk4)])
  have hR : ∀ r : ResidualType K,
      (CUpwRoe_Flow.FinalizeResidual ext c (roeState ext c inp old) r).Flux iVar
        = (lowMachFinalize ext c (roeState ext c inp old)
            (lowMachDeltaWave c (roeState ext c inp old) 1 (fun a => a)) r).Flux iVar :=
    fun r => lowMachFinalize_eq_roe_of_reconstruct ext c _ _ r iVar hl ht hinv hrec
  have hL2 : ∀ r : ResidualType K,
      CUpwL2Roe_Flow.FinalizeResidual ext c (roeState ext c inp old) r
        = lowMachFinalize ext c (roeState ext c inp old)
            (lowMachDeltaWave c (roeState ext c inp old) 1 (fun a => a)) r := by
    intro r
    unfold CUpwL2Roe_Flow.FinalizeResidual
    simp only [hz]
    rw [lowMachDeltaWave_one]
  have hLM : ∀ r : ResidualType K,
      CUpwLMRoe_Flow.FinalizeResidual ext c (roeState ext c inp old) r
        = lowMachFinalize ext c (roeState ext c inp old)
            (lowMachDeltaWave c (roeState ext c inp old) 1 (fun a => a)) r := by
    intro r
    unfold CUpwLMRoe_Flow.FinalizeResidual
    simp only [hz]
  refine ⟨hz, ?_, ?_, ?_, ?_⟩
  · rw [hL2, hR]
  · rw [hLM, hR]
  · rw [ComputeResidual_Flux _ _ _ _ _ iVar hc2, ComputeResidual_Flux _ _ _ _ _ iVar hc2]
    show (CUpwL2Roe_Flow.FinalizeResidual ext c (roeState ext c inp old) _).Flux iVar
      = (CUpwRoe_Flow.FinalizeResidual ext c (roeState ext c inp old) _).Flux iVar
    rw [hL2, hR]
  · rw [ComputeResidual_Flux _ _ _ _ _ iVar hc2, ComputeResidual_Flux _ _ _ _ _ iVar hc2]
    show (CUpwLMRoe_Flow.FinalizeResidual ext c (roeState ext c inp old) _).Flux iVar
      = (CUpwRoe_Flow.FinalizeResidual ext c (roeState ext c inp old) _).Flux iVar
    rw [hLM, hR]

/-- C11 (amended), at a concrete input: densities 1 and 1/4, velocity `(2, 0)` and unit sound
speed on both sides (Mach number 2), no turbulent kinetic energy, normal `(1, 0)`,
`Gamma = 1.4`, `kappa = 0.5`, two-dimensional Euler eigensystem as helpers; the density
jumps by `-3/4`. -/
theorem low_mach_matches_roe_in_two_dimensions_witness :
    IsSqrt Real.sqrt ∧
    (0 : ℝ) < supersonicInputs.U_i 0 ∧ (0 : ℝ) < supersonicInputs.U_j 0 ∧
    0 < (supersonicState Real.sqrt).roe.RoeSoundSpeed2 ∧
    1 ≤ machNumber Real.sqrt 2 (supersonicState Real.sqrt).pi.Velocity
      (supersonicState Real.sqrt).pi.Pressure 1.4 (supersonicState Real.sqrt).pi.Density ∧
    1 ≤ machNumber Real.sqrt 2 (supersonicState Real.sqrt).pj.Velocity
      (supersonicState Real.sqrt).pj.Pressure 1.4 (supersonicState Real.sqrt).pj.Density ∧
    EulerPMatrixContract (exampleConfig false false false) (supersonicState Real.sqrt) ∧
    InverseContract (eulerExternals2D Real.sqrt 0.4) (exampleConfig false false false)
      (supersonicState Real.sqrt) ∧
    Diff_U (supersonicState Real.sqrt) 0 = -(3 / 4) ∧
    exampleResidual.Flux 0
        - (CUpwL2Roe_Flow.FinalizeResidual (eulerExternals2D Real.sqrt 0.4)
            (exampleConfig false false false) (supersonicState Real.sqrt) exampleResidual).Flux 0
      = exampleResidual.Flux 0
        - (CUpwRoe_Flow.FinalizeResidual (eulerExternals2D Real.sqrt 0.4)
            (exampleConfig false false false) (supersonicState Real.sqrt) exampleResidual).Flux 0 ∧
    exampleResidual.Flux 0
        - (CUpwLMRoe_Flow.FinalizeResidual (eulerExternals2D Real.sqrt 0.4)
            (exampleConfig false false false) (supersonicState Real.sqrt) exampleResidual).Flux 0
      = exampleResidual.Flux 0
        - (CUpwRoe_Flow.FinalizeResidual (eulerExternals2D Real.sqrt 0.4)
            (exampleConfig false false false) (supersonicState Real.sqrt) exampleResidual).Flux 0 := by
  obtain ⟨r1, r2, r3, r4, r5, r6, r7⟩ := supersonic_roe
  obtain ⟨⟨di, dj⟩, ⟨v1, v2, v3, v4⟩, ⟨p1, p2⟩, ⟨e0, _, _, _⟩⟩ := supersonic_sides
  have s4 : Real.sqrt 4 = 2 := isSqrt_real.unique (by norm_num) (by norm_num)
  have hMi : 1 ≤ machNumber Real.sqrt 2 (supersonicState Real.sqrt).pi.Velocity
      (supersonicState Real.sqrt).pi.Pressure 1.4 (supersonicState Real.sqrt).pi.Density := by
    unfold machNumber sumLoop
    simp only [forLoop]
    rw [v1, v2, p1, di]
    have e : (0 + (2 : ℝ) * 2 + 0 * 0) / |5 / 7 * 1.4 / 1| = 4 := by norm_num
    rw [e, s4]
    norm_num
  have hMj : 1 ≤ machNumber Real.sqrt 2 (supersonicState Real.sqrt).pj.Velocity
      (supersonicState Real.sqrt).pj.Pressure 1.4 (supersonicState Real.sqrt).pj.Density := by
    unfold machNumber sumLoop
    simp only [forLoop]
    rw [v3, v4, p2, dj]
    have e : (0 + (2 : ℝ) * 2 + 0 * 0) / |5 / 28 * 1.4 / (1 / 4)| = 4 := by norm_num
    rw [e, s4]
    norm_num
  have hri : (0 : ℝ) < supersonicInputs.U_i 0 := by
    norm_num [supersonicInputs, exampleInputs, state2D]
  have hrj : (0 : ℝ) < supersonicInputs.U_j 0 := by
    norm_num [supersonicInputs, exampleInputs, state2D]
  have hN : (supersonicInputs : FaceInputs ℝ).Normal 0 ≠ 0
      ∨ (supersonicInputs : FaceInputs ℝ).Normal 1 ≠ 0 := by
    left
    norm_num [supersonicInputs, exampleInputs]
  have hc2 : 0 < (supersonicState Real.sqrt).roe.RoeSoundSpeed2 := by
    rw [r4]
    norm_num
  have hg : (exampleConfig false false false : Config ℝ).Gamma_Minus_One = 0.4 := by
    norm_num [Config.Gamma_Minus_One, exampleConfig]
  have hP : EulerPMatrixContract (exampleConfig false false false)
      (supersonicState Real.sqrt) := by
    intro i k _ _
    rw [hg]
    rfl
  have hinv : InverseContract (eulerExternals2D Real.sqrt 0.4) (exampleConfig false false false)
      (supersonicState Real.sqrt) :=
    euler_left_inverse_supersonic (supersonicState Real.sqrt).roe.RoeDensity
      (supersonicState Real.sqrt).RoeSoundSpeed (supersonicState Real.sqrt).roe.RoeVelocity
      (supersonicState Real.sqrt).UnitNormal r1 r2 r3 r5 r6 r7
  have t := low_mach_matches_roe_in_two_dimensions (eulerExternals2D Real.sqrt 0.4)
    (exampleConfig false false false) supersonicInputs exampleScratch exampleResidual 0
    isSqrt_real rfl rfl rfl rfl rfl hri hrj hN hc2 hMi hMj hP hinv
  exact ⟨isSqrt_real, hri, hrj, hc2, hMi, hMj, hP, hinv, e0, t.2.1, t.2.2.1⟩

end LowMachTwoDimensions

/-! ## The columns of `eulerPMatrix2D` as right eigenvectors -/

section EulerEigenvectors

/-- The product of the Euler flux Jacobian with a vector `r`, row by row. -/
theorem eulerProjJac2D_mulVec (gm1 H : K) (v n r : Nat → K) :
    sumLoop 4 (fun m => eulerProjJac2D gm1 v H n 0 m * r m) = n 0 * r 1 + n 1 * r 2 ∧
    sumLoop 4 (fun m => eulerProjJac2D gm1 v H n 1 m * r m)
      = (0.5 * gm1 * (v 0 * v 0 + v 1 * v 1) * n 0 - v 0 * (v 0 * n 0 + v 1 * n 1)) * r 0
        + (v 0 * n 0 + v 1 * n 1 + v 0 * n 0 - gm1 * v 0 * n 0) * r 1
        + (v 0 * n 1 - gm1 * v 1 * n 0) * r 2 + gm1 * n 0 * r 3 ∧
    sumLoop 4 (fun m => eulerProjJac2D gm1 v H n 2 m * r m)
      = (0.5 * gm1 * (v 0 * v 0 + v 1 * v 1) * n 1 - v 1 * (v 0 * n 0 + v 1 * n 1)) * r 0
        + (v 1 * n 0 - gm1 * v 0 * n 1) * r 1
        + (v 0 * n 0 + v 1 * n 1 + v 1 * n 1 - gm1 * v 1 * n 1) * r 2 + gm1 * n 1 * r 3 ∧
    sumLoop 4 (fun m => eulerProjJac2D gm1 v H n 3 m * r m)
      = (0.5 * gm1 * (v 0 * v 0 + v 1 * v 1) - H) * (v 0 * n 0 + v 1 * n 1) * r 0
        + (H * n 0 - gm1 * v 0 * (v 0 * n 0 + v 1 * n 1)) * r 1
        + (H * n 1 - gm1 * v 1 * (v 0 * n 0 + v 1 * n 1)) * r 2
        + (1 + gm1) * (v 0 * n 0 + v 1 * n 1) * r 3 := by
  refine ⟨?_, ?_, ?_, ?_⟩ <;>
    simp [sumLoop, forLoop, eulerProjJac2D, mat4, sel4]

set_option maxHeartbeats 1000000 in
/-- The columns of `eulerPMatrix2D` are right eigenvectors of the Euler flux Jacobian projected
on a unit normal, for the eigenvalues `vn`, `vn`, `vn + c`, `vn - c` in the order of `Lambda`;
the total enthalpy is `H = c*c/gm1 + 0.5*|v|^2`. -/
theorem eulerPMatrix2D_eigenvectors (gm1 rho c : K) (v n : Nat → K) (hc : c ≠ 0)
    (hg : gm1 ≠ 0) (hn : n 0 * n 0 + n 1 * n 1 = 1) (i k : Nat) (hi : i < 4) (hk : k < 4) :
    sumLoop 4 (fun m =>
        eulerProjJac2D gm1 v (c * c / gm1 + 0.5 * (v 0 * v 0 + v 1 * v 1)) n i m
          * eulerPMatrix2D gm1 rho v c n m k)
      = eulerPMatrix2D gm1 rho v c n i k
          * flowEigenvalues 2 (v 0 * n 0 + v 1 * n 1) c k := by
  have e : (0.5 : K) = 1 / 2 := by norm_num
  obtain ⟨t, rfl⟩ : ∃ t, rho = t * c := ⟨rho / c, by field_simp⟩
  have e1 : t * c / c = t := by field_simp
  obtain ⟨h, hh⟩ : ∃ h, h = c * c / gm1 := ⟨_, rfl⟩
  have e2 : t * c * c / gm1 = t * h := by
    rw [hh]
    ring
  have hgh : gm1 * h = c * c := by
    rw [hh]
    field_simp
  obtain ⟨m0, m1, m2, m3⟩ := eulerProjJac2D_mulVec gm1
    (c * c / gm1 + 0.5 * (v 0 * v 0 + v 1 * v 1)) v n
    (fun m => eulerPMatrix2D gm1 (t * c) v c n m k)
  interval_cases k
  · interval_cases i
    · rw [m0]
      simp only [eulerPMatrix2D, mat4, sel4, flowEigenvalues, e1, e2, ← hh, e]
      norm_num
      ring
    · rw [m1]
      simp only [eulerPMatrix2D, mat4, sel4, flowEigenvalues, e1, e2, ← hh, e]
      norm_num
      ring
    · rw [m2]
      simp only [eulerPMatrix2D, mat4, sel4, flowEigenvalues, e1, e2, ← hh, e]
      norm_num
      ring
    · rw [m3]
      simp only [eulerPMatrix2D, mat4, sel4, flowEigenvalues, e1, e2, ← hh, e]
      norm_num
      ring
  · interval_cases i
    · rw [m0]
      simp only [eulerPMatrix2D, mat4, sel4, flowEigenvalues, e1, e2, ← hh, e]
      norm_num
      ring
    · rw [m1]
      simp only [eulerPMatrix2D, mat4, sel4, flowEigenvalues, e1, e2, ← hh, e]
      norm_num
      ring
    · rw [m2]
      simp only [eulerPMatrix2D, mat4, sel4, flowEigenvalues, e1, e2, ← hh, e]
      norm_num
      ring
    · rw [m3]
      simp only [eulerPMatrix2D, mat4, sel4, flowEigenvalues, e1, e2, ← hh, e]
      norm_num
      ring
  · interval_cases i
    · rw [m0]
      simp only [eulerPMatrix2D, mat4, sel4, flowEigenvalues, e1, e2, ← hh, e]
      norm_num
      linear_combination (1 / 2 * t * c) * hn
    · rw [m1]
      simp only [eulerPMatrix2D, mat4, sel4, flowEigenvalues, e1, e2, ← hh, e]
      norm_num
      linear_combination (1 / 2 * t * c * v 0) * hn + (1 / 2 * t * n 0) * hgh
    · rw [m2]
      simp only [eulerPMatrix2D, mat4, sel4, flowEigenvalues, e1, e2, ← hh, e]
      norm_num
      linear_combination (1 / 2 * t * c * v 1) * hn + (1 / 2 * t * n 1) * hgh
    · rw [m3]
      simp only [eulerPMatrix2D, mat4, sel4, flowEigenvalues, e1, e2, ← hh, e]
      norm_num
      linear_combination (t * c * (1 / 4 * (v 0 * v 0 + v 1 * v 1) + 1 / 2 * h)) * hn
        + (1 / 2 * t * (v 0 * n 0 + v 1 * n 1)) * hgh
  · interval_cases i
    · rw [m0]
      simp only [eulerPMatrix2D, mat4, sel4, flowEigenvalues, e1, e2, ← hh, e]
      norm_num
      linear_combination (-(1 / 2 * t * c)) * hn
    · rw [m1]
      simp only [eulerPMatrix2D, mat4, sel4, flowEigenvalues, e1, e2, ← hh, e]
      norm_num
      linear_combination (-(1 / 2 * t * c * v 0)) * hn + (1 / 2 * t * n 0) * hgh
    · rw [m2]
      simp only [eulerPMatrix2D, mat4, sel4, flowEigenvalues, e1, e2, ← hh, e]
      norm_num
      linear_combination (-(1 / 2 * t * c * v 1)) * hn + (1 / 2 * t * n 1) * hgh
    · rw [m3]
      simp only [eulerPMatrix2D, mat4, sel4, flowEigenvalues, e1, e2, ← hh, e]
      norm_num
      linear_combination (-(t * c * (1 / 4 * (v 0 * v 0 + v 1 * v 1) + 1 / 2 * h))) * hn
        + (1 / 2 * t * (v 0 * n 0 + v 1 * n 1)) * hgh

end EulerEigenvectors

/-! ## The low-Mach schemes against the standard Roe scheme at `zeta = 1`: two failures -/

section LowMachDiffers

/-- C11 does not hold as stated, at two inputs whose left and right Mach numbers are at least 1
(`zeta = 1`), with the low-dissipation mode off. First input, two dimensions with the turbulent
kinetic energy coupled (`tkeJumpInputs`: density 1, velocity `(2, 0)`, pressure `5/7` on both
sides, `turb_ke` 0 and 1, normal `(1, 0)`): `CUpwRoe_Flow::FinalizeResidual` subtracts `1/5`
from `Flux[1]`, `CUpwL2Roe_Flow::FinalizeResidual` and `CUpwLMRoe_Flow::FinalizeResidual`
subtract 0. Second input, three dimensions without turbulent kinetic energy
(`tangentialJumpInputs`: density 1, pressure `5/7`, velocities `(0, 2, 5/2)` and `(0, 2, -5/2)`,
normal `(0, 1, 0)`): the standard scheme subtracts `-5` from `Flux[3]`, the low-Mach schemes
subtract 0. -/
theorem low_mach_dissipation_differs_from_roe :
    (1 ≤ machNumber Real.sqrt 2 (tkeJumpState Real.sqrt).pi.Velocity
        (tkeJumpState Real.sqrt).pi.Pressure 1.4 (tkeJumpState Real.sqrt).pi.Density ∧
      1 ≤ machNumber Real.sqrt 2 (tkeJumpState Real.sqrt).pj.Velocity
        (tkeJumpState Real.sqrt).pj.Pressure 1.4 (tkeJumpState Real.sqrt).pj.Density ∧
      exampleResidual.Flux 1
        - (CUpwRoe_Flow.FinalizeResidual (eulerExternals2D Real.sqrt 0.4) exampleTkeConfig
            (tkeJumpState Real.sqrt) exampleResidual).Flux 1 = 1 / 5 ∧
      exampleResidual.Flux 1
        - (CUpwL2Roe_Flow.FinalizeResidual (eulerExternals2D Real.sqrt 0.4) exampleTkeConfig
            (tkeJumpState Real.sqrt) exampleResidual).Flux 1 = 0 ∧
      exampleResidual.Flux 1
        - (CUpwLMRoe_Flow.FinalizeResidual (eulerExternals2D Real.sqrt 0.4) exampleTkeConfig
            (tkeJumpState Real.sqrt) exampleResidual).Flux 1 = 0) ∧
    (1 ≤ machNumber Real.sqrt 3 (tangentialJumpState Real.sqrt).pi.Velocity
        (tangentialJumpState Real.sqrt).pi.Pressure 1.4
        (tangentialJumpState Real.sqrt).pi.Density ∧
      1 ≤ machNumber Real.sqrt 3 (tangentialJumpState Real.sqrt).pj.Velocity
        (tangentialJumpState Real.sqrt).pj.Pressure 1.4
        (tangentialJumpState Real.sqrt).pj.Density ∧
      exampleResidual.Flux 3
        - (CUpwRoe_Flow.FinalizeResidual (eulerExternals3D Real.sqrt 0.4) exampleConfig3D
            (tangentialJumpState Real.sqrt) exampleResidual).Flux 3 = -5 ∧
      exampleResidual.Flux 3
        - (CUpwL2Roe_Flow.FinalizeResidual (eulerExternals3D Real.sqrt 0.4) exampleConfig3D
            (tangentialJumpState Real.sqrt) exampleResidual).Flux 3 = 0 ∧
      exampleResidual.Flux 3
        - (CUpwLMRoe_Flow.FinalizeResidual (eulerExternals3D Real.sqrt 0.4) exampleConfig3D
            (tangentialJumpState Real.sqrt) exampleResidual).Flux 3 = 0) := by
  obtain ⟨_, a1, a2, _, a3, a4, a5, _⟩ := low_mach_dissipation_differs_on_tke_jump
  obtain ⟨_, b1, b2, _, _, _, b3, b4⟩ := low_mach_3d_waves_miss_tangential_jump
  exact ⟨⟨a1, a2, a3, a4, a5⟩, ⟨b1, b2, b4, (b3 3).1, (b3 3).2⟩⟩

end LowMachDiffers

/-! ## The tangential jump in three dimensions, for arbitrary eigenvector helpers -/

section TangentialJumpAnyHelpers

/-- The members of the Roe state other than `P_Tensor` depend on the helpers through `sqrt`
only. -/
theorem roeState_congr_sqrt (ext ext2 : Externals K) (c : Config K) (inp : FaceInputs K)
    (old : Scratch K) (h : ext.sqrt = ext2.sqrt) :
    (roeState ext c inp old).pi = (roeState ext2 c inp old).pi ∧
    (roeState ext c inp old).pj = (roeState ext2 c inp old).pj ∧
    (roeState ext c inp old).roe = (roeState ext2 c inp old).roe ∧
    (roeState ext c inp old).RoeSoundSpeed = (roeState ext2 c inp old).RoeSoundSpeed ∧
    (roeState ext c inp old).UnitNormal = (roeState ext2 c inp old).UnitNormal ∧
    (roeState ext c inp old).Area = (roeState ext2 c inp old).Area ∧
    (roeState ext c inp old).Lambda = (roeState ext2 c inp old).Lambda ∧
    Diff_U (roeState ext c inp old) = Diff_U (roeState ext2 c inp old) := by
  obtain ⟨sq, P, Q, F, J, D⟩ := ext
  obtain ⟨sq2, P2, Q2, F2, J2, D2⟩ := ext2
  have h2 : sq = sq2 := h
  subst h2
  exact ⟨rfl, rfl, rfl, rfl, rfl, rfl, rfl, rfl⟩

/-- The five corrected eigenvalues of `tangentialJumpInputs` are non-zero: the uncorrected
ones are 2, 2, 2, `7/2` and `1/2`, and the correction does not decrease the modulus. -/
theorem tangential_Lambda_ne_zero (k : Nat) (hk : k < 5) :
    (tangentialJumpState Real.sqrt).Lambda k ≠ 0 := by
  obtain ⟨_, ⟨r1, r2, r3⟩, _, r5, ⟨n0, n1, n2⟩, _⟩ := tangential_roe
  have hL := roeState_Lambda_lt (eulerExternals3D Real.sqrt 0.4) exampleConfig3D
    tangentialJumpInputs exampleScratch rfl rfl k hk
  have PV : projVel (exampleConfig3D : Config ℝ).nDim
      (tangentialJumpState Real.sqrt).roe.RoeVelocity (tangentialJumpState Real.sqrt).UnitNormal
      = 2 := by
    have : (exampleConfig3D : Config ℝ).nDim = 3 := rfl
    rw [this]
    simp only [projVel, sumLoop, forLoop]
    rw [r1, r2, r3, n0, n1, n2]
    norm_num
  have key : ∀ a e : ℝ, a ≠ 0 → HartenHymanFix a e ≠ 0 := by
    intro a e ha
    have h1 := abs_le_HartenHymanFix a e
    have h2 : 0 < |a| := abs_pos.mpr ha
    exact ne_of_gt (lt_of_lt_of_le h2 h1)
  change (roeState (eulerExternals3D Real.sqrt 0.4) exampleConfig3D tangentialJumpInputs
    exampleScratch).Lambda k ≠ 0
  rw [hL]
  change (if k < 3 then shearLambda _ _ _ else if k = 3 then plusLambda _ _ _ _ _ _
    else minusLambda _ _ _ _ _ _) ≠ 0
  have hc : (roeState (eulerExternals3D Real.sqrt 0.4) exampleConfig3D tangentialJumpInputs
      exampleScratch).RoeSoundSpeed = 3 / 2 := r5
  have PV2 : projVel (exampleConfig3D : Config ℝ).nDim
      (roeState (eulerExternals3D Real.sqrt 0.4) exampleConfig3D tangentialJumpInputs
        exampleScratch).roe.RoeVelocity
      (roeState (eulerExternals3D Real.sqrt 0.4) exampleConfig3D tangentialJumpInputs
        exampleScratch).UnitNormal = 2 := PV
  rw [PV2, hc]
  split_ifs
  · exact key _ _ (by norm_num)
  · exact key _ _ (by norm_num)
  · exact key _ _ (by norm_num)

/-- The failure at `tangentialJumpInputs` does not depend on the matrices that the helpers
return: for all helpers around `Real.sqrt` such that `GetPMatrix_inv` returns the inverse of
`P_Tensor`, both low-Mach schemes leave every component of the residual as it is, and the
standard Roe scheme subtracts a non-zero amount from some component. -/
theorem tangential_jump_any_eigensystem (ext : Externals ℝ) (res : ResidualType ℝ)
    (hsq : ext.sqrt = Real.sqrt)
    (hPQ : IsInversePair 5
      (roeState ext exampleConfig3D tangentialJumpInputs exampleScratch).P_Tensor
      (ext.GetPMatrix_inv
        (roeState ext exampleConfig3D tangentialJumpInputs exampleScratch).roe.RoeDensity
        (roeState ext exampleConfig3D tangentialJumpInputs exampleScratch).roe.RoeVelocity
        (roeState ext exampleConfig3D tangentialJumpInputs exampleScratch).roe.RoeTke
        (roeState ext exampleConfig3D tangentialJumpInputs exampleScratch).RoeSoundSpeed
        (roeState ext exampleConfig3D tangentialJumpInputs exampleScratch).UnitNormal))
    (hQP : InverseContract ext exampleConfig3D
      (roeState ext exampleConfig3D tangentialJumpInputs exampleScratch)) :
    (∀ k,
      (CUpwL2Roe_Flow.FinalizeResidual ext exampleConfig3D
          (roeState ext exampleConfig3D tangentialJumpInputs exampleScratch) res).Flux k
        = res.Flux k ∧
      (CUpwLMRoe_Flow.FinalizeResidual ext exampleConfig3D
          (roeState ext exampleConfig3D tangentialJumpInputs exampleScratch) res).Flux k
        = res.Flux k) ∧
    ∃ i, i < 5 ∧
      res.Flux i
        - (CUpwRoe_Flow.FinalizeResidual ext exampleConfig3D
            (roeState ext exampleConfig3D tangentialJumpInputs exampleScratch) res).Flux i
        ≠ 0 := by
  obtain ⟨hpi, hpj, hroe, hC, hUN, hA, hLam, hDU⟩ := roeState_congr_sqrt ext
    (eulerExternals3D Real.sqrt 0.4) exampleConfig3D tangentialJumpInputs exampleScratch hsq
  obtain ⟨_, _, _, _, ⟨n0, n1, n2⟩, rA⟩ := tangential_roe
  obtain ⟨⟨di, dj⟩, ⟨v1, v2, v3, v4, v5, v6⟩, ⟨p1, p2⟩, ⟨d0, d1, d2, d3, d4⟩⟩ := tangential_sides
  have hw : ∀ (z : ℝ) (shear : ℝ → ℝ), shear 0 = 0 → ∀ j,
      lowMachDeltaWave exampleConfig3D
        (roeState ext exampleConfig3D tangentialJumpInputs exampleScratch) z shear j = 0 := by
    intro z shear h0 j
    refine lowMachDeltaWave_3D_eq_zero exampleConfig3D _ z shear rfl ?_ ?_ ?_ ?_ ?_ ?_ h0 j
    · rw [hUN]
      exact n0
    · rw [hUN]
      exact n2
    · rw [hpi, hpj]
      exact dj.trans di.symm
    · rw [hpi, hpj]
      exact p2.trans p1.symm
    · rw [hpi, hpj]
      exact v4.trans v1.symm
    · rw [hpi, hpj]
      exact v5.trans v2.symm
  constructor
  · intro k
    constructor
    · rw [l2roe_FinalizeResidual_eq]
      exact lowMachFinalize_Flux_of_zero _ _ _ _ _ (fun j => hw _ _ (by norm_num) j) k
    · rw [lmroe_FinalizeResidual_eq]
      exact lowMachFinalize_Flux_of_zero _ _ _ _ _ (fun j => hw _ _ rfl j) k
  · refine roe_dissipation_nonzero_of_single_jump ext exampleConfig3D _ res 3 rfl rfl hPQ hQP
      ?_ ?_ ?_ (by decide) ?_ ?_
    · intro k hk
      rw [hLam]
      exact tangential_Lambda_ne_zero k hk
    · norm_num [exampleConfig3D]
    · rw [hA]
      exact ne_of_eq_of_ne rA one_ne_zero
    · intro j hj hne
      rw [hDU]
      have hj5 : j < 5 := hj
      interval_cases j
      · exact d0
      · exact d1
      · exact d2
      · exact absurd rfl hne
      · exact d4
    · rw [hDU]
      exact ne_of_eq_of_ne d3 (by norm_num)

end TangentialJumpAnyHelpers

end Roe
end SU2
